import Mathlib

/-!
# c-arena: a shallow embedding of the game core

The C sources under `src/core` (types.h, arena.c, player.c, combat.c, game.c)
are embedded as pure Lean functions.

Conventions of the embedding:

* C `int` values are `Int` (signed overflow is undefined in C and is not
  modelled); the `unsigned int` PRNG state is a `Nat` reduced modulo `2^32`.
* C `bool` values are `Bool`.
* Fixed-size C arrays are total maps from the index; only the indices the C
  code reads are ever inspected.  The two-element `players` array is indexed
  by `Fin 2`, and every `for (i = 0; i < MAX_PLAYERS; i++)` loop is unrolled
  into its two iterations, in order.
* Functions that mutate `GameState*` return the new state; the module-level
  `rng_state` of game.c is threaded explicitly.
-/

namespace CArena

/-! ## types.h -/

def MOVEMENT_COOLDOWN_TICKS : Int := 12
def LASER_COOLDOWN_TICKS : Int := 12
def CRYSTAL_RESPAWN_TICKS : Int := 480
def ENERGY_REGEN_TICKS : Int := 120
def EPISODE_LENGTH_TICKS : Int := 7200
def MAX_HEALTH : Int := 4
def MAX_ENERGY : Int := 8
def STARTING_HEALTH : Int := 4
def STARTING_ENERGY : Int := 8
def LASER_DAMAGE : Int := 1
def PUSHBACK_DISTANCE : Int := 1
def WIN_SCORE : Int := 8
def MAX_ARENA_WIDTH : Int := 32
def MAX_ARENA_HEIGHT : Int := 32
def MAX_CRYSTALS : Int := 8
def MAX_SPAWN_POINTS : Int := 4
def RESPAWN_MIN_DISTANCE : Int := 3

inductive TileType where
  | TILE_FLOOR
  | TILE_WALL
  | TILE_VOID
  deriving DecidableEq, Repr

inductive Direction where
  | DIR_NONE
  | DIR_UP
  | DIR_DOWN
  | DIR_LEFT
  | DIR_RIGHT
  deriving DecidableEq, Repr

/-- The enum `ActionType`; the API casts arbitrary integers into it, so it is
kept as an integer: 0 = NOOP, 1 = UP, 2 = DOWN, 3 = LEFT, 4 = RIGHT. -/
abbrev ActionType := Int

def ACTION_NOOP : ActionType := 0
def ACTION_UP : ActionType := 1
def ACTION_DOWN : ActionType := 2
def ACTION_LEFT : ActionType := 3
def ACTION_RIGHT : ActionType := 4

inductive LaserHitType where
  | LASER_HIT_NONE
  | LASER_HIT_PLAYER
  | LASER_HIT_WALL
  | LASER_HIT_EDGE
  deriving DecidableEq, Repr

structure Position where
  x : Int
  y : Int
  deriving DecidableEq, Repr

structure Crystal where
  pos : Position
  cooldown_ticks : Int
  deriving DecidableEq, Repr

structure SpawnPoint where
  pos : Position
  deriving DecidableEq, Repr

/-- The struct `Arena`.  `tiles row col` is `tiles[row][col]`. -/
structure Arena where
  width : Int
  height : Int
  tiles : Int → Int → TileType
  num_crystals : Int
  crystals : Int → Crystal
  num_spawn_points : Int
  spawn_points : Int → SpawnPoint

structure Player where
  pos : Position
  health : Int
  energy : Int
  move_cooldown_ticks : Int
  laser_cooldown_ticks : Int
  energy_regen_ticks : Int
  score : Int
  alive : Bool
  deriving DecidableEq, Repr

structure PlayerAction where
  move : ActionType
  shoot : ActionType
  deriving DecidableEq, Repr

structure GameState where
  arena : Arena
  players : Fin 2 → Player
  current_tick : Int
  winner : Int
  game_over : Bool

structure LaserResult where
  hit_type : LaserHitType
  target_player : Int
  hit_position : Position
  pushback_to : Position
  target_fragged : Bool
  deriving DecidableEq, Repr

structure StepInfo where
  player_hit : Fin 2 → Bool
  player_fragged : Fin 2 → Bool
  crystal_collected : Fin 2 → Bool
  damage_dealt : Fin 2 → Int
  damage_taken : Fin 2 → Int

/-- The initialiser `StepInfo info = {0}`. -/
def StepInfo.zero : StepInfo :=
  { player_hit := fun _ => false
    player_fragged := fun _ => false
    crystal_collected := fun _ => false
    damage_dealt := fun _ => 0
    damage_taken := fun _ => 0 }

/-- Assignment `a[i] = v` on an array modelled as a total map. -/
def setAt {ι α : Type} [DecidableEq ι] (a : ι → α) (i : ι) (v : α) : ι → α :=
  fun j => if j = i then v else a j

/-- In-place update of `state->players[i]` by a function on the record. -/
def GameState.modifyPlayer (st : GameState) (i : Fin 2) (f : Player → Player) :
    GameState :=
  { st with players := setAt st.players i (f (st.players i)) }

/-- The expression `1 - i` on player indices. -/
def opponentOf (i : Fin 2) : Fin 2 := 1 - i

/-- The iteration order of `for (int i = 0; i < MAX_PLAYERS; i++)`. -/
def playerIndices : List (Fin 2) := [0, 1]

/-- Reading an `int` as an index of the `players` array; an index outside
0..1 has no element. -/
def playerIndex (t : Int) : Option (Fin 2) :=
  if t = 0 then some 0 else if t = 1 then some 1 else none

/-- The `int` value of a player index. -/
def indexInt (i : Fin 2) : Int := (i.val : Int)

/-! ## arena.c (queries and crystal mutations) -/

def arena_get_tile (arena : Arena) (x y : Int) : TileType :=
  if x < 0 ∨ x ≥ arena.width ∨ y < 0 ∨ y ≥ arena.height then TileType.TILE_VOID
  else arena.tiles y x

def arena_is_passable (arena : Arena) (x y : Int) : Bool :=
  decide (arena_get_tile arena x y = TileType.TILE_FLOOR)

def arena_is_valid_position (arena : Arena) (x y : Int) : Bool :=
  decide (x ≥ 0 ∧ x < arena.width ∧ y ≥ 0 ∧ y < arena.height)

def arena_is_void (arena : Arena) (x y : Int) : Bool :=
  decide (arena_get_tile arena x y = TileType.TILE_VOID)

def arena_is_wall (arena : Arena) (x y : Int) : Bool :=
  decide (arena_get_tile arena x y = TileType.TILE_WALL)

/-- The indices `0, 1, ..., n-1` visited by `for (int i = 0; i < n; i++)`. -/
def intRange (n : Int) : List Int :=
  (List.range n.toNat).map (fun k : Nat => (k : Int))

def arena_get_crystal_at (arena : Arena) (x y : Int) : Int :=
  match (intRange arena.num_crystals).find?
      (fun i => decide ((arena.crystals i).pos.x = x ∧ (arena.crystals i).pos.y = y)) with
  | some i => i
  | none => -1

def arena_crystal_available (arena : Arena) (crystal_idx : Int) : Bool :=
  if crystal_idx < 0 ∨ crystal_idx ≥ arena.num_crystals then false
  else decide ((arena.crystals crystal_idx).cooldown_ticks = 0)

def arena_collect_crystal (arena : Arena) (crystal_idx : Int) : Arena :=
  if crystal_idx ≥ 0 ∧ crystal_idx < arena.num_crystals then
    { arena with
      crystals := setAt arena.crystals crystal_idx
        { arena.crystals crystal_idx with cooldown_ticks := CRYSTAL_RESPAWN_TICKS } }
  else arena

/-- One iteration of the loop of `arena_tick_crystals`. -/
def tick_crystal (crystals : Int → Crystal) (i : Int) : Int → Crystal :=
  if (crystals i).cooldown_ticks > 0 then
    setAt crystals i { crystals i with cooldown_ticks := (crystals i).cooldown_ticks - 1 }
  else crystals

def arena_tick_crystals (arena : Arena) : Arena :=
  { arena with crystals := (intRange arena.num_crystals).foldl tick_crystal arena.crystals }

def position_add_direction (pos : Position) (dir : Direction) : Position :=
  match dir with
  | Direction.DIR_UP => { pos with y := pos.y - 1 }
  | Direction.DIR_DOWN => { pos with y := pos.y + 1 }
  | Direction.DIR_LEFT => { pos with x := pos.x - 1 }
  | Direction.DIR_RIGHT => { pos with x := pos.x + 1 }
  | Direction.DIR_NONE => pos

def action_to_direction (action : ActionType) : Direction :=
  if action = ACTION_UP then Direction.DIR_UP
  else if action = ACTION_DOWN then Direction.DIR_DOWN
  else if action = ACTION_LEFT then Direction.DIR_LEFT
  else if action = ACTION_RIGHT then Direction.DIR_RIGHT
  else Direction.DIR_NONE

def manhattan_distance (a b : Position) : Int :=
  let dx := a.x - b.x
  let dy := a.y - b.y
  let dx := if dx < 0 then -dx else dx
  let dy := if dy < 0 then -dy else dy
  dx + dy

/-! ## arena.c (loader)

A map string is the list of its bytes (`unsigned char` values), without the
terminating NUL. -/

def arena_init (arena : Arena) (width height : Int) : Arena :=
  { width := width
    height := height
    tiles := fun y x =>
      if 0 ≤ y ∧ y < height ∧ 0 ≤ x ∧ x < width then TileType.TILE_FLOOR else arena.tiles y x
    num_crystals := 0
    crystals := fun i =>
      if 0 ≤ i ∧ i < MAX_CRYSTALS then { pos := { x := -1, y := -1 }, cooldown_ticks := 0 }
      else arena.crystals i
    num_spawn_points := 0
    spawn_points := fun i =>
      if 0 ≤ i ∧ i < MAX_SPAWN_POINTS then { pos := { x := -1, y := -1 } }
      else arena.spawn_points i }

/-- The locals `width`, `height`, `current_width` of the first pass of
`arena_load_from_string`. -/
structure MapDims where
  width : Int
  height : Int
  current_width : Int
  deriving DecidableEq, Repr

/-- Loop body of the first pass (10 is the newline, 32 the space). -/
def scan_dims_step (d : MapDims) (c : Nat) : MapDims :=
  if c = 10 then
    let d := if d.current_width > d.width then { d with width := d.current_width } else d
    let d := if d.current_width > 0 then { d with height := d.height + 1 } else d
    { d with current_width := 0 }
  else if c ≠ 32 then { d with current_width := d.current_width + 1 }
  else d

/-- The first pass of `arena_load_from_string`, with the handling of a last
line without newline: the final `width` and `height`. -/
def map_dimensions (map_str : List Nat) : Int × Int :=
  let d := map_str.foldl scan_dims_step { width := 0, height := 0, current_width := 0 }
  if d.current_width > 0 then
    ((if d.current_width > d.width then d.current_width else d.width), d.height + 1)
  else (d.width, d.height)

/-- The assignment `arena->tiles[y][x] = t`. -/
def set_tile (arena : Arena) (x y : Int) (t : TileType) : Arena :=
  { arena with tiles := setAt arena.tiles y (setAt (arena.tiles y) x t) }

/-- The crystal branch of the second pass. -/
def add_crystal (arena : Arena) (x y : Int) : Arena :=
  let arena := set_tile arena x y TileType.TILE_FLOOR
  if arena.num_crystals < MAX_CRYSTALS then
    { arena with
      crystals := setAt arena.crystals arena.num_crystals
        { pos := { x := x, y := y }, cooldown_ticks := 0 }
      num_crystals := arena.num_crystals + 1 }
  else arena

/-- The spawn-point branch of the second pass. -/
def add_spawn_point (arena : Arena) (x y : Int) : Arena :=
  let arena := set_tile arena x y TileType.TILE_FLOOR
  if arena.num_spawn_points < MAX_SPAWN_POINTS then
    { arena with
      spawn_points := setAt arena.spawn_points arena.num_spawn_points
        { pos := { x := x, y := y } }
      num_spawn_points := arena.num_spawn_points + 1 }
  else arena

/-- The locals `x`, `y` of the second pass together with the arena. -/
structure ParseState where
  arena : Arena
  x : Int
  y : Int

/-- Loop body of the second pass at the byte `c = *p`, with `c2 = *(p+1)` and
`c3 = *(p+2)`.  The result is the number of extra bytes the body advances `p`
by (before the `p++` of the loop) and the new locals.
Byte values: 120/88 `x`/`X`, 35 `#`, 46/95 `.`/`_`, 42/67/99 `*`/`C`/`c`,
49/50/83/115 `1`/`2`/`S`/`s`. -/
def parse_byte (width height : Int) (c c2 c3 : Nat) (s : ParseState) : Nat × ParseState :=
  if c = 10 then
    (0, { s with x := 0, y := if s.y < height - 1 then s.y + 1 else s.y })
  else if c = 32 then (0, s)
  else if s.x ≥ width ∨ s.y ≥ height then (0, s)
  else if c = 120 ∨ c = 88 then
    (0, { s with arena := set_tile s.arena s.x s.y TileType.TILE_VOID, x := s.x + 1 })
  else if c = 35 then
    (0, { s with arena := set_tile s.arena s.x s.y TileType.TILE_WALL, x := s.x + 1 })
  else if c = 46 ∨ c = 95 then
    (0, { s with arena := set_tile s.arena s.x s.y TileType.TILE_FLOOR, x := s.x + 1 })
  else if c = 42 ∨ c = 67 ∨ c = 99 then
    (0, { s with arena := add_crystal s.arena s.x s.y, x := s.x + 1 })
  else if c = 49 ∨ c = 50 ∨ c = 83 ∨ c = 115 then
    (0, { s with arena := add_spawn_point s.arena s.x s.y, x := s.x + 1 })
  else if c ≥ 0xC0 then
    if c = 0xC3 ∧ c2 = 0x97 then
      (1, { s with arena := set_tile s.arena s.x s.y TileType.TILE_VOID, x := s.x + 1 })
    else if c = 0xE2 then
      if c2 = 0x96 ∧ c3 = 0xA0 then
        (2, { s with arena := set_tile s.arena s.x s.y TileType.TILE_WALL, x := s.x + 1 })
      else if c2 = 0x96 ∧ c3 = 0xA1 then
        (2, { s with arena := set_tile s.arena s.x s.y TileType.TILE_FLOOR, x := s.x + 1 })
      else if c2 = 0x97 ∧ c3 = 0x86 then
        (2, { s with arena := add_crystal s.arena s.x s.y, x := s.x + 1 })
      else if (c2 = 0x96 ∧ c3 = 0xB7) ∨ (c2 = 0x97 ∧ c3 = 0x81) ∨
          (c2 = 0x96 ∧ c3 = 0xB3) ∨ (c2 = 0x96 ∧ c3 = 0xBD) then
        (2, { s with arena := add_spawn_point s.arena s.x s.y, x := s.x + 1 })
      else
        (2, { s with arena := set_tile s.arena s.x s.y TileType.TILE_FLOOR, x := s.x + 1 })
    else
      ((if c ≥ 0xE0 then 2 else 1), { s with x := s.x + 1 })
  else
    (0, { s with arena := set_tile s.arena s.x s.y TileType.TILE_FLOOR, x := s.x + 1 })

/-- The second pass of `arena_load_from_string` over the bytes from `p` on.
`skip` counts the bytes the previous body still has to jump over.  A read of
`*(p+1)` or `*(p+2)` at or past the terminating NUL yields 0, and a jump
past the NUL ends the loop (the C behaviour there is undefined). -/
def parse_tiles (width height : Int) : List Nat → Nat → ParseState → ParseState
  | [], _, s => s
  | _ :: rest, skip + 1, s => parse_tiles width height rest skip s
  | c :: rest, 0, s =>
    let r := parse_byte width height c (rest.getD 0 0) (rest.getD 1 0) s
    parse_tiles width height rest r.1 r.2

/-- The function `arena_load_from_string`: the arena afterwards and the
returned flag.  On failure the arena is left as it was. -/
def arena_load_from_string (arena : Arena) (map_str : List Nat) : Arena × Bool :=
  let dims := map_dimensions map_str
  if dims.1 > MAX_ARENA_WIDTH ∨ dims.2 > MAX_ARENA_HEIGHT then (arena, false)
  else
    let arena := arena_init arena dims.1 dims.2
    ((parse_tiles dims.1 dims.2 map_str 0 { arena := arena, x := 0, y := 0 }).arena, true)

/-! ## player.c -/

def player_init (spawn_pos : Position) : Player :=
  { pos := spawn_pos
    health := STARTING_HEALTH
    energy := STARTING_ENERGY
    move_cooldown_ticks := 0
    laser_cooldown_ticks := 0
    energy_regen_ticks := ENERGY_REGEN_TICKS
    score := 0
    alive := true }

def player_respawn (player : Player) (spawn_pos : Position) : Player :=
  { player with
    pos := spawn_pos
    health := STARTING_HEALTH
    energy := STARTING_ENERGY
    move_cooldown_ticks := 0
    laser_cooldown_ticks := 0
    energy_regen_ticks := ENERGY_REGEN_TICKS
    alive := true }

def player_tick_cooldowns (player : Player) : Player :=
  let player :=
    if player.move_cooldown_ticks > 0 then
      { player with move_cooldown_ticks := player.move_cooldown_ticks - 1 }
    else player
  let player :=
    if player.laser_cooldown_ticks > 0 then
      { player with laser_cooldown_ticks := player.laser_cooldown_ticks - 1 }
    else player
  if player.energy < MAX_ENERGY then
    let player := { player with energy_regen_ticks := player.energy_regen_ticks - 1 }
    if player.energy_regen_ticks ≤ 0 then
      { player with energy := player.energy + 1, energy_regen_ticks := ENERGY_REGEN_TICKS }
    else player
  else
    { player with energy_regen_ticks := ENERGY_REGEN_TICKS }

def player_can_move (player : Player) : Bool :=
  player.alive && decide (player.move_cooldown_ticks = 0)

def player_can_shoot (player : Player) : Bool :=
  player.alive && decide (player.laser_cooldown_ticks = 0) && decide (player.energy > 0)

def player_start_move_cooldown (player : Player) : Player :=
  { player with move_cooldown_ticks := MOVEMENT_COOLDOWN_TICKS }

def player_start_laser_cooldown (player : Player) : Player :=
  { player with laser_cooldown_ticks := LASER_COOLDOWN_TICKS }

def player_take_damage (player : Player) (damage : Int) : Player :=
  let player := { player with health := player.health - damage }
  if player.health ≤ 0 then
    { player with health := 0, alive := false }
  else player

def player_restore_energy (player : Player) (amount : Int) : Player :=
  let player := { player with energy := player.energy + amount }
  let player :=
    if player.energy > MAX_ENERGY then { player with energy := MAX_ENERGY } else player
  { player with energy_regen_ticks := ENERGY_REGEN_TICKS }

/-- The function `player_use_energy`: the updated record and the returned flag. -/
def player_use_energy (player : Player) (amount : Int) : Player × Bool :=
  if player.energy < amount then (player, false)
  else ({ player with energy := player.energy - amount }, true)

def player_is_alive (player : Player) : Bool :=
  player.alive

/-! ## combat.c -/

def get_direction_delta (dir : Direction) : Int × Int :=
  match dir with
  | Direction.DIR_UP => (0, -1)
  | Direction.DIR_DOWN => (0, 1)
  | Direction.DIR_LEFT => (-1, 0)
  | Direction.DIR_RIGHT => (1, 0)
  | Direction.DIR_NONE => (0, 0)

def get_opposite_direction (dir : Direction) : Direction :=
  match dir with
  | Direction.DIR_UP => Direction.DIR_DOWN
  | Direction.DIR_DOWN => Direction.DIR_UP
  | Direction.DIR_LEFT => Direction.DIR_RIGHT
  | Direction.DIR_RIGHT => Direction.DIR_LEFT
  | Direction.DIR_NONE => Direction.DIR_NONE

/-- The inner player loop shared by `combat_fire_laser`, `combat_apply_pushback`
and `game_find_respawn_position`: the first index `j`, in loop order, with
`j != skip && players[j].alive && players[j].pos.x == x && players[j].pos.y == y`. -/
def other_player_at (st : GameState) (skip : Fin 2) (x y : Int) : Option (Fin 2) :=
  playerIndices.find? (fun j =>
    decide (j ≠ skip) && (st.players j).alive &&
      decide ((st.players j).pos.x = x) && decide ((st.players j).pos.y = y))

/-- The `for (int i = 0; i < distance; i++)` loop of `combat_apply_pushback`,
with the number of remaining iterations as the recursion argument.  The result
is the returned position and the value left in `*fragged`. -/
def pushback_loop (st : GameState) (player_idx : Fin 2) (dx dy : Int) :
    Nat → Position → Position × Bool
  | 0, current => (current, false)
  | n + 1, current =>
    let next : Position := { x := current.x + dx, y := current.y + dy }
    if arena_is_void st.arena next.x next.y then (next, true)
    else if arena_is_wall st.arena next.x next.y then (current, false)
    else
      match other_player_at st player_idx next.x next.y with
      | some _ => (current, false)
      | none => pushback_loop st player_idx dx dy n next

def combat_apply_pushback (st : GameState) (player_idx : Fin 2) (push_dir : Direction)
    (distance : Int) : Position × Bool :=
  let d := get_direction_delta push_dir
  pushback_loop st player_idx d.1 d.2 distance.toNat (st.players player_idx).pos

/-- The initial value of `result` in `combat_fire_laser`. -/
def laser_result_init (st : GameState) (shooter_idx : Fin 2) : LaserResult :=
  { hit_type := LaserHitType.LASER_HIT_NONE
    target_player := -1
    hit_position := (st.players shooter_idx).pos
    pushback_to := { x := -1, y := -1 }
    target_fragged := false }

/-- The `while (true)` loop of `combat_fire_laser`.  The first argument bounds
the number of iterations; `none` means the bound was reached before the loop
left through a `break` or `return`. -/
def laser_loop (st : GameState) (shooter_idx : Fin 2) (dir : Direction) (dx dy : Int)
    (result : LaserResult) : Nat → Position → Option LaserResult
  | 0, _ => none
  | fuel + 1, current =>
    let current : Position := { x := current.x + dx, y := current.y + dy }
    if !arena_is_valid_position st.arena current.x current.y then
      some { result with hit_type := LaserHitType.LASER_HIT_EDGE, hit_position := current }
    else if arena_is_wall st.arena current.x current.y then
      some { result with hit_type := LaserHitType.LASER_HIT_WALL, hit_position := current }
    else
      match other_player_at st shooter_idx current.x current.y with
      | some i =>
        let pb := combat_apply_pushback st i dir PUSHBACK_DISTANCE
        some { result with
          hit_type := LaserHitType.LASER_HIT_PLAYER
          target_player := indexInt i
          hit_position := current
          pushback_to := pb.1
          target_fragged := pb.2 }
      | none => laser_loop st shooter_idx dir dx dy result fuel current

/-- The function `combat_fire_laser` run for at most `fuel` loop iterations. -/
def combat_fire_laser_fuel (fuel : Nat) (st : GameState) (shooter_idx : Fin 2)
    (dir : Direction) : Option LaserResult :=
  if dir = Direction.DIR_NONE then some (laser_result_init st shooter_idx)
  else
    let d := get_direction_delta dir
    laser_loop st shooter_idx dir d.1 d.2 (laser_result_init st shooter_idx) fuel
      (st.players shooter_idx).pos

/-- An iteration bound that the laser loop never reaches: every iteration but
the last visits a distinct in-bounds cell of one row or one column. -/
def laser_fuel (st : GameState) : Nat :=
  st.arena.width.toNat + st.arena.height.toNat + 2

/-- The function `combat_fire_laser`.  The bound `laser_fuel` is never reached
(`combat_fire_laser_fuel_isSome`), so the `getD` default is never used. -/
def combat_fire_laser (st : GameState) (shooter_idx : Fin 2) (dir : Direction) :
    LaserResult :=
  (combat_fire_laser_fuel (laser_fuel st) st shooter_idx dir).getD
    (laser_result_init st shooter_idx)

def combat_apply_laser_result (st : GameState) (result : LaserResult) : GameState :=
  if result.hit_type ≠ LaserHitType.LASER_HIT_PLAYER ∨ result.target_player < 0 then st
  else
    match playerIndex result.target_player with
    | none => st
    | some target =>
      let st := st.modifyPlayer target (fun p => player_take_damage p LASER_DAMAGE)
      if !result.target_fragged then
        st.modifyPlayer target (fun p => { p with pos := result.pushback_to })
      else st

/-- The loop of `combat_has_line_of_sight`, with an iteration bound. -/
def line_of_sight_loop (arena : Arena) (dst : Position) (dx dy : Int) :
    Nat → Position → Option Bool
  | 0, _ => none
  | fuel + 1, current =>
    if current.x ≠ dst.x ∨ current.y ≠ dst.y then
      let current : Position := { x := current.x + dx, y := current.y + dy }
      if current.x = dst.x ∧ current.y = dst.y then some true
      else if arena_is_wall arena current.x current.y then some false
      else line_of_sight_loop arena dst dx dy fuel current
    else some true

/-- The function `combat_has_line_of_sight` run for at most `fuel` iterations. -/
def combat_has_line_of_sight_fuel (fuel : Nat) (arena : Arena) (src dst : Position) :
    Option Bool :=
  if src.x ≠ dst.x ∧ src.y ≠ dst.y then some false
  else
    let dx : Int := if dst.x > src.x then 1 else if dst.x < src.x then -1 else 0
    let dy : Int := if dst.y > src.y then 1 else if dst.y < src.y then -1 else 0
    line_of_sight_loop arena dst dx dy fuel src

/-! ## game.c -/

/-- The function `game_rand`: the new `rng_state` and the returned value. -/
def game_rand (rng_state : Nat) : Nat × Nat :=
  let rng_state := (rng_state * 1103515245 + 12345) % 2 ^ 32
  (rng_state, (rng_state >>> 16) &&& 0x7FFF)

/-- The function `game_set_seed`: the new `rng_state`. -/
def game_set_seed (seed : Nat) : Nat :=
  seed % 2 ^ 32

/-- The player loop shared by `game_init` and `game_reset`. -/
def init_player_step (st : GameState) (i : Fin 2) : GameState :=
  let spawn : Position :=
    if indexInt i < st.arena.num_spawn_points then (st.arena.spawn_points (indexInt i)).pos
    else { x := 0, y := 0 }
  { st with players := setAt st.players i (player_init spawn) }

/-- The function `game_init`; `st` is the memory the caller passes in.  The
flag returned by `arena_load_from_string` is ignored, as in the source. -/
def game_init (st : GameState) (map_str : List Nat) : GameState :=
  let st := { st with arena := (arena_load_from_string st.arena map_str).1 }
  let st := playerIndices.foldl init_player_step st
  { st with current_tick := 0, winner := -1, game_over := false }

def game_reset (st : GameState) : GameState :=
  let crystals := (intRange st.arena.num_crystals).foldl
    (fun cs i => setAt cs i { cs i with cooldown_ticks := 0 }) st.arena.crystals
  let st := { st with arena := { st.arena with crystals := crystals } }
  let st := playerIndices.foldl init_player_step st
  { st with current_tick := 0, winner := -1, game_over := false }

/-- The loop body shared by `game_phase_collect_crystals` and the last loop of
`game_phase_movement`. -/
def collect_crystal_step (acc : GameState × StepInfo) (i : Fin 2) : GameState × StepInfo :=
  let st := acc.1
  let info := acc.2
  if !(st.players i).alive then acc
  else
    let crystal_idx :=
      arena_get_crystal_at st.arena (st.players i).pos.x (st.players i).pos.y
    if crystal_idx ≥ 0 ∧ arena_crystal_available st.arena crystal_idx = true then
      let st := st.modifyPlayer i (fun p => player_restore_energy p MAX_ENERGY)
      let st := { st with arena := arena_collect_crystal st.arena crystal_idx }
      (st, { info with crystal_collected := setAt info.crystal_collected i true })
    else acc

def game_phase_collect_crystals (st : GameState) (info : StepInfo) : GameState × StepInfo :=
  playerIndices.foldl collect_crystal_step (st, info)

/-- The locals of `game_phase_shooting`. -/
structure ShootingLocals where
  results : Fin 2 → LaserResult
  will_shoot : Fin 2 → Bool

/-- First loop of `game_phase_shooting`: who shoots, and where the shot lands. -/
def shooting_fire_step (actions : Fin 2 → PlayerAction)
    (acc : GameState × ShootingLocals) (i : Fin 2) : GameState × ShootingLocals :=
  let st := acc.1
  let loc := acc.2
  let shoot_dir := action_to_direction (actions i).shoot
  if shoot_dir ≠ Direction.DIR_NONE ∧ player_can_shoot (st.players i) = true then
    if (player_use_energy (st.players i) 1).2 = true then
      let st := st.modifyPlayer i (fun p => (player_use_energy p 1).1)
      let st := st.modifyPlayer i player_start_laser_cooldown
      (st, { results := setAt loc.results i (combat_fire_laser st i shoot_dir)
             will_shoot := setAt loc.will_shoot i true })
    else acc
  else acc

/-- The test `will_shoot[i] && results[i].hit` of the second and third loops.
`LaserResult` declares no member `hit`; the test is read as
`hit_type == LASER_HIT_PLAYER`. -/
def shot_hit (loc : ShootingLocals) (i : Fin 2) : Bool :=
  loc.will_shoot i && decide ((loc.results i).hit_type = LaserHitType.LASER_HIT_PLAYER)

/-- Second loop of `game_phase_shooting`: damage. -/
def shooting_damage_step (loc : ShootingLocals)
    (acc : GameState × StepInfo) (i : Fin 2) : GameState × StepInfo :=
  let st := acc.1
  let info := acc.2
  if shot_hit loc i = true then
    match playerIndex (loc.results i).target_player with
    | none => acc
    | some target =>
      let st := st.modifyPlayer target (fun p => player_take_damage p LASER_DAMAGE)
      let info := { info with player_hit := setAt info.player_hit target true }
      let info :=
        { info with damage_dealt := setAt info.damage_dealt i (info.damage_dealt i + LASER_DAMAGE) }
      let info :=
        { info with
          damage_taken := setAt info.damage_taken target (info.damage_taken target + LASER_DAMAGE) }
      (st, info)
  else acc

/-- Third loop of `game_phase_shooting`: pushback. -/
def shooting_pushback_step (loc : ShootingLocals) (st : GameState) (i : Fin 2) : GameState :=
  if shot_hit loc i = true then
    match playerIndex (loc.results i).target_player with
    | none => st
    | some target =>
      if (st.players target).alive then
        if (loc.results i).target_fragged then
          st.modifyPlayer target (fun p => { p with alive := false })
        else
          st.modifyPlayer target (fun p => { p with pos := (loc.results i).pushback_to })
      else st
  else st

/-- The declaration `LaserResult results[MAX_PLAYERS]` leaves the entries
unset; an entry is read only after `will_shoot[i]` was set together with it. -/
def shooting_locals_init : ShootingLocals :=
  { results := fun _ =>
      { hit_type := LaserHitType.LASER_HIT_NONE
        target_player := -1
        hit_position := { x := 0, y := 0 }
        pushback_to := { x := 0, y := 0 }
        target_fragged := false }
    will_shoot := fun _ => false }

def game_phase_shooting (st : GameState) (actions : Fin 2 → PlayerAction) (info : StepInfo) :
    GameState × StepInfo :=
  let fired := playerIndices.foldl (shooting_fire_step actions) (st, shooting_locals_init)
  let damaged := playerIndices.foldl (shooting_damage_step fired.2) (fired.1, info)
  (playerIndices.foldl (shooting_pushback_step fired.2) damaged.1, damaged.2)

/-- The locals of `game_phase_movement`. -/
structure MovementLocals where
  intended : Fin 2 → Position
  wants_move : Fin 2 → Bool

/-- First loop of `game_phase_movement`: intended positions. -/
def movement_intent_step (st : GameState) (actions : Fin 2 → PlayerAction)
    (loc : MovementLocals) (i : Fin 2) : MovementLocals :=
  let loc := { loc with intended := setAt loc.intended i (st.players i).pos }
  if !(st.players i).alive then loc
  else
    let move_dir := action_to_direction (actions i).move
    if move_dir ≠ Direction.DIR_NONE ∧ player_can_move (st.players i) = true then
      let target := position_add_direction (st.players i).pos move_dir
      if arena_is_passable st.arena target.x target.y then
        { intended := setAt loc.intended i target, wants_move := setAt loc.wants_move i true }
      else if arena_is_void st.arena target.x target.y then
        { intended := setAt loc.intended i target, wants_move := setAt loc.wants_move i true }
      else loc
    else loc

/-- The swap check of `game_phase_movement`: the new locals and `swap_attempted`. -/
def movement_swap_check (st : GameState) (loc : MovementLocals) : MovementLocals × Bool :=
  if loc.wants_move 0 = true ∧ loc.wants_move 1 = true then
    if (loc.intended 0).x = (st.players 1).pos.x ∧
        (loc.intended 0).y = (st.players 1).pos.y ∧
        (loc.intended 1).x = (st.players 0).pos.x ∧
        (loc.intended 1).y = (st.players 0).pos.y then
      ({ loc with wants_move := setAt (setAt loc.wants_move 0 false) 1 false }, true)
    else (loc, false)
  else (loc, false)

/-- The same-tile check of `game_phase_movement`. -/
def movement_same_tile_check (loc : MovementLocals) (swap_attempted : Bool) : MovementLocals :=
  if !swap_attempted then
    if loc.wants_move 0 = true ∧ loc.wants_move 1 = true then
      if (loc.intended 0).x = (loc.intended 1).x ∧ (loc.intended 0).y = (loc.intended 1).y then
        { loc with wants_move := setAt (setAt loc.wants_move 0 false) 1 false }
      else loc
    else loc
  else loc

/-- Inner loop body (over `j`) of the moving-into-the-opponent check. -/
def movement_block_inner (st : GameState) (i : Fin 2) (loc : MovementLocals) (j : Fin 2) :
    MovementLocals :=
  if i = j then loc
  else if !(st.players j).alive then loc
  else if (loc.intended i).x = (st.players j).pos.x ∧
      (loc.intended i).y = (st.players j).pos.y then
    if loc.wants_move j = false ∨
        ((loc.intended j).x = (st.players j).pos.x ∧
          (loc.intended j).y = (st.players j).pos.y) then
      { loc with wants_move := setAt loc.wants_move i false }
    else loc
  else loc

/-- Outer loop body (over `i`) of the moving-into-the-opponent check. -/
def movement_block_step (st : GameState) (loc : MovementLocals) (i : Fin 2) : MovementLocals :=
  if !loc.wants_move i then loc
  else playerIndices.foldl (movement_block_inner st i) loc

/-- The apply-movements loop body of `game_phase_movement`. -/
def movement_apply_step (actions : Fin 2 → PlayerAction) (loc : MovementLocals)
    (st : GameState) (i : Fin 2) : GameState :=
  if loc.wants_move i then
    let st :=
      if arena_is_void st.arena (loc.intended i).x (loc.intended i).y then
        st.modifyPlayer i (fun p => { p with alive := false })
      else
        st.modifyPlayer i (fun p => { p with pos := loc.intended i })
    st.modifyPlayer i player_start_move_cooldown
  else if (actions i).move ≠ ACTION_NOOP ∧ (st.players i).alive = true then
    let move_dir := action_to_direction (actions i).move
    if move_dir ≠ Direction.DIR_NONE ∧ player_can_move (st.players i) = true then
      st.modifyPlayer i player_start_move_cooldown
    else st
  else st

/-- The declaration `Position intended[MAX_PLAYERS]` is unset (every entry is
assigned at the top of the first loop); `wants_move` starts all false. -/
def movement_locals_init : MovementLocals :=
  { intended := fun _ => { x := 0, y := 0 }
    wants_move := fun _ => false }

/-- The locals of `game_phase_movement` after conflict resolution. -/
def movement_resolve (st : GameState) (actions : Fin 2 → PlayerAction) : MovementLocals :=
  let loc := playerIndices.foldl (movement_intent_step st actions) movement_locals_init
  let swapped := movement_swap_check st loc
  let loc := movement_same_tile_check swapped.1 swapped.2
  playerIndices.foldl (movement_block_step st) loc

def game_phase_movement (st : GameState) (actions : Fin 2 → PlayerAction) (info : StepInfo) :
    GameState × StepInfo :=
  let loc := movement_resolve st actions
  let st := playerIndices.foldl (movement_apply_step actions loc) st
  playerIndices.foldl collect_crystal_step (st, info)

def game_check_win_conditions (st : GameState) : GameState :=
  match playerIndices.find? (fun i => decide ((st.players i).score ≥ WIN_SCORE)) with
  | some i => { st with winner := indexInt i, game_over := true }
  | none =>
    if st.current_tick ≥ EPISODE_LENGTH_TICKS then
      let st := { st with game_over := true }
      if (st.players 0).score > (st.players 1).score then { st with winner := 0 }
      else if (st.players 1).score > (st.players 0).score then { st with winner := 1 }
      else { st with winner := -1 }
    else st

/-- The candidate cells of one pass of `game_find_respawn_position`, in the
order the nested `y`/`x` loops append them.  `far` selects the first pass,
which also requires the minimum distance from the opponent. -/
def respawn_candidates (st : GameState) (player_idx : Fin 2) (far : Bool) : List Position :=
  let opponent_pos := (st.players (opponentOf player_idx)).pos
  (intRange st.arena.height).flatMap (fun y =>
    ((intRange st.arena.width).filter (fun x =>
        arena_is_passable st.arena x y &&
          (!far || decide (manhattan_distance { x := x, y := y } opponent_pos
              ≥ RESPAWN_MIN_DISTANCE)) &&
          (other_player_at st player_idx x y).isNone)).map
      (fun x => ({ x := x, y := y } : Position)))

/-- The function `game_find_respawn_position`: the position and the new
`rng_state`. -/
def game_find_respawn_position (st : GameState) (rng_state : Nat) (player_idx : Fin 2) :
    Position × Nat :=
  let candidates := respawn_candidates st player_idx true
  let candidates :=
    if candidates.length = 0 then respawn_candidates st player_idx false else candidates
  if h : candidates.length > 0 then
    let r := game_rand rng_state
    (candidates.get ⟨r.2 % candidates.length, Nat.mod_lt _ h⟩, r.1)
  else ({ x := 0, y := 0 }, rng_state)

def game_tick_timers (st : GameState) : GameState :=
  let st := playerIndices.foldl (fun s i => s.modifyPlayer i player_tick_cooldowns) st
  { st with arena := arena_tick_crystals st.arena }

/-- Loop body of the respawn pass after shooting. -/
def respawn_shooting_step (acc : GameState × Nat × StepInfo) (i : Fin 2) :
    GameState × Nat × StepInfo :=
  let st := acc.1
  let rng_state := acc.2.1
  let info := acc.2.2
  if !(st.players i).alive then
    let opponent := opponentOf i
    let st := st.modifyPlayer opponent (fun p => { p with score := p.score + 1 })
    let info := { info with player_fragged := setAt info.player_fragged i true }
    let respawn := game_find_respawn_position st rng_state i
    (st.modifyPlayer i (fun p => player_respawn p respawn.1), respawn.2, info)
  else acc

/-- Loop body of the respawn pass after movement. -/
def respawn_movement_step (acc : GameState × Nat × StepInfo) (i : Fin 2) :
    GameState × Nat × StepInfo :=
  let st := acc.1
  let rng_state := acc.2.1
  let info := acc.2.2
  if !(st.players i).alive && !info.player_fragged i then
    let opponent := opponentOf i
    let st := st.modifyPlayer opponent (fun p => { p with score := p.score + 1 })
    let info := { info with player_fragged := setAt info.player_fragged i true }
    let respawn := game_find_respawn_position st rng_state i
    (st.modifyPlayer i (fun p => player_respawn p respawn.1), respawn.2, info)
  else acc

/-- The function `game_step`: the new state, the new `rng_state` and the
returned `StepInfo`. -/
def game_step (st : GameState) (rng_state : Nat) (actions : Fin 2 → PlayerAction) :
    GameState × Nat × StepInfo :=
  if st.game_over then (st, rng_state, StepInfo.zero)
  else
    let collected := game_phase_collect_crystals st StepInfo.zero
    let shot := game_phase_shooting collected.1 actions collected.2
    let respawned := playerIndices.foldl respawn_shooting_step (shot.1, rng_state, shot.2)
    let moved := game_phase_movement respawned.1 actions respawned.2.2
    let respawned2 :=
      playerIndices.foldl respawn_movement_step (moved.1, respawned.2.1, moved.2)
    let st := game_tick_timers respawned2.1
    let st := { st with current_tick := st.current_tick + 1 }
    let st := game_check_win_conditions st
    (st, respawned2.2.1, respawned2.2.2)

/-- The cell `k` steps from `p` along the displacement `(dx, dy)`. -/
def step_cell (p : Position) (dx dy : Int) (k : Nat) : Position :=
  { x := p.x + k * dx, y := p.y + k * dy }

/-- The `k`-th cell of the ray that leaves `p` in direction `dir` (`k = 0` is
`p` itself). -/
def ray_cell (p : Position) (dir : Direction) (k : Nat) : Position :=
  step_cell p (get_direction_delta dir).1 (get_direction_delta dir).2 k

/-- A cell stops the laser of `shooter`: it is out of bounds, a Wall, or the
cell of the other player while that player is alive. -/
def laser_stops (st : GameState) (shooter : Fin 2) (c : Position) : Bool :=
  !arena_is_valid_position st.arena c.x c.y || arena_is_wall st.arena c.x c.y ||
    ((st.players (opponentOf shooter)).alive && decide ((st.players (opponentOf shooter)).pos = c))

/-- What a stopping cell is reported as, in the priority Edge, Wall, Player. -/
def laser_hit_kind (st : GameState) (c : Position) : LaserHitType :=
  if arena_is_valid_position st.arena c.x c.y = false then LaserHitType.LASER_HIT_EDGE
  else if arena_is_wall st.arena c.x c.y = true then LaserHitType.LASER_HIT_WALL
  else LaserHitType.LASER_HIT_PLAYER

/-- The number of in-bounds cells from `c` to the edge the direction points
at, `c` included, for an in-bounds `c`. -/
def edge_distance (arena : Arena) (dir : Direction) (c : Position) : Nat :=
  match dir with
  | Direction.DIR_UP => (c.y + 1).toNat
  | Direction.DIR_DOWN => (arena.height - c.y).toNat
  | Direction.DIR_LEFT => (c.x + 1).toNat
  | Direction.DIR_RIGHT => (arena.width - c.x).toNat
  | Direction.DIR_NONE => 0

/-- Everything of a state that only `game_step` itself (tick counter) and
`game_check_win_conditions` (winner, game_over) write, together with the
static part of the arena: two states agree on all of it. -/
def FrameEq (st st2 : GameState) : Prop :=
  st2.current_tick = st.current_tick ∧ st2.winner = st.winner ∧ st2.game_over = st.game_over ∧
  st2.arena.width = st.arena.width ∧ st2.arena.height = st.arena.height ∧
  st2.arena.tiles = st.arena.tiles ∧ st2.arena.num_crystals = st.arena.num_crystals ∧
  (∀ i, (st2.arena.crystals i).pos = (st.arena.crystals i).pos) ∧
  st2.arena.num_spawn_points = st.arena.num_spawn_points ∧
  st2.arena.spawn_points = st.arena.spawn_points

/-- The state, PRNG state and `StepInfo` of `game_step` on a running game
after the second respawn pass (before the timers tick). -/
def step_respawned (st : GameState) (rng_state : Nat) (actions : Fin 2 → PlayerAction) :
    GameState × Nat × StepInfo :=
  let collected := game_phase_collect_crystals st StepInfo.zero
  let shot := game_phase_shooting collected.1 actions collected.2
  let respawned := playerIndices.foldl respawn_shooting_step (shot.1, rng_state, shot.2)
  let moved := game_phase_movement respawned.1 actions respawned.2.2
  playerIndices.foldl respawn_movement_step (moved.1, respawned.2.1, moved.2)

/-- The state of `game_step` on a running game after the timers ticked (before
the tick counter is incremented). -/
def step_before_tick (st : GameState) (rng_state : Nat) (actions : Fin 2 → PlayerAction) :
    GameState :=
  game_tick_timers (step_respawned st rng_state actions).1

/-- The stat ranges of one player: `0 <= health <= 4` and `0 <= energy <= 8`. -/
def StatsInRange (p : Player) : Prop :=
  0 ≤ p.health ∧ p.health ≤ 4 ∧ 0 ≤ p.energy ∧ p.energy ≤ 8

/-- Both players satisfy the stat ranges. -/
def AllStatsInRange (st : GameState) : Prop :=
  ∀ i : Fin 2, StatsInRange (st.players i)

/-- An update of a player record that keeps the score and keeps the stat
ranges. -/
def PlayerQuiet (p q : Player) : Prop :=
  q.score = p.score ∧ (StatsInRange p → StatsInRange q)

/-- Every player record of the second state is a quiet update of the first. -/
def StateQuiet (st st2 : GameState) : Prop :=
  ∀ i : Fin 2, PlayerQuiet (st.players i) (st2.players i)

/-- Frag accounting relative to a start state `st0`: the score of player
`1 - i` is its score in `st0`, plus 1 when `player_fragged[i]` is set. -/
def ScoreAcct (st0 : GameState) (acc : GameState × Nat × StepInfo) : Prop :=
  ∀ i : Fin 2, (acc.1.players (opponentOf i)).score =
    (st0.players (opponentOf i)).score + (if acc.2.2.player_fragged i = true then 1 else 0)

instance (p : Player) : Decidable (StatsInRange p) := by
  unfold StatsInRange; infer_instance

instance (st : GameState) : Decidable (AllStatsInRange st) := by
  unfold AllStatsInRange; infer_instance

/-- The bytes of a map written with ASCII characters only. -/
def asciiBytes (s : String) : List Nat :=
  s.toList.map Char.toNat

/-- Zero-filled memory for an `Arena`. -/
def zeroArena : Arena :=
  { width := 0
    height := 0
    tiles := fun _ _ => TileType.TILE_FLOOR
    num_crystals := 0
    crystals := fun _ => { pos := { x := 0, y := 0 }, cooldown_ticks := 0 }
    num_spawn_points := 0
    spawn_points := fun _ => { pos := { x := 0, y := 0 } } }

/-- Zero-filled memory for a `GameState`, as a caller hands it to `game_init`. -/
def zeroState : GameState :=
  { arena := zeroArena
    players := fun _ =>
      { pos := { x := 0, y := 0 }, health := 0, energy := 0, move_cooldown_ticks := 0,
        laser_cooldown_ticks := 0, energy_regen_ticks := 0, score := 0, alive := false }
    current_tick := 0
    winner := 0
    game_over := false }

/-- The action pair in which player 0 shoots Right and player 1 shoots Left. -/
def duelActions : Fin 2 → PlayerAction :=
  fun i => if i = 0 then { move := ACTION_NOOP, shoot := ACTION_RIGHT }
    else { move := ACTION_NOOP, shoot := ACTION_LEFT }

/-- Map `1 . 2`, both players on their spawn cells facing each other with
health 1 and score 7 each. -/
def duelState : GameState :=
  let st := game_init zeroState (asciiBytes "1 . 2")
  { st with players := fun i => { st.players i with health := 1, score := 7 } }

/-- Map `1 2` right after `game_init`. -/
def twoCellState : GameState :=
  game_init zeroState (asciiBytes "1 2")

/-- Player 0 shoots Right; player 1 moves Up. -/
def shootAndStepOut : Fin 2 → PlayerAction :=
  fun i => if i = 0 then { move := ACTION_NOOP, shoot := ACTION_RIGHT }
    else { move := ACTION_UP, shoot := ACTION_NOOP }

/-- A map with a leading blank row whose last row overwrites the row of the
two spawn points. -/
def blankRowVoidMap : List Nat :=
  asciiBytes "\n1 2\nx x"

/-- A map with a leading blank row whose two spawn points fall on one cell. -/
def blankRowSameCellMap : List Nat :=
  asciiBytes "\n1 .\n2 ."

/-- A state at the episode limit with scores 3 and 5. -/
def timeoutState : GameState :=
  let st := game_init zeroState (asciiBytes "1 . . 2 .")
  { st with
    players := fun i => { st.players i with score := if i = 0 then 3 else 5 }
    current_tick := 7200 }

/-- Every alive player stands on a Floor cell (`arena_is_passable`, which is
false outside the grid). -/
def OnFloor (st : GameState) : Prop :=
  ∀ i : Fin 2, (st.players i).alive = true →
    arena_is_passable st.arena (st.players i).pos.x (st.players i).pos.y = true

/-- Two alive players do not share a cell. -/
def Apart (st : GameState) : Prop :=
  (st.players 0).alive = true → (st.players 1).alive = true →
    (st.players 0).pos ≠ (st.players 1).pos

/-- The placement invariant of the step engine. -/
def WellPlaced (st : GameState) : Prop :=
  OnFloor st ∧ Apart st

/-- The arena has at least two Floor cells. -/
def TwoFloorCells (arena : Arena) : Prop :=
  ∃ c1 c2 : Position, c1 ≠ c2 ∧ arena_is_passable arena c1.x c1.y = true ∧
    arena_is_passable arena c2.x c2.y = true

/-- The second state has every player where the first has it, with the same
alive flag. -/
def PlaceEq (st st2 : GameState) : Prop :=
  ∀ i : Fin 2, (st2.players i).pos = (st.players i).pos ∧
    (st2.players i).alive = (st.players i).alive

/-- What the shooting phase knows about a shot of player `i` that hit, in
terms of the positions `st` holds before any pushback: the shot had a
direction, shooter and target were alive, the target (the other player) stood
on the ray, and unless the pushback frags, the pushback cell is the target's
own cell or the Floor cell behind it, which the shooter does not occupy. -/
def HitFacts (st : GameState) (loc : ShootingLocals) (i : Fin 2) : Prop :=
  shot_hit loc i = true →
    ∃ (dir : Direction) (k : Nat), dir ≠ Direction.DIR_NONE ∧ 1 ≤ k ∧
      (st.players i).alive = true ∧ (st.players (opponentOf i)).alive = true ∧
      (st.players (opponentOf i)).pos = ray_cell (st.players i).pos dir k ∧
      playerIndex (loc.results i).target_player = some (opponentOf i) ∧
      ((loc.results i).target_fragged = false →
        ((loc.results i).pushback_to = (st.players (opponentOf i)).pos ∨
          ((loc.results i).pushback_to
              = position_add_direction (st.players (opponentOf i)).pos dir ∧
            arena_is_passable st.arena (loc.results i).pushback_to.x
              (loc.results i).pushback_to.y = true ∧
            (loc.results i).pushback_to ≠ (st.players i).pos)))

/-- What conflict resolution leaves in the locals of `game_phase_movement`:
a player that still wants to move is alive and heads for a Floor or Void
cell; two movers head for different cells; a mover does not head for the cell
of an alive player that stays. -/
def MovesResolved (st : GameState) (loc : MovementLocals) : Prop :=
  (∀ i : Fin 2, loc.wants_move i = true →
    (st.players i).alive = true ∧
      (arena_is_passable st.arena (loc.intended i).x (loc.intended i).y = true ∨
        arena_is_void st.arena (loc.intended i).x (loc.intended i).y = true)) ∧
  (loc.wants_move 0 = true → loc.wants_move 1 = true → loc.intended 0 ≠ loc.intended 1) ∧
  (∀ i : Fin 2, loc.wants_move i = true → loc.wants_move (opponentOf i) = false →
    (st.players (opponentOf i)).alive = true →
    loc.intended i ≠ (st.players (opponentOf i)).pos)

/-- The states and PRNG states a caller can reach: `game_init` on the memory
`mem` with the map `map_str`, then any number of `game_step` calls with any
actions, with `game_set_seed` called at any time with any seed. -/
inductive Reachable (mem : GameState) (map_str : List Nat) : GameState → Nat → Prop
  | init (seed : Nat) : Reachable mem map_str (game_init mem map_str) (game_set_seed seed)
  | step {st : GameState} {rng_state : Nat} (actions : Fin 2 → PlayerAction) :
      Reachable mem map_str st rng_state →
      Reachable mem map_str (game_step st rng_state actions).1
        (game_step st rng_state actions).2.1
  | reseed {st : GameState} {rng_state : Nat} (seed : Nat) :
      Reachable mem map_str st rng_state → Reachable mem map_str st (game_set_seed seed)

/-- The loaded arena has two spawn points, and its first two spawn points are
different cells whose tile is Floor. -/
def SpawnsUsable (arena : Arena) : Prop :=
  2 ≤ arena.num_spawn_points ∧
  (arena.spawn_points 0).pos ≠ (arena.spawn_points 1).pos ∧
  arena_is_passable arena (arena.spawn_points 0).pos.x (arena.spawn_points 0).pos.y = true ∧
  arena_is_passable arena (arena.spawn_points 1).pos.x (arena.spawn_points 1).pos.y = true

/-- Player `i` fires in a shooting phase run on `st`: its shoot action has a
direction and `player_can_shoot` holds for it. -/
def fires (st : GameState) (actions : Fin 2 → PlayerAction) (i : Fin 2) : Bool :=
  decide (action_to_direction (actions i).shoot ≠ Direction.DIR_NONE) &&
    player_can_shoot (st.players i)

/-- The laser of player `i` in the direction of its shoot action, traced on
the positions `st` holds. -/
def shot_result (st : GameState) (actions : Fin 2 → PlayerAction) (i : Fin 2) : LaserResult :=
  combat_fire_laser st i (action_to_direction (actions i).shoot)

/-- Player `i` fires and its laser reports a Player hit. -/
def lands (st : GameState) (actions : Fin 2 → PlayerAction) (i : Fin 2) : Bool :=
  fires st actions i &&
    decide ((shot_result st actions i).hit_type = LaserHitType.LASER_HIT_PLAYER)

/-- What the first loop of `game_phase_shooting` does to the record of a
player that fires. -/
def fired_player (p : Player) : Player :=
  player_start_laser_cooldown (player_use_energy p 1).1

/-- What the third loop of `game_phase_shooting` does to the record of the
target of a shot with result `r`. -/
def pushed_player (r : LaserResult) (p : Player) : Player :=
  if p.alive then
    if r.target_fragged then { p with alive := false } else { p with pos := r.pushback_to }
  else p

/-- The record of player `t` after `game_phase_shooting` on `st`, in closed
form: the cost of its own shot, then the damage and the pushback of the
opponent's shot. -/
def shooting_outcome (st : GameState) (actions : Fin 2 → PlayerAction) (t : Fin 2) : Player :=
  let p := if fires st actions t then fired_player (st.players t) else st.players t
  if lands st actions (opponentOf t) then
    pushed_player (shot_result st actions (opponentOf t)) (player_take_damage p LASER_DAMAGE)
  else p

/-- Map `. 1 . 2 .` right after `game_init`: the players face each other
with a Floor cell behind each. -/
def faceOffState : GameState :=
  game_init zeroState (asciiBytes ". 1 . 2 .")

/-- Map `1 # 2` right after `game_init`. -/
def wallState : GameState :=
  game_init zeroState (asciiBytes "1 # 2")

/-- Player 0 shoots Right; player 1 does nothing. -/
def shootRight : Fin 2 → PlayerAction :=
  fun i => if i = 0 then { move := ACTION_NOOP, shoot := ACTION_RIGHT }
    else { move := ACTION_NOOP, shoot := ACTION_NOOP }

/-- Both players do nothing. -/
def noActions : Fin 2 → PlayerAction :=
  fun _ => { move := ACTION_NOOP, shoot := ACTION_NOOP }

/-- The array `candidates` of `game_find_respawn_position` after both passes:
the cells of the first pass, or those of the second pass when the first found
none. -/
def respawn_candidate_list (st : GameState) (player_idx : Fin 2) : List Position :=
  if (respawn_candidates st player_idx true).length = 0 then
    respawn_candidates st player_idx false
  else respawn_candidates st player_idx true

/-- Row-major order on cells: `a` comes before `b` when its row is above, or
in the same row and to the left. -/
def row_major_lt (a b : Position) : Prop :=
  a.y < b.y ∨ (a.y = b.y ∧ a.x < b.x)

/-- Cell `c` is a Floor cell that the opponent of `i` does not occupy alive. -/
def free_cell (st : GameState) (i : Fin 2) (c : Position) : Prop :=
  arena_is_passable st.arena c.x c.y = true ∧
    ¬ ((st.players (opponentOf i)).alive = true ∧ (st.players (opponentOf i)).pos = c)

/-- Cell `c` is at Manhattan distance `RESPAWN_MIN_DISTANCE` or more from the
position of the opponent of `i`. -/
def far_cell (st : GameState) (i : Fin 2) (c : Position) : Prop :=
  manhattan_distance c (st.players (opponentOf i)).pos ≥ RESPAWN_MIN_DISTANCE

/-- The record `p` with one point added to the score when `b` holds. -/
def credited (p : Player) (b : Bool) : Player :=
  { p with score := p.score + if b then 1 else 0 }

/-- The guard of the respawn pass after movement: player `j` is dead and was
not fragged earlier in the step. -/
def needs_respawn (acc : GameState × Nat × StepInfo) (j : Fin 2) : Bool :=
  !(acc.1.players j).alive && !acc.2.2.player_fragged j

/-- The cell player `i` heads for under its move action. -/
def move_target (st : GameState) (actions : Fin 2 → PlayerAction) (i : Fin 2) : Position :=
  position_add_direction (st.players i).pos (action_to_direction (actions i).move)

/-- What the first loop of `game_phase_movement` leaves in `wants_move[i]`:
the player is alive, its move action has a direction, it can move, and the
target tile is Floor or Void. -/
def tries_move (st : GameState) (actions : Fin 2 → PlayerAction) (i : Fin 2) : Bool :=
  (st.players i).alive && decide (action_to_direction (actions i).move ≠ Direction.DIR_NONE) &&
    player_can_move (st.players i) &&
    (arena_is_passable st.arena (move_target st actions i).x (move_target st actions i).y ||
      arena_is_void st.arena (move_target st actions i).x (move_target st actions i).y)

/-- What the first loop of `game_phase_movement` leaves in `intended[i]`. -/
def intent (st : GameState) (actions : Fin 2 → PlayerAction) (i : Fin 2) : Position :=
  if tries_move st actions i then move_target st actions i else (st.players i).pos

/-- The swap check or the same-tile check cancels both moves. -/
def moves_conflict (st : GameState) (actions : Fin 2 → PlayerAction) : Bool :=
  tries_move st actions 0 && tries_move st actions 1 &&
    (decide (intent st actions 0 = (st.players 1).pos ∧ intent st actions 1 = (st.players 0).pos) ||
      decide (intent st actions 0 = intent st actions 1))

/-- The entry `wants_move[i]` after the swap and same-tile checks. -/
def still_moves (st : GameState) (actions : Fin 2 → PlayerAction) (i : Fin 2) : Bool :=
  tries_move st actions i && !moves_conflict st actions

/-- The entry `wants_move[0]` after the moving-into-the-opponent check. -/
def first_moves (st : GameState) (actions : Fin 2 → PlayerAction) : Bool :=
  still_moves st actions 0 &&
    !decide ((st.players 1).alive = true ∧ intent st actions 0 = (st.players 1).pos ∧
      (still_moves st actions 1 = false ∨ intent st actions 1 = (st.players 1).pos))

/-- The entry `wants_move[1]` after the moving-into-the-opponent check, which
reads the entry of player 0 that the same check has already settled. -/
def second_moves (st : GameState) (actions : Fin 2 → PlayerAction) : Bool :=
  still_moves st actions 1 &&
    !decide ((st.players 0).alive = true ∧ intent st actions 1 = (st.players 0).pos ∧
      (first_moves st actions = false ∨ intent st actions 0 = (st.players 0).pos))

/-- The entry `wants_move[i]` after conflict resolution. -/
def moves (st : GameState) (actions : Fin 2 → PlayerAction) (i : Fin 2) : Bool :=
  if i = 0 then first_moves st actions else second_moves st actions

/-- The record of player `k` after the apply-movements loop of
`game_phase_movement`, in closed form. -/
def moved_player (st : GameState) (actions : Fin 2 → PlayerAction) (k : Fin 2) : Player :=
  if moves st actions k then
    player_start_move_cooldown
      (if arena_is_void st.arena (intent st actions k).x (intent st actions k).y then
        { st.players k with alive := false }
      else { st.players k with pos := intent st actions k })
  else if (actions k).move ≠ ACTION_NOOP ∧ (st.players k).alive = true ∧
      action_to_direction (actions k).move ≠ Direction.DIR_NONE ∧
      player_can_move (st.players k) = true then
    player_start_move_cooldown (st.players k)
  else st.players k

/-- Map `1 2 .` right after `game_init`. -/
def threeCellState : GameState :=
  game_init zeroState (asciiBytes "1 2 .")

/-- Both players move Right. -/
def bothRight : Fin 2 → PlayerAction :=
  fun _ => { move := ACTION_RIGHT, shoot := ACTION_NOOP }

/-- Player 0 moves Right and player 1 moves Left. -/
def swapActions : Fin 2 → PlayerAction :=
  fun i => if i = 0 then { move := ACTION_RIGHT, shoot := ACTION_NOOP }
    else { move := ACTION_LEFT, shoot := ACTION_NOOP }

/-- The state and `StepInfo` of `game_step` on a running game after the
crystal-collection phase. -/
def step_collected (st : GameState) : GameState × StepInfo :=
  game_phase_collect_crystals st StepInfo.zero

/-- The state and `StepInfo` of `game_step` on a running game after the
shooting phase. -/
def step_shot (st : GameState) (actions : Fin 2 → PlayerAction) : GameState × StepInfo :=
  game_phase_shooting (step_collected st).1 actions (step_collected st).2

/-- The state, PRNG state and `StepInfo` of `game_step` on a running game
after the first respawn pass. -/
def step_revived (st : GameState) (rng_state : Nat) (actions : Fin 2 → PlayerAction) :
    GameState × Nat × StepInfo :=
  playerIndices.foldl respawn_shooting_step
    ((step_shot st actions).1, rng_state, (step_shot st actions).2)

/-- The state and `StepInfo` of `game_step` on a running game after the
movement phase. -/
def step_moved (st : GameState) (rng_state : Nat) (actions : Fin 2 → PlayerAction) :
    GameState × StepInfo :=
  game_phase_movement (step_revived st rng_state actions).1 actions
    (step_revived st rng_state actions).2.2

/-- Map `1 . 2` right after `game_init`. -/
def headOnState : GameState :=
  game_init zeroState (asciiBytes "1 . 2")

/-- A record as `player_respawn` leaves it, as far as the step reports it:
alive with full health and full energy. -/
def Fresh (p : Player) : Prop :=
  p.alive = true ∧ p.health = MAX_HEALTH ∧ p.energy = MAX_ENERGY

/-- The part of a player record that shooting and regeneration work on:
energy, laser cooldown and regeneration countdown. -/
def gauge (p : Player) : Int × Int × Int :=
  (p.energy, p.laser_cooldown_ticks, p.energy_regen_ticks)

/-- Player 0 shoots Up; player 1 does nothing. -/
def shootUp : Fin 2 → PlayerAction :=
  fun i => if i = 0 then { move := ACTION_NOOP, shoot := ACTION_UP }
    else { move := ACTION_NOOP, shoot := ACTION_NOOP }

/-- Map `* 1 2` with player 0 put on the crystal cell (0,0) with energy 3. -/
def onCrystalState : GameState :=
  let st := game_init zeroState (asciiBytes "* 1 2")
  { st with players := fun i =>
      if i = 0 then { st.players 0 with pos := { x := 0, y := 0 }, energy := 3 }
      else st.players i }

/-- Map `1 2` with player 0 at energy 3 and one tick away from regenerating a
point of energy. -/
def lowRegenState : GameState :=
  { twoCellState with players := fun i =>
      if i = 0 then { twoCellState.players 0 with energy := 3, energy_regen_ticks := 1 }
      else twoCellState.players i }

/-- No crystal can be collected on the cell of player `k`: the cell has no
crystal, or its crystal is on cooldown. -/
def Spent (st : GameState) (k : Fin 2) : Prop :=
  arena_crystal_available st.arena
    (arena_get_crystal_at st.arena (st.players k).pos.x (st.players k).pos.y) = false

/-- Map `1 . . 2 .` after one step without actions. -/
def corridorState : GameState :=
  (game_step (game_init zeroState (asciiBytes "1 . . 2 .")) 12345 noActions).1

/-- The state `corridorState` with player 0 dead. -/
def corridorDeadState : GameState :=
  { corridorState with players := fun i =>
      if i = 0 then { corridorState.players 0 with alive := false } else corridorState.players i }

/-- A fresh player at (0,0) with the given move and laser cooldowns. -/
def cooledPlayer (move_cd laser_cd : Int) : Player :=
  { player_init { x := 0, y := 0 } with
    move_cooldown_ticks := move_cd, laser_cooldown_ticks := laser_cd }

/-- Player 1 moves Up; player 0 does nothing. -/
def secondUp : Fin 2 → PlayerAction :=
  fun i => if i = 1 then { move := ACTION_UP, shoot := ACTION_NOOP }
    else { move := ACTION_NOOP, shoot := ACTION_NOOP }

/-- Map `1 2 x` right after `game_init`: a Void cell to the right of player 1. -/
def ledgeState : GameState :=
  game_init zeroState (asciiBytes "1 2 x")

/-- Crystal `j` exists and has just been collected: its cooldown is
`CRYSTAL_RESPAWN_TICKS`. -/
def Collected (a : Arena) (j : Int) : Prop :=
  (0 ≤ j ∧ j < a.num_crystals) ∧ (a.crystals j).cooldown_ticks = CRYSTAL_RESPAWN_TICKS

/-- The state of `game_step` on a running game after the apply-movements loop
of the movement phase, before the crystal-collection loop that ends the
phase. -/
def step_applied (st : GameState) (rng_state : Nat) (actions : Fin 2 → PlayerAction) :
    GameState :=
  playerIndices.foldl
    (movement_apply_step actions (movement_resolve (step_revived st rng_state actions).1 actions))
    (step_revived st rng_state actions).1

/-- Player 0 moves Right; player 1 does nothing. -/
def firstRight : Fin 2 → PlayerAction :=
  fun i => if i = 0 then { move := ACTION_RIGHT, shoot := ACTION_NOOP }
    else { move := ACTION_NOOP, shoot := ACTION_NOOP }

/-- Map `1 * 2` right after `game_init`: a crystal between the players. -/
def crystalAheadState : GameState :=
  game_init zeroState (asciiBytes "1 * 2")

/-- The function `api_game_step`.  The `int` array `actions` is a total map
from the index; the entries 0..3 are read, and the cast to `ActionType` keeps
the value. -/
def api_game_step (st : GameState) (rng_state : Nat) (actions : Int → Int) :
    GameState × Nat × StepInfo :=
  game_step st rng_state
    (fun i => { move := actions (indexInt i * 2), shoot := actions (indexInt i * 2 + 1) })

/-- An action integer with every value outside 0..4 replaced by 0. -/
def action_or_noop (a : Int) : Int :=
  if 0 ≤ a ∧ a ≤ 4 then a else 0

/-- A Player hit on player 1 whose pushback ends in Void. -/
def fragResult : LaserResult :=
  { hit_type := LaserHitType.LASER_HIT_PLAYER
    target_player := 1
    hit_position := { x := 1, y := 0 }
    pushback_to := { x := 2, y := 0 }
    target_fragged := true }

/-- The map `TEST_MAP_ASCII` of the test suite. -/
def asciiTestMap : List Nat :=
  asciiBytes ("x # # # # # x\nx . . . . * x\nx 1 . . . . x\nx . . . . . x\n" ++
    "x . . . . 2 x\nx * . . . . x\nx # # # # # x\n")

/-- The UTF-8 bytes of the multiplication sign (Void). -/
def utf8Void : List Nat := [0xC3, 0x97]

/-- The UTF-8 bytes of the black square (Wall). -/
def utf8Wall : List Nat := [0xE2, 0x96, 0xA0]

/-- The UTF-8 bytes of the white square (Floor). -/
def utf8Floor : List Nat := [0xE2, 0x96, 0xA1]

/-- The UTF-8 bytes of the black diamond (crystal). -/
def utf8Crystal : List Nat := [0xE2, 0x97, 0x86]

/-- The UTF-8 bytes of the right-pointing triangle (spawn point). -/
def utf8SpawnRight : List Nat := [0xE2, 0x96, 0xB7]

/-- The UTF-8 bytes of the left-pointing triangle (spawn point). -/
def utf8SpawnLeft : List Nat := [0xE2, 0x97, 0x81]

/-- A row of the UTF-8 test map: every symbol is followed by a blank, and the
row ends with a newline. -/
def utf8Row (symbols : List (List Nat)) : List Nat :=
  (symbols.map (fun s => s ++ [32])).flatten ++ [10]

/-- The map `TEST_MAP_UTF8` of the test suite, byte for byte. -/
def utf8TestMap : List Nat :=
  utf8Row [utf8Void, utf8Wall, utf8Wall, utf8Wall, utf8Wall, utf8Wall, utf8Void] ++
  utf8Row [utf8Void, utf8Floor, utf8Floor, utf8Floor, utf8Floor, utf8Crystal, utf8Void] ++
  utf8Row [utf8Void, utf8SpawnRight, utf8Floor, utf8Floor, utf8Floor, utf8Floor, utf8Void] ++
  utf8Row [utf8Void, utf8Floor, utf8Floor, utf8Floor, utf8Floor, utf8Floor, utf8Void] ++
  utf8Row [utf8Void, utf8Floor, utf8Floor, utf8Floor, utf8Floor, utf8SpawnLeft, utf8Void] ++
  utf8Row [utf8Void, utf8Crystal, utf8Floor, utf8Floor, utf8Floor, utf8Floor, utf8Void] ++
  utf8Row [utf8Void, utf8Wall, utf8Wall, utf8Wall, utf8Wall, utf8Wall, utf8Void]

/-- The function `combat_has_line_of_sight`.  The loop runs once for every
cell from `src` to `dst`, so the bound is never reached
(`line_of_sight_fuel_eq`) and the `getD` default is never used. -/
def combat_has_line_of_sight (arena : Arena) (src dst : Position) : Bool :=
  (combat_has_line_of_sight_fuel ((manhattan_distance src dst).toNat + 1) arena src dst).getD
    false

/-- Cell `c` lies strictly between `a` and `b` on the row or the column they
share. -/
def strictly_between (a b c : Position) : Prop :=
  (a.y = b.y ∧ c.y = a.y ∧ min a.x b.x < c.x ∧ c.x < max a.x b.x) ∨
  (a.x = b.x ∧ c.x = a.x ∧ min a.y b.y < c.y ∧ c.y < max a.y b.y)

/-- The crystal table right after a successful load: between 0 and
`MAX_CRYSTALS` crystals, and every slot of the table has cooldown 0. -/
def CrystalsFresh (a : Arena) : Prop :=
  (0 ≤ a.num_crystals ∧ a.num_crystals ≤ MAX_CRYSTALS) ∧
  ∀ i, 0 ≤ i → i < MAX_CRYSTALS → (a.crystals i).cooldown_ticks = 0

/-- The counters of a player record are in range: both cooldowns in 0..12 and
the regeneration countdown in 1..120. -/
def CountersOk (p : Player) : Prop :=
  (0 ≤ p.move_cooldown_ticks ∧ p.move_cooldown_ticks ≤ MOVEMENT_COOLDOWN_TICKS) ∧
  (0 ≤ p.laser_cooldown_ticks ∧ p.laser_cooldown_ticks ≤ LASER_COOLDOWN_TICKS) ∧
  (1 ≤ p.energy_regen_ticks ∧ p.energy_regen_ticks ≤ ENERGY_REGEN_TICKS)

/-- The trajectory of a game: the states, PRNG states and `StepInfo`s that
successive `game_step` calls return on a list of action pairs. -/
def game_run (st : GameState) (rng_state : Nat) :
    List (Fin 2 → PlayerAction) → List (GameState × Nat × StepInfo)
  | [] => []
  | actions :: rest =>
    game_step st rng_state actions ::
      game_run (game_step st rng_state actions).1 (game_step st rng_state actions).2.1 rest

/-- The arena `a` is the arena `a0` up to the cooldowns of the crystals of the
table: same size, tiles, crystal count, crystal positions and spawn points,
and the same cooldown in every slot outside the table. -/
def SameGrid (a0 a : Arena) : Prop :=
  a.width = a0.width ∧ a.height = a0.height ∧ a.tiles = a0.tiles ∧
  a.num_crystals = a0.num_crystals ∧ (∀ i, (a.crystals i).pos = (a0.crystals i).pos) ∧
  a.num_spawn_points = a0.num_spawn_points ∧ a.spawn_points = a0.spawn_points ∧
  ∀ i, ¬ (0 ≤ i ∧ i < a0.num_crystals) →
    (a.crystals i).cooldown_ticks = (a0.crystals i).cooldown_ticks

/-- The bounds on the counters of a state: the tick counter in 0..7200 and
below 7200 while the game runs, both scores in 0..8 and below 8 while the
game runs, at most `MAX_CRYSTALS` crystals with every cooldown of the crystal
table in 0..480, and the counters of both player records in range. -/
def CountersBounded (st : GameState) : Prop :=
  (0 ≤ st.current_tick ∧ st.current_tick ≤ EPISODE_LENGTH_TICKS) ∧
  (∀ i, 0 ≤ (st.players i).score ∧ (st.players i).score ≤ WIN_SCORE) ∧
  (st.game_over = false →
    st.current_tick < EPISODE_LENGTH_TICKS ∧ ∀ i, (st.players i).score < WIN_SCORE) ∧
  st.arena.num_crystals ≤ MAX_CRYSTALS ∧
  (∀ i, 0 ≤ i → i < MAX_CRYSTALS →
    0 ≤ (st.arena.crystals i).cooldown_ticks ∧
      (st.arena.crystals i).cooldown_ticks ≤ CRYSTAL_RESPAWN_TICKS) ∧
  ∀ i, CountersOk (st.players i)

/-- The state with players 0 and 1 exchanged. -/
def exchange_players (st : GameState) : GameState :=
  { st with players := fun i => st.players (opponentOf i) }

/-- The action pair with the actions of players 0 and 1 exchanged. -/
def exchange_actions (actions : Fin 2 → PlayerAction) : Fin 2 → PlayerAction :=
  fun i => actions (opponentOf i)

/-- The `StepInfo` with the entries of players 0 and 1 exchanged in every
array. -/
def exchange_info (info : StepInfo) : StepInfo :=
  { player_hit := fun i => info.player_hit (opponentOf i)
    player_fragged := fun i => info.player_fragged (opponentOf i)
    crystal_collected := fun i => info.crystal_collected (opponentOf i)
    damage_dealt := fun i => info.damage_dealt (opponentOf i)
    damage_taken := fun i => info.damage_taken (opponentOf i) }

/-- What a laser result says apart from the index of the target. -/
def laser_view (r : LaserResult) : LaserHitType × Position × Position × Bool :=
  (r.hit_type, r.hit_position, r.pushback_to, r.target_fragged)

/-- The lines of a map string: the runs of bytes between newlines (byte 10).
A newline at the very end of the string starts no further line. -/
def map_lines : List Nat → List (List Nat)
  | [] => []
  | c :: rest =>
    if c = 10 then [] :: map_lines rest
    else
      match map_lines rest with
      | [] => [[c]]
      | l :: ls => (c :: l) :: ls

/-- The rows of a map string: the non-space characters (bytes other than 32)
of each line. -/
def map_rows (map_str : List Nat) : List (List Nat) :=
  (map_lines map_str).map (fun l => l.filter (fun c => decide (c ≠ 32)))

/-- The width the map format gives a map: the largest number of non-space
characters in a row. -/
def map_width (rows : List (List Nat)) : Nat :=
  (rows.map List.length).foldr max 0

/-- The tile an ASCII map character denotes: `x`/`X` Void, `#` Wall, every
other character Floor. -/
def tile_of_char (c : Nat) : TileType :=
  if c = 120 ∨ c = 88 then TileType.TILE_VOID
  else if c = 35 then TileType.TILE_WALL
  else TileType.TILE_FLOOR

/-- The ASCII crystal characters `*`, `C`, `c`. -/
def is_crystal_char (c : Nat) : Bool :=
  decide (c = 42 ∨ c = 67 ∨ c = 99)

/-- The ASCII spawn characters `1`, `2`, `S`, `s`. -/
def is_spawn_char (c : Nat) : Bool :=
  decide (c = 49 ∨ c = 50 ∨ c = 83 ∨ c = 115)

/-- The cells of a row from column `x` on, left to right, each with its
character. -/
def row_cells_from (x y : Int) : List Nat → List (Position × Nat)
  | [] => []
  | c :: cs => ({ x := x, y := y }, c) :: row_cells_from (x + 1) y cs

/-- The cells of the rows from row `y` on, in reading order. -/
def rows_cells_from (y : Int) : List (List Nat) → List (Position × Nat)
  | [] => []
  | r :: rs => row_cells_from 0 y r ++ rows_cells_from (y + 1) rs

/-- The cells of a map in reading order, each with its character. -/
def map_cells (rows : List (List Nat)) : List (Position × Nat) :=
  rows_cells_from 0 rows

/-- The cells of the crystal characters of a map, in reading order. -/
def crystal_cells (rows : List (List Nat)) : List Position :=
  ((map_cells rows).filter (fun pc => is_crystal_char pc.2)).map Prod.fst

/-- The cells of the spawn characters of a map, in reading order. -/
def spawn_cells (rows : List (List Nat)) : List Position :=
  ((map_cells rows).filter (fun pc => is_spawn_char pc.2)).map Prod.fst

/-- What the second pass of the loader does with one ASCII character at a
cell inside the grid. -/
def place_cell (arena : Arena) (pc : Position × Nat) : Arena :=
  if is_crystal_char pc.2 then add_crystal arena pc.1.x pc.1.y
  else if is_spawn_char pc.2 then add_spawn_point arena pc.1.x pc.1.y
  else set_tile arena pc.1.x pc.1.y (tile_of_char pc.2)

/-- The cells the second pass of the loader visits from the locals `(x, y)`
on, when no cell falls outside the grid: a newline starts the next row, a
space is skipped, every other byte takes one cell. -/
def scan_cells (x y : Int) : List Nat → List (Position × Nat)
  | [] => []
  | c :: rest =>
    if c = 10 then scan_cells 0 (y + 1) rest
    else if c = 32 then scan_cells x y rest
    else ({ x := x, y := y }, c) :: scan_cells (x + 1) y rest

/-- The number of rows with at least one character. -/
def nonblank_rows (rows : List (List Nat)) : Nat :=
  (rows.filter (fun r => !r.isEmpty)).length

/-- A record that is flagged alive has at least one point of health: the state
`player_take_damage` keeps, since it clears `alive` when the health reaches
0. -/
def AliveHealthy (p : Player) : Prop :=
  p.alive = true → 1 ≤ p.health


/-- The candidate cells of a respawn of player `i`, in the spec's words: the
Floor cells that the alive opponent does not occupy and that lie at Manhattan
distance `RESPAWN_MIN_DISTANCE` or more from the opponent when such a cell
exists, and otherwise every Floor cell that the alive opponent does not
occupy. -/
def respawn_candidate (st : GameState) (i : Fin 2) (c : Position) : Prop :=
  free_cell st i c ∧ ((∃ d, free_cell st i d ∧ far_cell st i d) → far_cell st i c)


theorem fin2_cases (k : Fin 2) : k = 0 ∨ k = 1 := by
  fin_cases k
  · left; rfl
  · right; rfl

@[simp] theorem setAt_same {ι α : Type} [DecidableEq ι] (a : ι → α) (i : ι) (v : α) :
    setAt a i v i = v := by simp [setAt]

theorem setAt_ne {ι α : Type} [DecidableEq ι] (a : ι → α) {i j : ι} (v : α) (h : j ≠ i) :
    setAt a i v j = a j := by simp [setAt, h]

theorem setAt_apply {ι α : Type} [DecidableEq ι] (a : ι → α) (i j : ι) (v : α) :
    setAt a i v j = if j = i then v else a j := rfl

@[simp] theorem modifyPlayer_arena (st : GameState) (i : Fin 2) (f : Player → Player) :
    (st.modifyPlayer i f).arena = st.arena := rfl

@[simp] theorem modifyPlayer_current_tick (st : GameState) (i : Fin 2) (f : Player → Player) :
    (st.modifyPlayer i f).current_tick = st.current_tick := rfl

@[simp] theorem modifyPlayer_winner (st : GameState) (i : Fin 2) (f : Player → Player) :
    (st.modifyPlayer i f).winner = st.winner := rfl

@[simp] theorem modifyPlayer_game_over (st : GameState) (i : Fin 2) (f : Player → Player) :
    (st.modifyPlayer i f).game_over = st.game_over := rfl

theorem modifyPlayer_players (st : GameState) (i j : Fin 2) (f : Player → Player) :
    (st.modifyPlayer i f).players j = if j = i then f (st.players i) else st.players j := rfl

/-- C8: when no score has reached WIN_SCORE, `game_check_win_conditions` ends the
game at tick 7200 or later, with the higher score as winner and -1 on equal
scores, and before tick 7200 leaves `game_over` and `winner` as they were. -/
theorem game_check_win_conditions_timeout (st : GameState)
    (h0 : (st.players 0).score < WIN_SCORE) (h1 : (st.players 1).score < WIN_SCORE) :
    (st.current_tick ≥ EPISODE_LENGTH_TICKS →
      (game_check_win_conditions st).game_over = true ∧
      ((st.players 0).score > (st.players 1).score → (game_check_win_conditions st).winner = 0) ∧
      ((st.players 1).score > (st.players 0).score → (game_check_win_conditions st).winner = 1) ∧
      ((st.players 0).score = (st.players 1).score → (game_check_win_conditions st).winner = -1)) ∧
    (st.current_tick < EPISODE_LENGTH_TICKS →
      (game_check_win_conditions st).game_over = st.game_over ∧
      (game_check_win_conditions st).winner = st.winner) := by
  have hfind : playerIndices.find? (fun i => decide ((st.players i).score ≥ WIN_SCORE)) = none := by
    simp [playerIndices, List.find?, not_le.mpr h0, not_le.mpr h1]
  unfold game_check_win_conditions
  rw [hfind]
  constructor
  · intro ht
    simp only [ht, if_true]
    refine ⟨?_, ?_, ?_, ?_⟩
    · split_ifs <;> rfl
    · intro h; simp [h]
    · intro h; have : ¬ (st.players 0).score > (st.players 1).score := by omega
      simp [this, h]
    · intro h; simp [h]
  · intro ht
    have : ¬ st.current_tick ≥ EPISODE_LENGTH_TICKS := by omega
    simp [this]

theorem position_add_direction_x (p : Position) (dir : Direction) :
    p.x + (get_direction_delta dir).1 = (position_add_direction p dir).x := by
  cases dir <;> simp only [get_direction_delta, position_add_direction] <;> omega

theorem position_add_direction_y (p : Position) (dir : Direction) :
    p.y + (get_direction_delta dir).2 = (position_add_direction p dir).y := by
  cases dir <;> simp only [get_direction_delta, position_add_direction] <;> omega

theorem position_eq_iff (p : Position) (x y : Int) : p = ⟨x, y⟩ ↔ (p.x = x ∧ p.y = y) := by
  cases p; simp

/-- The inner player loop finds the opponent exactly when the opponent is
alive on the cell. -/
theorem other_player_at_eq (st : GameState) (i : Fin 2) (x y : Int) :
    other_player_at st i x y =
      if (st.players (opponentOf i)).alive = true ∧ (st.players (opponentOf i)).pos = ⟨x, y⟩
      then some (opponentOf i) else none := by
  fin_cases i
  · by_cases h : (st.players 1).alive = true ∧ (st.players 1).pos.x = x ∧ (st.players 1).pos.y = y
    · simp [other_player_at, playerIndices, List.find?, opponentOf, position_eq_iff, h]
    · have hb : ((st.players 1).alive && decide ((st.players 1).pos.x = x) &&
          decide ((st.players 1).pos.y = y)) = false := by
        rw [Bool.eq_false_iff]; intro hc; apply h; simpa [and_assoc] using hc
      simp [other_player_at, playerIndices, List.find?, opponentOf, position_eq_iff, h, hb]
  · by_cases h : (st.players 0).alive = true ∧ (st.players 0).pos.x = x ∧ (st.players 0).pos.y = y
    · simp [other_player_at, playerIndices, List.find?, opponentOf, position_eq_iff, h]
    · have hb : ((st.players 0).alive && decide ((st.players 0).pos.x = x) &&
          decide ((st.players 0).pos.y = y)) = false := by
        rw [Bool.eq_false_iff]; intro hc; apply h; simpa [and_assoc] using hc
      simp [other_player_at, playerIndices, List.find?, opponentOf, position_eq_iff, h, hb]

theorem arena_is_void_of_not_valid (a : Arena) (x y : Int)
    (h : arena_is_valid_position a x y = false) : arena_is_void a x y = true := by
  simp only [arena_is_valid_position, decide_eq_false_iff_not] at h
  simp only [arena_is_void, arena_get_tile, decide_eq_true_eq]
  rw [if_pos (by omega)]

/-- One iteration of the pushback loop, as a case distinction on the next cell. -/
theorem pushback_one_step (st : GameState) (i : Fin 2) (dir : Direction) :
    combat_apply_pushback st i dir 1 =
      (let cur := (st.players i).pos
       let next := position_add_direction cur dir
       if arena_is_void st.arena next.x next.y = true ∨
          arena_is_valid_position st.arena next.x next.y = false then (next, true)
       else if arena_is_wall st.arena next.x next.y = true ∨
          ((st.players (opponentOf i)).alive = true ∧ (st.players (opponentOf i)).pos = next)
       then (cur, false)
       else (next, false)) := by
  have hn : ({ x := (st.players i).pos.x + (get_direction_delta dir).1,
               y := (st.players i).pos.y + (get_direction_delta dir).2 } : Position)
      = position_add_direction (st.players i).pos dir := by
    rw [position_add_direction_x, position_add_direction_y]
  simp only [combat_apply_pushback, show ((1 : Int).toNat) = 1 from rfl, pushback_loop,
    other_player_at_eq, hn]
  rw [position_add_direction_x, position_add_direction_y]
  generalize position_add_direction (st.players i).pos dir = next
  cases h1 : arena_is_void st.arena next.x next.y
  · have h2 : arena_is_valid_position st.arena next.x next.y = true := by
      cases h : arena_is_valid_position st.arena next.x next.y
      · rw [arena_is_void_of_not_valid _ _ _ h] at h1; cases h1
      · rfl
    cases h3 : arena_is_wall st.arena next.x next.y
    · by_cases h4 : (st.players (opponentOf i)).alive = true ∧
          (st.players (opponentOf i)).pos = next
      · simp [h2, h4]
      · simp [h2, h4]
    · simp [h2]
  · simp

/-- C10: `combat_apply_pushback` with distance 1 returns the next cell with
`fragged = true` when that cell is Void or out of bounds; otherwise the
current cell with `fragged = false` when the next cell is a Wall or holds the
other alive player; otherwise the next cell with `fragged = false`. -/
theorem combat_apply_pushback_one (st : GameState) (i : Fin 2) (dir : Direction) :
    combat_apply_pushback st i dir 1 =
      (let cur := (st.players i).pos
       let next := position_add_direction cur dir
       if arena_is_void st.arena next.x next.y = true ∨
          arena_is_valid_position st.arena next.x next.y = false then (next, true)
       else if arena_is_wall st.arena next.x next.y = true ∨
          ((st.players (opponentOf i)).alive = true ∧ (st.players (opponentOf i)).pos = next)
       then (cur, false)
       else (next, false)) :=
  pushback_one_step st i dir

theorem step_cell_succ (p : Position) (dx dy : Int) (k : Nat) :
    step_cell ({ x := p.x + dx, y := p.y + dy } : Position) dx dy k = step_cell p dx dy (k + 1) := by
  simp only [step_cell, Position.mk.injEq]
  constructor <;> push_cast <;> ring

theorem step_cell_one (p : Position) (dx dy : Int) :
    step_cell p dx dy 1 = { x := p.x + dx, y := p.y + dy } := by
  simp [step_cell]

/-- What the laser loop returns when it returns: the first stopping cell. -/
theorem laser_loop_spec (st : GameState) (s : Fin 2) (dir : Direction) (dx dy : Int) :
    ∀ (fuel : Nat) (cur : Position) (res : LaserResult),
      laser_loop st s dir dx dy (laser_result_init st s) fuel cur = some res →
      ∃ k : Nat, 1 ≤ k ∧ k ≤ fuel ∧
        (∀ j : Nat, 1 ≤ j → j < k → laser_stops st s (step_cell cur dx dy j) = false) ∧
        laser_stops st s (step_cell cur dx dy k) = true ∧
        res.hit_position = step_cell cur dx dy k ∧
        res.hit_type = laser_hit_kind st (step_cell cur dx dy k) ∧
        res.target_player =
          (if res.hit_type = LaserHitType.LASER_HIT_PLAYER then indexInt (opponentOf s) else -1) ∧
        (res.hit_type = LaserHitType.LASER_HIT_PLAYER →
          (res.pushback_to, res.target_fragged)
            = combat_apply_pushback st (opponentOf s) dir PUSHBACK_DISTANCE) ∧
        (res.hit_type ≠ LaserHitType.LASER_HIT_PLAYER →
          res.pushback_to = { x := -1, y := -1 } ∧ res.target_fragged = false) := by
  intro fuel
  induction fuel with
  | zero => intro cur res h; simp [laser_loop] at h
  | succ n ih =>
    intro cur res h
    rw [laser_loop] at h
    simp only [other_player_at_eq] at h
    cases hv : arena_is_valid_position st.arena (cur.x + dx) (cur.y + dy)
    · simp only [hv, Bool.not_false, if_true, Option.some.injEq] at h
      subst h
      refine ⟨1, le_refl _, by omega, ?_, ?_, ?_, ?_, ?_, ?_, ?_⟩
      · intro j h1 h2; omega
      · simp [laser_stops, step_cell_one, hv]
      · simp [step_cell_one]
      · simp [laser_hit_kind, step_cell_one, hv]
      · simp [laser_result_init]
      · simp
      · simp [laser_result_init]
    · simp only [hv, Bool.not_true, Bool.false_eq_true, if_false] at h
      cases hw : arena_is_wall st.arena (cur.x + dx) (cur.y + dy)
      · simp only [hw, Bool.false_eq_true, if_false] at h
        by_cases hp : (st.players (opponentOf s)).alive = true ∧
            (st.players (opponentOf s)).pos = ⟨cur.x + dx, cur.y + dy⟩
        · simp only [hp, and_self, if_true, Option.some.injEq] at h
          subst h
          refine ⟨1, le_refl _, by omega, ?_, ?_, ?_, ?_, ?_, ?_, ?_⟩
          · intro j h1 h2; omega
          · simp [laser_stops, step_cell_one, hv, hw, hp]
          · simp [step_cell_one]
          · simp [laser_hit_kind, step_cell_one, hv, hw]
          · simp
          · simp
          · simp
        · simp only [hp, if_false] at h
          obtain ⟨k, hk1, hk2, hbefore, hstop, hpos, htype, htgt, hpb, hnpb⟩ := ih _ res h
          refine ⟨k + 1, by omega, by omega, ?_, ?_, ?_, ?_, htgt, hpb, hnpb⟩
          · intro j h1 h2
            rcases Nat.lt_or_ge j 2 with hj | hj
            · have : j = 1 := by omega
              subst this
              simp only [laser_stops, step_cell_one, hv, hw, Bool.not_true, Bool.false_or,
                Bool.and_eq_false_imp, decide_eq_false_iff_not]
              intro ha hq; exact hp ⟨ha, hq⟩
            · obtain ⟨j', rfl⟩ : ∃ j', j = j' + 1 := ⟨j - 1, by omega⟩
              rw [← step_cell_succ]
              exact hbefore j' (by omega) (by omega)
          · rw [← step_cell_succ]; exact hstop
          · rw [← step_cell_succ]; exact hpos
          · rw [← step_cell_succ]; exact htype
      · simp only [hw, if_true, Option.some.injEq] at h
        subst h
        refine ⟨1, le_refl _, by omega, ?_, ?_, ?_, ?_, ?_, ?_, ?_⟩
        · intro j h1 h2; omega
        · simp [laser_stops, step_cell_one, hv, hw]
        · simp [step_cell_one]
        · simp [laser_hit_kind, step_cell_one, hv, hw]
        · simp [laser_result_init]
        · simp
        · simp [laser_result_init]

theorem edge_distance_pos (arena : Arena) (dir : Direction) (hdir : dir ≠ Direction.DIR_NONE)
    (c : Position) (hc : arena_is_valid_position arena c.x c.y = true) :
    1 ≤ edge_distance arena dir c ∧
      edge_distance arena dir c ≤ arena.width.toNat + arena.height.toNat := by
  simp only [arena_is_valid_position, decide_eq_true_eq] at hc
  cases dir <;> simp only [edge_distance] <;> first | exact absurd rfl hdir | omega

theorem edge_distance_step (arena : Arena) (dir : Direction) (c : Position)
    (hn : arena_is_valid_position arena (c.x + (get_direction_delta dir).1)
      (c.y + (get_direction_delta dir).2) = true) (hdir : dir ≠ Direction.DIR_NONE) :
    edge_distance arena dir
        { x := c.x + (get_direction_delta dir).1, y := c.y + (get_direction_delta dir).2 } + 1
      ≤ edge_distance arena dir c := by
  simp only [arena_is_valid_position, decide_eq_true_eq] at hn
  cases dir <;> simp only [edge_distance, get_direction_delta] at hn ⊢ <;>
    first | exact absurd rfl hdir | omega

/-- The laser loop leaves through a `break` or `return` before the bound is
reached, once the bound exceeds the distance to the edge. -/
theorem laser_loop_isSome (st : GameState) (s : Fin 2) (dir : Direction)
    (hdir : dir ≠ Direction.DIR_NONE) (r0 : LaserResult) :
    ∀ (fuel : Nat) (cur : Position), 0 < fuel →
      (arena_is_valid_position st.arena (cur.x + (get_direction_delta dir).1)
          (cur.y + (get_direction_delta dir).2) = true →
        edge_distance st.arena dir
          { x := cur.x + (get_direction_delta dir).1, y := cur.y + (get_direction_delta dir).2 }
          < fuel) →
      (laser_loop st s dir (get_direction_delta dir).1 (get_direction_delta dir).2 r0 fuel
        cur).isSome = true := by
  intro fuel
  induction fuel with
  | zero => intro cur h; omega
  | succ n ih =>
    intro cur _ hm
    rw [laser_loop]
    cases hv : arena_is_valid_position st.arena (cur.x + (get_direction_delta dir).1)
        (cur.y + (get_direction_delta dir).2)
    · simp
    · simp only [Bool.not_true, Bool.false_eq_true, if_false]
      cases hw : arena_is_wall st.arena (cur.x + (get_direction_delta dir).1)
          (cur.y + (get_direction_delta dir).2)
      · simp only [Bool.false_eq_true, if_false]
        cases ho : other_player_at st s (cur.x + (get_direction_delta dir).1)
            (cur.y + (get_direction_delta dir).2)
        · simp only
          have hm1 := hm hv
          have hpos := (edge_distance_pos st.arena dir hdir
            { x := cur.x + (get_direction_delta dir).1, y := cur.y + (get_direction_delta dir).2 }
            hv).1
          apply ih
          · omega
          · intro hn
            have := edge_distance_step st.arena dir
              { x := cur.x + (get_direction_delta dir).1, y := cur.y + (get_direction_delta dir).2 }
              hn hdir
            omega
        · simp
      · simp

theorem combat_fire_laser_fuel_isSome (st : GameState) (s : Fin 2) (dir : Direction) (fuel : Nat)
    (hfuel : laser_fuel st ≤ fuel) :
    (combat_fire_laser_fuel fuel st s dir).isSome = true := by
  unfold combat_fire_laser_fuel
  by_cases hdir : dir = Direction.DIR_NONE
  · simp [hdir]
  · simp only [hdir, if_false]
    apply laser_loop_isSome st s dir hdir
    · unfold laser_fuel at hfuel; omega
    · intro hv
      have := (edge_distance_pos st.arena dir hdir
        { x := (st.players s).pos.x + (get_direction_delta dir).1,
          y := (st.players s).pos.y + (get_direction_delta dir).2 } hv).2
      unfold laser_fuel at hfuel
      omega

theorem combat_fire_laser_eq (st : GameState) (s : Fin 2) (dir : Direction) :
    combat_fire_laser_fuel (laser_fuel st) st s dir = some (combat_fire_laser st s dir) := by
  have h := combat_fire_laser_fuel_isSome st s dir (laser_fuel st) (le_refl _)
  unfold combat_fire_laser
  cases hr : combat_fire_laser_fuel (laser_fuel st) st s dir
  · rw [hr] at h; simp at h
  · simp

/-- C9: for direction None `combat_fire_laser` reports no hit at the shooter
position with target -1; for any other direction it reports the first cell of
the ray past the shooter that is out of bounds, a Wall or the cell of the
other alive player, with hit type Edge, Wall or Player in that priority and
the other player as target exactly on a Player hit (else -1); no earlier cell
of the ray stops the laser. -/
theorem combat_fire_laser_first_stop (st : GameState) (shooter : Fin 2) (dir : Direction) :
    (dir = Direction.DIR_NONE ∧
      (combat_fire_laser st shooter dir).hit_type = LaserHitType.LASER_HIT_NONE ∧
      (combat_fire_laser st shooter dir).target_player = -1 ∧
      (combat_fire_laser st shooter dir).hit_position = (st.players shooter).pos) ∨
    (dir ≠ Direction.DIR_NONE ∧
      ∃ k : Nat, 1 ≤ k ∧
        (∀ j : Nat, 1 ≤ j → j < k →
          laser_stops st shooter (ray_cell (st.players shooter).pos dir j) = false) ∧
        laser_stops st shooter (ray_cell (st.players shooter).pos dir k) = true ∧
        (combat_fire_laser st shooter dir).hit_position
          = ray_cell (st.players shooter).pos dir k ∧
        (combat_fire_laser st shooter dir).hit_type
          = laser_hit_kind st (ray_cell (st.players shooter).pos dir k) ∧
        (combat_fire_laser st shooter dir).target_player =
          (if (combat_fire_laser st shooter dir).hit_type = LaserHitType.LASER_HIT_PLAYER
           then indexInt (opponentOf shooter) else -1)) := by
  have heq := combat_fire_laser_eq st shooter dir
  by_cases hdir : dir = Direction.DIR_NONE
  · left
    simp only [combat_fire_laser_fuel, hdir, if_true, Option.some.injEq] at heq
    subst hdir
    rw [← heq]
    simp [laser_result_init]
  · right
    refine ⟨hdir, ?_⟩
    simp only [combat_fire_laser_fuel, hdir, if_false] at heq
    obtain ⟨k, hk1, _, hbefore, hstop, hpos, htype, htgt, _, _⟩ :=
      laser_loop_spec st shooter dir _ _ _ _ _ heq
    exact ⟨k, hk1, hbefore, hstop, hpos, htype, htgt⟩

theorem frameEq_refl (st : GameState) : FrameEq st st :=
  ⟨rfl, rfl, rfl, rfl, rfl, rfl, rfl, fun _ => rfl, rfl, rfl⟩

theorem frameEq_trans {a b c : GameState} (h1 : FrameEq a b) (h2 : FrameEq b c) : FrameEq a c := by
  obtain ⟨a1, a2, a3, a4, a5, a6, a7, a8, a9, a10⟩ := h1
  obtain ⟨b1, b2, b3, b4, b5, b6, b7, b8, b9, b10⟩ := h2
  exact ⟨b1.trans a1, b2.trans a2, b3.trans a3, b4.trans a4, b5.trans a5, b6.trans a6,
    b7.trans a7, fun i => (b8 i).trans (a8 i), b9.trans a9, b10.trans a10⟩

theorem frameEq_modifyPlayer (st : GameState) (i : Fin 2) (f : Player → Player) :
    FrameEq st (st.modifyPlayer i f) :=
  ⟨rfl, rfl, rfl, rfl, rfl, rfl, rfl, fun _ => rfl, rfl, rfl⟩

theorem frameEq_collect (st : GameState) (idx : Int) :
    FrameEq st { st with arena := arena_collect_crystal st.arena idx } := by
  unfold arena_collect_crystal
  split_ifs
  · refine ⟨rfl, rfl, rfl, rfl, rfl, rfl, rfl, fun i => ?_, rfl, rfl⟩
    simp only [setAt]
    split_ifs with h
    · subst h; rfl
    · rfl
  · exact frameEq_refl st

theorem foldl_playerIndices {α : Type} (f : α → Fin 2 → α) (a : α) :
    playerIndices.foldl f a = f (f a 0) 1 := rfl

theorem collect_crystal_step_frame (acc : GameState × StepInfo) (i : Fin 2) :
    FrameEq acc.1 (collect_crystal_step acc i).1 := by
  unfold collect_crystal_step
  simp only []
  split_ifs
  · exact frameEq_refl _
  · exact frameEq_trans (frameEq_modifyPlayer _ _ _) (frameEq_collect _ _)
  · exact frameEq_refl _

theorem game_phase_collect_crystals_frame (st : GameState) (info : StepInfo) :
    FrameEq st (game_phase_collect_crystals st info).1 := by
  unfold game_phase_collect_crystals
  rw [foldl_playerIndices]
  exact frameEq_trans (collect_crystal_step_frame (st, info) 0) (collect_crystal_step_frame _ 1)

theorem shooting_fire_step_frame (actions : Fin 2 → PlayerAction)
    (acc : GameState × ShootingLocals) (i : Fin 2) :
    FrameEq acc.1 (shooting_fire_step actions acc i).1 := by
  unfold shooting_fire_step
  simp only []
  split_ifs
  · exact frameEq_trans (frameEq_modifyPlayer _ _ _) (frameEq_modifyPlayer _ _ _)
  · exact frameEq_refl _
  · exact frameEq_refl _

theorem shooting_damage_step_frame (loc : ShootingLocals)
    (acc : GameState × StepInfo) (i : Fin 2) :
    FrameEq acc.1 (shooting_damage_step loc acc i).1 := by
  unfold shooting_damage_step
  split
  · split
    · exact frameEq_refl _
    · exact frameEq_modifyPlayer _ _ _
  · exact frameEq_refl _

theorem foldl_frame_state (f : GameState → Fin 2 → GameState)
    (h : ∀ s i, FrameEq s (f s i)) (st : GameState) :
    FrameEq st (playerIndices.foldl f st) := by
  rw [foldl_playerIndices]
  exact frameEq_trans (h _ 0) (h _ 1)

theorem foldl_frame_pair {β : Type} (f : GameState × β → Fin 2 → GameState × β)
    (h : ∀ a i, FrameEq a.1 (f a i).1) (a : GameState × β) :
    FrameEq a.1 (playerIndices.foldl f a).1 := by
  rw [foldl_playerIndices]
  exact frameEq_trans (h _ 0) (h _ 1)

theorem shooting_pushback_step_frame (loc : ShootingLocals) (st : GameState) (i : Fin 2) :
    FrameEq st (shooting_pushback_step loc st i) := by
  unfold shooting_pushback_step
  split
  · split
    · exact frameEq_refl _
    · split
      · split
        · exact frameEq_modifyPlayer _ _ _
        · exact frameEq_modifyPlayer _ _ _
      · exact frameEq_refl _
  · exact frameEq_refl _

theorem game_phase_shooting_frame (st : GameState) (actions : Fin 2 → PlayerAction)
    (info : StepInfo) : FrameEq st (game_phase_shooting st actions info).1 := by
  unfold game_phase_shooting
  exact frameEq_trans (frameEq_trans (foldl_frame_pair _ (shooting_fire_step_frame actions) (st, shooting_locals_init))
    (foldl_frame_pair _ (shooting_damage_step_frame _) _))
    (foldl_frame_state _ (shooting_pushback_step_frame _) _)

theorem respawn_shooting_step_frame (acc : GameState × Nat × StepInfo) (i : Fin 2) :
    FrameEq acc.1 (respawn_shooting_step acc i).1 := by
  unfold respawn_shooting_step
  simp only []
  split_ifs
  · exact frameEq_trans (frameEq_modifyPlayer _ _ _) (frameEq_modifyPlayer _ _ _)
  · exact frameEq_refl _

theorem respawn_movement_step_frame (acc : GameState × Nat × StepInfo) (i : Fin 2) :
    FrameEq acc.1 (respawn_movement_step acc i).1 := by
  unfold respawn_movement_step
  simp only []
  split_ifs
  · exact frameEq_trans (frameEq_modifyPlayer _ _ _) (frameEq_modifyPlayer _ _ _)
  · exact frameEq_refl _

theorem movement_apply_step_frame (actions : Fin 2 → PlayerAction) (loc : MovementLocals)
    (st : GameState) (i : Fin 2) : FrameEq st (movement_apply_step actions loc st i) := by
  unfold movement_apply_step
  simp only []
  split_ifs
  · exact frameEq_trans (frameEq_modifyPlayer _ _ _) (frameEq_modifyPlayer _ _ _)
  · exact frameEq_trans (frameEq_modifyPlayer _ _ _) (frameEq_modifyPlayer _ _ _)
  · exact frameEq_modifyPlayer _ _ _
  · exact frameEq_refl _
  · exact frameEq_refl _

theorem game_phase_movement_frame (st : GameState) (actions : Fin 2 → PlayerAction)
    (info : StepInfo) : FrameEq st (game_phase_movement st actions info).1 := by
  unfold game_phase_movement
  exact frameEq_trans (foldl_frame_state _ (movement_apply_step_frame actions _) st)
    (foldl_frame_pair _ collect_crystal_step_frame _)

theorem tick_crystal_pos (cs : Int → Crystal) (k i : Int) :
    (tick_crystal cs k i).pos = (cs i).pos := by
  unfold tick_crystal
  split_ifs
  · simp only [setAt]
    split_ifs with h
    · subst h; rfl
    · rfl
  · rfl

theorem foldl_tick_crystal_pos (l : List Int) :
    ∀ (cs : Int → Crystal) (i : Int), ((l.foldl tick_crystal cs) i).pos = (cs i).pos := by
  induction l with
  | nil => intro cs i; rfl
  | cons k l ih =>
    intro cs i
    rw [List.foldl_cons, ih, tick_crystal_pos]

theorem game_tick_timers_frame (st : GameState) : FrameEq st (game_tick_timers st) := by
  unfold game_tick_timers
  have h1 := foldl_frame_state (fun s i => s.modifyPlayer i player_tick_cooldowns)
    (fun s i => frameEq_modifyPlayer s i _) st
  refine frameEq_trans h1 ?_
  refine ⟨rfl, rfl, rfl, rfl, rfl, rfl, rfl, fun i => ?_, rfl, rfl⟩
  exact foldl_tick_crystal_pos _ _ _

theorem game_check_win_conditions_current_tick (st : GameState) :
    (game_check_win_conditions st).current_tick = st.current_tick := by
  unfold game_check_win_conditions
  split
  · rfl
  · simp only []
    split_ifs <;> rfl

theorem game_check_win_conditions_players (st : GameState) :
    (game_check_win_conditions st).players = st.players := by
  unfold game_check_win_conditions
  split
  · rfl
  · simp only []
    split_ifs <;> rfl

theorem game_check_win_conditions_arena (st : GameState) :
    (game_check_win_conditions st).arena = st.arena := by
  unfold game_check_win_conditions
  split
  · rfl
  · simp only []
    split_ifs <;> rfl

/-- The state of a running game just before the tick counter is incremented. -/
theorem game_step_running (st : GameState) (rng_state : Nat) (actions : Fin 2 → PlayerAction)
    (h : st.game_over = false) :
    game_step st rng_state actions =
      (game_check_win_conditions
        { step_before_tick st rng_state actions with
          current_tick := (step_before_tick st rng_state actions).current_tick + 1 },
       (step_respawned st rng_state actions).2.1, (step_respawned st rng_state actions).2.2) := by
  unfold game_step step_before_tick step_respawned
  simp [h]

theorem step_before_tick_frame (st : GameState) (rng_state : Nat)
    (actions : Fin 2 → PlayerAction) :
    FrameEq st (step_before_tick st rng_state actions) := by
  unfold step_before_tick step_respawned
  exact frameEq_trans (frameEq_trans (frameEq_trans (frameEq_trans (game_phase_collect_crystals_frame st StepInfo.zero)
    (game_phase_shooting_frame _ actions _))
    (foldl_frame_pair _ respawn_shooting_step_frame _))
    (frameEq_trans (game_phase_movement_frame _ actions _)
    (foldl_frame_pair _ respawn_movement_step_frame _))) (game_tick_timers_frame _)

/-- C5: a step of a running game increases `current_tick` by exactly 1; a step
of a finished game changes neither the state nor the PRNG state and returns
the all-false, all-zero `StepInfo`. -/
theorem game_step_tick_or_noop (st : GameState) (rng_state : Nat)
    (actions : Fin 2 → PlayerAction) :
    (st.game_over = false ∧
      (game_step st rng_state actions).1.current_tick = st.current_tick + 1) ∨
    (st.game_over = true ∧
      game_step st rng_state actions = (st, rng_state, StepInfo.zero)) := by
  cases h : st.game_over
  · left
    refine ⟨rfl, ?_⟩
    rw [game_step_running st rng_state actions h, game_check_win_conditions_current_tick]
    simp only
    rw [(step_before_tick_frame st rng_state actions).1]
  · right
    refine ⟨rfl, ?_⟩
    unfold game_step
    simp [h]

theorem playerQuiet_refl (p : Player) : PlayerQuiet p p := ⟨rfl, id⟩

theorem stateQuiet_refl (st : GameState) : StateQuiet st st := fun _ => playerQuiet_refl _

theorem stateQuiet_trans {a b c : GameState} (h1 : StateQuiet a b) (h2 : StateQuiet b c) :
    StateQuiet a c :=
  fun i => ⟨(h2 i).1.trans (h1 i).1, fun h => (h2 i).2 ((h1 i).2 h)⟩

theorem stateQuiet_modifyPlayer (st : GameState) (i : Fin 2) (f : Player → Player)
    (hf : ∀ p, PlayerQuiet p (f p)) : StateQuiet st (st.modifyPlayer i f) := by
  intro j
  rw [modifyPlayer_players]
  split_ifs with h
  · subst h; exact hf _
  · exact playerQuiet_refl _

theorem stateQuiet_of_players_eq {st st2 : GameState} (h : st2.players = st.players) :
    StateQuiet st st2 := by
  intro i; rw [h]; exact playerQuiet_refl _

theorem quiet_restore_energy (p : Player) : PlayerQuiet p (player_restore_energy p MAX_ENERGY) := by
  refine ⟨?_, ?_⟩
  · unfold player_restore_energy; simp only []; split_ifs <;> rfl
  · unfold player_restore_energy StatsInRange MAX_ENERGY
    simp only []
    split_ifs <;> simp only [] <;> omega

theorem quiet_use_energy (p : Player) : PlayerQuiet p (player_use_energy p 1).1 := by
  refine ⟨?_, ?_⟩
  · unfold player_use_energy; split_ifs <;> rfl
  · unfold player_use_energy StatsInRange
    split_ifs <;> simp only [] <;> omega

theorem quiet_start_laser_cooldown (p : Player) : PlayerQuiet p (player_start_laser_cooldown p) :=
  ⟨rfl, id⟩

theorem quiet_start_move_cooldown (p : Player) : PlayerQuiet p (player_start_move_cooldown p) :=
  ⟨rfl, id⟩

theorem quiet_take_damage (p : Player) : PlayerQuiet p (player_take_damage p LASER_DAMAGE) := by
  refine ⟨?_, ?_⟩
  · unfold player_take_damage; simp only []; split_ifs <;> rfl
  · unfold player_take_damage StatsInRange LASER_DAMAGE
    simp only []
    split_ifs <;> simp only [] <;> omega

theorem quiet_set_alive (p : Player) (b : Bool) : PlayerQuiet p { p with alive := b } :=
  ⟨rfl, id⟩

theorem quiet_set_pos (p : Player) (c : Position) : PlayerQuiet p { p with pos := c } :=
  ⟨rfl, id⟩

theorem quiet_tick_cooldowns (p : Player) : PlayerQuiet p (player_tick_cooldowns p) := by
  refine ⟨?_, ?_⟩
  · unfold player_tick_cooldowns; simp only []; split_ifs <;> rfl
  · unfold player_tick_cooldowns StatsInRange MAX_ENERGY
    simp only []
    split_ifs <;> (try simp only [] at *) <;> omega

theorem foldl_quiet_state (f : GameState → Fin 2 → GameState)
    (h : ∀ s i, StateQuiet s (f s i)) (st : GameState) :
    StateQuiet st (playerIndices.foldl f st) := by
  rw [foldl_playerIndices]
  exact stateQuiet_trans (h _ 0) (h _ 1)

theorem foldl_quiet_pair {β : Type} (f : GameState × β → Fin 2 → GameState × β)
    (h : ∀ a i, StateQuiet a.1 (f a i).1) (a : GameState × β) :
    StateQuiet a.1 (playerIndices.foldl f a).1 := by
  rw [foldl_playerIndices]
  exact stateQuiet_trans (h _ 0) (h _ 1)

theorem collect_crystal_step_quiet (acc : GameState × StepInfo) (i : Fin 2) :
    StateQuiet acc.1 (collect_crystal_step acc i).1 := by
  unfold collect_crystal_step
  simp only []
  split_ifs
  · exact stateQuiet_refl _
  · exact stateQuiet_trans (stateQuiet_modifyPlayer _ _ _ quiet_restore_energy)
      (stateQuiet_of_players_eq rfl)
  · exact stateQuiet_refl _

theorem collect_crystal_step_fragged (acc : GameState × StepInfo) (i : Fin 2) :
    (collect_crystal_step acc i).2.player_fragged = acc.2.player_fragged := by
  unfold collect_crystal_step
  simp only []
  split_ifs <;> rfl

theorem game_phase_collect_crystals_quiet (st : GameState) (info : StepInfo) :
    StateQuiet st (game_phase_collect_crystals st info).1 :=
  foldl_quiet_pair _ collect_crystal_step_quiet (st, info)

theorem game_phase_collect_crystals_fragged (st : GameState) (info : StepInfo) :
    (game_phase_collect_crystals st info).2.player_fragged = info.player_fragged := by
  unfold game_phase_collect_crystals
  rw [foldl_playerIndices, collect_crystal_step_fragged, collect_crystal_step_fragged]

theorem shooting_fire_step_quiet (actions : Fin 2 → PlayerAction)
    (acc : GameState × ShootingLocals) (i : Fin 2) :
    StateQuiet acc.1 (shooting_fire_step actions acc i).1 := by
  unfold shooting_fire_step
  simp only []
  split_ifs
  · exact stateQuiet_trans (stateQuiet_modifyPlayer _ _ _ quiet_use_energy)
      (stateQuiet_modifyPlayer _ _ _ quiet_start_laser_cooldown)
  · exact stateQuiet_refl _
  · exact stateQuiet_refl _

theorem shooting_damage_step_quiet (loc : ShootingLocals)
    (acc : GameState × StepInfo) (i : Fin 2) :
    StateQuiet acc.1 (shooting_damage_step loc acc i).1 := by
  unfold shooting_damage_step
  split
  · split
    · exact stateQuiet_refl _
    · exact stateQuiet_modifyPlayer _ _ _ quiet_take_damage
  · exact stateQuiet_refl _

theorem shooting_damage_step_fragged (loc : ShootingLocals)
    (acc : GameState × StepInfo) (i : Fin 2) :
    (shooting_damage_step loc acc i).2.player_fragged = acc.2.player_fragged := by
  unfold shooting_damage_step
  split
  · split <;> rfl
  · rfl

theorem shooting_pushback_step_quiet (loc : ShootingLocals) (st : GameState) (i : Fin 2) :
    StateQuiet st (shooting_pushback_step loc st i) := by
  unfold shooting_pushback_step
  split
  · split
    · exact stateQuiet_refl _
    · split
      · split
        · exact stateQuiet_modifyPlayer _ _ _ (fun p => quiet_set_alive p false)
        · exact stateQuiet_modifyPlayer _ _ _ (fun p => quiet_set_pos p _)
      · exact stateQuiet_refl _
  · exact stateQuiet_refl _

theorem game_phase_shooting_quiet (st : GameState) (actions : Fin 2 → PlayerAction)
    (info : StepInfo) : StateQuiet st (game_phase_shooting st actions info).1 := by
  unfold game_phase_shooting
  exact stateQuiet_trans (stateQuiet_trans (foldl_quiet_pair _ (shooting_fire_step_quiet actions) (st, shooting_locals_init))
    (foldl_quiet_pair _ (shooting_damage_step_quiet _) _))
    (foldl_quiet_state _ (shooting_pushback_step_quiet _) _)

theorem game_phase_shooting_fragged (st : GameState) (actions : Fin 2 → PlayerAction)
    (info : StepInfo) :
    (game_phase_shooting st actions info).2.player_fragged = info.player_fragged := by
  unfold game_phase_shooting
  simp only [foldl_playerIndices, shooting_damage_step_fragged]

theorem movement_apply_step_quiet (actions : Fin 2 → PlayerAction) (loc : MovementLocals)
    (st : GameState) (i : Fin 2) : StateQuiet st (movement_apply_step actions loc st i) := by
  unfold movement_apply_step
  simp only []
  split_ifs
  · exact stateQuiet_trans (stateQuiet_modifyPlayer _ _ _ (fun p => quiet_set_alive p false))
      (stateQuiet_modifyPlayer _ _ _ quiet_start_move_cooldown)
  · exact stateQuiet_trans (stateQuiet_modifyPlayer _ _ _ (fun p => quiet_set_pos p _))
      (stateQuiet_modifyPlayer _ _ _ quiet_start_move_cooldown)
  · exact stateQuiet_modifyPlayer _ _ _ quiet_start_move_cooldown
  · exact stateQuiet_refl _
  · exact stateQuiet_refl _

theorem game_phase_movement_quiet (st : GameState) (actions : Fin 2 → PlayerAction)
    (info : StepInfo) : StateQuiet st (game_phase_movement st actions info).1 := by
  unfold game_phase_movement
  exact stateQuiet_trans (foldl_quiet_state _ (movement_apply_step_quiet actions _) st)
    (foldl_quiet_pair _ collect_crystal_step_quiet _)

theorem game_phase_movement_fragged (st : GameState) (actions : Fin 2 → PlayerAction)
    (info : StepInfo) :
    (game_phase_movement st actions info).2.player_fragged = info.player_fragged := by
  unfold game_phase_movement
  simp only [foldl_playerIndices, collect_crystal_step_fragged]

theorem game_tick_timers_quiet (st : GameState) : StateQuiet st (game_tick_timers st) := by
  unfold game_tick_timers
  have h1 := foldl_quiet_state (fun s i => s.modifyPlayer i player_tick_cooldowns)
    (fun s i => stateQuiet_modifyPlayer s i _ quiet_tick_cooldowns) st
  exact stateQuiet_trans h1 (stateQuiet_of_players_eq rfl)

theorem game_check_win_conditions_quiet (st : GameState) :
    StateQuiet st (game_check_win_conditions st) :=
  stateQuiet_of_players_eq (game_check_win_conditions_players st)

theorem stats_player_respawn (p : Player) (c : Position) : StatsInRange (player_respawn p c) := by
  unfold player_respawn StatsInRange STARTING_HEALTH STARTING_ENERGY
  simp only []
  omega

theorem allStats_of_quiet {st st2 : GameState} (h : StateQuiet st st2)
    (hs : AllStatsInRange st) : AllStatsInRange st2 :=
  fun i => (h i).2 (hs i)

theorem allStats_modifyPlayer {st : GameState} (hs : AllStatsInRange st) (i : Fin 2)
    (f : Player → Player) (hf : StatsInRange (f (st.players i))) :
    AllStatsInRange (st.modifyPlayer i f) := by
  intro j
  rw [modifyPlayer_players]
  split_ifs with h
  · exact hf
  · exact hs j

theorem respawn_shooting_step_stats (acc : GameState × Nat × StepInfo) (i : Fin 2)
    (hs : AllStatsInRange acc.1) : AllStatsInRange (respawn_shooting_step acc i).1 := by
  unfold respawn_shooting_step
  simp only []
  split_ifs
  · dsimp only
    apply allStats_modifyPlayer
    · apply allStats_modifyPlayer hs
      exact hs _
    · exact stats_player_respawn _ _
  · exact hs

theorem respawn_movement_step_stats (acc : GameState × Nat × StepInfo) (i : Fin 2)
    (hs : AllStatsInRange acc.1) : AllStatsInRange (respawn_movement_step acc i).1 := by
  unfold respawn_movement_step
  simp only []
  split_ifs
  · dsimp only
    apply allStats_modifyPlayer
    · apply allStats_modifyPlayer hs
      exact hs _
    · exact stats_player_respawn _ _
  · exact hs

theorem step_respawned_stats (st : GameState) (rng_state : Nat) (actions : Fin 2 → PlayerAction)
    (hs : AllStatsInRange st) : AllStatsInRange (step_respawned st rng_state actions).1 := by
  unfold step_respawned
  simp only [foldl_playerIndices]
  apply respawn_movement_step_stats
  apply respawn_movement_step_stats
  apply allStats_of_quiet (game_phase_movement_quiet _ _ _)
  apply respawn_shooting_step_stats
  apply respawn_shooting_step_stats
  apply allStats_of_quiet (game_phase_shooting_quiet _ _ _)
  exact allStats_of_quiet (game_phase_collect_crystals_quiet _ _) hs

/-- C4: `game_step` preserves the stat ranges: when both players have
`0 <= health <= 4` and `0 <= energy <= 8` before the step, both have them after
it, whatever the actions. -/
theorem game_step_stats_in_range (st : GameState) (rng_state : Nat)
    (actions : Fin 2 → PlayerAction) (hs : AllStatsInRange st) :
    AllStatsInRange (game_step st rng_state actions).1 := by
  cases h : st.game_over
  · rw [game_step_running st rng_state actions h]
    apply allStats_of_quiet (game_check_win_conditions_quiet _)
    have h1 : AllStatsInRange (step_before_tick st rng_state actions) :=
      allStats_of_quiet (game_tick_timers_quiet _) (step_respawned_stats st rng_state actions hs)
    exact h1
  · unfold game_step
    simp [h, hs]

theorem opponentOf_ne (i : Fin 2) : opponentOf i ≠ i := by
  fin_cases i <;> decide

theorem opponentOf_opponentOf (i : Fin 2) : opponentOf (opponentOf i) = i := by
  fin_cases i <;> rfl

theorem eq_opponentOf_of_ne {i j : Fin 2} (h : j ≠ i) : j = opponentOf i := by
  fin_cases i <;> fin_cases j <;> first | rfl | exact absurd rfl h

theorem scoreAcct_of_quiet {st0 : GameState} {acc : GameState × Nat × StepInfo}
    {st2 : GameState} {info2 : StepInfo} (rng2 : Nat) (h : ScoreAcct st0 acc)
    (hq : StateQuiet acc.1 st2) (hf : info2.player_fragged = acc.2.2.player_fragged) :
    ScoreAcct st0 (st2, rng2, info2) := by
  intro i
  have := h i
  simp only [hf, (hq (opponentOf i)).1, this]

/-- One respawn, as both respawn passes perform it on a player whose
`player_fragged` flag is not yet set, keeps the frag accounting. -/
theorem scoreAcct_respawn {st0 : GameState} {acc : GameState × Nat × StepInfo} (k : Fin 2)
    (h : ScoreAcct st0 acc) (hk : acc.2.2.player_fragged k = false) (c : Position) (rng2 : Nat) :
    ScoreAcct st0
      (((acc.1.modifyPlayer (opponentOf k) (fun p => { p with score := p.score + 1 })).modifyPlayer
          k (fun p => player_respawn p c)), rng2,
        { acc.2.2 with player_fragged := setAt acc.2.2.player_fragged k true }) := by
  intro i
  have hi := h i
  by_cases hik : i = k
  · subst hik
    simp only [modifyPlayer_players, opponentOf_ne, if_false, if_true, setAt_same]
    rw [hi, hk]
    simp
  · have hk2 : opponentOf i = k := (eq_opponentOf_of_ne (Ne.symm hik)).symm
    have hne : k ≠ opponentOf k := (opponentOf_ne k).symm
    rw [hk2] at hi ⊢
    simp only [modifyPlayer_players, if_true, setAt_ne _ _ hik, if_neg hne, player_respawn]
    exact hi

theorem respawn_shooting_step_acct {st0 : GameState} (acc : GameState × Nat × StepInfo)
    (k : Fin 2) (h : ScoreAcct st0 acc) (hk : acc.2.2.player_fragged k = false) :
    ScoreAcct st0 (respawn_shooting_step acc k) := by
  unfold respawn_shooting_step
  simp only []
  split_ifs
  · exact scoreAcct_respawn k h hk _ _
  · exact h

theorem respawn_shooting_step_fragged_ne (acc : GameState × Nat × StepInfo) {k j : Fin 2}
    (hj : j ≠ k) :
    (respawn_shooting_step acc k).2.2.player_fragged j = acc.2.2.player_fragged j := by
  unfold respawn_shooting_step
  simp only []
  split_ifs
  · exact setAt_ne _ _ hj
  · rfl

theorem respawn_movement_step_acct {st0 : GameState} (acc : GameState × Nat × StepInfo)
    (k : Fin 2) (h : ScoreAcct st0 acc) :
    ScoreAcct st0 (respawn_movement_step acc k) := by
  unfold respawn_movement_step
  simp only []
  split_ifs with hc
  · simp only [Bool.and_eq_true, Bool.not_eq_true', ] at hc
    exact scoreAcct_respawn k h hc.2 _ _
  · exact h

theorem step_respawned_acct (st : GameState) (rng_state : Nat) (actions : Fin 2 → PlayerAction) :
    ScoreAcct st (step_respawned st rng_state actions) := by
  unfold step_respawned
  simp only [foldl_playerIndices]
  apply respawn_movement_step_acct
  apply respawn_movement_step_acct
  refine @scoreAcct_of_quiet _ (respawn_shooting_step (respawn_shooting_step _ 0) 1) _ _ _ ?_
    (game_phase_movement_quiet _ _ _) (game_phase_movement_fragged _ _ _)
  have hzero : (game_phase_shooting (game_phase_collect_crystals st StepInfo.zero).1 actions
      (game_phase_collect_crystals st StepInfo.zero).2).2.player_fragged = fun _ => false := by
    rw [game_phase_shooting_fragged, game_phase_collect_crystals_fragged]; rfl
  have h0 : ScoreAcct st
      ((game_phase_shooting (game_phase_collect_crystals st StepInfo.zero).1 actions
        (game_phase_collect_crystals st StepInfo.zero).2).1, rng_state,
       (game_phase_shooting (game_phase_collect_crystals st StepInfo.zero).1 actions
        (game_phase_collect_crystals st StepInfo.zero).2).2) := by
    intro i
    have hq := (stateQuiet_trans (game_phase_collect_crystals_quiet st StepInfo.zero)
      (game_phase_shooting_quiet _ actions
        (game_phase_collect_crystals st StepInfo.zero).2)) (opponentOf i)
    simp only [hzero, hq.1]
    simp
  apply respawn_shooting_step_acct
  · apply respawn_shooting_step_acct _ _ h0
    simp only [hzero]
  · rw [respawn_shooting_step_fragged_ne _ (by decide)]
    simp only [hzero]

/-- C6: after `game_step` the score of player `1 - i` is its previous score
plus 1 when the returned `player_fragged[i]` is set, and its previous score
otherwise; so no score decreases and no score rises by more than 1 in a step. -/
theorem game_step_frag_accounting (st : GameState) (rng_state : Nat)
    (actions : Fin 2 → PlayerAction) (i : Fin 2) :
    ((game_step st rng_state actions).1.players (opponentOf i)).score =
      (st.players (opponentOf i)).score +
        (if (game_step st rng_state actions).2.2.player_fragged i = true then 1 else 0) ∧
    (st.players (opponentOf i)).score ≤
      ((game_step st rng_state actions).1.players (opponentOf i)).score ∧
    ((game_step st rng_state actions).1.players (opponentOf i)).score ≤
      (st.players (opponentOf i)).score + 1 := by
  have key : ((game_step st rng_state actions).1.players (opponentOf i)).score =
      (st.players (opponentOf i)).score +
        (if (game_step st rng_state actions).2.2.player_fragged i = true then 1 else 0) := by
    cases h : st.game_over
    · rw [game_step_running st rng_state actions h]
      have hq := (stateQuiet_trans (game_tick_timers_quiet (step_respawned st rng_state actions).1)
        (@stateQuiet_of_players_eq _ (game_check_win_conditions
          { step_before_tick st rng_state actions with
            current_tick := (step_before_tick st rng_state actions).current_tick + 1 })
          (game_check_win_conditions_players _))) (opponentOf i)
      simp only []
      rw [hq.1]
      exact step_respawned_acct st rng_state actions i
    · unfold game_step
      simp [h, StepInfo.zero]
  refine ⟨key, ?_, ?_⟩
  · rw [key]; split_ifs <;> omega
  · rw [key]; split_ifs <;> omega

/-- C8, at a concrete input: at tick 7200 with scores 3 and 5 the game ends
and player 1 is the winner. -/
theorem game_check_win_conditions_timeout_witness :
    (timeoutState.players 0).score < WIN_SCORE ∧ (timeoutState.players 1).score < WIN_SCORE ∧
    timeoutState.current_tick ≥ EPISODE_LENGTH_TICKS ∧
    (game_check_win_conditions timeoutState).game_over = true ∧
    (game_check_win_conditions timeoutState).winner = 1 :=
  have h := game_check_win_conditions_timeout timeoutState (by decide) (by decide)
  ⟨by decide, by decide, by decide, (h.1 (by decide)).1, (h.1 (by decide)).2.2.1 (by decide)⟩

/-- C4, at a concrete input: the duel state is in range and stays in range
through the step in which both players are shot dead and respawned. -/
theorem game_step_stats_in_range_witness :
    AllStatsInRange duelState ∧ AllStatsInRange (game_step duelState 42 duelActions).1 :=
  ⟨by decide, game_step_stats_in_range duelState 42 duelActions (by decide)⟩

theorem find_playerIndices (p : Fin 2 → Bool) :
    playerIndices.find? p = if p 0 = true then some 0 else if p 1 = true then some 1 else none := by
  cases h0 : p 0 <;> cases h1 : p 1 <;> simp [playerIndices, List.find?, h0, h1]

theorem game_check_win_conditions_score (s : GameState) :
    ((s.players 0).score ≥ WIN_SCORE →
      (game_check_win_conditions s).game_over = true ∧ (game_check_win_conditions s).winner = 0) ∧
    ((s.players 0).score < WIN_SCORE → (s.players 1).score ≥ WIN_SCORE →
      (game_check_win_conditions s).game_over = true ∧
      (game_check_win_conditions s).winner = 1) := by
  constructor
  · intro h0
    simp [game_check_win_conditions, find_playerIndices, h0, indexInt]
  · intro h0 h1
    have h0' : ¬ (s.players 0).score ≥ WIN_SCORE := by omega
    simp [game_check_win_conditions, find_playerIndices, h0', h1, indexInt]

/-- C7 (amended): when a step of a running game returns, every player whose
score is at least WIN_SCORE has ended the game, and is the recorded winner
unless the other player has reached WIN_SCORE as well and is recorded
instead. -/
theorem game_step_score_win (st : GameState) (rng_state : Nat)
    (actions : Fin 2 → PlayerAction) (h : st.game_over = false) (i : Fin 2)
    (hi : ((game_step st rng_state actions).1.players i).score ≥ WIN_SCORE) :
    (game_step st rng_state actions).1.game_over = true ∧
    ((game_step st rng_state actions).1.winner = indexInt i ∨
      (((game_step st rng_state actions).1.players (opponentOf i)).score ≥ WIN_SCORE ∧
        (game_step st rng_state actions).1.winner = indexInt (opponentOf i))) := by
  rw [game_step_running st rng_state actions h] at hi ⊢
  simp only [] at hi ⊢
  generalize ({ step_before_tick st rng_state actions with
    current_tick := (step_before_tick st rng_state actions).current_tick + 1 } : GameState) = s
    at hi ⊢
  rw [game_check_win_conditions_players] at hi ⊢
  obtain ⟨hs0, hs1⟩ := game_check_win_conditions_score s
  rcases fin2_cases i with rfl | rfl
  · exact ⟨(hs0 hi).1, Or.inl (hs0 hi).2⟩
  · by_cases h0 : (s.players 0).score ≥ WIN_SCORE
    · exact ⟨(hs0 h0).1, Or.inr ⟨h0, (hs0 h0).2⟩⟩
    · have h0' : (s.players 0).score < WIN_SCORE := by omega
      exact ⟨(hs1 h0' hi).1, Or.inl (hs1 h0' hi).2⟩

set_option maxRecDepth 100000 in
/-- C7, counterexample: in the duel state (scores 7 and 7, health 1 each) both
players shoot each other; both scores reach 8 in the same tick and the
recorded winner is player 0, although player 1 also has score 8. -/
theorem score_win_tie_counterexample :
    duelState.game_over = false ∧
    ((game_step duelState 42 duelActions).1.players 0).score = 8 ∧
    ((game_step duelState 42 duelActions).1.players 1).score = 8 ∧
    ((game_step duelState 42 duelActions).1.players 1).score ≥ WIN_SCORE ∧
    (game_step duelState 42 duelActions).1.winner ≠ 1 := by
  decide

set_option maxRecDepth 100000 in
/-- C7 (amended), at a concrete input: the duel step ends the game with
player 0, whose score is 8, as the recorded winner. -/
theorem game_step_score_win_witness :
    duelState.game_over = false ∧
    ((game_step duelState 42 duelActions).1.players 0).score ≥ WIN_SCORE ∧
    (game_step duelState 42 duelActions).1.game_over = true :=
  ⟨by decide, by decide,
    (game_step_score_win duelState 42 duelActions (by decide) 0 (by decide)).1⟩

/-- C3, at the failing input: on the map `1 2` player 0 shoots player 1 off
the grid; player 1 is respawned in the first respawn pass, then moves Up out
of the grid and is left dead when `game_step` returns. -/
theorem game_step_leaves_player_dead :
    twoCellState.game_over = false ∧
    (twoCellState.players 0).alive = true ∧ (twoCellState.players 1).alive = true ∧
    (game_step twoCellState 12345 shootAndStepOut).2.2.player_fragged 1 = true ∧
    ((game_step twoCellState 12345 shootAndStepOut).1.players 1).alive = false := by
  decide

/-- C1, at the failing input: the map loads, has two spawn points, and
`game_init` puts both players, alive, on cells whose tile is Void. -/
theorem game_init_player_on_void :
    (arena_load_from_string zeroArena blankRowVoidMap).2 = true ∧
    (game_init zeroState blankRowVoidMap).arena.num_spawn_points = 2 ∧
    ((game_init zeroState blankRowVoidMap).players 0).alive = true ∧
    ((game_init zeroState blankRowVoidMap).players 0).pos = { x := 0, y := 1 } ∧
    arena_get_tile (game_init zeroState blankRowVoidMap).arena 0 1 = TileType.TILE_VOID ∧
    ((game_init zeroState blankRowVoidMap).players 1).alive = true ∧
    ((game_init zeroState blankRowVoidMap).players 1).pos = { x := 1, y := 1 } ∧
    arena_get_tile (game_init zeroState blankRowVoidMap).arena 1 1 = TileType.TILE_VOID := by
  decide

/-- C2, at the failing input: the map loads, has two spawn points, and
`game_init` puts both players, alive, on the same cell. -/
theorem game_init_players_same_cell :
    (arena_load_from_string zeroArena blankRowSameCellMap).2 = true ∧
    (game_init zeroState blankRowSameCellMap).arena.num_spawn_points = 2 ∧
    ((game_init zeroState blankRowSameCellMap).players 0).alive = true ∧
    ((game_init zeroState blankRowSameCellMap).players 1).alive = true ∧
    ((game_init zeroState blankRowSameCellMap).players 0).pos =
      ((game_init zeroState blankRowSameCellMap).players 1).pos := by
  decide

theorem arena_is_passable_frame {st st2 : GameState} (h : FrameEq st st2) (x y : Int) :
    arena_is_passable st2.arena x y = arena_is_passable st.arena x y := by
  obtain ⟨_, _, _, hw, hh, ht, _⟩ := h
  simp only [arena_is_passable, arena_get_tile, hw, hh, ht]

theorem arena_is_void_frame {st st2 : GameState} (h : FrameEq st st2) (x y : Int) :
    arena_is_void st2.arena x y = arena_is_void st.arena x y := by
  obtain ⟨_, _, _, hw, hh, ht, _⟩ := h
  simp only [arena_is_void, arena_get_tile, hw, hh, ht]

theorem twoFloorCells_frame {st st2 : GameState} (h : FrameEq st st2)
    (h2 : TwoFloorCells st.arena) : TwoFloorCells st2.arena := by
  obtain ⟨c1, c2, hne, h1, h2⟩ := h2
  exact ⟨c1, c2, hne, by rw [arena_is_passable_frame h]; exact h1,
    by rw [arena_is_passable_frame h]; exact h2⟩

theorem mem_intRange (n x : Int) : x ∈ intRange n ↔ 0 ≤ x ∧ x < n := by
  simp only [intRange, List.mem_map, List.mem_range]
  constructor
  · rintro ⟨k, hk, rfl⟩; omega
  · rintro ⟨h0, h1⟩
    exact ⟨x.toNat, by omega, by omega⟩

theorem passable_in_bounds (arena : Arena) (x y : Int)
    (h : arena_is_passable arena x y = true) :
    0 ≤ x ∧ x < arena.width ∧ 0 ≤ y ∧ y < arena.height := by
  simp only [arena_is_passable, arena_get_tile, decide_eq_true_eq] at h
  by_contra hc
  rw [if_pos (by omega)] at h
  cases h

theorem mem_respawn_candidates (st : GameState) (k : Fin 2) (far : Bool) (c : Position) :
    c ∈ respawn_candidates st k far ↔
      (arena_is_passable st.arena c.x c.y = true ∧
        (far = true → manhattan_distance c (st.players (opponentOf k)).pos
          ≥ RESPAWN_MIN_DISTANCE) ∧
        other_player_at st k c.x c.y = none) := by
  simp only [respawn_candidates, List.mem_flatMap, List.mem_map, List.mem_filter, mem_intRange,
    Bool.and_eq_true, Bool.or_eq_true, Bool.not_eq_true', decide_eq_true_eq,
    Option.isNone_iff_eq_none]
  constructor
  · rintro ⟨y, _, x, ⟨_, ⟨hp, hd⟩, ho⟩, rfl⟩
    refine ⟨hp, ?_, ho⟩
    intro hf
    rcases hd with hd | hd
    · rw [hf] at hd; cases hd
    · exact hd
  · rintro ⟨hp, hd, ho⟩
    obtain ⟨hx0, hx1, hy0, hy1⟩ := passable_in_bounds _ _ _ hp
    refine ⟨c.y, ⟨hy0, hy1⟩, c.x, ⟨⟨hx0, hx1⟩, ⟨hp, ?_⟩, ho⟩, rfl⟩
    cases far
    · left; rfl
    · right; exact hd rfl

/-- Where `game_find_respawn_position` puts a player when the arena has a
Floor cell that the other player does not occupy alive: on a Floor cell not
occupied by the other alive player. -/
theorem game_find_respawn_position_free (st : GameState) (rng_state : Nat) (k : Fin 2)
    (hfree : ∃ c : Position, arena_is_passable st.arena c.x c.y = true ∧
      other_player_at st k c.x c.y = none) :
    arena_is_passable st.arena (game_find_respawn_position st rng_state k).1.x
        (game_find_respawn_position st rng_state k).1.y = true ∧
      other_player_at st k (game_find_respawn_position st rng_state k).1.x
        (game_find_respawn_position st rng_state k).1.y = none := by
  obtain ⟨c, hc1, hc2⟩ := hfree
  have hmem : c ∈ respawn_candidates st k false :=
    (mem_respawn_candidates st k false c).2 ⟨hc1, fun h => Bool.noConfusion h, hc2⟩
  have hsub : ∀ d, d ∈ (if (respawn_candidates st k true).length = 0
      then respawn_candidates st k false else respawn_candidates st k true) →
      arena_is_passable st.arena d.x d.y = true ∧ other_player_at st k d.x d.y = none := by
    intro d hd
    split_ifs at hd
    · have := (mem_respawn_candidates st k false d).1 hd; exact ⟨this.1, this.2.2⟩
    · have := (mem_respawn_candidates st k true d).1 hd; exact ⟨this.1, this.2.2⟩
  have hlen : (if (respawn_candidates st k true).length = 0
      then respawn_candidates st k false else respawn_candidates st k true).length > 0 := by
    split_ifs with h0
    · exact List.length_pos_of_mem hmem
    · omega
  unfold game_find_respawn_position
  simp only []
  rw [dif_pos hlen]
  exact hsub _ (List.get_mem _ _ _)

theorem placeEq_refl (st : GameState) : PlaceEq st st := fun _ => ⟨rfl, rfl⟩

theorem placeEq_trans {a b c : GameState} (h1 : PlaceEq a b) (h2 : PlaceEq b c) : PlaceEq a c :=
  fun i => ⟨(h2 i).1.trans (h1 i).1, (h2 i).2.trans (h1 i).2⟩

theorem placeEq_symm {a b : GameState} (h : PlaceEq a b) : PlaceEq b a :=
  fun i => ⟨(h i).1.symm, (h i).2.symm⟩

theorem placeEq_modifyPlayer (st : GameState) (i : Fin 2) (f : Player → Player)
    (hf : ∀ p, (f p).pos = p.pos ∧ (f p).alive = p.alive) : PlaceEq st (st.modifyPlayer i f) := by
  intro j
  rw [modifyPlayer_players]
  split_ifs with h
  · subst h; exact hf _
  · exact ⟨rfl, rfl⟩

theorem placeEq_of_players_eq {st st2 : GameState} (h : st2.players = st.players) :
    PlaceEq st st2 := by
  intro i; rw [h]; exact ⟨rfl, rfl⟩

theorem place_restore_energy (p : Player) :
    (player_restore_energy p MAX_ENERGY).pos = p.pos ∧
      (player_restore_energy p MAX_ENERGY).alive = p.alive := by
  unfold player_restore_energy; simp only []; split_ifs <;> exact ⟨rfl, rfl⟩

theorem place_use_energy (p : Player) :
    (player_use_energy p 1).1.pos = p.pos ∧ (player_use_energy p 1).1.alive = p.alive := by
  unfold player_use_energy; split_ifs <;> exact ⟨rfl, rfl⟩

theorem place_tick_cooldowns (p : Player) :
    (player_tick_cooldowns p).pos = p.pos ∧ (player_tick_cooldowns p).alive = p.alive := by
  unfold player_tick_cooldowns; simp only []; split_ifs <;> exact ⟨rfl, rfl⟩

theorem foldl_place_state (f : GameState → Fin 2 → GameState)
    (h : ∀ s i, PlaceEq s (f s i)) (st : GameState) :
    PlaceEq st (playerIndices.foldl f st) := by
  rw [foldl_playerIndices]
  exact placeEq_trans (h _ 0) (h _ 1)

theorem foldl_place_pair {β : Type} (f : GameState × β → Fin 2 → GameState × β)
    (h : ∀ a i, PlaceEq a.1 (f a i).1) (a : GameState × β) :
    PlaceEq a.1 (playerIndices.foldl f a).1 := by
  rw [foldl_playerIndices]
  exact placeEq_trans (h _ 0) (h _ 1)

theorem collect_crystal_step_place (acc : GameState × StepInfo) (i : Fin 2) :
    PlaceEq acc.1 (collect_crystal_step acc i).1 := by
  unfold collect_crystal_step
  simp only []
  split_ifs
  · exact placeEq_refl _
  · exact placeEq_trans (placeEq_modifyPlayer _ _ _ place_restore_energy)
      (placeEq_of_players_eq rfl)
  · exact placeEq_refl _

theorem game_phase_collect_crystals_place (st : GameState) (info : StepInfo) :
    PlaceEq st (game_phase_collect_crystals st info).1 :=
  foldl_place_pair _ collect_crystal_step_place (st, info)

theorem shooting_fire_step_place (actions : Fin 2 → PlayerAction)
    (acc : GameState × ShootingLocals) (i : Fin 2) :
    PlaceEq acc.1 (shooting_fire_step actions acc i).1 := by
  unfold shooting_fire_step
  simp only []
  split_ifs
  · exact placeEq_trans (placeEq_modifyPlayer _ _ _ place_use_energy)
      (placeEq_modifyPlayer _ _ _ (fun _ => ⟨rfl, rfl⟩))
  · exact placeEq_refl _
  · exact placeEq_refl _

theorem game_tick_timers_place (st : GameState) : PlaceEq st (game_tick_timers st) := by
  unfold game_tick_timers
  have h1 := foldl_place_state (fun s i => s.modifyPlayer i player_tick_cooldowns)
    (fun s i => placeEq_modifyPlayer s i _ place_tick_cooldowns) st
  exact placeEq_trans h1 (placeEq_of_players_eq rfl)

/-- The placement invariant passes to a state with the same grid in which
every alive player was alive before and stands where it stood. -/
theorem wellPlaced_shrink {st st2 : GameState} (hf : FrameEq st st2)
    (hp : ∀ i : Fin 2, (st2.players i).alive = true →
      ((st.players i).alive = true ∧ (st2.players i).pos = (st.players i).pos))
    (h : WellPlaced st) : WellPlaced st2 := by
  constructor
  · intro i hi
    obtain ⟨ha, hpos⟩ := hp i hi
    rw [arena_is_passable_frame hf, hpos]
    exact h.1 i ha
  · intro h0 h1
    obtain ⟨ha0, hp0⟩ := hp 0 h0
    obtain ⟨ha1, hp1⟩ := hp 1 h1
    rw [hp0, hp1]
    exact h.2 ha0 ha1

theorem wellPlaced_placeEq {st st2 : GameState} (hf : FrameEq st st2) (hp : PlaceEq st st2)
    (h : WellPlaced st) : WellPlaced st2 :=
  wellPlaced_shrink hf (fun i hi => ⟨by rw [← (hp i).2]; exact hi, (hp i).1⟩) h

theorem other_player_at_place {st st2 : GameState} (hp : PlaceEq st st2) (k : Fin 2) (x y : Int) :
    other_player_at st2 k x y = other_player_at st k x y := by
  simp only [other_player_at_eq, (hp _).1, (hp _).2]

/-- A respawn onto a Floor cell that the other player does not occupy alive
keeps the placement invariant and leaves the respawned player alive. -/
theorem wellPlaced_respawn {st : GameState} (k : Fin 2) (c : Position) (h : WellPlaced st)
    (hc : arena_is_passable st.arena c.x c.y = true) (ho : other_player_at st k c.x c.y = none) :
    WellPlaced (st.modifyPlayer k (fun p => player_respawn p c)) := by
  rw [other_player_at_eq] at ho
  have hno : ¬ ((st.players (opponentOf k)).alive = true ∧ (st.players (opponentOf k)).pos = c) := by
    intro hh
    rw [if_pos (by cases c; exact hh)] at ho
    cases ho
  constructor
  · intro i hi
    rw [modifyPlayer_players] at hi ⊢
    split_ifs at hi ⊢ with hik
    · exact hc
    · exact h.1 i hi
  · intro h0 h1
    rcases fin2_cases k with rfl | rfl
    · have h10 : ¬ ((1 : Fin 2) = 0) := by decide
      simp only [modifyPlayer_players, if_neg h10, if_true, player_respawn] at h1 ⊢
      intro heq
      exact hno ⟨h1, heq.symm⟩
    · have h01 : ¬ ((0 : Fin 2) = 1) := by decide
      simp only [modifyPlayer_players, if_neg h01, if_true, player_respawn] at h0 ⊢
      intro heq
      exact hno ⟨h0, heq⟩

theorem exists_free_cell (st : GameState) (k : Fin 2) (h2 : TwoFloorCells st.arena) :
    ∃ c : Position, arena_is_passable st.arena c.x c.y = true ∧
      other_player_at st k c.x c.y = none := by
  obtain ⟨c1, c2, hne, h1, h2⟩ := h2
  by_cases hocc : (st.players (opponentOf k)).alive = true ∧ (st.players (opponentOf k)).pos = c1
  · refine ⟨c2, h2, ?_⟩
    rw [other_player_at_eq, if_neg]
    rintro ⟨_, hp⟩
    apply hne
    rw [← hocc.2, hp]
  · refine ⟨c1, h1, ?_⟩
    rw [other_player_at_eq, if_neg]
    exact hocc

/-- The body both respawn passes run for a dead player keeps the placement
invariant. -/
theorem wellPlaced_frag_respawn (st : GameState) (rng_state : Nat) (k : Fin 2)
    (h2 : TwoFloorCells st.arena) (h : WellPlaced st) :
    WellPlaced
      ((st.modifyPlayer (opponentOf k) (fun p => { p with score := p.score + 1 })).modifyPlayer k
        (fun p => player_respawn p
          (game_find_respawn_position
            (st.modifyPlayer (opponentOf k) (fun p => { p with score := p.score + 1 }))
            rng_state k).1)) := by
  have hpe : PlaceEq st (st.modifyPlayer (opponentOf k) (fun p => { p with score := p.score + 1 })) :=
    placeEq_modifyPlayer _ _ _ (fun _ => ⟨rfl, rfl⟩)
  have hfe : FrameEq st (st.modifyPlayer (opponentOf k) (fun p => { p with score := p.score + 1 })) :=
    frameEq_modifyPlayer _ _ _
  have hw1 := wellPlaced_placeEq hfe hpe h
  obtain ⟨hc, ho⟩ := game_find_respawn_position_free _ rng_state k
    (exists_free_cell _ k (twoFloorCells_frame hfe h2))
  exact wellPlaced_respawn k _ hw1 hc ho

theorem respawn_shooting_step_wellPlaced (acc : GameState × Nat × StepInfo) (k : Fin 2)
    (h2 : TwoFloorCells acc.1.arena) (h : WellPlaced acc.1) :
    WellPlaced (respawn_shooting_step acc k).1 := by
  unfold respawn_shooting_step
  simp only []
  split_ifs
  · exact wellPlaced_frag_respawn _ _ k h2 h
  · exact h

theorem respawn_movement_step_wellPlaced (acc : GameState × Nat × StepInfo) (k : Fin 2)
    (h2 : TwoFloorCells acc.1.arena) (h : WellPlaced acc.1) :
    WellPlaced (respawn_movement_step acc k).1 := by
  unfold respawn_movement_step
  simp only []
  split_ifs
  · exact wellPlaced_frag_respawn _ _ k h2 h
  · exact h

theorem respawn_shooting_step_alive (acc : GameState × Nat × StepInfo) (k j : Fin 2)
    (hj : j = k ∨ (acc.1.players j).alive = true) :
    ((respawn_shooting_step acc k).1.players j).alive = true := by
  unfold respawn_shooting_step
  simp only []
  split_ifs with hd
  · simp only [modifyPlayer_players]
    by_cases h1 : j = k
    · rw [if_pos h1]; rfl
    · rw [if_neg h1]
      have hja : (acc.1.players j).alive = true := by
        rcases hj with hj | hj
        · exact absurd hj h1
        · exact hj
      split_ifs with h2
      · rw [← h2]; exact hja
      · exact hja
  · rcases hj with hj | hj
    · subst hj
      simpa using hd
    · exact hj

/-- After the respawn pass that follows shooting both players are alive. -/
theorem respawn_pass_shooting_alive (acc : GameState × Nat × StepInfo) (j : Fin 2) :
    ((playerIndices.foldl respawn_shooting_step acc).1.players j).alive = true := by
  rw [foldl_playerIndices]
  rcases fin2_cases j with rfl | rfl
  · exact respawn_shooting_step_alive _ 1 0
      (Or.inr (respawn_shooting_step_alive acc 0 0 (Or.inl rfl)))
  · exact respawn_shooting_step_alive _ 1 1 (Or.inl rfl)

theorem playerIndex_indexInt (i : Fin 2) : playerIndex (indexInt i) = some i := by
  rcases fin2_cases i with rfl | rfl <;> rfl

theorem passable_of_not_void_wall (arena : Arena) (x y : Int)
    (hv : arena_is_void arena x y = false) (hw : arena_is_wall arena x y = false) :
    arena_is_passable arena x y = true := by
  simp only [arena_is_void, arena_is_wall, arena_is_passable, decide_eq_false_iff_not,
    decide_eq_true_eq] at *
  cases h : arena_get_tile arena x y
  · rfl
  · exact absurd h hw
  · exact absurd h hv

/-- A laser result that reports a Player hit, read on the state it was
computed from. -/
theorem combat_fire_laser_hit_facts (sx : GameState) (i : Fin 2) (dir : Direction)
    (hdir : dir ≠ Direction.DIR_NONE)
    (hhit : (combat_fire_laser sx i dir).hit_type = LaserHitType.LASER_HIT_PLAYER) :
    ∃ k : Nat, 1 ≤ k ∧ (sx.players (opponentOf i)).alive = true ∧
      (sx.players (opponentOf i)).pos = ray_cell (sx.players i).pos dir k ∧
      playerIndex (combat_fire_laser sx i dir).target_player = some (opponentOf i) ∧
      ((combat_fire_laser sx i dir).target_fragged = false →
        ((combat_fire_laser sx i dir).pushback_to = (sx.players (opponentOf i)).pos ∨
          ((combat_fire_laser sx i dir).pushback_to
              = position_add_direction (sx.players (opponentOf i)).pos dir ∧
            arena_is_passable sx.arena (combat_fire_laser sx i dir).pushback_to.x
              (combat_fire_laser sx i dir).pushback_to.y = true ∧
            ((sx.players i).alive = true →
              (combat_fire_laser sx i dir).pushback_to ≠ (sx.players i).pos)))) := by
  have heq := combat_fire_laser_eq sx i dir
  simp only [combat_fire_laser_fuel, hdir, if_false] at heq
  obtain ⟨k, hk1, _, _, hstop, hpos, htype, htgt, hpb, _⟩ :=
    laser_loop_spec sx i dir _ _ _ _ _ heq
  rw [hhit] at htype
  have hcell : (sx.players (opponentOf i)).alive = true ∧
      (sx.players (opponentOf i)).pos = ray_cell (sx.players i).pos dir k := by
    unfold laser_hit_kind at htype
    unfold laser_stops at hstop
    unfold ray_cell
    split_ifs at htype with h1 h2
    simp only [Bool.not_eq_false] at h1
    simp only [Bool.not_eq_true] at h2
    simpa [h1, h2] using hstop
  refine ⟨k, hk1, hcell.1, hcell.2, ?_, ?_⟩
  · rw [htgt, if_pos hhit]; exact playerIndex_indexInt _
  · intro hfr
    have hpb2 := hpb hhit
    rw [show PUSHBACK_DISTANCE = 1 from rfl, pushback_one_step] at hpb2
    simp only [opponentOf_opponentOf] at hpb2
    split_ifs at hpb2 with hA hB
    · rw [Prod.mk.injEq] at hpb2
      rw [hpb2.2] at hfr; cases hfr
    · rw [Prod.mk.injEq] at hpb2
      left; exact hpb2.1
    · rw [Prod.mk.injEq] at hpb2
      right
      refine ⟨hpb2.1, ?_, ?_⟩
      · rw [hpb2.1]
        apply passable_of_not_void_wall
        · cases hv : arena_is_void sx.arena
            (position_add_direction (sx.players (opponentOf i)).pos dir).x
            (position_add_direction (sx.players (opponentOf i)).pos dir).y
          · rfl
          · exact absurd (Or.inl hv) hA
        · cases hw : arena_is_wall sx.arena
            (position_add_direction (sx.players (opponentOf i)).pos dir).x
            (position_add_direction (sx.players (opponentOf i)).pos dir).y
          · rfl
          · exact absurd (Or.inl hw) hB
      · intro hal heq2
        apply hB
        right
        exact ⟨hal, by rw [← heq2, hpb2.1]⟩

theorem hitFacts_congr {a b : GameState} (hp : PlaceEq a b) (hf : FrameEq a b)
    (loc : ShootingLocals) (i : Fin 2) (h : HitFacts a loc i) : HitFacts b loc i := by
  intro hs
  obtain ⟨dir, k, h1, h2, h3, h4, h5, h6, h7⟩ := h hs
  refine ⟨dir, k, h1, h2, ?_, ?_, ?_, h6, ?_⟩
  · rw [(hp i).2]; exact h3
  · rw [(hp _).2]; exact h4
  · rw [(hp _).1, (hp _).1]; exact h5
  · rw [(hp _).1, (hp _).1, arena_is_passable_frame hf]; exact h7

theorem player_can_shoot_alive (p : Player) (h : player_can_shoot p = true) : p.alive = true := by
  simp only [player_can_shoot, Bool.and_eq_true] at h
  exact h.1.1

theorem shooting_fire_step_hitFacts (actions : Fin 2 → PlayerAction)
    (acc : GameState × ShootingLocals) (k : Fin 2)
    (h : ∀ i, HitFacts acc.1 acc.2 i) :
    ∀ i, HitFacts (shooting_fire_step actions acc k).1 (shooting_fire_step actions acc k).2 i := by
  have hpe := shooting_fire_step_place actions acc k
  have hfe := shooting_fire_step_frame actions acc k
  intro i
  unfold shooting_fire_step at hpe hfe ⊢
  simp only [] at hpe hfe ⊢
  split_ifs at hpe hfe ⊢ with hc hu
  · by_cases hik : i = k
    · subst hik
      intro hs
      simp only [shot_hit, setAt_same, Bool.true_and, decide_eq_true_eq] at hs
      obtain ⟨m, hm1, hm2, hm3, hm4, hm5⟩ := combat_fire_laser_hit_facts _ i _ hc.1 hs
      have hal : (acc.1.players i).alive = true := player_can_shoot_alive _ hc.2
      refine ⟨_, m, hc.1, hm1, ?_, hm2, hm3, ?_, ?_⟩
      · rw [(hpe i).2]; exact hal
      · simp only [setAt_same]; exact hm4
      · simp only [setAt_same]
        intro hfr
        rcases hm5 hfr with h1 | ⟨h1, h2, h3⟩
        · left; exact h1
        · right; exact ⟨h1, h2, h3 (by rw [(hpe i).2]; exact hal)⟩
    · have hold := hitFacts_congr hpe hfe acc.2 i (h i)
      intro hs
      simp only [shot_hit, setAt_ne _ _ hik] at hs
      obtain ⟨dir, m, h1, h2, h3, h4, h5, h6, h7⟩ := hold hs
      refine ⟨dir, m, h1, h2, h3, h4, h5, ?_, ?_⟩
      · simp only [setAt_ne _ _ hik]; exact h6
      · simp only [setAt_ne _ _ hik]; exact h7
  · exact h i
  · exact h i

theorem game_phase_shooting_hitFacts (st : GameState) (actions : Fin 2 → PlayerAction) :
    ∀ i, HitFacts (playerIndices.foldl (shooting_fire_step actions) (st, shooting_locals_init)).1
      (playerIndices.foldl (shooting_fire_step actions) (st, shooting_locals_init)).2 i := by
  rw [foldl_playerIndices]
  apply shooting_fire_step_hitFacts
  apply shooting_fire_step_hitFacts
  intro i hs
  simp [shot_hit, shooting_locals_init] at hs

/-- Two players that are each on the other's ray are pushed to different
cells by the two shots. -/
theorem pushback_cells_ne (p0 p1 : Position) (d0 d1 : Direction) (k m : Nat)
    (hd0 : d0 ≠ Direction.DIR_NONE) (hd1 : d1 ≠ Direction.DIR_NONE) (hk : 1 ≤ k) (hm : 1 ≤ m)
    (h1 : p1 = ray_cell p0 d0 k) (h0 : p0 = ray_cell p1 d1 m) :
    position_add_direction p0 d1 ≠ position_add_direction p1 d0 := by
  obtain ⟨x0, y0⟩ := p0
  obtain ⟨x1, y1⟩ := p1
  simp only [ray_cell, step_cell, Position.mk.injEq] at h0 h1
  cases d0 <;> cases d1 <;>
    first
    | exact absurd rfl hd0
    | exact absurd rfl hd1
    | (simp only [get_direction_delta, position_add_direction, Position.mk.injEq, ne_eq] at h0 h1 ⊢
       omega)

theorem shooting_damage_step_shrink (loc : ShootingLocals) (acc : GameState × StepInfo)
    (i j : Fin 2) :
    ((shooting_damage_step loc acc i).1.players j).pos = (acc.1.players j).pos ∧
      (((shooting_damage_step loc acc i).1.players j).alive = true →
        (acc.1.players j).alive = true) := by
  have hd : ∀ p : Player, (player_take_damage p LASER_DAMAGE).pos = p.pos ∧
      ((player_take_damage p LASER_DAMAGE).alive = true → p.alive = true) := by
    intro p
    unfold player_take_damage
    simp only []
    split_ifs
    · exact ⟨rfl, fun hh => by cases hh⟩
    · exact ⟨rfl, id⟩
  unfold shooting_damage_step
  split
  · split
    · exact ⟨rfl, id⟩
    · rename_i t _
      simp only [modifyPlayer_players]
      by_cases h : j = t
      · rw [if_pos h, h]; exact hd _
      · rw [if_neg h]; exact ⟨rfl, id⟩
  · exact ⟨rfl, id⟩

theorem shooting_pushback_step_shooter (loc : ShootingLocals) (st : GameState) (i : Fin 2)
    (ht : shot_hit loc i = true → playerIndex (loc.results i).target_player = some (opponentOf i)) :
    (shooting_pushback_step loc st i).players i = st.players i := by
  unfold shooting_pushback_step
  by_cases hs : shot_hit loc i = true
  · rw [if_pos hs, ht hs]
    simp only []
    have hne : i ≠ opponentOf i := (opponentOf_ne i).symm
    by_cases h1 : (st.players (opponentOf i)).alive = true
    · rw [if_pos h1]
      by_cases h2 : (loc.results i).target_fragged = true
      · rw [if_pos h2, modifyPlayer_players, if_neg hne]
      · rw [if_neg h2, modifyPlayer_players, if_neg hne]
    · rw [if_neg h1]
  · rw [if_neg hs]

theorem shooting_pushback_step_target (loc : ShootingLocals) (st : GameState) (i : Fin 2)
    (ht : shot_hit loc i = true → playerIndex (loc.results i).target_player = some (opponentOf i))
    (ha : ((shooting_pushback_step loc st i).players (opponentOf i)).alive = true) :
    (st.players (opponentOf i)).alive = true ∧
      (((shooting_pushback_step loc st i).players (opponentOf i)).pos
          = (st.players (opponentOf i)).pos ∨
        (shot_hit loc i = true ∧ (loc.results i).target_fragged = false ∧
          ((shooting_pushback_step loc st i).players (opponentOf i)).pos
            = (loc.results i).pushback_to)) := by
  unfold shooting_pushback_step at ha ⊢
  by_cases hs : shot_hit loc i = true
  · rw [if_pos hs, ht hs] at ha ⊢
    simp only [] at ha ⊢
    by_cases h1 : (st.players (opponentOf i)).alive = true
    · rw [if_pos h1] at ha ⊢
      by_cases h2 : (loc.results i).target_fragged = true
      · rw [if_pos h2, modifyPlayer_players, if_pos rfl] at ha
        cases ha
      · rw [if_neg h2, modifyPlayer_players, if_pos rfl]
        exact ⟨h1, Or.inr ⟨hs, by simpa using h2, rfl⟩⟩
    · rw [if_neg h1] at ha ⊢
      exact ⟨ha, Or.inl rfl⟩
  · rw [if_neg hs] at ha ⊢
    exact ⟨ha, Or.inl rfl⟩

/-- Where an alive player stands after the pushback loop: where it stood, or
on the pushback cell of the other player's non-fragging hit. -/
theorem shooting_pushback_fold (loc : ShootingLocals) (st : GameState)
    (ht : ∀ i, shot_hit loc i = true →
      playerIndex (loc.results i).target_player = some (opponentOf i))
    (j : Fin 2)
    (ha : ((playerIndices.foldl (shooting_pushback_step loc) st).players j).alive = true) :
    (st.players j).alive = true ∧
      (((playerIndices.foldl (shooting_pushback_step loc) st).players j).pos = (st.players j).pos ∨
        (shot_hit loc (opponentOf j) = true ∧ (loc.results (opponentOf j)).target_fragged = false ∧
          ((playerIndices.foldl (shooting_pushback_step loc) st).players j).pos
            = (loc.results (opponentOf j)).pushback_to)) := by
  rw [foldl_playerIndices] at ha ⊢
  rcases fin2_cases j with rfl | rfl
  · have h1 := shooting_pushback_step_target loc (shooting_pushback_step loc st 0) 1 (ht 1) ha
    have h0 := shooting_pushback_step_shooter loc st 0 (ht 0)
    rw [show opponentOf 1 = 0 from rfl, h0] at h1
    exact h1
  · have h1 := shooting_pushback_step_shooter loc (shooting_pushback_step loc st 0) 1 (ht 1)
    rw [h1] at ha ⊢
    exact shooting_pushback_step_target loc st 0 (ht 0) ha

theorem frameEq_symm {a b : GameState} (h : FrameEq a b) : FrameEq b a := by
  obtain ⟨a1, a2, a3, a4, a5, a6, a7, a8, a9, a10⟩ := h
  exact ⟨a1.symm, a2.symm, a3.symm, a4.symm, a5.symm, a6.symm, a7.symm, fun i => (a8 i).symm,
    a9.symm, a10.symm⟩

/-- The placement invariant after the pushback loop, from the hit facts of the
state the shots were traced on. -/
theorem wellPlaced_after_pushback (s fin : GameState) (loc : ShootingLocals)
    (hw : WellPlaced s) (hfe : FrameEq s fin) (hfacts : ∀ i, HitFacts s loc i)
    (hfin : ∀ j, (fin.players j).alive = true →
      (s.players j).alive = true ∧
        ((fin.players j).pos = (s.players j).pos ∨
          (shot_hit loc (opponentOf j) = true ∧
            (loc.results (opponentOf j)).target_fragged = false ∧
            (fin.players j).pos = (loc.results (opponentOf j)).pushback_to))) :
    WellPlaced fin := by
  have o01 : opponentOf 0 = 1 := rfl
  have o10 : opponentOf 1 = 0 := rfl
  constructor
  · intro j hj
    rw [arena_is_passable_frame hfe]
    obtain ⟨ha, hpos | ⟨hs, hfr, hpos⟩⟩ := hfin j hj
    · rw [hpos]; exact hw.1 j ha
    · obtain ⟨dir, k, _, _, _, _, _, _, h7⟩ := hfacts (opponentOf j) hs
      rw [opponentOf_opponentOf] at h7
      rcases h7 hfr with h8 | ⟨_, h8, _⟩
      · rw [hpos, h8]; exact hw.1 j ha
      · rw [hpos]; exact h8
  · intro h0 h1
    obtain ⟨ha0, hp0⟩ := hfin 0 h0
    obtain ⟨ha1, hp1⟩ := hfin 1 h1
    have hinv := hw.2 ha0 ha1
    rw [o01] at hp0
    rw [o10] at hp1
    rcases hp0 with hp0 | ⟨hs1, hfr1, hp0⟩ <;> rcases hp1 with hp1 | ⟨hs0, hfr0, hp1⟩
    · rw [hp0, hp1]; exact hinv
    · obtain ⟨dir, k, _, _, _, _, _, _, h7⟩ := hfacts 0 hs0
      rw [o01] at h7
      rw [hp0, hp1]
      rcases h7 hfr0 with h8 | ⟨_, _, h8⟩
      · rw [h8]; exact hinv
      · exact fun hh => h8 hh.symm
    · obtain ⟨dir, k, _, _, _, _, _, _, h7⟩ := hfacts 1 hs1
      rw [o10] at h7
      rw [hp0, hp1]
      rcases h7 hfr1 with h8 | ⟨_, _, h8⟩
      · rw [h8]; exact hinv
      · exact h8
    · obtain ⟨d0, k0, hd0, hk0, _, _, hray0, _, h70⟩ := hfacts 0 hs0
      obtain ⟨d1, k1, hd1, hk1, _, _, hray1, _, h71⟩ := hfacts 1 hs1
      rw [o01] at h70 hray0
      rw [o10] at h71 hray1
      rw [hp0, hp1]
      rcases h70 hfr0 with h80 | ⟨h80, _, h80n⟩ <;> rcases h71 hfr1 with h81 | ⟨h81, _, h81n⟩
      · rw [h80, h81]; exact hinv
      · rw [h80]; exact h81n
      · rw [h81]; exact fun hh => h80n hh.symm
      · rw [h80, h81]
        exact pushback_cells_ne _ _ d0 d1 k0 k1 hd0 hd1 hk0 hk1 hray0 hray1

/-- The shooting phase keeps the placement invariant. -/
theorem game_phase_shooting_wellPlaced (st : GameState) (actions : Fin 2 → PlayerAction)
    (info : StepInfo) (h : WellPlaced st) : WellPlaced (game_phase_shooting st actions info).1 := by
  have hframe := game_phase_shooting_frame st actions info
  unfold game_phase_shooting at hframe ⊢
  simp only [] at hframe ⊢
  generalize hfired : playerIndices.foldl (shooting_fire_step actions) (st, shooting_locals_init)
    = fired at hframe ⊢
  have hfacts := game_phase_shooting_hitFacts st actions
  rw [hfired] at hfacts
  have hpe1 : PlaceEq st fired.1 := by
    rw [← hfired]; exact foldl_place_pair _ (shooting_fire_step_place actions) _
  have hfe1 : FrameEq st fired.1 := by
    rw [← hfired]; exact foldl_frame_pair _ (shooting_fire_step_frame actions) _
  have hw1 : WellPlaced fired.1 := wellPlaced_placeEq hfe1 hpe1 h
  generalize hdam : playerIndices.foldl (shooting_damage_step fired.2) (fired.1, info)
    = damaged at hframe ⊢
  have hshr : ∀ j, (damaged.1.players j).pos = (fired.1.players j).pos ∧
      ((damaged.1.players j).alive = true → (fired.1.players j).alive = true) := by
    intro j
    rw [← hdam, foldl_playerIndices]
    have a := shooting_damage_step_shrink fired.2 (fired.1, info) 0 j
    have b := shooting_damage_step_shrink fired.2
      (shooting_damage_step fired.2 (fired.1, info) 0) 1 j
    exact ⟨b.1.trans a.1, fun hh => a.2 (b.2 hh)⟩
  have htgt : ∀ i, shot_hit fired.2 i = true →
      playerIndex (fired.2.results i).target_player = some (opponentOf i) := by
    intro i hs
    obtain ⟨_, _, _, _, _, _, _, h6, _⟩ := hfacts i hs
    exact h6
  apply wellPlaced_after_pushback fired.1 _ fired.2 hw1
    (frameEq_trans (frameEq_symm hfe1) hframe) hfacts
  intro j hj
  obtain ⟨ha, hpos⟩ := shooting_pushback_fold fired.2 damaged.1 htgt j hj
  refine ⟨(hshr j).2 ha, ?_⟩
  rw [← (hshr j).1]
  exact hpos

theorem movement_block_inner_intended (st : GameState) (i : Fin 2) (loc : MovementLocals)
    (j : Fin 2) : (movement_block_inner st i loc j).intended = loc.intended := by
  unfold movement_block_inner
  split_ifs <;> rfl

theorem movement_block_inner_self (st : GameState) (i : Fin 2) (loc : MovementLocals) :
    movement_block_inner st i loc i = loc := by
  unfold movement_block_inner
  rw [if_pos rfl]

theorem movement_block_inner_wants (st : GameState) (i j : Fin 2) (hij : i ≠ j)
    (loc : MovementLocals) (k : Fin 2) :
    (movement_block_inner st i loc j).wants_move k =
      (if k = i ∧ (st.players j).alive = true ∧ loc.intended i = (st.players j).pos ∧
          (loc.wants_move j = false ∨ loc.intended j = (st.players j).pos)
       then false else loc.wants_move k) := by
  have hpos : ∀ a b : Position, (a.x = b.x ∧ a.y = b.y) ↔ a = b := by
    intro a b; cases a; cases b; simp
  unfold movement_block_inner
  rw [if_neg hij]
  simp only [hpos]
  by_cases ha : (st.players j).alive = true
  · by_cases h1 : loc.intended i = (st.players j).pos
    · by_cases h2 : loc.wants_move j = false ∨ loc.intended j = (st.players j).pos
      · simp only [ha, h1, h2, Bool.not_true, Bool.false_eq_true, if_false, if_true, and_true,
          and_self, setAt_apply]
      · simp [ha, h1, h2]
    · simp [ha, h1]
  · simp [ha]

/-- The moving-into-the-opponent check, as one case distinction for each
player: player 0 is decided first, and player 1 sees the outcome. -/
theorem movement_block_fold (st : GameState) (loc : MovementLocals) :
    (playerIndices.foldl (movement_block_step st) loc).intended = loc.intended ∧
    (playerIndices.foldl (movement_block_step st) loc).wants_move 0 =
      (loc.wants_move 0 &&
        !decide ((st.players 1).alive = true ∧ loc.intended 0 = (st.players 1).pos ∧
          (loc.wants_move 1 = false ∨ loc.intended 1 = (st.players 1).pos))) ∧
    (playerIndices.foldl (movement_block_step st) loc).wants_move 1 =
      (loc.wants_move 1 &&
        !decide ((st.players 0).alive = true ∧ loc.intended 1 = (st.players 0).pos ∧
          ((playerIndices.foldl (movement_block_step st) loc).wants_move 0 = false ∨
            loc.intended 0 = (st.players 0).pos))) := by
  have h01 : (0 : Fin 2) ≠ 1 := by decide
  have h10 : (1 : Fin 2) ≠ 0 := by decide
  have step0 : (movement_block_step st loc 0).intended = loc.intended ∧
      (movement_block_step st loc 0).wants_move 1 = loc.wants_move 1 ∧
      (movement_block_step st loc 0).wants_move 0 =
        (loc.wants_move 0 &&
          !decide ((st.players 1).alive = true ∧ loc.intended 0 = (st.players 1).pos ∧
            (loc.wants_move 1 = false ∨ loc.intended 1 = (st.players 1).pos))) := by
    unfold movement_block_step
    cases hw : loc.wants_move 0
    · simp [hw]
    · simp only [Bool.not_true, Bool.false_eq_true, if_false, foldl_playerIndices,
        movement_block_inner_self, movement_block_inner_intended,
        movement_block_inner_wants st 0 1 h01, hw, Bool.true_and]
      refine ⟨trivial, ?_, ?_⟩
      · simp [h10]
      · by_cases hc : (st.players 1).alive = true ∧ loc.intended 0 = (st.players 1).pos ∧
            (loc.wants_move 1 = false ∨ loc.intended 1 = (st.players 1).pos)
        · simp [hc]
        · simp [hc]
  rw [foldl_playerIndices]
  generalize movement_block_step st loc 0 = loc1 at step0 ⊢
  obtain ⟨hi, hw1, hw0⟩ := step0
  have step1 : (movement_block_step st loc1 1).intended = loc1.intended ∧
      (movement_block_step st loc1 1).wants_move 0 = loc1.wants_move 0 ∧
      (movement_block_step st loc1 1).wants_move 1 =
        (loc1.wants_move 1 &&
          !decide ((st.players 0).alive = true ∧ loc1.intended 1 = (st.players 0).pos ∧
            (loc1.wants_move 0 = false ∨ loc1.intended 0 = (st.players 0).pos))) := by
    unfold movement_block_step
    cases hw : loc1.wants_move 1
    · simp [hw]
    · simp only [Bool.not_true, Bool.false_eq_true, if_false, foldl_playerIndices,
        movement_block_inner_self, movement_block_inner_intended,
        movement_block_inner_wants st 1 0 h10, hw, Bool.true_and]
      refine ⟨trivial, ?_, ?_⟩
      · simp [h01]
      · by_cases hc : (st.players 0).alive = true ∧ loc1.intended 1 = (st.players 0).pos ∧
            (loc1.wants_move 0 = false ∨ loc1.intended 0 = (st.players 0).pos)
        · simp [hc]
        · simp [hc]
  obtain ⟨hi2, hw02, hw12⟩ := step1
  refine ⟨hi2.trans hi, hw02.trans hw0, ?_⟩
  rw [hw12, hw02, hw1, hi]

theorem movement_intent_step_other (st : GameState) (actions : Fin 2 → PlayerAction)
    (loc : MovementLocals) (i j : Fin 2) (hj : j ≠ i) :
    (movement_intent_step st actions loc i).intended j = loc.intended j ∧
      (movement_intent_step st actions loc i).wants_move j = loc.wants_move j := by
  unfold movement_intent_step
  simp only []
  split_ifs <;> simp only [setAt_ne _ _ hj, and_self]

theorem movement_intent_step_self (st : GameState) (actions : Fin 2 → PlayerAction)
    (loc : MovementLocals) (i : Fin 2)
    (hw : (movement_intent_step st actions loc i).wants_move i = true)
    (h0 : loc.wants_move i = false) :
    (st.players i).alive = true ∧
      (arena_is_passable st.arena ((movement_intent_step st actions loc i).intended i).x
          ((movement_intent_step st actions loc i).intended i).y = true ∨
        arena_is_void st.arena ((movement_intent_step st actions loc i).intended i).x
          ((movement_intent_step st actions loc i).intended i).y = true) := by
  unfold movement_intent_step at hw ⊢
  simp only [] at hw ⊢
  split_ifs at hw ⊢ with h1 h2 h3 h4
  · rw [h0] at hw; cases hw
  · simp only [setAt_same]
    exact ⟨by simpa using h1, Or.inl h3⟩
  · simp only [setAt_same]
    exact ⟨by simpa using h1, Or.inr h4⟩
  · rw [h0] at hw; cases hw
  · rw [h0] at hw; cases hw

theorem movement_intent_fold (st : GameState) (actions : Fin 2 → PlayerAction) (i : Fin 2)
    (hw : (playerIndices.foldl (movement_intent_step st actions) movement_locals_init).wants_move
      i = true) :
    (st.players i).alive = true ∧
      (arena_is_passable st.arena
          ((playerIndices.foldl (movement_intent_step st actions) movement_locals_init).intended
            i).x
          ((playerIndices.foldl (movement_intent_step st actions) movement_locals_init).intended
            i).y = true ∨
        arena_is_void st.arena
          ((playerIndices.foldl (movement_intent_step st actions) movement_locals_init).intended
            i).x
          ((playerIndices.foldl (movement_intent_step st actions) movement_locals_init).intended
            i).y = true) := by
  rw [foldl_playerIndices] at hw ⊢
  rcases fin2_cases i with rfl | rfl
  · have ho := movement_intent_step_other st actions
      (movement_intent_step st actions movement_locals_init 0) 1 0 (by decide)
    rw [ho.1]
    rw [ho.2] at hw
    exact movement_intent_step_self st actions _ 0 hw rfl
  · apply movement_intent_step_self st actions _ 1 hw
    rw [(movement_intent_step_other st actions movement_locals_init 0 1 (by decide)).2]
    rfl

theorem movement_swap_check_spec (st : GameState) (loc : MovementLocals) :
    (movement_swap_check st loc).1.intended = loc.intended ∧
    (∀ k, (movement_swap_check st loc).1.wants_move k = true → loc.wants_move k = true) ∧
    ((movement_swap_check st loc).2 = true →
      ∀ k, (movement_swap_check st loc).1.wants_move k = false) := by
  unfold movement_swap_check
  split_ifs with h1 h2
  · refine ⟨rfl, ?_, ?_⟩
    · intro k hk
      rcases fin2_cases k with rfl | rfl
      · exact h1.1
      · exact h1.2
    · intro _ k
      rcases fin2_cases k with rfl | rfl
      · simp [setAt_apply]
      · simp [setAt_apply]
  · exact ⟨rfl, fun _ h => h, fun h => by cases h⟩
  · exact ⟨rfl, fun _ h => h, fun h => by cases h⟩

theorem movement_same_tile_check_spec (loc : MovementLocals) (swap_attempted : Bool)
    (hs : swap_attempted = true → ∀ k, loc.wants_move k = false) :
    (movement_same_tile_check loc swap_attempted).intended = loc.intended ∧
    (∀ k, (movement_same_tile_check loc swap_attempted).wants_move k = true →
      loc.wants_move k = true) ∧
    ((movement_same_tile_check loc swap_attempted).wants_move 0 = true →
      (movement_same_tile_check loc swap_attempted).wants_move 1 = true →
      loc.intended 0 ≠ loc.intended 1) := by
  unfold movement_same_tile_check
  split_ifs with h1 h2 h3
  · refine ⟨rfl, ?_, ?_⟩
    · intro k hk
      rcases fin2_cases k with rfl | rfl
      · exact h2.1
      · exact h2.2
    · intro h0
      simp [setAt_apply] at h0
  · refine ⟨rfl, fun _ h => h, ?_⟩
    intro _ _ heq
    apply h3
    rw [heq]
    exact ⟨rfl, rfl⟩
  · refine ⟨rfl, fun _ h => h, ?_⟩
    intro h0 h1'
    exact absurd ⟨h0, h1'⟩ h2
  · refine ⟨rfl, fun _ h => h, ?_⟩
    intro h0
    have hsw : swap_attempted = true := by simpa using h1
    rw [hs hsw 0] at h0
    cases h0

/-- Conflict resolution establishes `MovesResolved` when alive players are on
different cells. -/
theorem movement_resolve_spec (st : GameState) (actions : Fin 2 → PlayerAction)
    (hap : Apart st) : MovesResolved st (movement_resolve st actions) := by
  unfold movement_resolve
  simp only []
  generalize hloc0 : playerIndices.foldl (movement_intent_step st actions) movement_locals_init
    = loc0
  have hint := movement_intent_fold st actions
  rw [hloc0] at hint
  obtain ⟨hsi, hsw, hss⟩ := movement_swap_check_spec st loc0
  generalize movement_swap_check st loc0 = sw at hsi hsw hss
  obtain ⟨hti, htw, htd⟩ := movement_same_tile_check_spec sw.1 sw.2 hss
  generalize movement_same_tile_check sw.1 sw.2 = loc2 at hti htw htd
  obtain ⟨hbi, hb0, hb1⟩ := movement_block_fold st loc2
  generalize playerIndices.foldl (movement_block_step st) loc2 = loc3 at hbi hb0 hb1
  have hi3 : loc3.intended = loc0.intended := hbi.trans (hti.trans hsi)
  have hw3 : ∀ k, loc3.wants_move k = true → loc2.wants_move k = true := by
    intro k hk
    rcases fin2_cases k with rfl | rfl
    · rw [hb0] at hk; simp only [Bool.and_eq_true] at hk; exact hk.1
    · rw [hb1] at hk; simp only [Bool.and_eq_true] at hk; exact hk.1
  refine ⟨?_, ?_, ?_⟩
  · intro i hi
    rw [hi3]
    exact hint i (hsw i (htw i (hw3 i hi)))
  · intro h0 h1
    rw [hbi, hti]
    exact htd (hw3 0 h0) (hw3 1 h1)
  · intro i hi hno hal heq
    rw [hbi] at heq
    rcases fin2_cases i with rfl | rfl
    · rw [show opponentOf 0 = 1 from rfl] at hno hal heq
      rw [hb0] at hi
      simp only [Bool.and_eq_true, Bool.not_eq_true', decide_eq_false_iff_not] at hi
      obtain ⟨hw0, hnb⟩ := hi
      have hw1 : loc2.wants_move 1 = true ∧ loc2.intended 1 ≠ (st.players 1).pos := by
        by_contra hc
        apply hnb
        refine ⟨hal, heq, ?_⟩
        by_cases hh : loc2.wants_move 1 = false
        · exact Or.inl hh
        · right
          by_contra hh2
          exact hc ⟨by simpa using hh, hh2⟩
      rw [hb1, hw1.1] at hno
      simp only [Bool.true_and, Bool.not_eq_false', decide_eq_true_eq] at hno
      obtain ⟨ha0, _, hor⟩ := hno
      rcases hor with hor | hor
      · rw [hb0, hw0] at hor
        simp only [Bool.true_and, Bool.not_eq_false', decide_eq_true_eq] at hor
        exact hnb hor
      · exact hap ha0 hal (hor.symm.trans heq)
    · rw [show opponentOf 1 = 0 from rfl] at hno hal heq
      rw [hb1] at hi
      simp only [Bool.and_eq_true, Bool.not_eq_true', decide_eq_false_iff_not] at hi
      exact hi.2 ⟨hal, heq, Or.inl hno⟩

theorem movement_apply_step_other (actions : Fin 2 → PlayerAction) (loc : MovementLocals)
    (st : GameState) (i j : Fin 2) (hj : j ≠ i) :
    (movement_apply_step actions loc st i).players j = st.players j := by
  unfold movement_apply_step
  simp only []
  split_ifs <;> simp only [modifyPlayer_players, if_neg hj]

theorem movement_apply_step_self (actions : Fin 2 → PlayerAction) (loc : MovementLocals)
    (st : GameState) (i : Fin 2)
    (ha : ((movement_apply_step actions loc st i).players i).alive = true) :
    (st.players i).alive = true ∧
      ((loc.wants_move i = false ∧
          ((movement_apply_step actions loc st i).players i).pos = (st.players i).pos) ∨
        (loc.wants_move i = true ∧
          arena_is_void st.arena (loc.intended i).x (loc.intended i).y = false ∧
          ((movement_apply_step actions loc st i).players i).pos = loc.intended i)) := by
  unfold movement_apply_step at ha ⊢
  simp only [] at ha ⊢
  split_ifs at ha ⊢ with h1 h2 h3 h4
  · simp [modifyPlayer_players, player_start_move_cooldown] at ha
  · simp only [modifyPlayer_players, if_true, player_start_move_cooldown] at ha ⊢
    exact ⟨ha, Or.inr ⟨h1, by simpa using h2, trivial⟩⟩
  · simp only [modifyPlayer_players, if_true, player_start_move_cooldown] at ha ⊢
    exact ⟨ha, Or.inl ⟨by simpa using h1, trivial⟩⟩
  · exact ⟨ha, Or.inl ⟨by simpa using h1, rfl⟩⟩
  · exact ⟨ha, Or.inl ⟨by simpa using h1, rfl⟩⟩

theorem movement_apply_fold (actions : Fin 2 → PlayerAction) (loc : MovementLocals)
    (st : GameState) (j : Fin 2)
    (ha : ((playerIndices.foldl (movement_apply_step actions loc) st).players j).alive = true) :
    (st.players j).alive = true ∧
      ((loc.wants_move j = false ∧
          ((playerIndices.foldl (movement_apply_step actions loc) st).players j).pos
            = (st.players j).pos) ∨
        (loc.wants_move j = true ∧
          arena_is_void st.arena (loc.intended j).x (loc.intended j).y = false ∧
          ((playerIndices.foldl (movement_apply_step actions loc) st).players j).pos
            = loc.intended j)) := by
  rw [foldl_playerIndices] at ha ⊢
  rcases fin2_cases j with rfl | rfl
  · have ho := movement_apply_step_other actions loc (movement_apply_step actions loc st 0) 1 0
      (by decide)
    rw [ho] at ha ⊢
    exact movement_apply_step_self actions loc st 0 ha
  · have hs := movement_apply_step_self actions loc (movement_apply_step actions loc st 0) 1 ha
    have ho := movement_apply_step_other actions loc st 0 1 (by decide)
    rw [ho, arena_is_void_frame (movement_apply_step_frame actions loc st 0)] at hs
    exact hs

theorem passable_not_void (arena : Arena) (x y : Int)
    (h : arena_is_passable arena x y = true ∨ arena_is_void arena x y = true)
    (hv : arena_is_void arena x y = false) : arena_is_passable arena x y = true := by
  rcases h with h | h
  · exact h
  · rw [h] at hv; cases hv

/-- The placement invariant after the apply-movements loop. -/
theorem wellPlaced_after_moves (actions : Fin 2 → PlayerAction) (loc : MovementLocals)
    (st : GameState) (h : WellPlaced st) (hr : MovesResolved st loc) :
    WellPlaced (playerIndices.foldl (movement_apply_step actions loc) st) := by
  have hfe : FrameEq st (playerIndices.foldl (movement_apply_step actions loc) st) :=
    foldl_frame_state _ (movement_apply_step_frame actions loc) st
  obtain ⟨hr1, hr2, hr3⟩ := hr
  constructor
  · intro j hj
    rw [arena_is_passable_frame hfe]
    obtain ⟨ha, ⟨_, hpos⟩ | ⟨hw, hv, hpos⟩⟩ := movement_apply_fold actions loc st j hj
    · rw [hpos]; exact h.1 j ha
    · rw [hpos]; exact passable_not_void _ _ _ (hr1 j hw).2 hv
  · intro h0 h1
    obtain ⟨ha0, hp0⟩ := movement_apply_fold actions loc st 0 h0
    obtain ⟨ha1, hp1⟩ := movement_apply_fold actions loc st 1 h1
    rcases hp0 with ⟨hw0, hp0⟩ | ⟨hw0, _, hp0⟩ <;> rcases hp1 with ⟨hw1, hp1⟩ | ⟨hw1, _, hp1⟩
    · rw [hp0, hp1]; exact h.2 ha0 ha1
    · rw [hp0, hp1]
      exact fun hh => hr3 1 hw1 hw0 ha0 hh.symm
    · rw [hp0, hp1]
      exact hr3 0 hw0 hw1 ha1
    · rw [hp0, hp1]
      exact hr2 hw0 hw1

/-- The movement phase keeps the placement invariant. -/
theorem game_phase_movement_wellPlaced (st : GameState) (actions : Fin 2 → PlayerAction)
    (info : StepInfo) (h : WellPlaced st) : WellPlaced (game_phase_movement st actions info).1 := by
  unfold game_phase_movement
  simp only []
  have hm := wellPlaced_after_moves actions (movement_resolve st actions) st h
    (movement_resolve_spec st actions h.2)
  exact wellPlaced_placeEq (foldl_frame_pair _ collect_crystal_step_frame _)
    (foldl_place_pair _ collect_crystal_step_place _) hm

theorem wellPlaced_of_eq {st st2 : GameState} (ha : st2.arena = st.arena)
    (hp : st2.players = st.players) (h : WellPlaced st) : WellPlaced st2 := by
  unfold WellPlaced OnFloor Apart at *
  rw [ha, hp]
  exact h

/-- On an arena with two Floor cells `game_step` keeps the placement
invariant: alive players on Floor cells, no two alive players on one cell. -/
theorem game_step_wellPlaced (st : GameState) (rng_state : Nat)
    (actions : Fin 2 → PlayerAction) (h2 : TwoFloorCells st.arena) (h : WellPlaced st) :
    WellPlaced (game_step st rng_state actions).1 ∧
      TwoFloorCells (game_step st rng_state actions).1.arena := by
  cases hgo : st.game_over
  · rw [game_step_running st rng_state actions hgo]
    simp only [game_check_win_conditions_arena]
    have hfe := step_before_tick_frame st rng_state actions
    refine ⟨?_, twoFloorCells_frame hfe h2⟩
    apply wellPlaced_of_eq (game_check_win_conditions_arena _) (game_check_win_conditions_players _)
    apply @wellPlaced_of_eq (step_before_tick st rng_state actions) _ rfl rfl
    unfold step_before_tick
    apply wellPlaced_placeEq (game_tick_timers_frame _) (game_tick_timers_place _)
    unfold step_respawned
    simp only [foldl_playerIndices]
    have hc := wellPlaced_placeEq (game_phase_collect_crystals_frame st StepInfo.zero)
      (game_phase_collect_crystals_place st StepInfo.zero) h
    have hcf := twoFloorCells_frame (game_phase_collect_crystals_frame st StepInfo.zero) h2
    generalize game_phase_collect_crystals st StepInfo.zero = collected at hc hcf ⊢
    have hs := game_phase_shooting_wellPlaced collected.1 actions collected.2 hc
    have hsf := twoFloorCells_frame (game_phase_shooting_frame collected.1 actions collected.2) hcf
    generalize game_phase_shooting collected.1 actions collected.2 = shot at hs hsf ⊢
    have hr0 := respawn_shooting_step_wellPlaced (shot.1, rng_state, shot.2) 0 hsf hs
    have hr0f := twoFloorCells_frame
      (respawn_shooting_step_frame (shot.1, rng_state, shot.2) 0) hsf
    generalize respawn_shooting_step (shot.1, rng_state, shot.2) 0 = r0 at hr0 hr0f ⊢
    have hr1 := respawn_shooting_step_wellPlaced r0 1 hr0f hr0
    have hr1f := twoFloorCells_frame (respawn_shooting_step_frame r0 1) hr0f
    generalize respawn_shooting_step r0 1 = r1 at hr1 hr1f ⊢
    have hm := game_phase_movement_wellPlaced r1.1 actions r1.2.2 hr1
    have hmf := twoFloorCells_frame (game_phase_movement_frame r1.1 actions r1.2.2) hr1f
    generalize game_phase_movement r1.1 actions r1.2.2 = moved at hm hmf ⊢
    have hq0 := respawn_movement_step_wellPlaced (moved.1, r1.2.1, moved.2) 0 hmf hm
    have hq0f := twoFloorCells_frame
      (respawn_movement_step_frame (moved.1, r1.2.1, moved.2) 0) hmf
    exact respawn_movement_step_wellPlaced _ 1 hq0f hq0
  · unfold game_step
    simp only [hgo, if_true]
    exact ⟨h, h2⟩

theorem game_init_arena (mem : GameState) (map_str : List Nat) :
    (game_init mem map_str).arena = (arena_load_from_string mem.arena map_str).1 := rfl

theorem game_init_players (mem : GameState) (map_str : List Nat) (i : Fin 2)
    (hn : 2 ≤ (arena_load_from_string mem.arena map_str).1.num_spawn_points) :
    (game_init mem map_str).players i =
      player_init ((arena_load_from_string mem.arena map_str).1.spawn_points (indexInt i)).pos := by
  have h0 : indexInt 0 < (arena_load_from_string mem.arena map_str).1.num_spawn_points := by
    simp only [indexInt]; norm_num; omega
  have h1 : indexInt 1 < (arena_load_from_string mem.arena map_str).1.num_spawn_points := by
    simp only [indexInt]; norm_num; omega
  unfold game_init
  simp only [foldl_playerIndices, init_player_step, h0, h1, if_true]
  rcases fin2_cases i with rfl | rfl
  · simp [setAt_apply]
  · simp [setAt_apply]

/-- After `game_init` on a map whose first two spawn points are usable, the
placement invariant holds and the arena has two Floor cells. -/
theorem game_init_wellPlaced (mem : GameState) (map_str : List Nat)
    (hs : SpawnsUsable (arena_load_from_string mem.arena map_str).1) :
    WellPlaced (game_init mem map_str) ∧ TwoFloorCells (game_init mem map_str).arena := by
  obtain ⟨hn, hne, hf0, hf1⟩ := hs
  have hp0 := game_init_players mem map_str 0 hn
  have hp1 := game_init_players mem map_str 1 hn
  refine ⟨⟨?_, ?_⟩, ?_⟩
  · intro i _
    rw [game_init_arena, game_init_players mem map_str i hn]
    rcases fin2_cases i with rfl | rfl
    · exact hf0
    · exact hf1
  · intro _ _
    rw [hp0, hp1]
    exact hne
  · rw [game_init_arena]
    exact ⟨_, _, hne, hf0, hf1⟩

/-- The placement invariant in every reachable state of a game started on a
map whose first two spawn points are different Floor cells: every alive
player stands on a Floor cell inside the grid, and two alive players never
share a cell. -/
theorem reachable_wellPlaced (mem : GameState) (map_str : List Nat)
    (hs : SpawnsUsable (arena_load_from_string mem.arena map_str).1)
    (st : GameState) (rng_state : Nat) (hr : Reachable mem map_str st rng_state) :
    WellPlaced st ∧ TwoFloorCells st.arena := by
  induction hr with
  | init seed => exact game_init_wellPlaced mem map_str hs
  | step actions _ ih => exact game_step_wellPlaced _ _ actions ih.2 ih.1
  | reseed seed _ ih => exact ih

theorem arena_is_wall_frame {st st2 : GameState} (h : FrameEq st st2) (x y : Int) :
    arena_is_wall st2.arena x y = arena_is_wall st.arena x y := by
  obtain ⟨_, _, _, hw, hh, ht, _⟩ := h
  simp only [arena_is_wall, arena_get_tile, hw, hh, ht]

theorem arena_is_valid_position_frame {st st2 : GameState} (h : FrameEq st st2) (x y : Int) :
    arena_is_valid_position st2.arena x y = arena_is_valid_position st.arena x y := by
  obtain ⟨_, _, _, hw, hh, _⟩ := h
  simp only [arena_is_valid_position, hw, hh]

theorem pushback_loop_congr {a b : GameState} (hf : FrameEq a b) (hp : PlaceEq a b)
    (i : Fin 2) (dx dy : Int) (n : Nat) (c : Position) :
    pushback_loop b i dx dy n c = pushback_loop a i dx dy n c := by
  induction n generalizing c with
  | zero => rfl
  | succ n ih =>
    simp only [pushback_loop, arena_is_void_frame hf, arena_is_wall_frame hf,
      other_player_at_place hp, ih]

theorem combat_apply_pushback_congr {a b : GameState} (hf : FrameEq a b) (hp : PlaceEq a b)
    (i : Fin 2) (dir : Direction) (n : Int) :
    combat_apply_pushback b i dir n = combat_apply_pushback a i dir n := by
  simp only [combat_apply_pushback, pushback_loop_congr hf hp, (hp i).1]

theorem laser_loop_congr {a b : GameState} (hf : FrameEq a b) (hp : PlaceEq a b)
    (i : Fin 2) (dir : Direction) (dx dy : Int) (r : LaserResult) (n : Nat) (c : Position) :
    laser_loop b i dir dx dy r n c = laser_loop a i dir dx dy r n c := by
  induction n generalizing c with
  | zero => rfl
  | succ n ih =>
    simp only [laser_loop, arena_is_valid_position_frame hf, arena_is_wall_frame hf,
      other_player_at_place hp, combat_apply_pushback_congr hf hp, ih]

/-- The laser result depends on the state only through the tiles and the
positions and alive flags of the players. -/
theorem combat_fire_laser_congr {a b : GameState} (hf : FrameEq a b) (hp : PlaceEq a b)
    (i : Fin 2) (dir : Direction) :
    combat_fire_laser b i dir = combat_fire_laser a i dir := by
  obtain ⟨_, _, _, hw, hh, _⟩ := id hf
  simp only [combat_fire_laser, combat_fire_laser_fuel, laser_fuel, laser_result_init,
    laser_loop_congr hf hp, (hp i).1, hw, hh]

theorem modifyPlayer_modifyPlayer (st : GameState) (i : Fin 2) (f g : Player → Player) :
    (st.modifyPlayer i f).modifyPlayer i g = st.modifyPlayer i (fun p => g (f p)) := by
  simp only [GameState.modifyPlayer, setAt_same]
  congr 1
  funext j
  simp only [setAt]
  split_ifs <;> rfl

theorem placeEq_fired (st : GameState) (i : Fin 2) :
    PlaceEq st (st.modifyPlayer i fired_player) := by
  apply placeEq_modifyPlayer
  intro p
  simp only [fired_player, player_start_laser_cooldown, player_use_energy]
  split_ifs <;> exact ⟨rfl, rfl⟩

theorem use_energy_of_can_shoot (p : Player) (h : player_can_shoot p = true) :
    (player_use_energy p 1).2 = true := by
  simp only [player_can_shoot, Bool.and_eq_true, decide_eq_true_eq] at h
  simp only [player_use_energy]
  split_ifs with hlt
  · omega
  · rfl

/-- The first loop body of `game_phase_shooting` in closed form. -/
theorem shooting_fire_step_eq (actions : Fin 2 → PlayerAction)
    (acc : GameState × ShootingLocals) (i : Fin 2) :
    shooting_fire_step actions acc i =
      if fires acc.1 actions i = true then
        (acc.1.modifyPlayer i fired_player,
          { results := setAt acc.2.results i (shot_result acc.1 actions i)
            will_shoot := setAt acc.2.will_shoot i true })
      else acc := by
  unfold shooting_fire_step fires
  simp only [Bool.and_eq_true, decide_eq_true_eq]
  split_ifs with hc hu
  · rw [modifyPlayer_modifyPlayer]
    have hcg := combat_fire_laser_congr (frameEq_modifyPlayer acc.1 i fired_player)
      (placeEq_fired acc.1 i) i (action_to_direction (actions i).shoot)
    have hfp : (fun p => player_start_laser_cooldown (player_use_energy p 1).1) = fired_player :=
      rfl
    rw [hfp, hcg]
    rfl
  · exact absurd (use_energy_of_can_shoot _ hc.2) hu
  · rfl

theorem modifyPlayer_fix (st : GameState) (i : Fin 2) (f : Player → Player)
    (h : f (st.players i) = st.players i) : st.modifyPlayer i f = st := by
  cases st with
  | mk arena players current_tick winner game_over =>
    simp only [GameState.modifyPlayer, GameState.mk.injEq, true_and, and_true] at h ⊢
    funext j
    simp only [setAt]
    split_ifs with hj
    · rw [h, hj]
    · rfl

theorem fires_of_player_eq {a b : GameState} (actions : Fin 2 → PlayerAction) (i : Fin 2)
    (h : b.players i = a.players i) : fires b actions i = fires a actions i := by
  simp only [fires, h]

theorem lands_target (st : GameState) (actions : Fin 2 → PlayerAction) (i : Fin 2)
    (h : lands st actions i = true) :
    playerIndex (shot_result st actions i).target_player = some (opponentOf i) := by
  simp only [lands, fires, Bool.and_eq_true, decide_eq_true_eq] at h
  obtain ⟨_, _, _, _, h4, _⟩ := combat_fire_laser_hit_facts st i _ h.1.1 h.2
  exact h4

/-- The second loop body of `game_phase_shooting` in closed form, for a shot
whose target is the other player. -/
theorem shooting_damage_step_eq (loc : ShootingLocals) (acc : GameState × StepInfo) (i : Fin 2)
    (ht : shot_hit loc i = true → playerIndex (loc.results i).target_player = some (opponentOf i)) :
    shooting_damage_step loc acc i =
      if shot_hit loc i = true then
        (acc.1.modifyPlayer (opponentOf i) (fun p => player_take_damage p LASER_DAMAGE),
          { acc.2 with
            player_hit := setAt acc.2.player_hit (opponentOf i) true
            damage_dealt := setAt acc.2.damage_dealt i (acc.2.damage_dealt i + LASER_DAMAGE)
            damage_taken := setAt acc.2.damage_taken (opponentOf i)
              (acc.2.damage_taken (opponentOf i) + LASER_DAMAGE) })
      else acc := by
  unfold shooting_damage_step
  by_cases hs : shot_hit loc i = true
  · simp only [hs, if_true, ht hs]
  · simp only [hs, if_false]
    rfl

/-- The third loop body of `game_phase_shooting` in closed form. -/
theorem shooting_pushback_step_eq (loc : ShootingLocals) (st : GameState) (i : Fin 2)
    (ht : shot_hit loc i = true → playerIndex (loc.results i).target_player = some (opponentOf i)) :
    shooting_pushback_step loc st i =
      if shot_hit loc i = true then st.modifyPlayer (opponentOf i) (pushed_player (loc.results i))
      else st := by
  unfold shooting_pushback_step
  by_cases hs : shot_hit loc i = true
  · simp only [hs, if_true, ht hs]
    by_cases h1 : (st.players (opponentOf i)).alive = true
    · by_cases h2 : (loc.results i).target_fragged = true
      · simp only [GameState.modifyPlayer, pushed_player, h1, h2, if_true]
      · simp only [GameState.modifyPlayer, pushed_player, h1, h2, if_true, if_false]
        rfl
    · rw [if_neg h1]
      symm
      apply modifyPlayer_fix
      simp only [pushed_player, h1, if_false]
      rfl
  · simp only [hs, if_false]
    rfl

theorem opponentOf_zero : opponentOf 0 = 1 := rfl

theorem opponentOf_one : opponentOf 1 = 0 := rfl

theorem shot_result_congr {a b : GameState} (hf : FrameEq a b) (hp : PlaceEq a b)
    (actions : Fin 2 → PlayerAction) (i : Fin 2) :
    shot_result b actions i = shot_result a actions i :=
  combat_fire_laser_congr hf hp i _

/-- The state and the locals after the first loop of `game_phase_shooting`. -/
theorem shooting_fire_fold (st : GameState) (actions : Fin 2 → PlayerAction) :
    (∀ k, ((playerIndices.foldl (shooting_fire_step actions) (st, shooting_locals_init)).1.players k)
        = if fires st actions k = true then fired_player (st.players k) else st.players k) ∧
    (playerIndices.foldl (shooting_fire_step actions) (st, shooting_locals_init)).1.arena
      = st.arena ∧
    (∀ k, shot_hit (playerIndices.foldl (shooting_fire_step actions) (st, shooting_locals_init)).2 k
      = lands st actions k) ∧
    (∀ k, lands st actions k = true →
      (playerIndices.foldl (shooting_fire_step actions) (st, shooting_locals_init)).2.results k
        = shot_result st actions k) := by
  rw [foldl_playerIndices, shooting_fire_step_eq actions (st, shooting_locals_init) 0]
  by_cases h0 : fires st actions 0 = true
  · have hf1 : fires (st.modifyPlayer 0 fired_player) actions 1 = fires st actions 1 :=
      fires_of_player_eq actions 1 (by simp [modifyPlayer_players])
    have hr1 : shot_result (st.modifyPlayer 0 fired_player) actions 1 = shot_result st actions 1 :=
      shot_result_congr (frameEq_modifyPlayer _ _ _) (placeEq_fired _ _) actions 1
    simp only [h0, if_true, shooting_fire_step_eq, hf1, hr1]
    by_cases h1 : fires st actions 1 = true
    · simp only [h1, if_true]
      refine ⟨?_, rfl, ?_, ?_⟩
      · intro k
        rcases fin2_cases k with rfl | rfl <;> simp [modifyPlayer_players, h0, h1]
      · intro k
        rcases fin2_cases k with rfl | rfl <;> simp [shot_hit, lands, setAt, h0, h1]
      · intro k _
        rcases fin2_cases k with rfl | rfl <;> simp [setAt]
    · simp only [h1, Bool.false_eq_true, if_false]
      refine ⟨?_, rfl, ?_, ?_⟩
      · intro k
        rcases fin2_cases k with rfl | rfl <;> simp [modifyPlayer_players, h0, h1]
      · intro k
        rcases fin2_cases k with rfl | rfl <;>
          simp [shot_hit, lands, setAt, h0, h1, shooting_locals_init]
      · intro k hk
        rcases fin2_cases k with rfl | rfl
        · simp [setAt]
        · simp [lands, h1] at hk
  · simp only [h0, Bool.false_eq_true, if_false, shooting_fire_step_eq]
    by_cases h1 : fires st actions 1 = true
    · simp only [h1, if_true]
      refine ⟨?_, rfl, ?_, ?_⟩
      · intro k
        rcases fin2_cases k with rfl | rfl <;> simp [modifyPlayer_players, h0, h1]
      · intro k
        rcases fin2_cases k with rfl | rfl <;>
          simp [shot_hit, lands, setAt, h0, h1, shooting_locals_init]
      · intro k hk
        rcases fin2_cases k with rfl | rfl
        · simp [lands, h0] at hk
        · simp [setAt]
    · simp only [h1, Bool.false_eq_true, if_false]
      refine ⟨?_, trivial, ?_, ?_⟩
      · intro k
        rcases fin2_cases k with rfl | rfl <;> simp [h0, h1]
      · intro k
        rcases fin2_cases k with rfl | rfl <;>
          simp [shot_hit, lands, h0, h1, shooting_locals_init]
      · intro k hk
        rcases fin2_cases k with rfl | rfl
        · simp [lands, h0] at hk
        · simp [lands, h1] at hk

/-- The state and the `StepInfo` after the second loop of `game_phase_shooting`. -/
theorem shooting_damage_fold (loc : ShootingLocals) (s : GameState) (info : StepInfo)
    (ht : ∀ i, shot_hit loc i = true →
      playerIndex (loc.results i).target_player = some (opponentOf i)) :
    (∀ k, ((playerIndices.foldl (shooting_damage_step loc) (s, info)).1.players k)
        = if shot_hit loc (opponentOf k) = true then player_take_damage (s.players k) LASER_DAMAGE
          else s.players k) ∧
    (playerIndices.foldl (shooting_damage_step loc) (s, info)).1.arena = s.arena ∧
    (∀ k, (playerIndices.foldl (shooting_damage_step loc) (s, info)).2.player_hit k
        = (info.player_hit k || shot_hit loc (opponentOf k))) ∧
    (playerIndices.foldl (shooting_damage_step loc) (s, info)).2.player_fragged
      = info.player_fragged ∧
    (playerIndices.foldl (shooting_damage_step loc) (s, info)).2.crystal_collected
      = info.crystal_collected ∧
    (∀ k, (playerIndices.foldl (shooting_damage_step loc) (s, info)).2.damage_dealt k
        = info.damage_dealt k + if shot_hit loc k = true then LASER_DAMAGE else 0) ∧
    (∀ k, (playerIndices.foldl (shooting_damage_step loc) (s, info)).2.damage_taken k
        = info.damage_taken k + if shot_hit loc (opponentOf k) = true then LASER_DAMAGE else 0) := by
  rw [foldl_playerIndices, shooting_damage_step_eq loc _ 0 (ht 0), shooting_damage_step_eq loc _ 1 (ht 1)]
  by_cases h0 : shot_hit loc 0 = true <;> by_cases h1 : shot_hit loc 1 = true <;>
    simp only [h0, h1, Bool.false_eq_true, if_true, if_false, opponentOf_zero, opponentOf_one] <;>
    refine ⟨?_, ?_, ?_, ?_, ?_, ?_, ?_⟩ <;>
    first
    | rfl
    | trivial
    | (intro k
       rcases fin2_cases k with rfl | rfl <;>
         simp [modifyPlayer_players, setAt, opponentOf_zero, opponentOf_one, h0, h1])

/-- The state after the third loop of `game_phase_shooting`. -/
theorem shooting_pushback_fold_eq (loc : ShootingLocals) (s : GameState)
    (ht : ∀ i, shot_hit loc i = true →
      playerIndex (loc.results i).target_player = some (opponentOf i)) :
    (∀ k, ((playerIndices.foldl (shooting_pushback_step loc) s).players k)
        = if shot_hit loc (opponentOf k) = true
          then pushed_player (loc.results (opponentOf k)) (s.players k)
          else s.players k) ∧
    (playerIndices.foldl (shooting_pushback_step loc) s).arena = s.arena := by
  rw [foldl_playerIndices, shooting_pushback_step_eq loc _ 0 (ht 0),
    shooting_pushback_step_eq loc _ 1 (ht 1)]
  by_cases h0 : shot_hit loc 0 = true <;> by_cases h1 : shot_hit loc 1 = true <;>
    simp only [h0, h1, Bool.false_eq_true, if_true, if_false, opponentOf_zero, opponentOf_one] <;>
    refine ⟨?_, ?_⟩ <;>
    first
    | rfl
    | trivial
    | (intro k
       rcases fin2_cases k with rfl | rfl <;>
         simp [modifyPlayer_players, setAt, opponentOf_zero, opponentOf_one, h0, h1])

/-- The shooting phase in closed form: every player record is
`shooting_outcome`, the arena is untouched, and the `StepInfo` records a hit
and one point of damage for every shot that lands. -/
theorem game_phase_shooting_spec (st : GameState) (actions : Fin 2 → PlayerAction)
    (info : StepInfo) :
    (∀ t, (game_phase_shooting st actions info).1.players t = shooting_outcome st actions t) ∧
    (game_phase_shooting st actions info).1.arena = st.arena ∧
    (∀ t, (game_phase_shooting st actions info).2.player_hit t
        = (info.player_hit t || lands st actions (opponentOf t))) ∧
    (game_phase_shooting st actions info).2.player_fragged = info.player_fragged ∧
    (game_phase_shooting st actions info).2.crystal_collected = info.crystal_collected ∧
    (∀ t, (game_phase_shooting st actions info).2.damage_dealt t
        = info.damage_dealt t + if lands st actions t = true then LASER_DAMAGE else 0) ∧
    (∀ t, (game_phase_shooting st actions info).2.damage_taken t
        = info.damage_taken t + if lands st actions (opponentOf t) = true then LASER_DAMAGE else 0) := by
  obtain ⟨hF1, hF2, hF3, hF4⟩ := shooting_fire_fold st actions
  have ht : ∀ i, shot_hit (playerIndices.foldl (shooting_fire_step actions)
        (st, shooting_locals_init)).2 i = true →
      playerIndex ((playerIndices.foldl (shooting_fire_step actions)
        (st, shooting_locals_init)).2.results i).target_player = some (opponentOf i) := by
    intro i hi
    rw [hF3] at hi
    rw [hF4 i hi]
    exact lands_target st actions i hi
  obtain ⟨hD1, hD2, hD3, hD4, hD5, hD6, hD7⟩ := shooting_damage_fold _
    (playerIndices.foldl (shooting_fire_step actions) (st, shooting_locals_init)).1 info ht
  obtain ⟨hP1, hP2⟩ := shooting_pushback_fold_eq _
    (playerIndices.foldl (shooting_damage_step (playerIndices.foldl (shooting_fire_step actions)
      (st, shooting_locals_init)).2)
      ((playerIndices.foldl (shooting_fire_step actions) (st, shooting_locals_init)).1, info)).1 ht
  unfold game_phase_shooting
  refine ⟨?_, ?_, ?_, hD4, hD5, ?_, ?_⟩
  · intro t
    dsimp only
    rw [hP1, hD1, hF1, hF3]
    unfold shooting_outcome
    by_cases hl : lands st actions (opponentOf t) = true
    · simp only [hl, if_true, hF4 _ hl]
    · simp only [hl, Bool.false_eq_true, if_false]
  · dsimp only
    rw [hP2, hD2, hF2]
  · intro t
    dsimp only
    rw [hD3, hF3]
  · intro t
    dsimp only
    rw [hD6, hF3]
  · intro t
    dsimp only
    rw [hD7, hF3]

theorem combat_fire_laser_none (st : GameState) (i : Fin 2) :
    (combat_fire_laser st i Direction.DIR_NONE).hit_type = LaserHitType.LASER_HIT_NONE := by
  simp [combat_fire_laser, combat_fire_laser_fuel, laser_result_init]

/-- A laser result other than None comes from a shot with a direction. -/
theorem dir_of_hit (st : GameState) (i : Fin 2) (dir : Direction)
    (h : (combat_fire_laser st i dir).hit_type ≠ LaserHitType.LASER_HIT_NONE) :
    dir ≠ Direction.DIR_NONE := by
  intro hd
  rw [hd] at h
  exact h (combat_fire_laser_none st i)

theorem lands_of_hit (st : GameState) (actions : Fin 2 → PlayerAction) (i : Fin 2)
    (hcan : player_can_shoot (st.players i) = true)
    (hhit : (combat_fire_laser st i (action_to_direction (actions i).shoot)).hit_type
      = LaserHitType.LASER_HIT_PLAYER) :
    fires st actions i = true ∧ lands st actions i = true := by
  have hd := dir_of_hit st i _ (by rw [hhit]; intro h; cases h)
  have hf : fires st actions i = true := by
    simp only [fires, Bool.and_eq_true, decide_eq_true_eq]
    exact ⟨hd, hcan⟩
  refine ⟨hf, ?_⟩
  simp only [lands, hf, Bool.true_and, decide_eq_true_eq, shot_result]
  exact hhit

theorem fired_player_health (p : Player) : (fired_player p).health = p.health := by
  simp only [fired_player, player_start_laser_cooldown, player_use_energy]
  split_ifs <;> rfl

theorem pushed_player_health (r : LaserResult) (p : Player) :
    (pushed_player r p).health = p.health := by
  simp only [pushed_player]
  split_ifs <;> rfl

theorem take_damage_health (p : Player) :
    (player_take_damage p LASER_DAMAGE).health = max 0 (p.health - LASER_DAMAGE) := by
  simp only [player_take_damage, LASER_DAMAGE]
  split_ifs with h
  · simp only []
    rw [max_eq_left h]
  · simp only []
    rw [max_eq_right (by omega)]

/-- C11: when both players can shoot and each laser, traced on the positions
before the shooting phase, hits the other player, `game_phase_shooting` sets
`player_hit` for both players and leaves each player with health
`max 0 (health - LASER_DAMAGE)`, whatever the pushbacks do: exactly
`LASER_DAMAGE` less for every player whose health was at least 1, as the
health of an alive player is in every state `game_init` and `game_step`
produce. -/
theorem game_phase_shooting_mutual_hit (st : GameState) (actions : Fin 2 → PlayerAction)
    (info : StepInfo)
    (hcan : ∀ i, player_can_shoot (st.players i) = true)
    (hhit : ∀ i, (combat_fire_laser st i (action_to_direction (actions i).shoot)).hit_type
      = LaserHitType.LASER_HIT_PLAYER) :
    ∀ i, (game_phase_shooting st actions info).2.player_hit i = true ∧
      ((game_phase_shooting st actions info).1.players i).health
        = max 0 ((st.players i).health - LASER_DAMAGE) ∧
      (1 ≤ (st.players i).health →
        ((game_phase_shooting st actions info).1.players i).health
          = (st.players i).health - LASER_DAMAGE) := by
  intro i
  obtain ⟨hP, _, hH, _⟩ := game_phase_shooting_spec st actions info
  have hl := fun j => lands_of_hit st actions j (hcan j) (hhit j)
  have hh : ((game_phase_shooting st actions info).1.players i).health
      = max 0 ((st.players i).health - LASER_DAMAGE) := by
    rw [hP, shooting_outcome]
    simp only [(hl i).1, (hl (opponentOf i)).2, if_true, pushed_player_health,
      take_damage_health, fired_player_health]
  refine ⟨?_, hh, ?_⟩
  · rw [hH, (hl (opponentOf i)).2, Bool.or_true]
  · intro h1
    rw [hh]
    simp only [LASER_DAMAGE] at h1 ⊢
    exact max_eq_right (by omega)

/-- C11, at a concrete input: on the map `. 1 . 2 .` the players shoot each
other, both are pushed back one cell, and both are left with health 3. -/
theorem game_phase_shooting_mutual_hit_witness :
    (∀ i, player_can_shoot (faceOffState.players i) = true) ∧
    (∀ i, (game_phase_shooting faceOffState duelActions StepInfo.zero).2.player_hit i = true ∧
      ((game_phase_shooting faceOffState duelActions StepInfo.zero).1.players i).health
        = max 0 ((faceOffState.players i).health - LASER_DAMAGE) ∧
      (1 ≤ (faceOffState.players i).health →
        ((game_phase_shooting faceOffState duelActions StepInfo.zero).1.players i).health
          = (faceOffState.players i).health - LASER_DAMAGE)) :=
  ⟨by decide,
    game_phase_shooting_mutual_hit faceOffState duelActions StepInfo.zero (by decide) (by decide)⟩

theorem gameState_eq {a b : GameState} (h1 : a.arena = b.arena) (h2 : ∀ i, a.players i = b.players i)
    (h3 : a.current_tick = b.current_tick) (h4 : a.winner = b.winner)
    (h5 : a.game_over = b.game_over) : a = b := by
  cases a
  cases b
  simp only [GameState.mk.injEq] at *
  exact ⟨h1, funext h2, h3, h4, h5⟩

theorem stepInfo_eq {a b : StepInfo} (h1 : ∀ i, a.player_hit i = b.player_hit i)
    (h2 : a.player_fragged = b.player_fragged) (h3 : a.crystal_collected = b.crystal_collected)
    (h4 : ∀ i, a.damage_dealt i = b.damage_dealt i)
    (h5 : ∀ i, a.damage_taken i = b.damage_taken i) : a = b := by
  cases a
  cases b
  simp only [StepInfo.mk.injEq] at *
  exact ⟨funext h1, h2, h3, funext h4, funext h5⟩

theorem fired_player_eq (p : Player) (h : player_can_shoot p = true) :
    fired_player p =
      { p with energy := p.energy - 1, laser_cooldown_ticks := LASER_COOLDOWN_TICKS } := by
  have hge : ¬ p.energy < 1 := by
    simp only [player_can_shoot, Bool.and_eq_true, decide_eq_true_eq] at h
    omega
  simp only [fired_player, player_start_laser_cooldown, player_use_energy, if_neg hge]

/-- C15: when exactly one player `s` fires and its laser ends on a Wall or at
the Edge, `game_phase_shooting` returns the state unchanged but for the
energy of `s`, reduced by 1, and its laser cooldown, set to
`LASER_COOLDOWN_TICKS`, and it returns the `StepInfo` unchanged: no health,
position or alive flag changes and no hit or damage is recorded. -/
theorem game_phase_shooting_miss (st : GameState) (actions : Fin 2 → PlayerAction)
    (info : StepInfo) (s : Fin 2)
    (hdir : action_to_direction (actions s).shoot ≠ Direction.DIR_NONE)
    (hcan : player_can_shoot (st.players s) = true)
    (hother : ¬ (action_to_direction (actions (opponentOf s)).shoot ≠ Direction.DIR_NONE ∧
      player_can_shoot (st.players (opponentOf s)) = true))
    (hmiss : (combat_fire_laser st s (action_to_direction (actions s).shoot)).hit_type
        = LaserHitType.LASER_HIT_WALL ∨
      (combat_fire_laser st s (action_to_direction (actions s).shoot)).hit_type
        = LaserHitType.LASER_HIT_EDGE) :
    game_phase_shooting st actions info =
      (st.modifyPlayer s (fun p =>
          { p with energy := p.energy - 1, laser_cooldown_ticks := LASER_COOLDOWN_TICKS }),
        info) := by
  obtain ⟨hP, hA, hH, hFr, hC, hDd, hDt⟩ := game_phase_shooting_spec st actions info
  obtain ⟨hT, hW, hG, _⟩ := game_phase_shooting_frame st actions info
  have hfs : fires st actions s = true := by
    simp only [fires, Bool.and_eq_true, decide_eq_true_eq]
    exact ⟨hdir, hcan⟩
  have hfo : fires st actions (opponentOf s) = false := by
    rw [Bool.eq_false_iff]
    intro hf
    simp only [fires, Bool.and_eq_true, decide_eq_true_eq] at hf
    exact hother hf
  have hls : lands st actions s = false := by
    rw [Bool.eq_false_iff]
    intro hl
    simp only [lands, shot_result, Bool.and_eq_true, decide_eq_true_eq] at hl
    rcases hmiss with h | h <;> rw [hl.2] at h <;> cases h
  have hlo : lands st actions (opponentOf s) = false := by
    simp only [lands, hfo, Bool.false_and]
  have hl : ∀ t, lands st actions t = false := by
    intro t
    by_cases hts : t = s
    · rw [hts]; exact hls
    · rw [eq_opponentOf_of_ne hts]; exact hlo
  refine Prod.ext (gameState_eq hA ?_ hT hW hG) (stepInfo_eq ?_ hFr hC ?_ ?_)
  · intro t
    dsimp only
    rw [hP, shooting_outcome, modifyPlayer_players]
    simp only [hl, Bool.false_eq_true, if_false]
    by_cases hts : t = s
    · rw [hts, if_pos hfs, if_pos rfl, fired_player_eq _ hcan]
    · rw [if_neg hts, eq_opponentOf_of_ne hts, hfo]
      rfl
  · intro t
    rw [hH, hl, Bool.or_false]
  · intro t
    rw [hDd, hl]
    simp
  · intro t
    rw [hDt, hl]
    simp

/-- C15, at a concrete input: on the map `1 # 2` player 0 shoots Right; the
laser ends on the Wall at (1,0), player 1 keeps health 4 and player 0 is left
with energy 7. -/
theorem game_phase_shooting_miss_witness :
    (combat_fire_laser wallState 0 Direction.DIR_RIGHT).hit_type = LaserHitType.LASER_HIT_WALL ∧
    (combat_fire_laser wallState 0 Direction.DIR_RIGHT).hit_position = { x := 1, y := 0 } ∧
    ((game_phase_shooting wallState shootRight StepInfo.zero).1.players 1).health = 4 ∧
    ((game_phase_shooting wallState shootRight StepInfo.zero).1.players 0).energy = 7 ∧
    game_phase_shooting wallState shootRight StepInfo.zero =
      (wallState.modifyPlayer 0 (fun p =>
          { p with energy := p.energy - 1, laser_cooldown_ticks := LASER_COOLDOWN_TICKS }),
        StepInfo.zero) :=
  ⟨by decide, by decide, by decide, by decide,
    game_phase_shooting_miss wallState shootRight StepInfo.zero 0 (by decide) (by decide)
      (by decide) (by decide)⟩

theorem game_find_respawn_position_eq (st : GameState) (s : Nat) (i : Fin 2) :
    game_find_respawn_position st s i =
      if h : (respawn_candidate_list st i).length > 0 then
        ((respawn_candidate_list st i).get
          ⟨(game_rand s).2 % (respawn_candidate_list st i).length, Nat.mod_lt _ h⟩,
          (game_rand s).1)
      else ({ x := 0, y := 0 }, s) := rfl

theorem intRange_pairwise (n : Int) : List.Pairwise (fun a b : Int => a < b) (intRange n) := by
  unfold intRange
  rw [List.pairwise_map]
  exact (List.pairwise_lt_range _).imp (fun h => by exact_mod_cast h)

theorem respawn_candidates_row_major (st : GameState) (i : Fin 2) (far : Bool) :
    List.Pairwise row_major_lt (respawn_candidates st i far) := by
  unfold respawn_candidates
  simp only []
  rw [List.pairwise_flatMap]
  constructor
  · intro y _
    rw [List.pairwise_map]
    apply List.Pairwise.filter
    exact (intRange_pairwise _).imp (fun h => Or.inr ⟨rfl, h⟩)
  · refine (intRange_pairwise _).imp ?_
    intro y1 y2 hy a ha b hb
    simp only [List.mem_map] at ha hb
    obtain ⟨_, _, rfl⟩ := ha
    obtain ⟨_, _, rfl⟩ := hb
    exact Or.inl hy

theorem mem_respawn_candidates_free (st : GameState) (i : Fin 2) (far : Bool) (c : Position) :
    c ∈ respawn_candidates st i far ↔ (free_cell st i c ∧ (far = true → far_cell st i c)) := by
  rw [mem_respawn_candidates, other_player_at_eq]
  unfold free_cell far_cell
  constructor
  · rintro ⟨h1, h2, h3⟩
    refine ⟨⟨h1, ?_⟩, h2⟩
    intro h
    rw [if_pos (by obtain ⟨ha, hb⟩ := h; exact ⟨ha, by rw [hb]⟩)] at h3
    cases h3
  · rintro ⟨⟨h1, h3⟩, h2⟩
    refine ⟨h1, h2, ?_⟩
    rw [if_neg]
    intro h
    exact h3 ⟨h.1, by rw [h.2]⟩

theorem game_find_respawn_position_mem (st : GameState) (s : Nat) (i : Fin 2)
    (h : (respawn_candidate_list st i).length > 0) :
    (game_find_respawn_position st s i).1 ∈ respawn_candidate_list st i := by
  rw [game_find_respawn_position_eq, dif_pos h]
  exact List.get_mem _ _ _

theorem mem_respawn_candidate_list (st : GameState) (i : Fin 2) (c : Position)
    (h : c ∈ respawn_candidate_list st i) :
    free_cell st i c ∧ ((∃ d, free_cell st i d ∧ far_cell st i d) → far_cell st i c) := by
  unfold respawn_candidate_list at h
  split_ifs at h with h0
  · refine ⟨((mem_respawn_candidates_free st i false c).1 h).1, ?_⟩
    rintro ⟨d, hd, hfar⟩
    have hmem : d ∈ respawn_candidates st i true :=
      (mem_respawn_candidates_free st i true d).2 ⟨hd, fun _ => hfar⟩
    have := List.length_pos_of_mem hmem
    omega
  · have := (mem_respawn_candidates_free st i true c).1 h
    exact ⟨this.1, fun _ => this.2 rfl⟩

theorem respawn_candidate_list_pos (st : GameState) (i : Fin 2) (c : Position)
    (hc : free_cell st i c) : (respawn_candidate_list st i).length > 0 := by
  have hmem : c ∈ respawn_candidates st i false :=
    (mem_respawn_candidates_free st i false c).2 ⟨hc, fun h => Bool.noConfusion h⟩
  unfold respawn_candidate_list
  split_ifs with h0
  · exact List.length_pos_of_mem hmem
  · omega

/-- The array `candidates` of `game_find_respawn_position` holds exactly the
candidate cells. -/
theorem mem_respawn_candidate_list_iff (st : GameState) (i : Fin 2) (c : Position) :
    c ∈ respawn_candidate_list st i ↔ respawn_candidate st i c := by
  constructor
  · exact mem_respawn_candidate_list st i c
  · rintro ⟨hfree, hfar⟩
    unfold respawn_candidate_list
    split_ifs with h0
    · exact (mem_respawn_candidates_free st i false c).2 ⟨hfree, fun h => Bool.noConfusion h⟩
    · have hpos : 0 < (respawn_candidates st i true).length := by omega
      have hd := (mem_respawn_candidates_free st i true _).1 (List.get_mem _ 0 hpos)
      exact (mem_respawn_candidates_free st i true c).2
        ⟨hfree, fun _ => hfar ⟨_, hd.1, hd.2 rfl⟩⟩

/-- Two lists of cells in strict row-major order with the same members are
equal. -/
theorem row_major_list_unique (l1 l2 : List Position)
    (h1 : l1.Pairwise row_major_lt) (h2 : l2.Pairwise row_major_lt)
    (hmem : ∀ c, c ∈ l1 ↔ c ∈ l2) : l1 = l2 := by
  haveI : IsAntisymm Position row_major_lt :=
    ⟨fun a b hab hba => by
      exfalso
      unfold row_major_lt at hab hba
      omega⟩
  have hirr : ∀ a b : Position, row_major_lt a b → a ≠ b := by
    intro a b hab e
    subst e
    unfold row_major_lt at hab
    omega
  have hd1 : l1.Nodup := h1.imp (fun {a b} h => hirr a b h)
  have hd2 : l2.Nodup := h2.imp (fun {a b} h => hirr a b h)
  exact List.eq_of_perm_of_sorted ((List.perm_ext_iff_of_nodup hd1 hd2).2 hmem) h1 h2

theorem respawn_candidate_list_row_major (st : GameState) (i : Fin 2) :
    List.Pairwise row_major_lt (respawn_candidate_list st i) := by
  unfold respawn_candidate_list
  split_ifs
  · exact respawn_candidates_row_major st i false
  · exact respawn_candidates_row_major st i true

/-- C18: the array `candidates` of `game_find_respawn_position` holds exactly
the candidate cells (the Floor cells free of the alive opponent at distance
`RESPAWN_MIN_DISTANCE` or more from it, or every Floor cell free of the alive
opponent when there is none of those), in strict row-major order, and every
list `c` of the candidate cells in row-major order is that array.  With
`s' = (s * 1103515245 + 12345) mod 2^32` and `r = (s' >> 16) & 0x7FFF`, so
`r <= 32767`, a nonempty list `c` of `n` candidates gives the cell
`c[r mod n]` and the PRNG state `s'`, and an empty list gives the cell (0,0)
and leaves the PRNG state `s`. -/
theorem game_find_respawn_position_selection (st : GameState) (s : Nat) (i : Fin 2) :
    (∀ c, c ∈ respawn_candidate_list st i ↔ respawn_candidate st i c) ∧
    List.Pairwise row_major_lt (respawn_candidate_list st i) ∧
    (((s * 1103515245 + 12345) % 2 ^ 32) >>> 16) &&& 0x7FFF ≤ 32767 ∧
    (0 < (respawn_candidate_list st i).length →
      (respawn_candidate_list st i)[((((s * 1103515245 + 12345) % 2 ^ 32) >>> 16) &&& 0x7FFF)
          % (respawn_candidate_list st i).length]?
        = some (game_find_respawn_position st s i).1 ∧
      (game_find_respawn_position st s i).2 = (s * 1103515245 + 12345) % 2 ^ 32) ∧
    ((respawn_candidate_list st i).length = 0 →
      (game_find_respawn_position st s i).2 = s) ∧
    (∀ c : List Position, (∀ p, p ∈ c ↔ respawn_candidate st i p) →
      List.Pairwise row_major_lt c →
        c = respawn_candidate_list st i ∧
        (0 < c.length →
          (c)[((((s * 1103515245 + 12345) % 2 ^ 32) >>> 16) &&& 0x7FFF) % c.length]?
            = some (game_find_respawn_position st s i).1 ∧
          (game_find_respawn_position st s i).2 = (s * 1103515245 + 12345) % 2 ^ 32) ∧
        (c.length = 0 →
          game_find_respawn_position st s i = ({ x := 0, y := 0 }, s))) := by
  have hsel : 0 < (respawn_candidate_list st i).length →
      (respawn_candidate_list st i)[((((s * 1103515245 + 12345) % 2 ^ 32) >>> 16) &&& 0x7FFF)
          % (respawn_candidate_list st i).length]?
        = some (game_find_respawn_position st s i).1 ∧
      (game_find_respawn_position st s i).2 = (s * 1103515245 + 12345) % 2 ^ 32 := by
    intro h
    rw [game_find_respawn_position_eq, dif_pos h]
    refine ⟨?_, rfl⟩
    simp only [game_rand]
    rw [List.getElem?_eq_getElem (Nat.mod_lt _ h)]
    rfl
  have hnil : (respawn_candidate_list st i).length = 0 →
      game_find_respawn_position st s i = ({ x := 0, y := 0 }, s) := by
    intro h
    rw [game_find_respawn_position_eq, dif_neg (by omega)]
  refine ⟨mem_respawn_candidate_list_iff st i, respawn_candidate_list_row_major st i,
    Nat.and_le_right, hsel, fun h => by rw [hnil h], ?_⟩
  intro c hmem hsorted
  have hc : c = respawn_candidate_list st i :=
    row_major_list_unique c _ hsorted (respawn_candidate_list_row_major st i)
      (fun p => by rw [hmem p, mem_respawn_candidate_list_iff])
  subst hc
  exact ⟨rfl, hsel, hnil⟩

/-- C17: `game_find_respawn_position` returns (a) a Floor cell not occupied by
the alive opponent and at Manhattan distance at least `RESPAWN_MIN_DISTANCE`
from the opponent's position whenever such a cell exists; (b) a Floor cell not
occupied by the alive opponent whenever one exists; (c) the cell (0,0) when no
such cell exists, so that it returns a cell that is not an unoccupied Floor
cell only then. -/
theorem game_find_respawn_position_cases (st : GameState) (s : Nat) (i : Fin 2) :
    ((∃ c, free_cell st i c ∧ far_cell st i c) →
      free_cell st i (game_find_respawn_position st s i).1 ∧
        far_cell st i (game_find_respawn_position st s i).1) ∧
    ((∃ c, free_cell st i c) → free_cell st i (game_find_respawn_position st s i).1) ∧
    ((¬ ∃ c, free_cell st i c) → (game_find_respawn_position st s i).1 = { x := 0, y := 0 }) ∧
    (¬ free_cell st i (game_find_respawn_position st s i).1 → ¬ ∃ c, free_cell st i c) := by
  have hb : (∃ c, free_cell st i c) → free_cell st i (game_find_respawn_position st s i).1 := by
    rintro ⟨c, hc⟩
    exact (mem_respawn_candidate_list st i _
      (game_find_respawn_position_mem st s i (respawn_candidate_list_pos st i c hc))).1
  refine ⟨?_, hb, ?_, fun h he => h (hb he)⟩
  · rintro ⟨c, hc, hfar⟩
    have hm := mem_respawn_candidate_list st i _
      (game_find_respawn_position_mem st s i (respawn_candidate_list_pos st i c hc))
    exact ⟨hm.1, hm.2 ⟨c, hc, hfar⟩⟩
  · intro hno
    have hlen : ¬ (respawn_candidate_list st i).length > 0 := by
      intro hlen
      exact hno ⟨_, (mem_respawn_candidate_list st i _ (List.get_mem _ 0 hlen)).1⟩
    rw [game_find_respawn_position_eq, dif_neg hlen]

/-- One iteration of a crystal-collection loop, seen from player `k`: the
record of `k` is untouched, or `k` is the player of the iteration, is alive
and has its energy restored with its `crystal_collected` flag set; the other
`StepInfo` fields are untouched. -/
theorem collect_crystal_step_player (acc : GameState × StepInfo) (i k : Fin 2) :
    (((collect_crystal_step acc i).1.players k = acc.1.players k ∧
        (collect_crystal_step acc i).2.crystal_collected k = acc.2.crystal_collected k) ∨
      ((acc.1.players k).alive = true ∧
        (collect_crystal_step acc i).1.players k
          = player_restore_energy (acc.1.players k) MAX_ENERGY ∧
        (collect_crystal_step acc i).2.crystal_collected k = true)) ∧
    (collect_crystal_step acc i).2.player_hit = acc.2.player_hit ∧
    (collect_crystal_step acc i).2.player_fragged = acc.2.player_fragged ∧
    (collect_crystal_step acc i).2.damage_dealt = acc.2.damage_dealt ∧
    (collect_crystal_step acc i).2.damage_taken = acc.2.damage_taken := by
  unfold collect_crystal_step
  simp only []
  split_ifs with h1 h2
  · exact ⟨Or.inl ⟨rfl, rfl⟩, rfl, rfl, rfl, rfl⟩
  · refine ⟨?_, rfl, rfl, rfl, rfl⟩
    by_cases hk : k = i
    · subst hk
      right
      refine ⟨by simpa using h1, ?_, ?_⟩
      · simp only [modifyPlayer_players, if_true]
      · simp only [setAt_same]
    · left
      constructor
      · simp only [modifyPlayer_players, if_neg hk]
      · simp only [setAt_ne _ _ hk]
  · exact ⟨Or.inl ⟨rfl, rfl⟩, rfl, rfl, rfl, rfl⟩

theorem restore_energy_alive (p : Player) :
    (player_restore_energy p MAX_ENERGY).alive = p.alive := by
  simp only [player_restore_energy]
  split_ifs <;> rfl

/-- A crystal-collection loop, seen from player `k`. -/
theorem collect_fold_player (s : GameState) (info : StepInfo) (k : Fin 2) :
    (((playerIndices.foldl collect_crystal_step (s, info)).1.players k = s.players k ∧
        (playerIndices.foldl collect_crystal_step (s, info)).2.crystal_collected k
          = info.crystal_collected k) ∨
      ((s.players k).alive = true ∧
        (playerIndices.foldl collect_crystal_step (s, info)).1.players k
          = player_restore_energy (s.players k) MAX_ENERGY ∧
        (playerIndices.foldl collect_crystal_step (s, info)).2.crystal_collected k = true)) ∧
    (playerIndices.foldl collect_crystal_step (s, info)).2.player_hit = info.player_hit ∧
    (playerIndices.foldl collect_crystal_step (s, info)).2.player_fragged = info.player_fragged ∧
    (playerIndices.foldl collect_crystal_step (s, info)).2.damage_dealt = info.damage_dealt ∧
    (playerIndices.foldl collect_crystal_step (s, info)).2.damage_taken = info.damage_taken := by
  rw [foldl_playerIndices]
  obtain ⟨a1, a2, a3, a4, a5⟩ := collect_crystal_step_player (s, info) 0 k
  obtain ⟨b1, b2, b3, b4, b5⟩ :=
    collect_crystal_step_player (collect_crystal_step (s, info) 0) 1 k
  refine ⟨?_, b2.trans a2, b3.trans a3, b4.trans a4, b5.trans a5⟩
  have hone : ∀ (acc : GameState × StepInfo) (i j : Fin 2), j ≠ i →
      (collect_crystal_step acc i).1.players j = acc.1.players j ∧
      (collect_crystal_step acc i).2.crystal_collected j = acc.2.crystal_collected j := by
    intro acc i j hji
    unfold collect_crystal_step
    simp only []
    split_ifs
    · exact ⟨rfl, rfl⟩
    · exact ⟨by simp only [modifyPlayer_players, if_neg hji], by simp only [setAt_ne _ _ hji]⟩
    · exact ⟨rfl, rfl⟩
  rcases fin2_cases k with rfl | rfl
  · obtain ⟨c1, c2⟩ := hone (collect_crystal_step (s, info) 0) 1 0 (by decide)
    rw [c1, c2]
    exact a1
  · obtain ⟨c1, c2⟩ := hone (s, info) 0 1 (by decide)
    rw [c1, c2] at b1
    exact b1

theorem game_tick_timers_players (s : GameState) (k : Fin 2) :
    (game_tick_timers s).players k = player_tick_cooldowns (s.players k) := by
  unfold game_tick_timers
  simp only [foldl_playerIndices]
  rcases fin2_cases k with rfl | rfl <;> simp [modifyPlayer_players]

/-- The players of the state `game_step` returns for a running game are those
left by the timer tick. -/
theorem game_step_players (st : GameState) (rng_state : Nat) (actions : Fin 2 → PlayerAction)
    (h : st.game_over = false) (k : Fin 2) :
    (game_step st rng_state actions).1.players k
      = player_tick_cooldowns ((step_respawned st rng_state actions).1.players k) := by
  rw [game_step_running st rng_state actions h]
  simp only [game_check_win_conditions_players]
  unfold step_before_tick
  exact game_tick_timers_players _ k

theorem game_step_info (st : GameState) (rng_state : Nat) (actions : Fin 2 → PlayerAction)
    (h : st.game_over = false) :
    (game_step st rng_state actions).2.2 = (step_respawned st rng_state actions).2.2 := by
  rw [game_step_running st rng_state actions h]

theorem credited_false (p : Player) : credited p false = p := by
  simp [credited]

theorem player_eta_alive (p : Player) (h : p.alive = true) :
    p = { pos := p.pos, health := p.health, energy := p.energy,
          move_cooldown_ticks := p.move_cooldown_ticks,
          laser_cooldown_ticks := p.laser_cooldown_ticks,
          energy_regen_ticks := p.energy_regen_ticks, score := p.score, alive := true } := by
  cases p
  simp only at h
  subst h
  rfl

/-- The respawn pass after shooting, seen from player `k`: a player that was
alive keeps its record, a dead player gets the record `player_respawn` makes
of it and has `player_fragged` set; either way its score is credited with the
opponent's frag.  The arena and the other `StepInfo` fields are untouched. -/
theorem respawn_shooting_fold_player (acc : GameState × Nat × StepInfo) (k : Fin 2) :
    (playerIndices.foldl respawn_shooting_step acc).1.arena = acc.1.arena ∧
    (playerIndices.foldl respawn_shooting_step acc).2.2.player_hit = acc.2.2.player_hit ∧
    (playerIndices.foldl respawn_shooting_step acc).2.2.crystal_collected
      = acc.2.2.crystal_collected ∧
    ((acc.1.players k).alive = true →
      (playerIndices.foldl respawn_shooting_step acc).1.players k
          = credited (acc.1.players k) (!(acc.1.players (opponentOf k)).alive) ∧
        (playerIndices.foldl respawn_shooting_step acc).2.2.player_fragged k
          = acc.2.2.player_fragged k) ∧
    ((acc.1.players k).alive = false →
      (∃ c, (playerIndices.foldl respawn_shooting_step acc).1.players k
          = player_respawn (credited (acc.1.players k) (!(acc.1.players (opponentOf k)).alive)) c) ∧
        (playerIndices.foldl respawn_shooting_step acc).2.2.player_fragged k = true) := by
  rw [foldl_playerIndices]
  cases h0 : (acc.1.players 0).alive <;> cases h1 : (acc.1.players 1).alive <;>
    rcases fin2_cases k with rfl | rfl <;>
    simp [respawn_shooting_step, h0, h1, modifyPlayer_players, opponentOf_zero, opponentOf_one,
      setAt, credited, player_respawn] <;>
    first
    | exact player_eta_alive _ h0
    | exact player_eta_alive _ h1

theorem player_eta_dead (p : Player) (h : p.alive = false) :
    p = { pos := p.pos, health := p.health, energy := p.energy,
          move_cooldown_ticks := p.move_cooldown_ticks,
          laser_cooldown_ticks := p.laser_cooldown_ticks,
          energy_regen_ticks := p.energy_regen_ticks, score := p.score, alive := false } := by
  cases p
  simp only at h
  subst h
  rfl

/-- The respawn pass after movement, seen from player `k`. -/
theorem respawn_movement_fold_player (acc : GameState × Nat × StepInfo) (k : Fin 2) :
    (playerIndices.foldl respawn_movement_step acc).1.arena = acc.1.arena ∧
    (playerIndices.foldl respawn_movement_step acc).2.2.player_hit = acc.2.2.player_hit ∧
    (playerIndices.foldl respawn_movement_step acc).2.2.crystal_collected
      = acc.2.2.crystal_collected ∧
    (needs_respawn acc k = false →
      (playerIndices.foldl respawn_movement_step acc).1.players k
          = credited (acc.1.players k) (needs_respawn acc (opponentOf k)) ∧
        (playerIndices.foldl respawn_movement_step acc).2.2.player_fragged k
          = acc.2.2.player_fragged k) ∧
    (needs_respawn acc k = true →
      (∃ c, (playerIndices.foldl respawn_movement_step acc).1.players k
          = player_respawn (credited (acc.1.players k) (needs_respawn acc (opponentOf k))) c) ∧
        (playerIndices.foldl respawn_movement_step acc).2.2.player_fragged k = true) := by
  rw [foldl_playerIndices]
  cases h0 : (acc.1.players 0).alive <;> cases h1 : (acc.1.players 1).alive <;>
    cases f0 : acc.2.2.player_fragged 0 <;> cases f1 : acc.2.2.player_fragged 1 <;>
    rcases fin2_cases k with rfl | rfl <;>
    simp [respawn_movement_step, needs_respawn, h0, h1, f0, f1, modifyPlayer_players,
      opponentOf_zero, opponentOf_one, setAt, credited, player_respawn] <;>
    first
    | exact player_eta_alive _ h0
    | exact player_eta_alive _ h1
    | exact player_eta_dead _ h0
    | exact player_eta_dead _ h1

theorem movement_intent_step_eq (st : GameState) (actions : Fin 2 → PlayerAction)
    (loc : MovementLocals) (i : Fin 2) (h0 : loc.wants_move i = false) :
    movement_intent_step st actions loc i =
      { intended := setAt loc.intended i (intent st actions i)
        wants_move := setAt loc.wants_move i (tries_move st actions i) } := by
  have hfix : setAt loc.wants_move i false = loc.wants_move := by
    funext j
    simp only [setAt]
    split_ifs with hj
    · rw [hj, h0]
    · rfl
  unfold movement_intent_step intent tries_move move_target
  simp only []
  cases ha : (st.players i).alive
  · simp [hfix]
  · by_cases hd : action_to_direction (actions i).move ≠ Direction.DIR_NONE
    · cases hc : player_can_move (st.players i)
      · simp [hd, hfix]
      · cases hp : arena_is_passable st.arena
            (position_add_direction (st.players i).pos (action_to_direction (actions i).move)).x
            (position_add_direction (st.players i).pos (action_to_direction (actions i).move)).y
        · cases hv : arena_is_void st.arena
              (position_add_direction (st.players i).pos (action_to_direction (actions i).move)).x
              (position_add_direction (st.players i).pos (action_to_direction (actions i).move)).y
          · simp [hd, hp, hv, hfix]
          · simp [hd, hp, hv]
            funext j
            simp only [setAt]
            split_ifs <;> rfl
        · simp [hd, hp]
          funext j
          simp only [setAt]
          split_ifs <;> rfl
    · simp [hd, hfix]

/-- The locals after the first loop of `game_phase_movement`. -/
theorem movement_intent_fold_eq (st : GameState) (actions : Fin 2 → PlayerAction) (k : Fin 2) :
    (playerIndices.foldl (movement_intent_step st actions) movement_locals_init).intended k
      = intent st actions k ∧
    (playerIndices.foldl (movement_intent_step st actions) movement_locals_init).wants_move k
      = tries_move st actions k := by
  rw [foldl_playerIndices, movement_intent_step_eq st actions movement_locals_init 0 rfl,
    movement_intent_step_eq st actions _ 1 (by simp [setAt, movement_locals_init])]
  rcases fin2_cases k with rfl | rfl <;> simp [setAt]

/-- The locals after the swap and same-tile checks, for locals whose entries
are known. -/
theorem movement_checks_eq (st : GameState) (loc : MovementLocals) (k : Fin 2) :
    (movement_same_tile_check (movement_swap_check st loc).1
        (movement_swap_check st loc).2).intended = loc.intended ∧
    (movement_same_tile_check (movement_swap_check st loc).1
        (movement_swap_check st loc).2).wants_move k =
      (loc.wants_move k &&
        !(loc.wants_move 0 && loc.wants_move 1 &&
          (decide (loc.intended 0 = (st.players 1).pos ∧ loc.intended 1 = (st.players 0).pos) ||
            decide (loc.intended 0 = loc.intended 1)))) := by
  have e1 : ∀ a b : Position, (a.x = b.x ∧ a.y = b.y) ↔ a = b := by
    intro a b
    cases a; cases b
    simp
  have e2 : ∀ (a b : Position) (P : Prop), (a.x = b.x ∧ a.y = b.y ∧ P) ↔ (a = b ∧ P) := by
    intro a b P
    rw [← and_assoc, e1]
  unfold movement_same_tile_check movement_swap_check
  simp only [e1, e2]
  by_cases hs : (loc.intended 0 = (st.players 1).pos ∧ loc.intended 1 = (st.players 0).pos) <;>
    by_cases ht : loc.intended 0 = loc.intended 1
  · cases h0 : loc.wants_move 0 <;> cases h1 : loc.wants_move 1 <;>
      rcases fin2_cases k with rfl | rfl <;>
      simp [h0, h1, eq_true hs, eq_true ht, setAt]
  · cases h0 : loc.wants_move 0 <;> cases h1 : loc.wants_move 1 <;>
      rcases fin2_cases k with rfl | rfl <;>
      simp [h0, h1, eq_true hs, eq_false ht, setAt]
  · cases h0 : loc.wants_move 0 <;> cases h1 : loc.wants_move 1 <;>
      rcases fin2_cases k with rfl | rfl <;>
      simp [h0, h1, eq_false hs, eq_true ht, setAt]
  · cases h0 : loc.wants_move 0 <;> cases h1 : loc.wants_move 1 <;>
      rcases fin2_cases k with rfl | rfl <;>
      simp [h0, h1, eq_false hs, eq_false ht, setAt]

/-- The locals of `game_phase_movement` after conflict resolution, in closed
form. -/
theorem movement_resolve_eq (st : GameState) (actions : Fin 2 → PlayerAction) (k : Fin 2) :
    (movement_resolve st actions).intended k = intent st actions k ∧
    (movement_resolve st actions).wants_move k = moves st actions k := by
  unfold movement_resolve
  simp only []
  have hI := fun j => (movement_intent_fold_eq st actions j).1
  have hW := fun j => (movement_intent_fold_eq st actions j).2
  obtain ⟨b1, b2, b3⟩ := movement_block_fold st
    (movement_same_tile_check
      (movement_swap_check st
        (playerIndices.foldl (movement_intent_step st actions) movement_locals_init)).1
      (movement_swap_check st
        (playerIndices.foldl (movement_intent_step st actions) movement_locals_init)).2)
  have hc := fun j => movement_checks_eq st
    (playerIndices.foldl (movement_intent_step st actions) movement_locals_init) j
  have hS : ∀ j, (movement_same_tile_check
      (movement_swap_check st
        (playerIndices.foldl (movement_intent_step st actions) movement_locals_init)).1
      (movement_swap_check st
        (playerIndices.foldl (movement_intent_step st actions) movement_locals_init)).2).wants_move j
      = still_moves st actions j := by
    intro j
    rw [(hc j).2]
    simp only [hI, hW, still_moves, moves_conflict]
  have hJ : ∀ j, (movement_same_tile_check
      (movement_swap_check st
        (playerIndices.foldl (movement_intent_step st actions) movement_locals_init)).1
      (movement_swap_check st
        (playerIndices.foldl (movement_intent_step st actions) movement_locals_init)).2).intended j
      = intent st actions j := by
    intro j
    rw [(hc j).1, hI]
  have hm0 : (playerIndices.foldl (movement_block_step st)
      (movement_same_tile_check
        (movement_swap_check st
          (playerIndices.foldl (movement_intent_step st actions) movement_locals_init)).1
        (movement_swap_check st
          (playerIndices.foldl (movement_intent_step st actions) movement_locals_init)).2)).wants_move 0
      = first_moves st actions := by
    rw [b2]
    simp only [hS, hJ, first_moves]
  constructor
  · rw [b1, hJ]
  · rcases fin2_cases k with rfl | rfl
    · rw [hm0]; rfl
    · rw [b3, hm0]
      simp only [hS, hJ]
      rfl

/-- The apply-movements loop of `game_phase_movement` in closed form, for the
resolved locals. -/
theorem movement_apply_fold_eq (st : GameState) (actions : Fin 2 → PlayerAction) :
    (∀ k, (playerIndices.foldl (movement_apply_step actions (movement_resolve st actions))
        st).players k = moved_player st actions k) ∧
    (playerIndices.foldl (movement_apply_step actions (movement_resolve st actions)) st).arena
      = st.arena := by
  have hstep : ∀ (s : GameState) (i : Fin 2), s.arena = st.arena → s.players i = st.players i →
      (movement_apply_step actions (movement_resolve st actions) s i).players i
        = moved_player st actions i ∧
      (movement_apply_step actions (movement_resolve st actions) s i).arena = st.arena := by
    intro s i ha hp
    unfold movement_apply_step moved_player
    simp only [(movement_resolve_eq st actions i).1, (movement_resolve_eq st actions i).2, ha, hp]
    split_ifs <;> first | (exfalso; tauto) | simp [modifyPlayer_players, ha, hp]
  rw [foldl_playerIndices]
  obtain ⟨p0, a0⟩ := hstep st 0 rfl rfl
  obtain ⟨p1, a1⟩ := hstep (movement_apply_step actions (movement_resolve st actions) st 0) 1 a0
    (movement_apply_step_other actions _ st 0 1 (by decide))
  refine ⟨?_, a1⟩
  intro k
  rcases fin2_cases k with rfl | rfl
  · rw [movement_apply_step_other actions _ _ 1 0 (by decide)]
    exact p0
  · exact p1

theorem position_add_direction_ne (p : Position) (dir : Direction)
    (h : dir ≠ Direction.DIR_NONE) : position_add_direction p dir ≠ p := by
  cases p
  cases dir <;> simp [position_add_direction] at h ⊢

theorem action_ne_noop (a : ActionType) (h : action_to_direction a ≠ Direction.DIR_NONE) :
    a ≠ ACTION_NOOP := by
  intro ha
  apply h
  rw [ha]
  rfl

theorem wall_iff_not_floor_void (arena : Arena) (x y : Int) :
    (arena_is_passable arena x y || arena_is_void arena x y) = !arena_is_wall arena x y := by
  simp only [arena_is_passable, arena_is_void, arena_is_wall]
  cases arena_get_tile arena x y <;> simp

/-- Who moves when player `i` heads for the cell of the alive opponent, both
standing on different cells: `i` moves exactly when the opponent heads off to
a Floor or Void cell other than the cell of `i`; the opponent's own entry is
not decided here. -/
theorem follow_moves (st : GameState) (actions : Fin 2 → PlayerAction) (i : Fin 2)
    (hai : (st.players i).alive = true) (haj : (st.players (opponentOf i)).alive = true)
    (hne : (st.players i).pos ≠ (st.players (opponentOf i)).pos)
    (hfj : arena_is_passable st.arena (st.players (opponentOf i)).pos.x
      (st.players (opponentOf i)).pos.y = true)
    (hcan : player_can_move (st.players i) = true)
    (htgt : move_target st actions i = (st.players (opponentOf i)).pos) :
    intent st actions i = (st.players (opponentOf i)).pos ∧
    moves st actions i =
      (tries_move st actions (opponentOf i) &&
        !decide (move_target st actions (opponentOf i) = (st.players i).pos)) := by
  have hdir : action_to_direction (actions i).move ≠ Direction.DIR_NONE := by
    intro hd
    unfold move_target at htgt
    rw [hd] at htgt
    exact hne (by simpa [position_add_direction] using htgt)
  have hti : tries_move st actions i = true := by
    simp only [tries_move, htgt, hfj, hai, hcan, hdir, ne_eq, not_false_eq_true, decide_True,
      Bool.true_and, Bool.true_or, Bool.and_self]
  have hIi : intent st actions i = (st.players (opponentOf i)).pos := by
    simp only [intent, hti, if_true, htgt]
  refine ⟨hIi, ?_⟩
  cases htj : tries_move st actions (opponentOf i)
  · have hIj : intent st actions (opponentOf i) = (st.players (opponentOf i)).pos := by
      simp only [intent, htj, Bool.false_eq_true, if_false]
    rcases fin2_cases i with rfl | rfl
    · simp only [opponentOf_zero] at *
      simp [moves, first_moves, still_moves, moves_conflict, hti, htj, hIi, hIj, haj]
    · simp only [opponentOf_one] at *
      simp [moves, second_moves, first_moves, still_moves, moves_conflict, hti, htj, hIi, hIj,
        hai, haj]
  · have hdj : action_to_direction (actions (opponentOf i)).move ≠ Direction.DIR_NONE := by
      simp only [tries_move, Bool.and_eq_true, decide_eq_true_eq] at htj
      exact htj.1.1.2
    have hIj : intent st actions (opponentOf i) = move_target st actions (opponentOf i) := by
      simp only [intent, htj, if_true]
    have hTj : move_target st actions (opponentOf i) ≠ (st.players (opponentOf i)).pos :=
      position_add_direction_ne _ _ hdj
    by_cases hsw : move_target st actions (opponentOf i) = (st.players i).pos
    · rcases fin2_cases i with rfl | rfl
      · simp only [opponentOf_zero] at *
        simp [moves, first_moves, still_moves, moves_conflict, hti, htj, hIi, hIj, haj, hsw]
      · simp only [opponentOf_one] at *
        simp [moves, second_moves, first_moves, still_moves, moves_conflict, hti, htj, hIi, hIj,
          hai, haj, hsw]
    · rcases fin2_cases i with rfl | rfl
      · simp only [opponentOf_zero] at *
        simp [moves, first_moves, still_moves, moves_conflict, hti, htj, hIi, hIj, haj,
          eq_false hsw, eq_false hTj, eq_false hTj.symm]
      · simp only [opponentOf_one] at *
        simp [moves, second_moves, first_moves, still_moves, moves_conflict, hti, htj, hIi, hIj,
          hai, haj, eq_false hsw, eq_false hTj, eq_false hTj.symm, eq_false hne,
          eq_false hne.symm]

theorem restore_energy_fields (p : Player) :
    (player_restore_energy p MAX_ENERGY).pos = p.pos ∧
    (player_restore_energy p MAX_ENERGY).alive = p.alive ∧
    (player_restore_energy p MAX_ENERGY).health = p.health ∧
    (player_restore_energy p MAX_ENERGY).move_cooldown_ticks = p.move_cooldown_ticks ∧
    (player_restore_energy p MAX_ENERGY).laser_cooldown_ticks = p.laser_cooldown_ticks ∧
    (player_restore_energy p MAX_ENERGY).score = p.score := by
  simp only [player_restore_energy]
  split_ifs <;> exact ⟨rfl, rfl, rfl, rfl, rfl, rfl⟩

/-- What a crystal-collection loop leaves of a player record: everything but
the energy and the regeneration countdown. -/
theorem collect_fold_fields (s : GameState) (info : StepInfo) (k : Fin 2) :
    ((playerIndices.foldl collect_crystal_step (s, info)).1.players k).pos = (s.players k).pos ∧
    ((playerIndices.foldl collect_crystal_step (s, info)).1.players k).alive
      = (s.players k).alive ∧
    ((playerIndices.foldl collect_crystal_step (s, info)).1.players k).health
      = (s.players k).health ∧
    ((playerIndices.foldl collect_crystal_step (s, info)).1.players k).move_cooldown_ticks
      = (s.players k).move_cooldown_ticks ∧
    ((playerIndices.foldl collect_crystal_step (s, info)).1.players k).laser_cooldown_ticks
      = (s.players k).laser_cooldown_ticks ∧
    ((playerIndices.foldl collect_crystal_step (s, info)).1.players k).score
      = (s.players k).score := by
  rcases (collect_fold_player s info k).1 with ⟨h, _⟩ | ⟨_, h, _⟩
  · rw [h]; exact ⟨rfl, rfl, rfl, rfl, rfl, rfl⟩
  · rw [h]; exact restore_energy_fields _

/-- The player records after `game_phase_movement` are those of a
crystal-collection loop run on the records `moved_player` describes. -/
theorem game_phase_movement_fields (st : GameState) (actions : Fin 2 → PlayerAction)
    (info : StepInfo) (k : Fin 2) :
    ((game_phase_movement st actions info).1.players k).pos = (moved_player st actions k).pos ∧
    ((game_phase_movement st actions info).1.players k).alive
      = (moved_player st actions k).alive ∧
    ((game_phase_movement st actions info).1.players k).health
      = (moved_player st actions k).health ∧
    ((game_phase_movement st actions info).1.players k).move_cooldown_ticks
      = (moved_player st actions k).move_cooldown_ticks ∧
    ((game_phase_movement st actions info).1.players k).laser_cooldown_ticks
      = (moved_player st actions k).laser_cooldown_ticks ∧
    ((game_phase_movement st actions info).1.players k).score
      = (moved_player st actions k).score := by
  unfold game_phase_movement
  simp only []
  have h := collect_fold_fields
    (playerIndices.foldl (movement_apply_step actions (movement_resolve st actions)) st) info k
  rw [(movement_apply_fold_eq st actions).1 k] at h
  exact h

/-- C20 (amended): when both players are alive on different cells, the cell of
player `j` is Floor, and player `i` can move with a move target equal to the
cell of `j`, then after `game_phase_movement` player `i` is where it was if
and only if `j` issues no move, cannot move, is blocked by a Wall, or heads
for the cell of `i` (the swap, which cancels both moves); otherwise `j` heads
off to another Floor cell or into Void and `i` ends on the former cell of `j`.
In both cases the move cooldown of `i` is `MOVEMENT_COOLDOWN_TICKS`. -/
theorem game_phase_movement_follow (st : GameState) (actions : Fin 2 → PlayerAction)
    (info : StepInfo) (i : Fin 2)
    (hai : (st.players i).alive = true) (haj : (st.players (opponentOf i)).alive = true)
    (hne : (st.players i).pos ≠ (st.players (opponentOf i)).pos)
    (hfj : arena_is_passable st.arena (st.players (opponentOf i)).pos.x
      (st.players (opponentOf i)).pos.y = true)
    (hcan : player_can_move (st.players i) = true)
    (htgt : position_add_direction (st.players i).pos (action_to_direction (actions i).move)
      = (st.players (opponentOf i)).pos) :
    (((game_phase_movement st actions info).1.players i).pos = (st.players i).pos ↔
      (action_to_direction (actions (opponentOf i)).move = Direction.DIR_NONE ∨
        player_can_move (st.players (opponentOf i)) = false ∨
        arena_is_wall st.arena
          (position_add_direction (st.players (opponentOf i)).pos
            (action_to_direction (actions (opponentOf i)).move)).x
          (position_add_direction (st.players (opponentOf i)).pos
            (action_to_direction (actions (opponentOf i)).move)).y = true ∨
        position_add_direction (st.players (opponentOf i)).pos
            (action_to_direction (actions (opponentOf i)).move) = (st.players i).pos)) ∧
    (¬ (action_to_direction (actions (opponentOf i)).move = Direction.DIR_NONE ∨
        player_can_move (st.players (opponentOf i)) = false ∨
        arena_is_wall st.arena
          (position_add_direction (st.players (opponentOf i)).pos
            (action_to_direction (actions (opponentOf i)).move)).x
          (position_add_direction (st.players (opponentOf i)).pos
            (action_to_direction (actions (opponentOf i)).move)).y = true ∨
        position_add_direction (st.players (opponentOf i)).pos
            (action_to_direction (actions (opponentOf i)).move) = (st.players i).pos) →
      ((game_phase_movement st actions info).1.players i).pos
        = (st.players (opponentOf i)).pos) ∧
    ((game_phase_movement st actions info).1.players i).move_cooldown_ticks
      = MOVEMENT_COOLDOWN_TICKS := by
  obtain ⟨hI, hM⟩ := follow_moves st actions i hai haj hne hfj hcan htgt
  obtain ⟨hpos, _, _, hcd, _⟩ := game_phase_movement_fields st actions info i
  have hdir : action_to_direction (actions i).move ≠ Direction.DIR_NONE := by
    intro hd
    rw [hd] at htgt
    exact hne (by simpa [position_add_direction] using htgt)
  have hnv : arena_is_void st.arena (st.players (opponentOf i)).pos.x
      (st.players (opponentOf i)).pos.y = false := by
    simp only [arena_is_passable, arena_is_void, decide_eq_true_eq, decide_eq_false_iff_not] at hfj ⊢
    rw [hfj]
    intro h
    cases h
  have hcond : moves st actions i = true ↔
      ¬ (action_to_direction (actions (opponentOf i)).move = Direction.DIR_NONE ∨
        player_can_move (st.players (opponentOf i)) = false ∨
        arena_is_wall st.arena
          (position_add_direction (st.players (opponentOf i)).pos
            (action_to_direction (actions (opponentOf i)).move)).x
          (position_add_direction (st.players (opponentOf i)).pos
            (action_to_direction (actions (opponentOf i)).move)).y = true ∨
        position_add_direction (st.players (opponentOf i)).pos
            (action_to_direction (actions (opponentOf i)).move) = (st.players i).pos) := by
    rw [hM]
    simp only [tries_move, wall_iff_not_floor_void, move_target, haj, Bool.true_and,
      Bool.and_eq_true, decide_eq_true_eq, Bool.not_eq_true', decide_eq_false_iff_not,
      not_or, ne_eq]
    simp only [← Bool.not_eq_true]
    tauto
  have hmoved : (moved_player st actions i).move_cooldown_ticks = MOVEMENT_COOLDOWN_TICKS ∧
      (moves st actions i = true → (moved_player st actions i).pos
        = (st.players (opponentOf i)).pos) ∧
      (¬ moves st actions i = true → (moved_player st actions i).pos = (st.players i).pos) := by
    unfold moved_player
    by_cases hm : moves st actions i = true
    · simp only [hm, if_true, hI, hnv, Bool.false_eq_true, if_false, player_start_move_cooldown,
        not_true_eq_false, false_implies, true_implies, and_self, and_true]
    · have hc : (actions i).move ≠ ACTION_NOOP ∧ (st.players i).alive = true ∧
          action_to_direction (actions i).move ≠ Direction.DIR_NONE ∧
          player_can_move (st.players i) = true :=
        ⟨action_ne_noop _ hdir, hai, hdir, hcan⟩
      simp only [hm, Bool.false_eq_true, if_false, if_pos hc, player_start_move_cooldown,
        not_false_eq_true, false_implies, true_implies, and_self]
  rw [hpos, hcd]
  refine ⟨?_, ?_, hmoved.1⟩
  · constructor
    · intro h
      by_contra hc
      have hm := hcond.2 hc
      rw [hmoved.2.1 hm] at h
      exact hne h.symm
    · intro h
      exact hmoved.2.2 (fun hm => hcond.1 hm h)
  · intro h
    exact hmoved.2.1 (hcond.2 h)

/-- C20, at a concrete input: on the map `1 2 .` both players move Right;
player 1 moves off to (2,0) and player 0 ends on (1,0), the former cell of
player 1, with its move cooldown started. -/
theorem game_phase_movement_follow_witness :
    ((game_phase_movement threeCellState bothRight StepInfo.zero).1.players 0).pos
      = { x := 1, y := 0 } ∧
    ((game_phase_movement threeCellState bothRight StepInfo.zero).1.players 0).move_cooldown_ticks
      = MOVEMENT_COOLDOWN_TICKS :=
  ⟨by decide,
    (game_phase_movement_follow threeCellState bothRight StepInfo.zero 0 (by decide) (by decide)
      (by decide) (by decide) (by decide) (by decide)).2.2⟩

/-- C20 as stated fails at the swap: on the map `1 2` player 0 moves Right
onto the cell of player 1 while player 1 moves Left; player 1 issues a move,
can move, and heads for a Floor cell, not a Wall, yet player 0 is left where it
was and does not end on the former cell of player 1. -/
theorem follow_swap_counterexample :
    ((twoCellState.players 0).alive = true ∧ (twoCellState.players 1).alive = true ∧
      (twoCellState.players 0).pos ≠ (twoCellState.players 1).pos ∧
      arena_is_passable twoCellState.arena (twoCellState.players 0).pos.x
        (twoCellState.players 0).pos.y = true ∧
      arena_is_passable twoCellState.arena (twoCellState.players 1).pos.x
        (twoCellState.players 1).pos.y = true ∧
      player_can_move (twoCellState.players 0) = true ∧
      position_add_direction (twoCellState.players 0).pos
        (action_to_direction (swapActions 0).move) = (twoCellState.players 1).pos) ∧
    (action_to_direction (swapActions 1).move ≠ Direction.DIR_NONE ∧
      player_can_move (twoCellState.players 1) = true ∧
      arena_is_passable twoCellState.arena
        (position_add_direction (twoCellState.players 1).pos
          (action_to_direction (swapActions 1).move)).x
        (position_add_direction (twoCellState.players 1).pos
          (action_to_direction (swapActions 1).move)).y = true ∧
      position_add_direction (twoCellState.players 1).pos
          (action_to_direction (swapActions 1).move) ≠ (twoCellState.players 1).pos) ∧
    ((game_phase_movement twoCellState swapActions StepInfo.zero).1.players 0).pos
      = (twoCellState.players 0).pos ∧
    ((game_phase_movement twoCellState swapActions StepInfo.zero).1.players 0).pos
      ≠ (twoCellState.players 1).pos := by
  decide

theorem step_respawned_eq (st : GameState) (rng_state : Nat) (actions : Fin 2 → PlayerAction) :
    step_respawned st rng_state actions =
      playerIndices.foldl respawn_movement_step
        ((step_moved st rng_state actions).1, (step_revived st rng_state actions).2.1,
          (step_moved st rng_state actions).2) := rfl

theorem tick_cooldowns_fields (p : Player) :
    (player_tick_cooldowns p).pos = p.pos ∧ (player_tick_cooldowns p).alive = p.alive ∧
    (player_tick_cooldowns p).health = p.health ∧ (player_tick_cooldowns p).score = p.score ∧
    (player_tick_cooldowns p).move_cooldown_ticks
      = (if p.move_cooldown_ticks > 0 then p.move_cooldown_ticks - 1 else p.move_cooldown_ticks) ∧
    (player_tick_cooldowns p).laser_cooldown_ticks
      = (if p.laser_cooldown_ticks > 0 then p.laser_cooldown_ticks - 1
          else p.laser_cooldown_ticks) ∧
    (player_tick_cooldowns p).energy
      = (if p.energy < MAX_ENERGY ∧ p.energy_regen_ticks - 1 ≤ 0 then p.energy + 1
          else p.energy) := by
  unfold player_tick_cooldowns
  simp only []
  split_ifs <;> simp_all

theorem frameEq_step_collected (st : GameState) : FrameEq st (step_collected st).1 :=
  game_phase_collect_crystals_frame st StepInfo.zero

theorem frameEq_step_shot (st : GameState) (actions : Fin 2 → PlayerAction) :
    FrameEq st (step_shot st actions).1 :=
  frameEq_trans (frameEq_step_collected st) (game_phase_shooting_frame _ actions _)

theorem frameEq_step_revived (st : GameState) (rng_state : Nat)
    (actions : Fin 2 → PlayerAction) : FrameEq st (step_revived st rng_state actions).1 :=
  frameEq_trans (frameEq_step_shot st actions) (foldl_frame_pair _ respawn_shooting_step_frame _)

theorem fires_false_of_dir (s : GameState) (actions : Fin 2 → PlayerAction) (k : Fin 2)
    (h : action_to_direction (actions k).shoot = Direction.DIR_NONE) :
    fires s actions k = false := by
  simp [fires, h]

theorem lands_false_of_fires (s : GameState) (actions : Fin 2 → PlayerAction) (k : Fin 2)
    (h : fires s actions k = false) : lands s actions k = false := by
  simp [lands, h]

/-- With no shoot direction for either player the shooting phase leaves every
player record as it was. -/
theorem shooting_outcome_idle (s : GameState) (actions : Fin 2 → PlayerAction)
    (h : ∀ i, action_to_direction (actions i).shoot = Direction.DIR_NONE) (k : Fin 2) :
    shooting_outcome s actions k = s.players k := by
  unfold shooting_outcome
  simp only [fires_false_of_dir s actions _ (h _),
    lands_false_of_fires s actions _ (fires_false_of_dir s actions _ (h _)),
    Bool.false_eq_true, if_false]

/-- With a `None` move direction a player does not move and its record comes
out of the apply-movements loop as it was. -/
theorem moved_player_idle (s : GameState) (actions : Fin 2 → PlayerAction) (k : Fin 2)
    (h : action_to_direction (actions k).move = Direction.DIR_NONE) :
    moved_player s actions k = s.players k := by
  have ht : tries_move s actions k = false := by
    simp [tries_move, h]
  have hm : moves s actions k = false := by
    rcases fin2_cases k with rfl | rfl
    · simp [moves, first_moves, still_moves, ht]
    · simp [moves, second_moves, still_moves, ht]
  unfold moved_player
  simp only [hm, Bool.false_eq_true, if_false, h, ne_eq, not_true_eq_false, false_and,
    and_false]

theorem tries_move_of_can (s : GameState) (actions : Fin 2 → PlayerAction) (i : Fin 2)
    (hcan : player_can_move (s.players i) = true)
    (hmove : action_to_direction (actions i).move ≠ Direction.DIR_NONE) :
    tries_move s actions i =
      (arena_is_passable s.arena (move_target s actions i).x (move_target s actions i).y ||
        arena_is_void s.arena (move_target s actions i).x (move_target s actions i).y) := by
  have hal : (s.players i).alive = true := by
    simp only [player_can_move, Bool.and_eq_true] at hcan
    exact hcan.1
  simp [tries_move, hal, hcan, hmove]

/-- Two movers whose targets are one cell, or each the cell of the other, are
both stopped by conflict resolution. -/
theorem conflict_no_moves (s : GameState) (actions : Fin 2 → PlayerAction)
    (hcan : ∀ i, player_can_move (s.players i) = true)
    (hmove : ∀ i, action_to_direction (actions i).move ≠ Direction.DIR_NONE)
    (hconf : move_target s actions 0 = move_target s actions 1 ∨
      (move_target s actions 0 = (s.players 1).pos ∧
        move_target s actions 1 = (s.players 0).pos)) (k : Fin 2) :
    moves s actions k = false := by
  have hal : ∀ i, (s.players i).alive = true := by
    intro i
    have := hcan i
    simp only [player_can_move, Bool.and_eq_true] at this
    exact this.1
  have hI : ∀ i, intent s actions i
      = if tries_move s actions i = true then move_target s actions i else (s.players i).pos :=
    fun i => rfl
  have e0 := tries_move_of_can s actions 0 (hcan 0) (hmove 0)
  have e1 := tries_move_of_can s actions 1 (hcan 1) (hmove 1)
  cases ht0 : tries_move s actions 0 <;> cases ht1 : tries_move s actions 1
  · rcases fin2_cases k with rfl | rfl <;>
      simp [moves, first_moves, second_moves, still_moves, ht0, ht1]
  · rcases hconf with hc | ⟨_, hc⟩
    · exfalso
      rw [hc, ← e1, ht1] at e0
      rw [ht0] at e0
      cases e0
    · rcases fin2_cases k with rfl | rfl <;>
        simp [moves, first_moves, second_moves, still_moves, moves_conflict, hI, ht0, ht1, hc,
          hal 0, hal 1]
  · rcases hconf with hc | ⟨hc, _⟩
    · exfalso
      rw [hc, ← e1, ht1] at e0
      rw [ht0] at e0
      cases e0
    · rcases fin2_cases k with rfl | rfl <;>
        simp [moves, first_moves, second_moves, still_moves, moves_conflict, hI, ht0, ht1, hc,
          hal 0, hal 1]
  · rcases hconf with hc | ⟨hc0, hc1⟩
    · rcases fin2_cases k with rfl | rfl <;>
        simp [moves, first_moves, second_moves, still_moves, moves_conflict, hI, ht0, ht1, hc]
    · rcases fin2_cases k with rfl | rfl <;>
        simp [moves, first_moves, second_moves, still_moves, moves_conflict, hI, ht0, ht1, hc0,
          hc1]

theorem step_collected_fields (st : GameState) (k : Fin 2) :
    ((step_collected st).1.players k).pos = (st.players k).pos ∧
    ((step_collected st).1.players k).alive = (st.players k).alive ∧
    ((step_collected st).1.players k).health = (st.players k).health ∧
    ((step_collected st).1.players k).move_cooldown_ticks = (st.players k).move_cooldown_ticks ∧
    ((step_collected st).1.players k).laser_cooldown_ticks
      = (st.players k).laser_cooldown_ticks ∧
    ((step_collected st).1.players k).score = (st.players k).score :=
  collect_fold_fields st StepInfo.zero k

theorem step_shot_players (st : GameState) (actions : Fin 2 → PlayerAction) (k : Fin 2) :
    (step_shot st actions).1.players k = shooting_outcome (step_collected st).1 actions k :=
  (game_phase_shooting_spec _ actions _).1 k

/-- With both players alive and no shoot direction, the movement phase of a
step starts from the player records the crystal-collection phase left. -/
theorem step_revived_idle (st : GameState) (rng_state : Nat) (actions : Fin 2 → PlayerAction)
    (hal : ∀ i, (st.players i).alive = true)
    (hshoot : ∀ i, action_to_direction (actions i).shoot = Direction.DIR_NONE) (k : Fin 2) :
    (step_revived st rng_state actions).1.players k = (step_collected st).1.players k := by
  have hs : ∀ j, (step_shot st actions).1.players j = (step_collected st).1.players j := by
    intro j
    rw [step_shot_players, shooting_outcome_idle _ _ hshoot]
  have ha : ∀ j, ((step_shot st actions).1.players j).alive = true := by
    intro j
    rw [hs, (step_collected_fields st j).2.1]
    exact hal j
  obtain ⟨_, _, _, h4, _⟩ := respawn_shooting_fold_player
    ((step_shot st actions).1, rng_state, (step_shot st actions).2) k
  unfold step_revived
  rw [(h4 (ha k)).1]
  simp only [ha, Bool.not_true, credited_false]
  exact hs k

/-- A player that is alive after the movement phase, with the opponent alive
as well, keeps its record through the second respawn pass. -/
theorem step_respawned_alive (st : GameState) (rng_state : Nat) (actions : Fin 2 → PlayerAction)
    (hal : ∀ i, ((step_moved st rng_state actions).1.players i).alive = true) (k : Fin 2) :
    (step_respawned st rng_state actions).1.players k
      = (step_moved st rng_state actions).1.players k := by
  have hn : ∀ j, needs_respawn ((step_moved st rng_state actions).1,
      (step_revived st rng_state actions).2.1, (step_moved st rng_state actions).2) j = false := by
    intro j
    simp [needs_respawn, hal j]
  obtain ⟨_, _, _, h4, _⟩ := respawn_movement_fold_player
    ((step_moved st rng_state actions).1, (step_revived st rng_state actions).2.1,
      (step_moved st rng_state actions).2) k
  rw [step_respawned_eq, (h4 (hn k)).1, hn, credited_false]

/-- C19: in a step of a running game in which both players are alive and can
move, both issue a move and nobody shoots, if the two move targets are the
same cell or each target is the cell of the other player, then when
`game_step` returns both players are where they were, both are alive, and
both have a positive move cooldown. -/
theorem game_step_conflicting_moves (st : GameState) (rng_state : Nat)
    (actions : Fin 2 → PlayerAction)
    (hgo : st.game_over = false)
    (hcan : ∀ i, (st.players i).alive = true ∧ player_can_move (st.players i) = true)
    (hshoot : ∀ i, action_to_direction (actions i).shoot = Direction.DIR_NONE)
    (hmove : ∀ i, action_to_direction (actions i).move ≠ Direction.DIR_NONE)
    (hconf :
      position_add_direction (st.players 0).pos (action_to_direction (actions 0).move)
          = position_add_direction (st.players 1).pos (action_to_direction (actions 1).move) ∨
        (position_add_direction (st.players 0).pos (action_to_direction (actions 0).move)
            = (st.players 1).pos ∧
          position_add_direction (st.players 1).pos (action_to_direction (actions 1).move)
            = (st.players 0).pos)) :
    ∀ i, ((game_step st rng_state actions).1.players i).pos = (st.players i).pos ∧
      ((game_step st rng_state actions).1.players i).alive = true ∧
      ((game_step st rng_state actions).1.players i).move_cooldown_ticks > 0 := by
  have hR : ∀ k, (step_revived st rng_state actions).1.players k
      = (step_collected st).1.players k :=
    step_revived_idle st rng_state actions (fun i => (hcan i).1) hshoot
  have hF := step_collected_fields st
  have hpos : ∀ k, ((step_revived st rng_state actions).1.players k).pos = (st.players k).pos :=
    fun k => by rw [hR, (hF k).1]
  have hcan2 : ∀ k, player_can_move ((step_revived st rng_state actions).1.players k) = true := by
    intro k
    have := (hcan k).2
    simp only [player_can_move, hR, (hF k).2.1, (hF k).2.2.2.1] at this ⊢
    exact this
  have hal2 : ∀ k, ((step_revived st rng_state actions).1.players k).alive = true := by
    intro k
    rw [hR, (hF k).2.1]
    exact (hcan k).1
  have hm := conflict_no_moves (step_revived st rng_state actions).1 actions hcan2 hmove
    (by simp only [move_target, hpos]; exact hconf)
  have hmp : ∀ k, moved_player (step_revived st rng_state actions).1 actions k
      = player_start_move_cooldown ((step_revived st rng_state actions).1.players k) := by
    intro k
    unfold moved_player
    rw [hm k]
    simp only [Bool.false_eq_true, if_false]
    rw [if_pos ⟨action_ne_noop _ (hmove k), hal2 k, hmove k, hcan2 k⟩]
  have hD := fun k => game_phase_movement_fields (step_revived st rng_state actions).1 actions
    (step_revived st rng_state actions).2.2 k
  have hal3 : ∀ k, ((step_moved st rng_state actions).1.players k).alive = true := by
    intro k
    unfold step_moved
    rw [(hD k).2.1, hmp]
    exact hal2 k
  intro i
  rw [game_step_players st rng_state actions hgo, step_respawned_alive st rng_state actions hal3]
  obtain ⟨t1, t2, _, _, t5, _⟩ :=
    tick_cooldowns_fields ((step_moved st rng_state actions).1.players i)
  rw [t1, t2, t5]
  have hcd : ((step_moved st rng_state actions).1.players i).move_cooldown_ticks
      = MOVEMENT_COOLDOWN_TICKS := by
    unfold step_moved
    rw [(hD i).2.2.2.1, hmp]
    rfl
  refine ⟨?_, hal3 i, ?_⟩
  · unfold step_moved
    rw [(hD i).1, hmp]
    exact hpos i
  · rw [hcd]
    decide

set_option maxRecDepth 100000 in
/-- C19, at a concrete input: on the map `1 . 2` player 0 moves Right and
player 1 moves Left, both onto (1,0); both stay where they were, alive, with
the move cooldown running. -/
theorem game_step_conflicting_moves_witness :
    (((game_step headOnState 12345 swapActions).1.players 0).pos = (headOnState.players 0).pos ∧
      ((game_step headOnState 12345 swapActions).1.players 0).alive = true ∧
      ((game_step headOnState 12345 swapActions).1.players 0).move_cooldown_ticks > 0) ∧
    (((game_step headOnState 12345 swapActions).1.players 1).pos = (headOnState.players 1).pos ∧
      ((game_step headOnState 12345 swapActions).1.players 1).alive = true ∧
      ((game_step headOnState 12345 swapActions).1.players 1).move_cooldown_ticks > 0) :=
  ⟨game_step_conflicting_moves headOnState 12345 swapActions (by decide) (by decide) (by decide)
      (by decide) (by decide) 0,
    game_step_conflicting_moves headOnState 12345 swapActions (by decide) (by decide) (by decide)
      (by decide) (by decide) 1⟩

/-- The pushback a Player hit reports is the one `combat_apply_pushback`
computes for the other player. -/
theorem combat_fire_laser_pushback (st : GameState) (i : Fin 2) (dir : Direction)
    (hhit : (combat_fire_laser st i dir).hit_type = LaserHitType.LASER_HIT_PLAYER) :
    ((combat_fire_laser st i dir).pushback_to, (combat_fire_laser st i dir).target_fragged)
      = combat_apply_pushback st (opponentOf i) dir PUSHBACK_DISTANCE := by
  have hdir := dir_of_hit st i dir (by rw [hhit]; intro h; cases h)
  have heq := combat_fire_laser_eq st i dir
  simp only [combat_fire_laser_fuel, hdir, if_false] at heq
  obtain ⟨k, _, _, _, _, _, _, _, hpb, _⟩ := laser_loop_spec st i dir _ _ _ _ _ heq
  exact hpb hhit

/-- A Player hit on a target with Void, or nothing, behind it reports a frag. -/
theorem combat_fire_laser_void_behind (st : GameState) (i : Fin 2) (dir : Direction)
    (hhit : (combat_fire_laser st i dir).hit_type = LaserHitType.LASER_HIT_PLAYER)
    (hvoid : arena_is_void st.arena
      (position_add_direction (st.players (opponentOf i)).pos dir).x
      (position_add_direction (st.players (opponentOf i)).pos dir).y = true) :
    (combat_fire_laser st i dir).target_fragged = true := by
  have h := combat_fire_laser_pushback st i dir hhit
  rw [show PUSHBACK_DISTANCE = 1 from rfl, pushback_one_step] at h
  simp only [hvoid, true_or, if_true, Prod.mk.injEq] at h
  exact h.2

/-- A Player hit on a target with an unoccupied Floor cell behind it reports
that cell as the pushback cell, and no frag. -/
theorem combat_fire_laser_floor_behind (st : GameState) (i : Fin 2) (dir : Direction)
    (hhit : (combat_fire_laser st i dir).hit_type = LaserHitType.LASER_HIT_PLAYER)
    (hfloor : arena_is_passable st.arena
      (position_add_direction (st.players (opponentOf i)).pos dir).x
      (position_add_direction (st.players (opponentOf i)).pos dir).y = true)
    (hfree : ¬ ((st.players i).alive = true ∧
      (st.players i).pos = position_add_direction (st.players (opponentOf i)).pos dir)) :
    (combat_fire_laser st i dir).pushback_to
        = position_add_direction (st.players (opponentOf i)).pos dir ∧
      (combat_fire_laser st i dir).target_fragged = false := by
  have h := combat_fire_laser_pushback st i dir hhit
  rw [show PUSHBACK_DISTANCE = 1 from rfl, pushback_one_step] at h
  obtain ⟨hx0, hx1, hy0, hy1⟩ := passable_in_bounds _ _ _ hfloor
  have hv : arena_is_void st.arena
      (position_add_direction (st.players (opponentOf i)).pos dir).x
      (position_add_direction (st.players (opponentOf i)).pos dir).y = false := by
    simp only [arena_is_passable, arena_is_void, decide_eq_true_eq, decide_eq_false_iff_not]
      at hfloor ⊢
    rw [hfloor]; intro hc; cases hc
  have hw : arena_is_wall st.arena
      (position_add_direction (st.players (opponentOf i)).pos dir).x
      (position_add_direction (st.players (opponentOf i)).pos dir).y = false := by
    simp only [arena_is_passable, arena_is_wall, decide_eq_true_eq, decide_eq_false_iff_not]
      at hfloor ⊢
    rw [hfloor]; intro hc; cases hc
  have hval : arena_is_valid_position st.arena
      (position_add_direction (st.players (opponentOf i)).pos dir).x
      (position_add_direction (st.players (opponentOf i)).pos dir).y = true := by
    simp only [arena_is_valid_position, decide_eq_true_eq]
    exact ⟨hx0, hx1, hy0, hy1⟩
  simp only [hv, hw, hval, opponentOf_opponentOf, Bool.false_eq_true, Bool.true_eq_false,
    or_self, if_false, false_or, if_neg hfree, Prod.mk.injEq] at h
  exact h

/-- Score accounting of a step of a running game, in the `game_step` result. -/
theorem game_step_score_credit (st : GameState) (rng_state : Nat)
    (actions : Fin 2 → PlayerAction) (hgo : st.game_over = false) (i : Fin 2) :
    ((game_step st rng_state actions).1.players (opponentOf i)).score =
      (st.players (opponentOf i)).score +
        (if (game_step st rng_state actions).2.2.player_fragged i = true then 1 else 0) := by
  rw [game_step_players st rng_state actions hgo, game_step_info st rng_state actions hgo,
    (tick_cooldowns_fields _).2.2.2.1]
  exact step_respawned_acct st rng_state actions i

theorem fresh_respawn (p : Player) (c : Position) : Fresh (player_respawn p c) :=
  ⟨rfl, rfl, rfl⟩

theorem fresh_credited (p : Player) (b : Bool) (h : Fresh p) : Fresh (credited p b) := h

theorem fresh_restore (p : Player) (h : Fresh p) : Fresh (player_restore_energy p MAX_ENERGY) := by
  obtain ⟨h1, h2, h3⟩ := h
  simp only [Fresh, player_restore_energy, h3]
  split_ifs with hc
  · exact ⟨h1, h2, rfl⟩
  · simp only [MAX_ENERGY] at hc
    omega

theorem fresh_tick (p : Player) (h : Fresh p) : Fresh (player_tick_cooldowns p) := by
  obtain ⟨h1, h2, h3⟩ := h
  obtain ⟨_, t2, t3, _, _, _, t7⟩ := tick_cooldowns_fields p
  refine ⟨t2.trans h1, t3.trans h2, ?_⟩
  rw [t7, h3, if_neg]
  intro hc
  exact absurd hc.1 (lt_irrefl _)

theorem placeEq_step_collected (st : GameState) : PlaceEq st (step_collected st).1 :=
  game_phase_collect_crystals_place st StepInfo.zero

/-- A player that can shoot before the crystal-collection phase can shoot
after it. -/
theorem can_shoot_collected (st : GameState) (s : Fin 2)
    (h : player_can_shoot (st.players s) = true) :
    player_can_shoot ((step_collected st).1.players s) = true := by
  rcases (collect_fold_player st StepInfo.zero s).1 with ⟨he, _⟩ | ⟨_, he, _⟩
  · unfold step_collected game_phase_collect_crystals
    rw [he]
    exact h
  · unfold step_collected game_phase_collect_crystals
    rw [he]
    simp only [player_can_shoot, Bool.and_eq_true, decide_eq_true_eq] at h ⊢
    obtain ⟨_, f2, _, _, f5, _⟩ := restore_energy_fields (st.players s)
    refine ⟨⟨f2.trans h.1.1, f5.trans h.1.2⟩, ?_⟩
    simp only [player_restore_energy, MAX_ENERGY]
    split_ifs <;> simp only [] <;> omega

theorem pushed_player_dead (r : LaserResult) (q : Player)
    (h : r.target_fragged = true ∨ q.alive = false) : (pushed_player r q).alive = false := by
  unfold pushed_player
  cases ha : q.alive
  · simp [ha]
  · rcases h with h | h
    · simp [h]
    · rw [ha] at h; cases h

/-- The shooting phase of a step kills the target of a shot that hits when the
target has health 1 or has Void, or nothing, behind it; the hit is recorded. -/
theorem step_shot_kills (st : GameState) (actions : Fin 2 → PlayerAction) (s : Fin 2)
    (hcan : player_can_shoot ((step_collected st).1.players s) = true)
    (hhit : (combat_fire_laser st s (action_to_direction (actions s).shoot)).hit_type
      = LaserHitType.LASER_HIT_PLAYER)
    (hkill : (st.players (opponentOf s)).health = 1 ∨
      arena_is_void st.arena
        (position_add_direction (st.players (opponentOf s)).pos
          (action_to_direction (actions s).shoot)).x
        (position_add_direction (st.players (opponentOf s)).pos
          (action_to_direction (actions s).shoot)).y = true) :
    ((step_shot st actions).1.players (opponentOf s)).alive = false ∧
      (step_shot st actions).2.player_hit (opponentOf s) = true := by
  have hcg : combat_fire_laser (step_collected st).1 s (action_to_direction (actions s).shoot)
      = combat_fire_laser st s (action_to_direction (actions s).shoot) :=
    combat_fire_laser_congr (frameEq_step_collected st) (placeEq_step_collected st) s _
  obtain ⟨_, hl⟩ := lands_of_hit (step_collected st).1 actions s hcan (by rw [hcg]; exact hhit)
  obtain ⟨hP, _, hH, _⟩ := game_phase_shooting_spec (step_collected st).1 actions
    (step_collected st).2
  constructor
  · unfold step_shot
    rw [hP, shooting_outcome, opponentOf_opponentOf, hl]
    simp only [if_true, shot_result, hcg]
    rcases hkill with h1 | hv
    · have hh : (player_take_damage (if fires (step_collected st).1 actions (opponentOf s) = true
          then fired_player ((step_collected st).1.players (opponentOf s))
          else (step_collected st).1.players (opponentOf s)) LASER_DAMAGE).alive = false := by
        have hp : (if fires (step_collected st).1 actions (opponentOf s) = true
            then fired_player ((step_collected st).1.players (opponentOf s))
            else (step_collected st).1.players (opponentOf s)).health = 1 := by
          split_ifs
          · rw [fired_player_health, (step_collected_fields st _).2.2.1, h1]
          · rw [(step_collected_fields st _).2.2.1, h1]
        simp only [player_take_damage, hp, LASER_DAMAGE]
        simp
      exact pushed_player_dead _ _ (Or.inr hh)
    · exact pushed_player_dead _ _ (Or.inl (combat_fire_laser_void_behind st s _ hhit hv))
  · unfold step_shot
    rw [hH, opponentOf_opponentOf, hl, Bool.or_true]

/-- The first respawn pass of a step revives a player the shooting phase
killed and sets its `player_fragged` flag. -/
theorem step_revived_fresh (st : GameState) (rng_state : Nat) (actions : Fin 2 → PlayerAction)
    (t : Fin 2) (hdead : ((step_shot st actions).1.players t).alive = false) :
    Fresh ((step_revived st rng_state actions).1.players t) ∧
      (step_revived st rng_state actions).2.2.player_fragged t = true := by
  obtain ⟨_, _, _, _, h5⟩ := respawn_shooting_fold_player
    ((step_shot st actions).1, rng_state, (step_shot st actions).2) t
  obtain ⟨⟨c, hc⟩, hf⟩ := h5 hdead
  unfold step_revived
  rw [hc]
  exact ⟨fresh_respawn _ _, hf⟩

theorem step_revived_info (st : GameState) (rng_state : Nat) (actions : Fin 2 → PlayerAction) :
    (step_revived st rng_state actions).2.2.player_hit = (step_shot st actions).2.player_hit ∧
    (step_revived st rng_state actions).2.2.crystal_collected
      = (step_shot st actions).2.crystal_collected := by
  obtain ⟨_, h2, h3, _⟩ := respawn_shooting_fold_player
    ((step_shot st actions).1, rng_state, (step_shot st actions).2) 0
  exact ⟨h2, h3⟩

theorem step_moved_info (st : GameState) (rng_state : Nat) (actions : Fin 2 → PlayerAction) :
    (step_moved st rng_state actions).2.player_hit
      = (step_revived st rng_state actions).2.2.player_hit ∧
    (step_moved st rng_state actions).2.player_fragged
      = (step_revived st rng_state actions).2.2.player_fragged := by
  unfold step_moved game_phase_movement
  obtain ⟨_, h2, h3, _⟩ := collect_fold_player
    (playerIndices.foldl (movement_apply_step actions
      (movement_resolve (step_revived st rng_state actions).1 actions))
      (step_revived st rng_state actions).1) (step_revived st rng_state actions).2.2 0
  exact ⟨h2, h3⟩

/-- A revived player that issues no move is still alive with full health and
energy when `game_step` returns, with its `player_fragged` flag set. -/
theorem game_step_fresh (st : GameState) (rng_state : Nat) (actions : Fin 2 → PlayerAction)
    (hgo : st.game_over = false) (t : Fin 2)
    (hfresh : Fresh ((step_revived st rng_state actions).1.players t))
    (hfrag : (step_revived st rng_state actions).2.2.player_fragged t = true)
    (hnomove : action_to_direction (actions t).move = Direction.DIR_NONE) :
    Fresh ((game_step st rng_state actions).1.players t) ∧
      (game_step st rng_state actions).2.2.player_fragged t = true := by
  have hm : Fresh ((step_moved st rng_state actions).1.players t) := by
    unfold step_moved game_phase_movement
    rcases (collect_fold_player
      (playerIndices.foldl (movement_apply_step actions
        (movement_resolve (step_revived st rng_state actions).1 actions))
        (step_revived st rng_state actions).1)
      (step_revived st rng_state actions).2.2 t).1 with ⟨he, _⟩ | ⟨_, he, _⟩
    · simp only [] at he ⊢
      rw [he, (movement_apply_fold_eq _ actions).1 t, moved_player_idle _ _ _ hnomove]
      exact hfresh
    · simp only [] at he ⊢
      rw [he, (movement_apply_fold_eq _ actions).1 t, moved_player_idle _ _ _ hnomove]
      exact fresh_restore _ hfresh
  have hn : needs_respawn ((step_moved st rng_state actions).1,
      (step_revived st rng_state actions).2.1, (step_moved st rng_state actions).2) t = false := by
    simp [needs_respawn, hm.1]
  obtain ⟨_, _, _, h4, _⟩ := respawn_movement_fold_player
    ((step_moved st rng_state actions).1, (step_revived st rng_state actions).2.1,
      (step_moved st rng_state actions).2) t
  obtain ⟨hp, hf⟩ := h4 hn
  rw [game_step_players st rng_state actions hgo, game_step_info st rng_state actions hgo,
    step_respawned_eq, hp, hf]
  refine ⟨fresh_tick _ (fresh_credited _ _ hm), ?_⟩
  simp only []
  rw [(step_moved_info st rng_state actions).2]
  exact hfrag

theorem game_step_player_hit (st : GameState) (rng_state : Nat) (actions : Fin 2 → PlayerAction)
    (hgo : st.game_over = false) :
    (game_step st rng_state actions).2.2.player_hit = (step_shot st actions).2.player_hit := by
  obtain ⟨_, h2, _⟩ := respawn_movement_fold_player
    ((step_moved st rng_state actions).1, (step_revived st rng_state actions).2.1,
      (step_moved st rng_state actions).2) 0
  rw [game_step_info st rng_state actions hgo, step_respawned_eq, h2]
  simp only []
  rw [(step_moved_info st rng_state actions).1, (step_revived_info st rng_state actions).1]

/-- C16 (amended): in a step of a running game, when player `s` can shoot in
the shooting phase, its laser hits the other player `t`, `t` has health 1 or
has Void (or the outside of the grid) behind it along the shot, and `t` issues
no move, then when `game_step` returns `player_fragged[t]` is set, the score
of `s` is 1 higher, and `t` is alive with health `MAX_HEALTH` and energy
`MAX_ENERGY`; the score of `t` is not reset: it is the previous score, plus 1
when `player_fragged[s]` is set as well. -/
theorem game_step_shot_kill (st : GameState) (rng_state : Nat) (actions : Fin 2 → PlayerAction)
    (s : Fin 2) (hgo : st.game_over = false)
    (hcan : player_can_shoot ((game_phase_collect_crystals st StepInfo.zero).1.players s) = true)
    (hhit : (combat_fire_laser st s (action_to_direction (actions s).shoot)).hit_type
      = LaserHitType.LASER_HIT_PLAYER)
    (hkill : (st.players (opponentOf s)).health = 1 ∨
      arena_is_void st.arena
        (position_add_direction (st.players (opponentOf s)).pos
          (action_to_direction (actions s).shoot)).x
        (position_add_direction (st.players (opponentOf s)).pos
          (action_to_direction (actions s).shoot)).y = true)
    (hnomove : action_to_direction (actions (opponentOf s)).move = Direction.DIR_NONE) :
    (game_step st rng_state actions).2.2.player_fragged (opponentOf s) = true ∧
    ((game_step st rng_state actions).1.players s).score = (st.players s).score + 1 ∧
    ((game_step st rng_state actions).1.players (opponentOf s)).alive = true ∧
    ((game_step st rng_state actions).1.players (opponentOf s)).health = MAX_HEALTH ∧
    ((game_step st rng_state actions).1.players (opponentOf s)).energy = MAX_ENERGY ∧
    ((game_step st rng_state actions).1.players (opponentOf s)).score
      = (st.players (opponentOf s)).score +
        (if (game_step st rng_state actions).2.2.player_fragged s = true then 1 else 0) := by
  obtain ⟨hdead, _⟩ := step_shot_kills st actions s hcan hhit hkill
  obtain ⟨hfresh, hfrag⟩ := step_revived_fresh st rng_state actions _ hdead
  obtain ⟨⟨h1, h2, h3⟩, h4⟩ := game_step_fresh st rng_state actions hgo _ hfresh hfrag hnomove
  have hs := game_step_score_credit st rng_state actions hgo (opponentOf s)
  rw [opponentOf_opponentOf, h4, if_pos rfl] at hs
  exact ⟨h4, hs, h1, h2, h3, game_step_score_credit st rng_state actions hgo s⟩

set_option maxRecDepth 100000 in
/-- C16, at a concrete input: on the map `1 2` player 0 shoots player 1 off
the grid; player 1 is fragged and respawned in the same step. -/
theorem game_step_shot_kill_witness :
    (game_step twoCellState 12345 shootRight).2.2.player_fragged 1 = true ∧
    ((game_step twoCellState 12345 shootRight).1.players 0).score = 1 ∧
    ((game_step twoCellState 12345 shootRight).1.players 1).alive = true :=
  ⟨(game_step_shot_kill twoCellState 12345 shootRight 0 (by decide) (by decide) (by decide)
      (by decide) (by decide)).1,
    by decide, by decide⟩

set_option maxRecDepth 100000 in
/-- C16 as stated fails: in the duel step both players are alive, the shot
of player 0 hits player 1, whose health is 1 and who issues no move, yet
player 1 does not return with its previous score 7 but with 8, because its
own shot fragged player 0 in the same step. -/
theorem shot_kill_score_counterexample :
    duelState.game_over = false ∧
    (∀ i, (duelState.players i).alive = true) ∧
    player_can_shoot (duelState.players 0) = true ∧
    (combat_fire_laser duelState 0 (action_to_direction (duelActions 0).shoot)).hit_type
      = LaserHitType.LASER_HIT_PLAYER ∧
    (combat_fire_laser duelState 0 (action_to_direction (duelActions 0).shoot)).target_player
      = 1 ∧
    (duelState.players 1).health = 1 ∧
    action_to_direction (duelActions 1).move = Direction.DIR_NONE ∧
    (duelState.players 1).score = 7 ∧
    ((game_step duelState 42 duelActions).1.players 1).score = 8 := by
  decide

/-- C12: in a step of a running game in which both players have health 1 and
can shoot, each laser hits the other player, and neither player issues a move,
when `game_step` returns both `player_hit` flags and both `player_fragged`
flags are set, each score is 1 higher, and both players are alive with health
4 and energy 8. -/
theorem game_step_mutual_kill (st : GameState) (rng_state : Nat)
    (actions : Fin 2 → PlayerAction) (hgo : st.game_over = false)
    (hhealth : ∀ i, (st.players i).health = 1)
    (hcan : ∀ i, player_can_shoot (st.players i) = true)
    (hhit : ∀ i, (combat_fire_laser st i (action_to_direction (actions i).shoot)).hit_type
      = LaserHitType.LASER_HIT_PLAYER)
    (hnomove : ∀ i, action_to_direction (actions i).move = Direction.DIR_NONE) :
    ∀ i, (game_step st rng_state actions).2.2.player_hit i = true ∧
      (game_step st rng_state actions).2.2.player_fragged i = true ∧
      ((game_step st rng_state actions).1.players i).score = (st.players i).score + 1 ∧
      ((game_step st rng_state actions).1.players i).alive = true ∧
      ((game_step st rng_state actions).1.players i).health = 4 ∧
      ((game_step st rng_state actions).1.players i).energy = 8 := by
  have key : ∀ i, (step_shot st actions).2.player_hit i = true ∧
      Fresh ((game_step st rng_state actions).1.players i) ∧
      (game_step st rng_state actions).2.2.player_fragged i = true := by
    intro i
    have hk := step_shot_kills st actions (opponentOf i) (can_shoot_collected st _ (hcan _))
      (hhit _) (Or.inl (by rw [opponentOf_opponentOf]; exact hhealth i))
    rw [opponentOf_opponentOf] at hk
    obtain ⟨hfresh, hfrag⟩ := step_revived_fresh st rng_state actions i hk.1
    exact ⟨hk.2, game_step_fresh st rng_state actions hgo i hfresh hfrag (hnomove i)⟩
  intro i
  obtain ⟨k1, ⟨k2, k3, k4⟩, k5⟩ := key i
  have hs := game_step_score_credit st rng_state actions hgo (opponentOf i)
  rw [opponentOf_opponentOf, (key (opponentOf i)).2.2, if_pos rfl] at hs
  refine ⟨?_, k5, hs, k2, k3, k4⟩
  rw [game_step_player_hit st rng_state actions hgo]
  exact k1

set_option maxRecDepth 100000 in
/-- C12, at a concrete input: the duel step on the map `1 . 2`. -/
theorem game_step_mutual_kill_witness :
    ((game_step duelState 42 duelActions).2.2.player_hit 0 = true ∧
      (game_step duelState 42 duelActions).2.2.player_fragged 0 = true ∧
      ((game_step duelState 42 duelActions).1.players 0).score
        = (duelState.players 0).score + 1 ∧
      ((game_step duelState 42 duelActions).1.players 0).alive = true ∧
      ((game_step duelState 42 duelActions).1.players 0).health = 4 ∧
      ((game_step duelState 42 duelActions).1.players 0).energy = 8) ∧
    ((game_step duelState 42 duelActions).2.2.player_hit 1 = true ∧
      (game_step duelState 42 duelActions).2.2.player_fragged 1 = true ∧
      ((game_step duelState 42 duelActions).1.players 1).score
        = (duelState.players 1).score + 1 ∧
      ((game_step duelState 42 duelActions).1.players 1).alive = true ∧
      ((game_step duelState 42 duelActions).1.players 1).health = 4 ∧
      ((game_step duelState 42 duelActions).1.players 1).energy = 8) :=
  ⟨game_step_mutual_kill duelState 42 duelActions (by decide) (by decide) (by decide) (by decide)
      (by decide) 0,
    game_step_mutual_kill duelState 42 duelActions (by decide) (by decide) (by decide) (by decide)
      (by decide) 1⟩

theorem gauge_credited (p : Player) (b : Bool) : gauge (credited p b) = gauge p := rfl

theorem gauge_take_damage (p : Player) : gauge (player_take_damage p LASER_DAMAGE) = gauge p := by
  simp only [gauge, player_take_damage]
  split_ifs <;> rfl

theorem gauge_pushed (r : LaserResult) (p : Player) : gauge (pushed_player r p) = gauge p := by
  simp only [gauge, pushed_player]
  split_ifs <;> rfl

theorem gauge_moved (s : GameState) (actions : Fin 2 → PlayerAction) (k : Fin 2) :
    gauge (moved_player s actions k) = gauge (s.players k) := by
  simp only [gauge, moved_player, player_start_move_cooldown]
  split_ifs <;> rfl

theorem gauge_fired (p : Player) (h : player_can_shoot p = true) :
    gauge (fired_player p) = (p.energy - 1, LASER_COOLDOWN_TICKS, p.energy_regen_ticks) := by
  rw [fired_player_eq p h]
  rfl

/-- The gauge of a player that fires in the shooting phase, after that phase. -/
theorem gauge_shooting_outcome (s : GameState) (actions : Fin 2 → PlayerAction) (i : Fin 2)
    (hdir : action_to_direction (actions i).shoot ≠ Direction.DIR_NONE)
    (hcan : player_can_shoot (s.players i) = true) :
    gauge (shooting_outcome s actions i)
      = ((s.players i).energy - 1, LASER_COOLDOWN_TICKS, (s.players i).energy_regen_ticks) := by
  have hf : fires s actions i = true := by
    simp only [fires, Bool.and_eq_true, decide_eq_true_eq]
    exact ⟨hdir, hcan⟩
  unfold shooting_outcome
  simp only [hf, if_true]
  split_ifs
  · rw [gauge_pushed, gauge_take_damage, gauge_fired _ hcan]
  · exact gauge_fired _ hcan

theorem step_shot_info (st : GameState) (actions : Fin 2 → PlayerAction) :
    (step_shot st actions).2.player_fragged = (step_collected st).2.player_fragged ∧
    (step_shot st actions).2.crystal_collected = (step_collected st).2.crystal_collected := by
  obtain ⟨_, _, _, h4, h5, _⟩ := game_phase_shooting_spec (step_collected st).1 actions
    (step_collected st).2
  exact ⟨h4, h5⟩

/-- A player whose returned `crystal_collected` flag is clear has the record
the apply-movements loop left after the movement phase, and the record it
started the step with after the crystal-collection phase. -/
theorem no_crystal_players (st : GameState) (rng_state : Nat) (actions : Fin 2 → PlayerAction)
    (hgo : st.game_over = false) (i : Fin 2)
    (h : (game_step st rng_state actions).2.2.crystal_collected i = false) :
    (step_collected st).1.players i = st.players i ∧
    (step_moved st rng_state actions).1.players i
      = moved_player (step_revived st rng_state actions).1 actions i := by
  obtain ⟨_, _, h3, _⟩ := respawn_movement_fold_player
    ((step_moved st rng_state actions).1, (step_revived st rng_state actions).2.1,
      (step_moved st rng_state actions).2) 0
  rw [game_step_info st rng_state actions hgo, step_respawned_eq, h3] at h
  simp only [] at h
  have hD := (collect_fold_player
      (playerIndices.foldl (movement_apply_step actions
        (movement_resolve (step_revived st rng_state actions).1 actions))
        (step_revived st rng_state actions).1)
      (step_revived st rng_state actions).2.2 i).1
  have hm : (step_moved st rng_state actions).1.players i
      = moved_player (step_revived st rng_state actions).1 actions i ∧
      (step_revived st rng_state actions).2.2.crystal_collected i = false := by
    rcases hD with ⟨e1, e2⟩ | ⟨_, _, e2⟩
    · constructor
      · unfold step_moved game_phase_movement
        simp only []
        rw [e1, (movement_apply_fold_eq _ actions).1 i]
      · rw [← e2]
        exact h
    · exfalso
      have : (step_moved st rng_state actions).2.crystal_collected i = true := e2
      rw [h] at this
      cases this
  refine ⟨?_, hm.1⟩
  have hc : (step_collected st).2.crystal_collected i = false := by
    rw [← (step_shot_info st actions).2, ← (step_revived_info st rng_state actions).2]
    exact hm.2
  rcases (collect_fold_player st StepInfo.zero i).1 with ⟨e1, _⟩ | ⟨_, _, e2⟩
  · exact e1
  · exfalso
    have : (step_collected st).2.crystal_collected i = true := e2
    rw [hc] at this
    cases this

/-- A player whose returned `player_fragged` flag is clear was respawned in
neither pass: both passes left its record as it was, up to the score. -/
theorem no_frag_players (st : GameState) (rng_state : Nat) (actions : Fin 2 → PlayerAction)
    (hgo : st.game_over = false) (i : Fin 2)
    (h : (game_step st rng_state actions).2.2.player_fragged i = false) :
    (∃ b, (step_revived st rng_state actions).1.players i
      = credited ((step_shot st actions).1.players i) b) ∧
    (∃ b, (step_respawned st rng_state actions).1.players i
      = credited ((step_moved st rng_state actions).1.players i) b) := by
  rw [game_step_info st rng_state actions hgo, step_respawned_eq] at h
  obtain ⟨_, _, _, h4, h5⟩ := respawn_movement_fold_player
    ((step_moved st rng_state actions).1, (step_revived st rng_state actions).2.1,
      (step_moved st rng_state actions).2) i
  have hn : needs_respawn ((step_moved st rng_state actions).1,
      (step_revived st rng_state actions).2.1, (step_moved st rng_state actions).2) i = false := by
    cases hn : needs_respawn ((step_moved st rng_state actions).1,
      (step_revived st rng_state actions).2.1, (step_moved st rng_state actions).2) i
    · rfl
    · rw [(h5 hn).2] at h
      cases h
  obtain ⟨hp, hf⟩ := h4 hn
  rw [hf] at h
  simp only [] at h
  rw [(step_moved_info st rng_state actions).2] at h
  obtain ⟨_, _, _, g4, g5⟩ := respawn_shooting_fold_player
    ((step_shot st actions).1, rng_state, (step_shot st actions).2) i
  have ha : ((step_shot st actions).1.players i).alive = true := by
    cases ha : ((step_shot st actions).1.players i).alive
    · have := (g5 ha).2
      unfold step_revived at h
      rw [this] at h
      cases h
    · rfl
  exact ⟨⟨_, (g4 ha).1⟩, ⟨_, by rw [step_respawned_eq]; exact hp⟩⟩

/-- C14 (amended): in a step of a running game, a player `i` that fires (its
shoot direction is not None and `player_can_shoot` holds for it in the
shooting phase), is not fragged in the step, collects no crystal in the step
and starts the step with an energy regeneration countdown above 1, returns
with laser cooldown `LASER_COOLDOWN_TICKS - 1`, which is at least 1, and with
exactly 1 energy less than before the step. -/
theorem game_step_fire_cost (st : GameState) (rng_state : Nat) (actions : Fin 2 → PlayerAction)
    (i : Fin 2) (hgo : st.game_over = false)
    (hdir : action_to_direction (actions i).shoot ≠ Direction.DIR_NONE)
    (hcan : player_can_shoot ((game_phase_collect_crystals st StepInfo.zero).1.players i) = true)
    (hnofrag : (game_step st rng_state actions).2.2.player_fragged i = false)
    (hnocrystal : (game_step st rng_state actions).2.2.crystal_collected i = false)
    (hregen : 1 < (st.players i).energy_regen_ticks) :
    ((game_step st rng_state actions).1.players i).laser_cooldown_ticks
      = LASER_COOLDOWN_TICKS - 1 ∧
    ((game_step st rng_state actions).1.players i).laser_cooldown_ticks ≥ 1 ∧
    ((game_step st rng_state actions).1.players i).energy = (st.players i).energy - 1 := by
  obtain ⟨hA, hD⟩ := no_crystal_players st rng_state actions hgo i hnocrystal
  obtain ⟨⟨b1, hC⟩, ⟨b2, hE⟩⟩ := no_frag_players st rng_state actions hgo i hnofrag
  have hcan2 : player_can_shoot ((step_collected st).1.players i) = true := hcan
  have hg : gauge ((step_respawned st rng_state actions).1.players i)
      = ((st.players i).energy - 1, LASER_COOLDOWN_TICKS, (st.players i).energy_regen_ticks) := by
    rw [hE, gauge_credited, hD, gauge_moved, hC, gauge_credited, step_shot_players,
      gauge_shooting_outcome _ _ _ hdir hcan2, hA]
  simp only [gauge, Prod.mk.injEq] at hg
  obtain ⟨g1, g2, g3⟩ := hg
  obtain ⟨_, _, _, _, _, t6, t7⟩ :=
    tick_cooldowns_fields ((step_respawned st rng_state actions).1.players i)
  rw [game_step_players st rng_state actions hgo, t6, t7, g1, g2, g3]
  refine ⟨?_, ?_, ?_⟩
  · simp [LASER_COOLDOWN_TICKS]
  · simp [LASER_COOLDOWN_TICKS]
  · rw [if_neg]
    intro hc
    omega

set_option maxRecDepth 100000 in
/-- C14, at a concrete input: on the map `1 # 2` player 0 shoots Right at the
Wall and returns with laser cooldown 11 and energy 7. -/
theorem game_step_fire_cost_witness :
    ((game_step wallState 12345 shootRight).1.players 0).laser_cooldown_ticks = 11 ∧
    ((game_step wallState 12345 shootRight).1.players 0).energy = 7 ∧
    ((game_step wallState 12345 shootRight).1.players 0).laser_cooldown_ticks
      = LASER_COOLDOWN_TICKS - 1 ∧
    ((game_step wallState 12345 shootRight).1.players 0).laser_cooldown_ticks ≥ 1 ∧
    ((game_step wallState 12345 shootRight).1.players 0).energy
      = (wallState.players 0).energy - 1 :=
  ⟨by decide, by decide,
    game_step_fire_cost wallState 12345 shootRight 0 (by decide) (by decide) (by decide)
      (by decide) (by decide) (by decide)⟩

set_option maxRecDepth 100000 in
/-- C14 as stated fails in three ways, each with player 0 firing in the
shooting phase.  In the duel step player 0 is fragged and respawned: it
returns with laser cooldown 0 and energy 8, not 7.  On the crystal cell with
energy 3 it collects the crystal before it shoots and returns with energy 7,
not 2.  With energy 3 and the regeneration countdown at 1 it regenerates the
point it spent and returns with energy 3, not 2. -/
theorem fire_cost_counterexample :
    (duelState.game_over = false ∧
      action_to_direction (duelActions 0).shoot ≠ Direction.DIR_NONE ∧
      player_can_shoot ((game_phase_collect_crystals duelState StepInfo.zero).1.players 0)
        = true ∧
      (duelState.players 0).energy = 8 ∧
      ((game_step duelState 42 duelActions).1.players 0).laser_cooldown_ticks = 0 ∧
      ((game_step duelState 42 duelActions).1.players 0).energy = 8) ∧
    (onCrystalState.game_over = false ∧
      action_to_direction (shootUp 0).shoot ≠ Direction.DIR_NONE ∧
      player_can_shoot ((game_phase_collect_crystals onCrystalState StepInfo.zero).1.players 0)
        = true ∧
      (onCrystalState.players 0).energy = 3 ∧
      (game_step onCrystalState 42 shootUp).2.2.player_fragged 0 = false ∧
      ((game_step onCrystalState 42 shootUp).1.players 0).energy = 7) ∧
    (lowRegenState.game_over = false ∧
      action_to_direction (shootUp 0).shoot ≠ Direction.DIR_NONE ∧
      player_can_shoot ((game_phase_collect_crystals lowRegenState StepInfo.zero).1.players 0)
        = true ∧
      (lowRegenState.players 0).energy = 3 ∧
      (game_step lowRegenState 42 shootUp).2.2.player_fragged 0 = false ∧
      (game_step lowRegenState 42 shootUp).2.2.crystal_collected 0 = false ∧
      ((game_step lowRegenState 42 shootUp).1.players 0).energy = 3) := by
  decide

theorem arena_get_crystal_at_collect (a : Arena) (j x y : Int) :
    arena_get_crystal_at (arena_collect_crystal a j) x y = arena_get_crystal_at a x y := by
  unfold arena_collect_crystal
  split_ifs
  · unfold arena_get_crystal_at
    have hp : ∀ i, ((setAt a.crystals j
        { a.crystals j with cooldown_ticks := CRYSTAL_RESPAWN_TICKS }) i).pos
        = (a.crystals i).pos := by
      intro i
      simp only [setAt]
      split_ifs with h
      · rw [h]
      · rfl
    simp only [hp]
  · rfl

theorem arena_crystal_available_collect (a : Arena) (j k : Int) :
    arena_crystal_available (arena_collect_crystal a j) k
      = (arena_crystal_available a k && decide (k ≠ j)) := by
  unfold arena_collect_crystal
  split_ifs with h
  · unfold arena_crystal_available
    simp only []
    by_cases hk : k = j
    · subst hk
      simp [setAt, CRYSTAL_RESPAWN_TICKS]
    · simp [setAt, hk]
  · unfold arena_crystal_available
    by_cases hk : k = j
    · subst hk
      have : k < 0 ∨ k ≥ a.num_crystals := by omega
      simp [this]
    · simp [hk]

/-- An iteration of a crystal-collection loop, as far as the arena and the
positions go: the positions stay, and the arena stays or has one crystal
collected. -/
theorem collect_crystal_step_arena (acc : GameState × StepInfo) (i : Fin 2) :
    (∀ k, ((collect_crystal_step acc i).1.players k).pos = (acc.1.players k).pos) ∧
    ((collect_crystal_step acc i).1.arena = acc.1.arena ∨
      ∃ j, (collect_crystal_step acc i).1.arena = arena_collect_crystal acc.1.arena j) := by
  constructor
  · intro k
    exact ((collect_crystal_step_place acc i) k).1
  · unfold collect_crystal_step
    simp only []
    split_ifs
    · exact Or.inl rfl
    · exact Or.inr ⟨_, rfl⟩
    · exact Or.inl rfl

theorem spent_collect_step (acc : GameState × StepInfo) (i k : Fin 2) (h : Spent acc.1 k) :
    Spent (collect_crystal_step acc i).1 k := by
  obtain ⟨hp, ha⟩ := collect_crystal_step_arena acc i
  unfold Spent at h ⊢
  rw [hp]
  rcases ha with ha | ⟨j, ha⟩
  · rw [ha]; exact h
  · rw [ha, arena_get_crystal_at_collect, arena_crystal_available_collect, h]
    rfl

theorem spent_after_collect_step (acc : GameState × StepInfo) (i : Fin 2)
    (hal : (acc.1.players i).alive = true) : Spent (collect_crystal_step acc i).1 i := by
  unfold Spent collect_crystal_step
  simp only [hal, Bool.not_true, Bool.false_eq_true, if_false]
  split_ifs with hc
  · simp only [modifyPlayer_players, if_true, arena_get_crystal_at_collect,
      arena_crystal_available_collect]
    have hpos : (player_restore_energy (acc.1.players i) MAX_ENERGY).pos = (acc.1.players i).pos :=
      (restore_energy_fields _).1
    rw [hpos]
    simp
  · cases hav : arena_crystal_available acc.1.arena
      (arena_get_crystal_at acc.1.arena (acc.1.players i).pos.x (acc.1.players i).pos.y)
    · rfl
    · exfalso
      apply hc
      refine ⟨?_, hav⟩
      by_contra hneg
      have hf : arena_crystal_available acc.1.arena
          (arena_get_crystal_at acc.1.arena (acc.1.players i).pos.x (acc.1.players i).pos.y)
          = false := by
        unfold arena_crystal_available
        rw [if_pos (Or.inl (by omega))]
      rw [hf] at hav
      cases hav

theorem collect_crystal_step_spent (acc : GameState × StepInfo) (i : Fin 2)
    (h : Spent acc.1 i) : collect_crystal_step acc i = acc := by
  unfold Spent at h
  unfold collect_crystal_step
  simp only [h, Bool.false_eq_true, and_false, if_false, ite_self]

theorem collect_crystal_step_other (acc : GameState × StepInfo) (i j : Fin 2) (h : j ≠ i) :
    (collect_crystal_step acc i).1.players j = acc.1.players j := by
  unfold collect_crystal_step
  simp only []
  split_ifs
  · rfl
  · simp only [modifyPlayer_players, if_neg h]
  · rfl

/-- A crystal-collection loop leaves the record of a player alone when no
crystal can be collected on its cell. -/
theorem spent_collect_fold (s : GameState) (info : StepInfo) (k : Fin 2) (h : Spent s k) :
    (playerIndices.foldl collect_crystal_step (s, info)).1.players k = s.players k := by
  rw [foldl_playerIndices]
  rcases fin2_cases k with rfl | rfl
  · rw [collect_crystal_step_other _ 1 0 (by decide), collect_crystal_step_spent (s, info) 0 h]
  · rw [collect_crystal_step_spent _ 1 (spent_collect_step (s, info) 0 1 h),
      collect_crystal_step_other _ 0 1 (by decide)]

/-- After the crystal-collection phase of a step no crystal can be collected
on the cell of an alive player. -/
theorem spent_step_collected (st : GameState) (k : Fin 2) (hal : (st.players k).alive = true) :
    Spent (step_collected st).1 k := by
  unfold step_collected game_phase_collect_crystals
  rw [foldl_playerIndices]
  rcases fin2_cases k with rfl | rfl
  · exact spent_collect_step _ 1 0 (spent_after_collect_step (st, StepInfo.zero) 0 hal)
  · apply spent_after_collect_step
    rw [((collect_crystal_step_place (st, StepInfo.zero) 0) 1).2]
    exact hal

theorem restore_energy_full (p : Player) (he : p.energy = MAX_ENERGY)
    (hr : p.energy_regen_ticks = ENERGY_REGEN_TICKS) :
    player_restore_energy p MAX_ENERGY = p := by
  cases p
  simp only [MAX_ENERGY, ENERGY_REGEN_TICKS] at he hr
  subst he hr
  simp [player_restore_energy, MAX_ENERGY, ENERGY_REGEN_TICKS]

/-- With both players alive after the shooting phase, the first respawn pass
leaves the player records as they were. -/
theorem step_revived_alive (st : GameState) (rng_state : Nat) (actions : Fin 2 → PlayerAction)
    (hal : ∀ i, ((step_shot st actions).1.players i).alive = true) (k : Fin 2) :
    (step_revived st rng_state actions).1.players k = (step_shot st actions).1.players k := by
  obtain ⟨_, _, _, h4, _⟩ := respawn_shooting_fold_player
    ((step_shot st actions).1, rng_state, (step_shot st actions).2) k
  unfold step_revived
  rw [(h4 (hal k)).1]
  simp only [hal, Bool.not_true, credited_false]

theorem step_revived_arena (st : GameState) (rng_state : Nat) (actions : Fin 2 → PlayerAction) :
    (step_revived st rng_state actions).1.arena = (step_collected st).1.arena := by
  obtain ⟨h1, _⟩ := respawn_shooting_fold_player
    ((step_shot st actions).1, rng_state, (step_shot st actions).2) 0
  unfold step_revived
  rw [h1]
  exact (game_phase_shooting_spec _ actions _).2.1

theorem fired_player_fields (p : Player) :
    (fired_player p).pos = p.pos ∧ (fired_player p).alive = p.alive := by
  simp only [fired_player, player_start_laser_cooldown, player_use_energy]
  split_ifs <;> exact ⟨rfl, rfl⟩

/-- C13 (amended): in a step of a running game in which player 0 is alive
with energy 8, laser cooldown 0 and regeneration countdown
`ENERGY_REGEN_TICKS`, player 1 is alive with health above 1, the laser of
player 0 hits player 1, the cell behind player 1 along the shot is a Floor
cell that player 0 does not stand on, player 0 issues no move and player 1
issues no action, when `game_step` returns player 1 has 1 health less and
stands on the cell behind, and player 0 has energy 7 and laser cooldown
`LASER_COOLDOWN_TICKS - 1`, which is 11: the timers have ticked once since the
shot set the cooldown to 12. -/
theorem game_step_hit_pushback (st : GameState) (rng_state : Nat)
    (actions : Fin 2 → PlayerAction) (hgo : st.game_over = false)
    (ha0 : (st.players 0).alive = true) (he0 : (st.players 0).energy = 8)
    (hl0 : (st.players 0).laser_cooldown_ticks = 0)
    (hr0 : (st.players 0).energy_regen_ticks = ENERGY_REGEN_TICKS)
    (ha1 : (st.players 1).alive = true) (hh1 : 1 < (st.players 1).health)
    (hhit : (combat_fire_laser st 0 (action_to_direction (actions 0).shoot)).hit_type
      = LaserHitType.LASER_HIT_PLAYER)
    (hfloor : arena_is_passable st.arena
      (position_add_direction (st.players 1).pos (action_to_direction (actions 0).shoot)).x
      (position_add_direction (st.players 1).pos (action_to_direction (actions 0).shoot)).y
      = true)
    (hfree : (st.players 0).pos
      ≠ position_add_direction (st.players 1).pos (action_to_direction (actions 0).shoot))
    (hmove0 : action_to_direction (actions 0).move = Direction.DIR_NONE)
    (hmove1 : action_to_direction (actions 1).move = Direction.DIR_NONE)
    (hshoot1 : action_to_direction (actions 1).shoot = Direction.DIR_NONE) :
    ((game_step st rng_state actions).1.players 1).health = (st.players 1).health - 1 ∧
    ((game_step st rng_state actions).1.players 1).pos
      = position_add_direction (st.players 1).pos (action_to_direction (actions 0).shoot) ∧
    ((game_step st rng_state actions).1.players 0).energy = 7 ∧
    ((game_step st rng_state actions).1.players 0).laser_cooldown_ticks
      = LASER_COOLDOWN_TICKS - 1 := by
  have hF := step_collected_fields st
  -- the crystal-collection phase
  have hA0 : (step_collected st).1.players 0 = st.players 0 := by
    rcases (collect_fold_player st StepInfo.zero 0).1 with ⟨e, _⟩ | ⟨_, e, _⟩
    · exact e
    · exact e.trans (restore_energy_full _ he0 hr0)
  have hcan0 : player_can_shoot (st.players 0) = true := by
    simp [player_can_shoot, ha0, hl0, he0]
  have hcan : player_can_shoot ((step_collected st).1.players 0) = true := by
    rw [hA0]; exact hcan0
  have hcg : combat_fire_laser (step_collected st).1 0 (action_to_direction (actions 0).shoot)
      = combat_fire_laser st 0 (action_to_direction (actions 0).shoot) :=
    combat_fire_laser_congr (frameEq_step_collected st) (placeEq_step_collected st) 0 _
  obtain ⟨hf0, hl0'⟩ := lands_of_hit (step_collected st).1 actions 0 hcan
    (by rw [hcg]; exact hhit)
  have hf1 := fires_false_of_dir (step_collected st).1 actions 1 hshoot1
  have hl1 := lands_false_of_fires (step_collected st).1 actions 1 hf1
  -- the shooting phase
  have hB0 : (step_shot st actions).1.players 0 = fired_player (st.players 0) := by
    rw [step_shot_players, shooting_outcome]
    simp only [opponentOf_zero, hf0, hl1, if_true, Bool.false_eq_true, if_false, hA0]
  have hB1 : (step_shot st actions).1.players 1
      = pushed_player (combat_fire_laser st 0 (action_to_direction (actions 0).shoot))
          (player_take_damage ((step_collected st).1.players 1) LASER_DAMAGE) := by
    rw [step_shot_players, shooting_outcome]
    simp only [opponentOf_one, hf1, hl0', if_true, Bool.false_eq_true, if_false, shot_result, hcg]
  obtain ⟨hpb, hfr⟩ := combat_fire_laser_floor_behind st 0 _ hhit
    (by rw [opponentOf_zero]; exact hfloor)
    (by rw [opponentOf_zero]; exact fun h => hfree h.2)
  rw [opponentOf_zero] at hpb
  have hdmg : player_take_damage ((step_collected st).1.players 1) LASER_DAMAGE
      = { (step_collected st).1.players 1 with
          health := ((step_collected st).1.players 1).health - LASER_DAMAGE } := by
    unfold player_take_damage
    simp only [LASER_DAMAGE]
    rw [if_neg]
    simp only [(hF 1).2.2.1]
    omega
  have hB1f : ((step_shot st actions).1.players 1).health = (st.players 1).health - 1 ∧
      ((step_shot st actions).1.players 1).pos
        = position_add_direction (st.players 1).pos (action_to_direction (actions 0).shoot) ∧
      ((step_shot st actions).1.players 1).alive = true := by
    rw [hB1, hdmg]
    simp only [pushed_player, (hF 1).2.1, ha1, if_true, hfr, Bool.false_eq_true, if_false, hpb,
      (hF 1).2.2.1, LASER_DAMAGE, and_self]
  have hal2 : ∀ k, ((step_shot st actions).1.players k).alive = true := by
    intro k
    rcases fin2_cases k with rfl | rfl
    · rw [hB0, (fired_player_fields _).2]; exact ha0
    · exact hB1f.2.2
  -- the first respawn pass
  have hC := step_revived_alive st rng_state actions hal2
  -- the movement phase
  have hSp : Spent (playerIndices.foldl (movement_apply_step actions
      (movement_resolve (step_revived st rng_state actions).1 actions))
      (step_revived st rng_state actions).1) 0 := by
    have h0 := spent_step_collected st 0 ha0
    unfold Spent at h0 ⊢
    rw [(movement_apply_fold_eq _ actions).2, (movement_apply_fold_eq _ actions).1,
      moved_player_idle _ _ _ hmove0, step_revived_arena, hC, hB0, (fired_player_fields _).1]
    rw [hA0] at h0
    exact h0
  have hD0 : (step_moved st rng_state actions).1.players 0 = fired_player (st.players 0) := by
    unfold step_moved game_phase_movement
    simp only []
    rw [spent_collect_fold _ _ 0 hSp, (movement_apply_fold_eq _ actions).1,
      moved_player_idle _ _ _ hmove0, hC, hB0]
  obtain ⟨d1, d2, d3, _⟩ := game_phase_movement_fields (step_revived st rng_state actions).1
    actions (step_revived st rng_state actions).2.2 1
  rw [moved_player_idle _ _ _ hmove1, hC] at d1 d2 d3
  have hal3 : ∀ k, ((step_moved st rng_state actions).1.players k).alive = true := by
    intro k
    rcases fin2_cases k with rfl | rfl
    · rw [hD0, (fired_player_fields _).2]; exact ha0
    · exact d2.trans hB1f.2.2
  -- the second respawn pass and the timers
  have hE := step_respawned_alive st rng_state actions hal3
  rw [game_step_players st rng_state actions hgo, game_step_players st rng_state actions hgo,
    hE, hE]
  obtain ⟨t1, _, t3, _⟩ := tick_cooldowns_fields ((step_moved st rng_state actions).1.players 1)
  obtain ⟨_, _, _, _, _, t6, t7⟩ :=
    tick_cooldowns_fields ((step_moved st rng_state actions).1.players 0)
  have hfp := fired_player_eq (st.players 0) hcan0
  refine ⟨?_, ?_, ?_, ?_⟩
  · rw [t3]; exact d3.trans hB1f.1
  · rw [t1]; exact d1.trans hB1f.2.1
  · rw [t7, hD0, hfp]
    simp only [he0, hr0, MAX_ENERGY, ENERGY_REGEN_TICKS]
    decide
  · rw [t6, hD0, hfp]
    simp only [LASER_COOLDOWN_TICKS]
    decide

set_option maxRecDepth 100000 in
/-- C13, at a concrete input: on the map `1 . . 2 .`, after one step without
actions, player 0 shoots Right: player 1 ends on (4,0) with health 3, and
player 0 has energy 7 and laser cooldown 11. -/
theorem game_step_hit_pushback_witness :
    ((game_step corridorState 12345 shootRight).1.players 1).pos = { x := 4, y := 0 } ∧
    ((game_step corridorState 12345 shootRight).1.players 1).health = 3 ∧
    ((game_step corridorState 12345 shootRight).1.players 0).energy = 7 ∧
    ((game_step corridorState 12345 shootRight).1.players 0).laser_cooldown_ticks = 11 ∧
    ((game_step corridorState 12345 shootRight).1.players 1).health
      = (corridorState.players 1).health - 1 :=
  ⟨by decide, by decide, by decide, by decide,
    (game_step_hit_pushback corridorState 12345 shootRight (by decide) (by decide) (by decide)
      (by decide) (by decide) (by decide) (by decide) (by decide) (by decide) (by decide)
      (by decide) (by decide) (by decide)).1⟩

set_option maxRecDepth 100000 in
/-- C13 as stated fails at its own witness: on the map `1 . . 2 .`, after one
step without actions, player 0 has energy 8, zero cooldowns and regeneration
countdown 120, player 1 is alive with health 4, the laser of player 0 to the
Right hits player 1 and the cell (4,0) behind player 1 is an unoccupied Floor
cell; after the step the laser cooldown of player 0 is 11, not 12.  The
claim also fails when player 0 is dead in that state: no shot is fired and
player 1 keeps health 4. -/
theorem hit_pushback_cooldown_counterexample :
    (corridorState.game_over = false ∧
      (corridorState.players 0).energy = 8 ∧
      (corridorState.players 0).move_cooldown_ticks = 0 ∧
      (corridorState.players 0).laser_cooldown_ticks = 0 ∧
      (corridorState.players 0).energy_regen_ticks = ENERGY_REGEN_TICKS ∧
      (corridorState.players 1).alive = true ∧ (corridorState.players 1).health = 4 ∧
      (combat_fire_laser corridorState 0 Direction.DIR_RIGHT).hit_type
        = LaserHitType.LASER_HIT_PLAYER ∧
      (combat_fire_laser corridorState 0 Direction.DIR_RIGHT).target_player = 1 ∧
      arena_is_passable corridorState.arena
        (position_add_direction (corridorState.players 1).pos Direction.DIR_RIGHT).x
        (position_add_direction (corridorState.players 1).pos Direction.DIR_RIGHT).y = true ∧
      (corridorState.players 0).pos
        ≠ position_add_direction (corridorState.players 1).pos Direction.DIR_RIGHT ∧
      ((game_step corridorState 12345 shootRight).1.players 0).laser_cooldown_ticks = 11 ∧
      ¬ ((game_step corridorState 12345 shootRight).1.players 0).laser_cooldown_ticks = 12) ∧
    (corridorDeadState.game_over = false ∧
      (corridorDeadState.players 0).alive = false ∧
      (corridorDeadState.players 0).energy = 8 ∧
      (corridorDeadState.players 0).move_cooldown_ticks = 0 ∧
      (corridorDeadState.players 0).laser_cooldown_ticks = 0 ∧
      (corridorDeadState.players 0).energy_regen_ticks = ENERGY_REGEN_TICKS ∧
      (corridorDeadState.players 1).alive = true ∧ (corridorDeadState.players 1).health = 4 ∧
      (combat_fire_laser corridorDeadState 0 Direction.DIR_RIGHT).hit_type
        = LaserHitType.LASER_HIT_PLAYER ∧
      arena_is_passable corridorDeadState.arena
        (position_add_direction (corridorDeadState.players 1).pos Direction.DIR_RIGHT).x
        (position_add_direction (corridorDeadState.players 1).pos Direction.DIR_RIGHT).y = true ∧
      ((game_step corridorDeadState 12345 shootRight).1.players 1).health = 4) := by
  decide

theorem tick_cooldowns_regen (p : Player) :
    (player_tick_cooldowns p).energy_regen_ticks
      = (if p.energy < MAX_ENERGY then
          (if p.energy_regen_ticks - 1 ≤ 0 then ENERGY_REGEN_TICKS else p.energy_regen_ticks - 1)
        else ENERGY_REGEN_TICKS) := by
  unfold player_tick_cooldowns
  simp only []
  split_ifs <;> simp_all

theorem iterate_tick_alive (p : Player) (k : Nat) :
    (player_tick_cooldowns^[k] p).alive = p.alive := by
  induction k with
  | zero => rfl
  | succ n ih => rw [Function.iterate_succ_apply', (tick_cooldowns_fields _).2.1, ih]

/-- The move cooldown after `k` timer ticks. -/
theorem iterate_tick_move_cooldown (p : Player) (k : Nat) (h : 0 ≤ p.move_cooldown_ticks) :
    (player_tick_cooldowns^[k] p).move_cooldown_ticks = max (p.move_cooldown_ticks - k) 0 := by
  induction k with
  | zero => simp [h]
  | succ n ih =>
    rw [Function.iterate_succ_apply', (tick_cooldowns_fields _).2.2.2.2.1, ih]
    push_cast
    split_ifs with hc
    · rw [max_def] at hc ⊢
      rw [max_def]
      split_ifs at hc ⊢ <;> omega
    · rw [max_def] at hc ⊢
      rw [max_def]
      split_ifs at hc ⊢ <;> omega

/-- C30: for an alive player, after `player_start_move_cooldown` and `k` calls
of `player_tick_cooldowns`, `player_can_move` is false for every
`k < MOVEMENT_COOLDOWN_TICKS` and true for `k = MOVEMENT_COOLDOWN_TICKS` (12). -/
theorem player_move_cooldown_length (p : Player) (hal : p.alive = true) :
    (∀ k : Nat, (k : Int) < MOVEMENT_COOLDOWN_TICKS →
      player_can_move (player_tick_cooldowns^[k] (player_start_move_cooldown p)) = false) ∧
    player_can_move (player_tick_cooldowns^[12] (player_start_move_cooldown p)) = true := by
  have hcd : ∀ k : Nat,
      (player_tick_cooldowns^[k] (player_start_move_cooldown p)).move_cooldown_ticks
        = max (MOVEMENT_COOLDOWN_TICKS - k) 0 := by
    intro k
    rw [iterate_tick_move_cooldown _ k (by simp [player_start_move_cooldown,
      MOVEMENT_COOLDOWN_TICKS])]
    rfl
  have hav : ∀ k : Nat,
      (player_tick_cooldowns^[k] (player_start_move_cooldown p)).alive = true := by
    intro k
    rw [iterate_tick_alive]
    exact hal
  constructor
  · intro k hk
    simp only [player_can_move, hav, hcd, Bool.true_and, decide_eq_false_iff_not]
    simp only [MOVEMENT_COOLDOWN_TICKS] at hk ⊢
    rw [max_def]
    split_ifs <;> omega
  · simp only [player_can_move, hav, hcd, Bool.true_and, decide_eq_true_eq]
    simp [MOVEMENT_COOLDOWN_TICKS]

/-- C30, at a concrete input: a player fresh from `player_init`. -/
theorem player_move_cooldown_length_witness :
    player_can_move (player_tick_cooldowns^[11]
      (player_start_move_cooldown (player_init { x := 0, y := 0 }))) = false ∧
    player_can_move (player_tick_cooldowns^[12]
      (player_start_move_cooldown (player_init { x := 0, y := 0 }))) = true :=
  ⟨(player_move_cooldown_length (player_init { x := 0, y := 0 }) rfl).1 11 (by decide),
    (player_move_cooldown_length (player_init { x := 0, y := 0 }) rfl).2⟩

/-- C29 (amended): a cooldown of 1 when the end-of-step timers run does not
block the next tick.  For an alive player with move cooldown 1,
`player_can_move` is true right after that `player_tick_cooldowns` call; with
laser cooldown 1 and energy at least 1, `player_can_shoot` is true right after
it.  A cooldown of 2 is what blocks for exactly one further tick. -/
theorem player_cooldown_one_expires (p : Player) (hal : p.alive = true) :
    (p.move_cooldown_ticks = 1 → player_can_move (player_tick_cooldowns p) = true) ∧
    (p.laser_cooldown_ticks = 1 → 1 ≤ p.energy →
      player_can_shoot (player_tick_cooldowns p) = true) ∧
    (p.move_cooldown_ticks = 2 →
      player_can_move (player_tick_cooldowns p) = false ∧
        player_can_move (player_tick_cooldowns (player_tick_cooldowns p)) = true) ∧
    (p.laser_cooldown_ticks = 2 → 1 ≤ p.energy →
      player_can_shoot (player_tick_cooldowns p) = false ∧
        player_can_shoot (player_tick_cooldowns (player_tick_cooldowns p)) = true) := by
  obtain ⟨_, t2, _, _, t5, t6, t7⟩ := tick_cooldowns_fields p
  obtain ⟨_, u2, _, _, u5, u6, u7⟩ := tick_cooldowns_fields (player_tick_cooldowns p)
  have he : 1 ≤ p.energy → 1 ≤ (player_tick_cooldowns p).energy := by
    intro h
    rw [t7]
    split_ifs <;> omega
  have he2 : 1 ≤ p.energy → 1 ≤ (player_tick_cooldowns (player_tick_cooldowns p)).energy := by
    intro h
    rw [u7]
    have := he h
    split_ifs <;> omega
  refine ⟨?_, ?_, ?_, ?_⟩
  · intro h
    simp [player_can_move, t2, t5, hal, h]
  · intro h h1
    have := he h1
    simp only [player_can_shoot, t2, t6, hal, h, Bool.true_and, Bool.and_eq_true,
      decide_eq_true_eq]
    exact ⟨by decide, by omega⟩
  · intro h
    constructor
    · simp [player_can_move, t2, t5, hal, h]
    · simp [player_can_move, u2, u5, t2, t5, hal, h]
  · intro h h1
    constructor
    · simp [player_can_shoot, t2, t6, hal, h]
    · have := he2 h1
      simp only [player_can_shoot, u2, u6, t2, t6, hal, h, Bool.true_and, Bool.and_eq_true,
        decide_eq_true_eq]
      exact ⟨by decide, by omega⟩

/-- C29, at a concrete input: a fresh player with both cooldowns at 1. -/
theorem player_cooldown_one_expires_witness :
    player_can_move (player_tick_cooldowns (cooledPlayer 1 1)) = true ∧
    player_can_shoot (player_tick_cooldowns (cooledPlayer 1 1)) = true :=
  ⟨(player_cooldown_one_expires (cooledPlayer 1 1) rfl).1 rfl,
    (player_cooldown_one_expires (cooledPlayer 1 1) rfl).2.1 rfl (by decide)⟩

/-- C29 as stated fails: an alive player with energy 8 whose move cooldown and
laser cooldown are 1 when the timers run can move and can shoot right after
that `player_tick_cooldowns` call; neither is still false. -/
theorem cooldown_one_counterexample :
    (cooledPlayer 1 1).alive = true ∧ (cooledPlayer 1 1).move_cooldown_ticks = 1 ∧
    (cooledPlayer 1 1).laser_cooldown_ticks = 1 ∧ (cooledPlayer 1 1).energy ≥ 1 ∧
    ¬ player_can_move (player_tick_cooldowns (cooledPlayer 1 1)) = false ∧
    ¬ player_can_shoot (player_tick_cooldowns (cooledPlayer 1 1)) = false := by
  decide

theorem tick_crystal_cooldown (cs : Int → Crystal) (k i : Int) :
    (tick_crystal cs k i).cooldown_ticks
      = if i = k ∧ (cs i).cooldown_ticks > 0 then (cs i).cooldown_ticks - 1
        else (cs i).cooldown_ticks := by
  unfold tick_crystal
  by_cases hk : i = k
  · subst hk
    split_ifs <;> simp_all [setAt]
  · split_ifs <;> simp_all [setAt]

theorem foldl_tick_crystal_cooldown (l : List Int) (hnd : l.Nodup) :
    ∀ (cs : Int → Crystal) (i : Int), ((l.foldl tick_crystal cs) i).cooldown_ticks
      = if i ∈ l ∧ (cs i).cooldown_ticks > 0 then (cs i).cooldown_ticks - 1
        else (cs i).cooldown_ticks := by
  induction l with
  | nil => intro cs i; simp
  | cons k l ih =>
    intro cs i
    rw [List.nodup_cons] at hnd
    rw [List.foldl_cons, ih hnd.2, tick_crystal_cooldown]
    by_cases hk : i = k
    · subst hk
      simp only [hnd.1, false_and, if_false, true_and, List.mem_cons, true_or]
    · simp only [hk, false_and, if_false, List.mem_cons, false_or]

theorem intRange_nodup (n : Int) : (intRange n).Nodup := by
  unfold intRange
  exact (List.nodup_range _).map (fun a b h => by exact_mod_cast h)

/-- What `arena_tick_crystals` does to one crystal. -/
theorem arena_tick_crystals_cooldown (a : Arena) (i : Int) :
    ((arena_tick_crystals a).crystals i).cooldown_ticks
      = if (0 ≤ i ∧ i < a.num_crystals) ∧ (a.crystals i).cooldown_ticks > 0
        then (a.crystals i).cooldown_ticks - 1 else (a.crystals i).cooldown_ticks := by
  unfold arena_tick_crystals
  simp only []
  rw [foldl_tick_crystal_cooldown _ (intRange_nodup _)]
  simp only [mem_intRange]

theorem arena_tick_crystals_num (a : Arena) :
    (arena_tick_crystals a).num_crystals = a.num_crystals := rfl

theorem iterate_tick_crystals_num (a : Arena) (k : Nat) :
    (arena_tick_crystals^[k] a).num_crystals = a.num_crystals := by
  induction k with
  | zero => rfl
  | succ n ih => rw [Function.iterate_succ_apply', arena_tick_crystals_num, ih]

/-- The cooldown of a crystal after `k` calls of `arena_tick_crystals`. -/
theorem iterate_tick_crystals_cooldown (a : Arena) (i : Int) (hi : 0 ≤ i ∧ i < a.num_crystals)
    (hc : 0 ≤ (a.crystals i).cooldown_ticks) (k : Nat) :
    ((arena_tick_crystals^[k] a).crystals i).cooldown_ticks
      = max ((a.crystals i).cooldown_ticks - k) 0 := by
  induction k with
  | zero => simp [hc]
  | succ n ih =>
    rw [Function.iterate_succ_apply', arena_tick_crystals_cooldown, ih,
      iterate_tick_crystals_num]
    push_cast
    rw [max_def]
    split_ifs with h1 h2 h3
    all_goals (rw [max_def]; split_ifs <;> omega)

theorem arena_collect_crystal_cooldown (a : Arena) (i : Int) (hi : 0 ≤ i ∧ i < a.num_crystals) :
    ((arena_collect_crystal a i).crystals i).cooldown_ticks = CRYSTAL_RESPAWN_TICKS ∧
      (arena_collect_crystal a i).num_crystals = a.num_crystals := by
  unfold arena_collect_crystal
  rw [if_pos hi]
  simp [setAt]

/-- C26: for a valid crystal index `i`, after `arena_collect_crystal` on `i`
and `k` calls of `arena_tick_crystals`, `arena_crystal_available` is true for
`i` if and only if `k >= CRYSTAL_RESPAWN_TICKS` (480). -/
theorem arena_crystal_respawn_timing (a : Arena) (i : Int)
    (hi : 0 ≤ i ∧ i < a.num_crystals) (k : Nat) :
    arena_crystal_available (arena_tick_crystals^[k] (arena_collect_crystal a i)) i = true ↔
      (k : Int) ≥ CRYSTAL_RESPAWN_TICKS := by
  obtain ⟨hc, hn⟩ := arena_collect_crystal_cooldown a i hi
  have hcd := iterate_tick_crystals_cooldown (arena_collect_crystal a i) i (by rw [hn]; exact hi)
    (by rw [hc]; decide) k
  unfold arena_crystal_available
  rw [iterate_tick_crystals_num, hn, if_neg (by omega), decide_eq_true_eq, hcd, hc]
  simp only [CRYSTAL_RESPAWN_TICKS]
  rw [max_def]
  split_ifs <;> omega

/-- C26, at a concrete input: the crystal of the map `* 1 2` is unavailable
after 479 ticks and available after 480. -/
theorem arena_crystal_respawn_timing_witness :
    ¬ arena_crystal_available
        (arena_tick_crystals^[479] (arena_collect_crystal onCrystalState.arena 0)) 0 = true ∧
    arena_crystal_available
        (arena_tick_crystals^[480] (arena_collect_crystal onCrystalState.arena 0)) 0 = true :=
  ⟨fun h => absurd ((arena_crystal_respawn_timing onCrystalState.arena 0 (by decide) 479).1 h)
      (by decide),
    (arena_crystal_respawn_timing onCrystalState.arena 0 (by decide) 480).2 (by decide)⟩

theorem spent_of_eq {a b : GameState} (k : Fin 2) (ha : b.arena = a.arena)
    (hp : (b.players k).pos = (a.players k).pos) (h : Spent a k) : Spent b k := by
  unfold Spent at h ⊢
  rw [ha, hp]
  exact h

theorem moves_false_of_not_tries (s : GameState) (actions : Fin 2 → PlayerAction) (k : Fin 2)
    (ht : tries_move s actions k = false) : moves s actions k = false := by
  rcases fin2_cases k with rfl | rfl
  · simp [moves, first_moves, still_moves, ht]
  · simp [moves, second_moves, still_moves, ht]

theorem can_move_alive (p : Player) (h : player_can_move p = true) : p.alive = true := by
  simp only [player_can_move, Bool.and_eq_true] at h
  exact h.1

/-- A mover is not stopped by conflict resolution when the other player
neither stands on its target cell nor heads for it. -/
theorem lone_mover_moves (s : GameState) (actions : Fin 2 → PlayerAction) (i : Fin 2)
    (hti : tries_move s actions i = true)
    (hpos : (s.players (opponentOf i)).pos ≠ move_target s actions i)
    (htj : move_target s actions (opponentOf i) ≠ move_target s actions i) :
    intent s actions i = move_target s actions i ∧ moves s actions i = true := by
  have hIi : intent s actions i = move_target s actions i := by
    simp only [intent, hti, if_true]
  have hIj : intent s actions (opponentOf i) ≠ move_target s actions i := by
    unfold intent
    split_ifs
    · exact htj
    · exact hpos
  refine ⟨hIi, ?_⟩
  rcases fin2_cases i with rfl | rfl
  · simp only [opponentOf_zero] at *
    simp [moves, first_moves, still_moves, moves_conflict, hti, hIi, eq_false hpos.symm,
      eq_false hIj.symm]
  · simp only [opponentOf_one] at *
    simp [moves, second_moves, still_moves, moves_conflict, hti, hIi, eq_false hpos.symm,
      eq_false hIj]

/-- The record of a player that can move and heads for a Wall, after the
movement phase. -/
theorem movement_wall_fields (st : GameState) (actions : Fin 2 → PlayerAction)
    (info : StepInfo) (i : Fin 2)
    (hcan : player_can_move (st.players i) = true)
    (hdir : action_to_direction (actions i).move ≠ Direction.DIR_NONE)
    (hwall : arena_is_wall st.arena
      (position_add_direction (st.players i).pos (action_to_direction (actions i).move)).x
      (position_add_direction (st.players i).pos (action_to_direction (actions i).move)).y
      = true) :
    ((game_phase_movement st actions info).1.players i).pos = (st.players i).pos ∧
    ((game_phase_movement st actions info).1.players i).alive = true ∧
    ((game_phase_movement st actions info).1.players i).move_cooldown_ticks
      = MOVEMENT_COOLDOWN_TICKS := by
  have hal := can_move_alive _ hcan
  have ht : tries_move st actions i = false := by
    have := wall_iff_not_floor_void st.arena (move_target st actions i).x
      (move_target st actions i).y
    unfold move_target at this
    rw [hwall] at this
    simp only [tries_move, move_target, this, Bool.not_true, Bool.and_false]
  have hm := moves_false_of_not_tries st actions i ht
  have hmp : moved_player st actions i = player_start_move_cooldown (st.players i) := by
    unfold moved_player
    rw [hm]
    simp only [Bool.false_eq_true, if_false]
    rw [if_pos ⟨action_ne_noop _ hdir, hal, hdir, hcan⟩]
  obtain ⟨f1, f2, _, f4, _⟩ := game_phase_movement_fields st actions info i
  rw [f1, f2, f4, hmp]
  exact ⟨rfl, hal, rfl⟩

/-- C21: a player that can move (so is alive) and whose move target is a Wall
cell comes out of `game_phase_movement` where it was, alive, with its move
cooldown at `MOVEMENT_COOLDOWN_TICKS`; and when that is the movement phase of a
step of a running game, the move cooldown is positive when `game_step`
returns. -/
theorem game_phase_movement_wall (st : GameState) (actions : Fin 2 → PlayerAction)
    (info : StepInfo) (i : Fin 2)
    (hcan : player_can_move (st.players i) = true)
    (hdir : action_to_direction (actions i).move ≠ Direction.DIR_NONE)
    (hwall : arena_is_wall st.arena
      (position_add_direction (st.players i).pos (action_to_direction (actions i).move)).x
      (position_add_direction (st.players i).pos (action_to_direction (actions i).move)).y
      = true) :
    (((game_phase_movement st actions info).1.players i).pos = (st.players i).pos ∧
      ((game_phase_movement st actions info).1.players i).alive = true ∧
      ((game_phase_movement st actions info).1.players i).move_cooldown_ticks
        = MOVEMENT_COOLDOWN_TICKS) ∧
    (∀ (st0 : GameState) (rng_state : Nat), st0.game_over = false →
      (step_revived st0 rng_state actions).1 = st →
      ((game_step st0 rng_state actions).1.players i).move_cooldown_ticks > 0) := by
  refine ⟨movement_wall_fields st actions info i hcan hdir hwall, ?_⟩
  intro st0 rng_state hgo hst
  subst hst
  obtain ⟨_, m2, m3⟩ := movement_wall_fields _ actions
    (step_revived st0 rng_state actions).2.2 i hcan hdir hwall
  have hn : needs_respawn ((step_moved st0 rng_state actions).1,
      (step_revived st0 rng_state actions).2.1, (step_moved st0 rng_state actions).2) i
      = false := by
    have : ((step_moved st0 rng_state actions).1.players i).alive = true := m2
    simp [needs_respawn, this]
  obtain ⟨_, _, _, g4, _⟩ := respawn_movement_fold_player
    ((step_moved st0 rng_state actions).1, (step_revived st0 rng_state actions).2.1,
      (step_moved st0 rng_state actions).2) i
  rw [game_step_players st0 rng_state actions hgo, step_respawned_eq, (g4 hn).1,
    (tick_cooldowns_fields _).2.2.2.2.1]
  have hcd : ((step_moved st0 rng_state actions).1.players i).move_cooldown_ticks
      = MOVEMENT_COOLDOWN_TICKS := m3
  simp only [credited, hcd, MOVEMENT_COOLDOWN_TICKS]
  decide

set_option maxRecDepth 100000 in
/-- C21, at a concrete input: on the map `1 # 2` player 0 moves Right into the
Wall at (1,0); it stays on (0,0), alive, with move cooldown 12 after the
movement phase and 11 when the step returns. -/
theorem game_phase_movement_wall_witness :
    (((game_phase_movement wallState bothRight StepInfo.zero).1.players 0).pos
        = (wallState.players 0).pos ∧
      ((game_phase_movement wallState bothRight StepInfo.zero).1.players 0).alive = true ∧
      ((game_phase_movement wallState bothRight StepInfo.zero).1.players 0).move_cooldown_ticks
        = MOVEMENT_COOLDOWN_TICKS) ∧
    ((game_step wallState 12345 bothRight).1.players 0).move_cooldown_ticks = 11 :=
  ⟨(game_phase_movement_wall wallState bothRight StepInfo.zero 0 (by decide) (by decide)
      (by decide)).1,
    by decide⟩

/-- A cell outside the grid has at most one neighbour inside it: two players
on different in-bounds cells do not head for the same cell outside. -/
theorem outside_target_unique (a : Arena) (p q : Position) (d e : Direction)
    (hp : arena_is_valid_position a p.x p.y = true)
    (hq : arena_is_valid_position a q.x q.y = true) (hne : p ≠ q)
    (hout : arena_is_valid_position a (position_add_direction p d).x
      (position_add_direction p d).y = false) :
    q ≠ position_add_direction p d ∧ position_add_direction q e ≠ position_add_direction p d := by
  obtain ⟨px, py⟩ := p
  obtain ⟨qx, qy⟩ := q
  simp only [arena_is_valid_position, decide_eq_true_eq, decide_eq_false_iff_not, ne_eq,
    Position.mk.injEq] at hp hq hne hout ⊢
  cases d <;> cases e <;>
    simp only [position_add_direction, Position.mk.injEq] at hout ⊢ <;>
    constructor <;> omega

theorem void_of_not_valid (a : Arena) (x y : Int)
    (h : arena_is_valid_position a x y = false) : arena_is_void a x y = true := by
  simp only [arena_is_valid_position, decide_eq_false_iff_not] at h
  simp only [arena_is_void, arena_get_tile, decide_eq_true_eq]
  rw [if_pos (by omega)]

/-- The record of a player that can move and heads for a Void cell, or out of
the grid, that the other player neither stands on nor heads for: the move is
applied and kills it. -/
theorem movement_void_fields (st : GameState) (actions : Fin 2 → PlayerAction)
    (info : StepInfo) (i : Fin 2)
    (hcan : player_can_move (st.players i) = true)
    (hdir : action_to_direction (actions i).move ≠ Direction.DIR_NONE)
    (hvoid : arena_is_void st.arena (move_target st actions i).x (move_target st actions i).y
      = true)
    (hpos : (st.players (opponentOf i)).pos ≠ move_target st actions i)
    (htj : move_target st actions (opponentOf i) ≠ move_target st actions i) :
    (movement_resolve st actions).intended i = move_target st actions i ∧
    (movement_resolve st actions).wants_move i = true ∧
    ((game_phase_movement st actions info).1.players i).alive = false ∧
    ((game_phase_movement st actions info).1.players i).pos = (st.players i).pos ∧
    ((game_phase_movement st actions info).1.players i).move_cooldown_ticks
      = MOVEMENT_COOLDOWN_TICKS := by
  have hti : tries_move st actions i = true := by
    rw [tries_move_of_can st actions i hcan hdir, hvoid, Bool.or_true]
  obtain ⟨hI, hM⟩ := lone_mover_moves st actions i hti hpos htj
  obtain ⟨r1, r2⟩ := movement_resolve_eq st actions i
  have hmp : moved_player st actions i
      = player_start_move_cooldown { st.players i with alive := false } := by
    unfold moved_player
    rw [hM, hI]
    simp only [if_true, hvoid]
  obtain ⟨f1, f2, _, f4, _⟩ := game_phase_movement_fields st actions info i
  rw [f1, f2, f4, hmp, r1, r2, hI, hM]
  exact ⟨rfl, rfl, rfl, rfl, rfl⟩

/-- C22 (amended): a move aimed outside the grid is treated like a move into
Void, not like a move into a Wall.  When the two players stand on different
in-bounds cells, a player that can move (so is alive) and whose move target is
out of bounds has `intended` set to the target and `wants_move` set, and
`game_phase_movement` kills it: `alive` is false, the position is unchanged,
and the move cooldown is `MOVEMENT_COOLDOWN_TICKS`. -/
theorem game_phase_movement_out_of_bounds (st : GameState) (actions : Fin 2 → PlayerAction)
    (info : StepInfo) (i : Fin 2)
    (hcan : player_can_move (st.players i) = true)
    (hin : ∀ k, arena_is_valid_position st.arena (st.players k).pos.x (st.players k).pos.y
      = true)
    (hne : (st.players 0).pos ≠ (st.players 1).pos)
    (hout : arena_is_valid_position st.arena
      (position_add_direction (st.players i).pos (action_to_direction (actions i).move)).x
      (position_add_direction (st.players i).pos (action_to_direction (actions i).move)).y
      = false) :
    (movement_resolve st actions).intended i
      = position_add_direction (st.players i).pos (action_to_direction (actions i).move) ∧
    (movement_resolve st actions).wants_move i = true ∧
    ((game_phase_movement st actions info).1.players i).alive = false ∧
    ((game_phase_movement st actions info).1.players i).pos = (st.players i).pos ∧
    ((game_phase_movement st actions info).1.players i).move_cooldown_ticks
      = MOVEMENT_COOLDOWN_TICKS := by
  have hdir : action_to_direction (actions i).move ≠ Direction.DIR_NONE := by
    intro hd
    rw [hd] at hout
    have := hin i
    simp only [position_add_direction] at hout
    rw [this] at hout
    cases hout
  have hne2 : (st.players i).pos ≠ (st.players (opponentOf i)).pos := by
    rcases fin2_cases i with rfl | rfl
    · exact hne
    · exact hne.symm
  obtain ⟨g1, g2⟩ := outside_target_unique st.arena (st.players i).pos
    (st.players (opponentOf i)).pos (action_to_direction (actions i).move)
    (action_to_direction (actions (opponentOf i)).move) (hin i) (hin _) hne2 hout
  exact movement_void_fields st actions info i hcan hdir (void_of_not_valid _ _ _ hout) g1 g2

/-- C22, at a concrete input: on the map `1 2` player 1 moves Up, out of the
grid, and is dead after the movement phase. -/
theorem game_phase_movement_out_of_bounds_witness :
    ((game_phase_movement twoCellState secondUp StepInfo.zero).1.players 1).alive = false ∧
    ((game_phase_movement twoCellState secondUp StepInfo.zero).1.players 1).pos
      = (twoCellState.players 1).pos :=
  ⟨(game_phase_movement_out_of_bounds twoCellState secondUp StepInfo.zero 1 (by decide)
      (by decide) (by decide) (by decide)).2.2.1,
    by decide⟩

set_option maxRecDepth 100000 in
/-- C22 as stated fails: on the map `1 2` player 1 is alive, can move, and
moves Up to (1,-1), which is out of bounds; `game_phase_movement` sets
`wants_move[1]` and `intended[1]` to that cell and leaves player 1 dead, not
alive at its position, and the step reports player 1 as fragged. -/
theorem out_of_bounds_move_counterexample :
    (twoCellState.players 1).alive = true ∧ player_can_move (twoCellState.players 1) = true ∧
    arena_is_valid_position twoCellState.arena
      (position_add_direction (twoCellState.players 1).pos
        (action_to_direction (secondUp 1).move)).x
      (position_add_direction (twoCellState.players 1).pos
        (action_to_direction (secondUp 1).move)).y = false ∧
    (movement_resolve twoCellState secondUp).wants_move 1 = true ∧
    (movement_resolve twoCellState secondUp).intended 1 = { x := 1, y := -1 } ∧
    ((game_phase_movement twoCellState secondUp StepInfo.zero).1.players 1).alive
      = false ∧
    (game_step twoCellState 12345 secondUp).2.2.player_fragged 1 = true := by
  decide

theorem arena_is_valid_position_of_passable (a : Arena) (x y : Int)
    (h : arena_is_passable a x y = true) : arena_is_valid_position a x y = true := by
  obtain ⟨h1, h2, h3, h4⟩ := passable_in_bounds a x y h
  simp only [arena_is_valid_position, decide_eq_true_eq]
  exact ⟨h1, h2, h3, h4⟩

theorem step_collected_info (st : GameState) (k : Fin 2) :
    (step_collected st).2.player_hit k = false ∧
    (step_collected st).2.player_fragged k = false := by
  obtain ⟨_, h2, h3, _⟩ := collect_fold_player st StepInfo.zero 0
  have e2 : (step_collected st).2.player_hit = StepInfo.zero.player_hit := h2
  have e3 : (step_collected st).2.player_fragged = StepInfo.zero.player_fragged := h3
  rw [e2, e3]
  exact ⟨rfl, rfl⟩

/-- C23: in a step of a running game with both players alive on different
Floor cells and nobody shooting, a player `i` that can move, whose move target
is a Void cell and whose target the other player does not head for, returns
with `player_fragged[i]` set, the opponent's score 1 higher, and is alive on a
Floor cell with health 4 and energy 8. -/
theorem game_step_void_walk (st : GameState) (rng_state : Nat) (actions : Fin 2 → PlayerAction)
    (i : Fin 2) (hgo : st.game_over = false)
    (hal : ∀ k, (st.players k).alive = true)
    (hfloor : ∀ k, arena_is_passable st.arena (st.players k).pos.x (st.players k).pos.y = true)
    (hne : (st.players 0).pos ≠ (st.players 1).pos)
    (hshoot : ∀ k, action_to_direction (actions k).shoot = Direction.DIR_NONE)
    (hcan : player_can_move (st.players i) = true)
    (hvoid : arena_is_void st.arena
      (position_add_direction (st.players i).pos (action_to_direction (actions i).move)).x
      (position_add_direction (st.players i).pos (action_to_direction (actions i).move)).y
      = true)
    (htj : position_add_direction (st.players (opponentOf i)).pos
        (action_to_direction (actions (opponentOf i)).move)
      ≠ position_add_direction (st.players i).pos (action_to_direction (actions i).move)) :
    (game_step st rng_state actions).2.2.player_fragged i = true ∧
    ((game_step st rng_state actions).1.players (opponentOf i)).score
      = (st.players (opponentOf i)).score + 1 ∧
    ((game_step st rng_state actions).1.players i).alive = true ∧
    arena_is_passable (game_step st rng_state actions).1.arena
      ((game_step st rng_state actions).1.players i).pos.x
      ((game_step st rng_state actions).1.players i).pos.y = true ∧
    ((game_step st rng_state actions).1.players i).health = 4 ∧
    ((game_step st rng_state actions).1.players i).energy = 8 := by
  have hnv : ∀ x y, arena_is_passable st.arena x y = true → arena_is_void st.arena x y = false := by
    intro x y h
    simp only [arena_is_passable, arena_is_void, decide_eq_true_eq, decide_eq_false_iff_not] at h ⊢
    rw [h]
    intro hc
    cases hc
  have hdir : action_to_direction (actions i).move ≠ Direction.DIR_NONE := by
    intro hd
    rw [hd] at hvoid
    simp only [position_add_direction] at hvoid
    rw [hnv _ _ (hfloor i)] at hvoid
    cases hvoid
  -- the movement phase starts from the records the collection phase left
  have hR := step_revived_idle st rng_state actions hal hshoot
  have hF := step_collected_fields st
  have hfe := frameEq_step_revived st rng_state actions
  have hpos : ∀ k, ((step_revived st rng_state actions).1.players k).pos = (st.players k).pos :=
    fun k => by rw [hR, (hF k).1]
  have hcan2 : player_can_move ((step_revived st rng_state actions).1.players i) = true := by
    simp only [player_can_move, hR, (hF i).2.1, (hF i).2.2.2.1] at hcan ⊢
    exact hcan
  have hT : ∀ k, move_target (step_revived st rng_state actions).1 actions k
      = position_add_direction (st.players k).pos (action_to_direction (actions k).move) := by
    intro k
    simp only [move_target, hpos]
  have hposj : ((step_revived st rng_state actions).1.players (opponentOf i)).pos
      ≠ move_target (step_revived st rng_state actions).1 actions i := by
    rw [hT, hpos]
    intro h
    rw [← h, hnv _ _ (hfloor _)] at hvoid
    cases hvoid
  obtain ⟨_, _, m3, _⟩ := movement_void_fields (step_revived st rng_state actions).1 actions
    (step_revived st rng_state actions).2.2 i hcan2 hdir
    (by rw [hT, arena_is_void_frame hfe]; exact hvoid) hposj (by rw [hT, hT]; exact htj)
  -- the second respawn pass
  have hfr : (step_moved st rng_state actions).2.player_fragged i = false := by
    rw [(step_moved_info st rng_state actions).2]
    obtain ⟨_, _, _, h4, _⟩ := respawn_shooting_fold_player
      ((step_shot st actions).1, rng_state, (step_shot st actions).2) i
    have hsa : ((step_shot st actions).1.players i).alive = true := by
      rw [step_shot_players, shooting_outcome_idle _ _ hshoot, (hF i).2.1]
      exact hal i
    have := (h4 hsa).2
    unfold step_revived
    rw [this]
    simp only []
    rw [(step_shot_info st actions).1, (step_collected_info st i).2]
  have hn : needs_respawn ((step_moved st rng_state actions).1,
      (step_revived st rng_state actions).2.1, (step_moved st rng_state actions).2) i = true := by
    have hd : ((step_moved st rng_state actions).1.players i).alive = false := m3
    simp [needs_respawn, hd, hfr]
  obtain ⟨_, _, _, _, g5⟩ := respawn_movement_fold_player
    ((step_moved st rng_state actions).1, (step_revived st rng_state actions).2.1,
      (step_moved st rng_state actions).2) i
  obtain ⟨⟨c, hc⟩, hfrag⟩ := g5 hn
  have hfresh : Fresh ((game_step st rng_state actions).1.players i) := by
    rw [game_step_players st rng_state actions hgo, step_respawned_eq, hc]
    exact fresh_tick _ (fresh_respawn _ _)
  have hfragged : (game_step st rng_state actions).2.2.player_fragged i = true := by
    rw [game_step_info st rng_state actions hgo, step_respawned_eq]
    exact hfrag
  have hsc := game_step_score_credit st rng_state actions hgo i
  rw [hfragged, if_pos rfl] at hsc
  -- the placement invariant
  have hwp : WellPlaced st := ⟨fun k _ => hfloor k, fun _ _ => hne⟩
  have h2 : TwoFloorCells st.arena := ⟨_, _, hne, hfloor 0, hfloor 1⟩
  obtain ⟨⟨hon, _⟩, _⟩ := game_step_wellPlaced st rng_state actions h2 hwp
  exact ⟨hfragged, hsc, hfresh.1, hon i hfresh.1, hfresh.2.1, hfresh.2.2⟩

set_option maxRecDepth 100000 in
/-- C23, at a concrete input: on the map `1 2 x` player 1 moves Right into the
Void cell (2,0); it is fragged, player 0 scores, and player 1 is back alive
with health 4 and energy 8. -/
theorem game_step_void_walk_witness :
    (game_step ledgeState 12345 bothRight).2.2.player_fragged 1 = true ∧
    ((game_step ledgeState 12345 bothRight).1.players 0).score = 1 ∧
    ((game_step ledgeState 12345 bothRight).1.players 1).alive = true ∧
    ((game_step ledgeState 12345 bothRight).1.players 1).health = 4 :=
  ⟨(game_step_void_walk ledgeState 12345 bothRight 1 (by decide) (by decide) (by decide)
      (by decide) (by decide) (by decide) (by decide) (by decide)).1,
    by decide, by decide, by decide⟩

theorem available_in_range (a : Arena) (j : Int) (h : arena_crystal_available a j = true) :
    (0 ≤ j ∧ j < a.num_crystals) ∧ (a.crystals j).cooldown_ticks = 0 := by
  unfold arena_crystal_available at h
  split_ifs at h with hr
  · constructor
    · omega
    · simpa using h

theorem collected_of_collect (a : Arena) (j : Int) (h : arena_crystal_available a j = true) :
    Collected (arena_collect_crystal a j) j := by
  obtain ⟨hr, _⟩ := available_in_range a j h
  obtain ⟨hc, hn⟩ := arena_collect_crystal_cooldown a j hr
  exact ⟨by rw [hn]; exact hr, hc⟩

theorem collected_collect (a : Arena) (j m : Int) (h : Collected a j) :
    Collected (arena_collect_crystal a m) j := by
  obtain ⟨hr, hc⟩ := h
  unfold arena_collect_crystal
  split_ifs with hm
  · refine ⟨hr, ?_⟩
    simp only [setAt]
    split_ifs with hj
    · rfl
    · exact hc
  · exact ⟨hr, hc⟩

/-- An iteration of a crystal-collection loop keeps a collected crystal
collected. -/
theorem collected_collect_step (acc : GameState × StepInfo) (i : Fin 2) (j : Int)
    (h : Collected acc.1.arena j) : Collected (collect_crystal_step acc i).1.arena j := by
  rcases (collect_crystal_step_arena acc i).2 with e | ⟨m, e⟩
  · rw [e]; exact h
  · rw [e]; exact collected_collect _ _ _ h

theorem collected_collect_fold (s : GameState) (info : StepInfo) (j : Int)
    (h : Collected s.arena j) :
    Collected (playerIndices.foldl collect_crystal_step (s, info)).1.arena j := by
  rw [foldl_playerIndices]
  exact collected_collect_step _ 1 j (collected_collect_step (s, info) 0 j h)

theorem restore_energy_val (p : Player) (h : 0 ≤ p.energy) :
    (player_restore_energy p MAX_ENERGY).energy = MAX_ENERGY := by
  simp only [player_restore_energy, MAX_ENERGY] at h ⊢
  split_ifs with hc
  · rfl
  · simp only at hc ⊢
    omega

theorem available_collect_ne (a : Arena) (j m : Int) (h : arena_crystal_available a j = true)
    (hne : j ≠ m) : arena_crystal_available (arena_collect_crystal a m) j = true := by
  rw [arena_crystal_available_collect, h]
  simp [hne]

theorem step_applied_arena (st : GameState) (rng_state : Nat) (actions : Fin 2 → PlayerAction) :
    (step_applied st rng_state actions).arena = (step_collected st).1.arena := by
  unfold step_applied
  rw [(movement_apply_fold_eq _ actions).2, step_revived_arena]

theorem step_applied_players (st : GameState) (rng_state : Nat) (actions : Fin 2 → PlayerAction)
    (k : Fin 2) :
    (step_applied st rng_state actions).players k
      = moved_player (step_revived st rng_state actions).1 actions k :=
  (movement_apply_fold_eq _ actions).1 k

theorem step_moved_eq (st : GameState) (rng_state : Nat) (actions : Fin 2 → PlayerAction) :
    step_moved st rng_state actions
      = playerIndices.foldl collect_crystal_step
          (step_applied st rng_state actions, (step_revived st rng_state actions).2.2) := rfl

theorem step_respawned_arena (st : GameState) (rng_state : Nat)
    (actions : Fin 2 → PlayerAction) :
    (step_respawned st rng_state actions).1.arena = (step_moved st rng_state actions).1.arena := by
  rw [step_respawned_eq]
  exact (respawn_movement_fold_player _ 0).1

theorem game_tick_timers_arena (s : GameState) :
    (game_tick_timers s).arena = arena_tick_crystals s.arena := by
  unfold game_tick_timers
  simp only [foldl_playerIndices, modifyPlayer_arena]

/-- The arena `game_step` returns for a running game is the arena the movement
phase left, with the crystal timers ticked once. -/
theorem game_step_arena (st : GameState) (rng_state : Nat) (actions : Fin 2 → PlayerAction)
    (h : st.game_over = false) :
    (game_step st rng_state actions).1.arena
      = arena_tick_crystals (step_moved st rng_state actions).1.arena := by
  rw [game_step_running st rng_state actions h]
  simp only [game_check_win_conditions_arena]
  unfold step_before_tick
  rw [game_tick_timers_arena, step_respawned_arena]

/-- A crystal that is collected after the crystal-collection phase of a step
is still collected after the movement phase. -/
theorem collected_step_moved (st : GameState) (rng_state : Nat) (actions : Fin 2 → PlayerAction)
    (j : Int) (h : Collected (step_collected st).1.arena j) :
    Collected (step_moved st rng_state actions).1.arena j := by
  rw [step_moved_eq]
  apply collected_collect_fold
  rw [step_applied_arena]
  exact h

/-- A player whose flag the crystal-collection phase of a step set was alive
at the start of the step and has been refilled. -/
theorem flag_step_collected (st : GameState) (k : Fin 2)
    (h : (step_collected st).2.crystal_collected k = true) :
    (st.players k).alive = true ∧
      (step_collected st).1.players k = player_restore_energy (st.players k) MAX_ENERGY := by
  rcases (collect_fold_player st StepInfo.zero k).1 with ⟨_, e⟩ | ⟨ha, e, _⟩
  · exfalso
    have h2 : (step_collected st).2.crystal_collected k = false := e
    rw [h] at h2
    cases h2
  · exact ⟨ha, e⟩

/-- A player whose move does not go through keeps its position and its alive
flag in the apply-movements loop. -/
theorem moved_player_stays (s : GameState) (actions : Fin 2 → PlayerAction) (k : Fin 2)
    (h : moves s actions k = false) :
    (moved_player s actions k).pos = (s.players k).pos ∧
      (moved_player s actions k).alive = (s.players k).alive := by
  unfold moved_player
  simp only [h, Bool.false_eq_true, if_false, player_start_move_cooldown]
  split_ifs <;> exact ⟨rfl, rfl⟩

/-- An iteration of a crystal-collection loop keeps an available crystal
available or collects it. -/
theorem available_collect_step (acc : GameState × StepInfo) (i : Fin 2) (j : Int)
    (h : arena_crystal_available acc.1.arena j = true) :
    arena_crystal_available (collect_crystal_step acc i).1.arena j = true ∨
      Collected (collect_crystal_step acc i).1.arena j := by
  rcases (collect_crystal_step_arena acc i).2 with e | ⟨m, e⟩
  · rw [e]; exact Or.inl h
  · rw [e]
    by_cases hm : j = m
    · subst hm
      exact Or.inr (collected_of_collect _ _ h)
    · exact Or.inl (available_collect_ne _ _ _ h hm)

/-- A crystal that was available before a crystal-collection loop and is not
available after it has been collected by the loop. -/
theorem collected_of_unavailable (s : GameState) (info : StepInfo) (j : Int)
    (h : arena_crystal_available s.arena j = true)
    (hn : arena_crystal_available (playerIndices.foldl collect_crystal_step (s, info)).1.arena j
      = false) :
    Collected (playerIndices.foldl collect_crystal_step (s, info)).1.arena j := by
  rw [foldl_playerIndices] at hn ⊢
  rcases available_collect_step (s, info) 0 j h with h0 | h0
  · rcases available_collect_step (collect_crystal_step (s, info) 0) 1 j h0 with h1 | h1
    · rw [h1] at hn
      cases hn
    · exact h1
  · exact collected_collect_step _ 1 j h0

theorem collected_cooldown_pos (a : Arena) (j : Int) (h : Collected a j) :
    0 < (a.crystals j).cooldown_ticks := by
  rw [h.2]
  decide

/-- The energy account of a player that collects in the crystal-collection
phase of a step, fires, is not fragged in the step, is not pushed back and
does not move: the movement phase does not refill it and it returns with
`MAX_ENERGY - 1`. -/
theorem collect_then_fire (st : GameState) (rng_state : Nat) (actions : Fin 2 → PlayerAction)
    (k : Fin 2) (hgo : st.game_over = false)
    (hflag : (step_collected st).2.crystal_collected k = true)
    (he : 0 ≤ (st.players k).energy)
    (hfire : fires (step_collected st).1 actions k = true)
    (hstay : moves (step_revived st rng_state actions).1 actions k = false)
    (hnofrag : (game_step st rng_state actions).2.2.player_fragged k = false)
    (hpos : ((step_shot st actions).1.players k).pos = (st.players k).pos) :
    (step_moved st rng_state actions).1.players k = (step_applied st rng_state actions).players k ∧
      ((game_step st rng_state actions).1.players k).energy = MAX_ENERGY - 1 := by
  obtain ⟨hal, hA⟩ := flag_step_collected st k hflag
  have hEA : ((step_collected st).1.players k).energy = MAX_ENERGY := by
    rw [hA]; exact restore_energy_val _ he
  have hRA : ((step_collected st).1.players k).energy_regen_ticks = ENERGY_REGEN_TICKS := by
    rw [hA]; rfl
  simp only [fires, Bool.and_eq_true, decide_eq_true_eq] at hfire
  obtain ⟨hdir, hcan⟩ := hfire
  have hg := gauge_shooting_outcome (step_collected st).1 actions k hdir hcan
  rw [hEA, hRA] at hg
  obtain ⟨⟨b1, hC⟩, ⟨b2, hE⟩⟩ := no_frag_players st rng_state actions hgo k hnofrag
  have hX : Spent (step_applied st rng_state actions) k := by
    apply spent_of_eq k (step_applied_arena st rng_state actions) _
      (spent_step_collected st k hal)
    rw [step_applied_players, (moved_player_stays _ _ _ hstay).1, hC,
      (step_collected_fields st k).1]
    exact hpos
  have hD : (step_moved st rng_state actions).1.players k
      = (step_applied st rng_state actions).players k := by
    rw [step_moved_eq]
    exact spent_collect_fold _ _ k hX
  refine ⟨hD, ?_⟩
  have hG : gauge ((step_respawned st rng_state actions).1.players k)
      = (MAX_ENERGY - 1, LASER_COOLDOWN_TICKS, ENERGY_REGEN_TICKS) := by
    rw [hE, gauge_credited, hD, step_applied_players, gauge_moved, hC, gauge_credited,
      step_shot_players, hg]
  simp only [gauge, Prod.mk.injEq] at hG
  obtain ⟨g1, _, g3⟩ := hG
  obtain ⟨_, _, _, _, _, _, t7⟩ :=
    tick_cooldowns_fields ((step_respawned st rng_state actions).1.players k)
  rw [game_step_players st rng_state actions hgo, t7, g1, g3]
  simp [MAX_ENERGY, ENERGY_REGEN_TICKS]

/-- C25 (amended): within one step no crystal is collected twice.  A crystal
that is available at the start of the step and unavailable after Phase A (the
crystal-collection phase) has a positive cooldown at the start of Phase D (the
movement phase), after its apply-movements loop, between the two iterations
of its collection loop and at its end.  A player `k` with non-negative energy
whose flag Phase A sets, that fires in the step, is not fragged in the step,
is not pushed back by a hit and whose move does not go through, is not
refilled in Phase D and returns with energy `MAX_ENERGY - 1`. -/
theorem game_step_no_double_collection (st : GameState) (rng_state : Nat)
    (actions : Fin 2 → PlayerAction) (k : Fin 2) (hgo : st.game_over = false) :
    (∀ j, arena_crystal_available st.arena j = true →
      arena_crystal_available (step_collected st).1.arena j = false →
        0 < ((step_revived st rng_state actions).1.arena.crystals j).cooldown_ticks ∧
        0 < ((step_applied st rng_state actions).arena.crystals j).cooldown_ticks ∧
        0 < ((collect_crystal_step (step_applied st rng_state actions,
          (step_revived st rng_state actions).2.2) 0).1.arena.crystals j).cooldown_ticks ∧
        0 < ((step_moved st rng_state actions).1.arena.crystals j).cooldown_ticks) ∧
    ((step_collected st).2.crystal_collected k = true →
      0 ≤ (st.players k).energy →
      fires (step_collected st).1 actions k = true →
      moves (step_revived st rng_state actions).1 actions k = false →
      (game_step st rng_state actions).2.2.player_fragged k = false →
      ((step_shot st actions).1.players k).pos = (st.players k).pos →
        (step_moved st rng_state actions).1.players k
          = (step_applied st rng_state actions).players k ∧
        ((game_step st rng_state actions).1.players k).energy = MAX_ENERGY - 1) := by
  constructor
  · intro j hav hun
    have hc : Collected (step_collected st).1.arena j :=
      collected_of_unavailable st StepInfo.zero j hav hun
    have hc2 : Collected (step_applied st rng_state actions).arena j := by
      rw [step_applied_arena]; exact hc
    refine ⟨?_, collected_cooldown_pos _ _ hc2, ?_, ?_⟩
    · rw [step_revived_arena]
      exact collected_cooldown_pos _ _ hc
    · exact collected_cooldown_pos _ _ (collected_collect_step _ 0 j hc2)
    · exact collected_cooldown_pos _ _ (collected_step_moved st rng_state actions j hc)
  · intro hflag he hfire hstay hnofrag hpos
    exact collect_then_fire st rng_state actions k hgo hflag he hfire hstay hnofrag hpos

set_option maxRecDepth 100000 in
/-- C25, at a concrete input: on the map `* 1 2` player 0 starts on the
crystal cell with energy 3 and shoots Right at player 1.  The crystal it
collects in Phase A has cooldown 480 through Phase D, and player 0 returns
with energy 7. -/
theorem game_step_no_double_collection_witness :
    (arena_crystal_available onCrystalState.arena 0 = true ∧
      arena_crystal_available (step_collected onCrystalState).1.arena 0 = false ∧
      0 < ((step_revived onCrystalState 42 shootRight).1.arena.crystals 0).cooldown_ticks ∧
      0 < ((step_applied onCrystalState 42 shootRight).arena.crystals 0).cooldown_ticks ∧
      0 < ((collect_crystal_step (step_applied onCrystalState 42 shootRight,
        (step_revived onCrystalState 42 shootRight).2.2) 0).1.arena.crystals 0).cooldown_ticks ∧
      0 < ((step_moved onCrystalState 42 shootRight).1.arena.crystals 0).cooldown_ticks) ∧
    ((step_moved onCrystalState 42 shootRight).1.players 0
        = (step_applied onCrystalState 42 shootRight).players 0 ∧
      ((game_step onCrystalState 42 shootRight).1.players 0).energy = MAX_ENERGY - 1) ∧
    ((game_step onCrystalState 42 shootRight).1.players 0).energy = 7 :=
  have h := game_step_no_double_collection onCrystalState 42 shootRight 0 (by decide)
  ⟨⟨by decide, by decide, h.1 0 (by decide) (by decide)⟩,
    h.2 (by decide) (by decide) (by decide) (by decide) (by decide) (by decide),
    by decide⟩

set_option maxRecDepth 100000 in
/-- C25 as stated fails: on the map `* 1 2` with player 0 on the crystal cell
with energy 3, player 0 shooting Right and player 1 shooting Left, player 0
collects in Phase A, fires and issues no move, but is hit, fragged and
respawned, and returns with energy 8, not 7. -/
theorem no_double_collection_counterexample :
    onCrystalState.game_over = false ∧
    (step_collected onCrystalState).2.crystal_collected 0 = true ∧
    fires (step_collected onCrystalState).1 duelActions 0 = true ∧
    (duelActions 0).move = ACTION_NOOP ∧
    moves (step_revived onCrystalState 42 duelActions).1 duelActions 0 = false ∧
    (game_step onCrystalState 42 duelActions).2.2.player_fragged 0 = true ∧
    ((game_step onCrystalState 42 duelActions).1.players 0).energy = MAX_ENERGY ∧
    ((game_step onCrystalState 42 duelActions).1.players 0).energy ≠ MAX_ENERGY - 1 := by
  decide

/-- The arena of a state after `game_step`: everything but the crystal
cooldowns is as before. -/
theorem game_step_frameEq (st : GameState) (rng_state : Nat) (actions : Fin 2 → PlayerAction) :
    (game_step st rng_state actions).1.arena.width = st.arena.width ∧
    (game_step st rng_state actions).1.arena.height = st.arena.height ∧
    (game_step st rng_state actions).1.arena.tiles = st.arena.tiles ∧
    (game_step st rng_state actions).1.arena.num_crystals = st.arena.num_crystals ∧
    (∀ i, ((game_step st rng_state actions).1.arena.crystals i).pos = (st.arena.crystals i).pos) ∧
    (game_step st rng_state actions).1.arena.num_spawn_points = st.arena.num_spawn_points ∧
    (game_step st rng_state actions).1.arena.spawn_points = st.arena.spawn_points := by
  cases h : st.game_over
  · rw [game_step_running st rng_state actions h]
    simp only [game_check_win_conditions_arena]
    obtain ⟨_, _, _, h4, h5, h6, h7, h8, h9, h10⟩ := step_before_tick_frame st rng_state actions
    exact ⟨h4, h5, h6, h7, h8, h9, h10⟩
  · unfold game_step
    simp [h]

/-- C32: `game_step` leaves the width, the height, every tile, the number of
crystals, every crystal position, the number of spawn points and the
spawn-point table of the arena unchanged, for every state, PRNG state and pair
of actions; the crystal cooldowns are the only arena fields left. -/
theorem game_step_grid_immutable (st : GameState) (rng_state : Nat)
    (actions : Fin 2 → PlayerAction) :
    (game_step st rng_state actions).1.arena.width = st.arena.width ∧
    (game_step st rng_state actions).1.arena.height = st.arena.height ∧
    (∀ x y, (game_step st rng_state actions).1.arena.tiles y x = st.arena.tiles y x) ∧
    (game_step st rng_state actions).1.arena.num_crystals = st.arena.num_crystals ∧
    (∀ i, ((game_step st rng_state actions).1.arena.crystals i).pos = (st.arena.crystals i).pos) ∧
    (game_step st rng_state actions).1.arena.num_spawn_points = st.arena.num_spawn_points ∧
    (∀ i, (game_step st rng_state actions).1.arena.spawn_points i = st.arena.spawn_points i) := by
  obtain ⟨h1, h2, h3, h4, h5, h6, h7⟩ := game_step_frameEq st rng_state actions
  exact ⟨h1, h2, fun x y => by rw [h3], h4, h5, h6, fun i => by rw [h7]⟩

set_option maxRecDepth 100000 in
/-- C39 fails on the code: on the map `1 2` a Player hit on player 1 with
`target_fragged` set leaves player 1 alive, with health 3, on its cell;
`combat_apply_laser_result` does not mark the target as not alive. -/
theorem combat_apply_laser_result_keeps_alive :
    fragResult.hit_type = LaserHitType.LASER_HIT_PLAYER ∧
    fragResult.target_player = 1 ∧ fragResult.target_fragged = true ∧
    (twoCellState.players 1).alive = true ∧ (twoCellState.players 1).health = 4 ∧
    ((combat_apply_laser_result twoCellState fragResult).players 1).health = 3 ∧
    ((combat_apply_laser_result twoCellState fragResult).players 1).alive = true ∧
    ((combat_apply_laser_result twoCellState fragResult).players 1).pos
      = (twoCellState.players 1).pos := by
  decide

set_option maxRecDepth 100000 in
/-- C35 fails on the code: `arena_load_from_string` accepts the UTF-8 test map
and gives it width 19, the number of non-space bytes of a row, and height 7,
while the ASCII test map loads with width 7 and height 7; the cell (7,0) is
Floor in the first arena and outside the grid (Void) in the second.  Crystal
and spawn-point tables agree. -/
theorem arena_load_utf8_width :
    (arena_load_from_string zeroArena utf8TestMap).2 = true ∧
    (arena_load_from_string zeroArena utf8TestMap).1.width = 19 ∧
    (arena_load_from_string zeroArena utf8TestMap).1.height = 7 ∧
    (arena_load_from_string zeroArena asciiTestMap).2 = true ∧
    (arena_load_from_string zeroArena asciiTestMap).1.width = 7 ∧
    (arena_load_from_string zeroArena asciiTestMap).1.height = 7 ∧
    arena_get_tile (arena_load_from_string zeroArena utf8TestMap).1 7 0 = TileType.TILE_FLOOR ∧
    arena_get_tile (arena_load_from_string zeroArena asciiTestMap).1 7 0 = TileType.TILE_VOID := by
  decide

theorem action_to_direction_out_of_range (a : Int) (h : ¬ (0 ≤ a ∧ a ≤ 4)) :
    action_to_direction a = Direction.DIR_NONE := by
  unfold action_to_direction
  split_ifs with h1 h2 h3 h4
  · exfalso; change a = (1 : Int) at h1; omega
  · exfalso; change a = (2 : Int) at h2; omega
  · exfalso; change a = (3 : Int) at h3; omega
  · exfalso; change a = (4 : Int) at h4; omega
  · rfl

theorem action_to_direction_or_noop (a : Int) :
    action_to_direction (action_or_noop a) = action_to_direction a := by
  unfold action_or_noop
  split_ifs with h
  · rfl
  · rw [action_to_direction_out_of_range a h]
    rfl

theorem action_noop_of_no_direction (a : Int)
    (h : action_to_direction a ≠ Direction.DIR_NONE) : a ≠ ACTION_NOOP := by
  intro ha
  apply h
  rw [ha]
  rfl

theorem shooting_fire_step_congr (a b : Fin 2 → PlayerAction)
    (h : ∀ i, action_to_direction (a i).shoot = action_to_direction (b i).shoot) :
    shooting_fire_step a = shooting_fire_step b := by
  funext acc i
  simp only [shooting_fire_step, h]

theorem game_phase_shooting_congr (a b : Fin 2 → PlayerAction)
    (h : ∀ i, action_to_direction (a i).shoot = action_to_direction (b i).shoot)
    (st : GameState) (info : StepInfo) :
    game_phase_shooting st a info = game_phase_shooting st b info := by
  simp only [game_phase_shooting, shooting_fire_step_congr a b h]

theorem movement_intent_step_congr (a b : Fin 2 → PlayerAction)
    (h : ∀ i, action_to_direction (a i).move = action_to_direction (b i).move)
    (st : GameState) : movement_intent_step st a = movement_intent_step st b := by
  funext loc i
  simp only [movement_intent_step, h]

theorem movement_apply_step_congr (a b : Fin 2 → PlayerAction)
    (h : ∀ i, action_to_direction (a i).move = action_to_direction (b i).move)
    (loc : MovementLocals) : movement_apply_step a loc = movement_apply_step b loc := by
  funext st i
  unfold movement_apply_step
  by_cases hw : loc.wants_move i = true
  · simp only [hw, if_true]
  · simp only [hw, Bool.false_eq_true, if_false]
    by_cases hd : action_to_direction (a i).move = Direction.DIR_NONE
    · have hd2 : action_to_direction (b i).move = Direction.DIR_NONE := by rw [← h]; exact hd
      simp only [hd, hd2, ne_eq, not_true_eq_false, false_and, if_false, ite_self]
    · have hd2 : action_to_direction (b i).move ≠ Direction.DIR_NONE := by rw [← h]; exact hd
      have ha := action_noop_of_no_direction _ hd
      have hb := action_noop_of_no_direction _ hd2
      simp only [ha, hb, ne_eq, not_false_eq_true, true_and, h]

theorem game_phase_movement_congr (a b : Fin 2 → PlayerAction)
    (h : ∀ i, action_to_direction (a i).move = action_to_direction (b i).move)
    (st : GameState) (info : StepInfo) :
    game_phase_movement st a info = game_phase_movement st b info := by
  simp only [game_phase_movement, movement_resolve, movement_intent_step_congr a b h,
    movement_apply_step_congr a b h]

/-- A step reads its actions only through `action_to_direction`: two action
pairs with the same directions give the same step. -/
theorem game_step_congr (a b : Fin 2 → PlayerAction)
    (hs : ∀ i, action_to_direction (a i).shoot = action_to_direction (b i).shoot)
    (hm : ∀ i, action_to_direction (a i).move = action_to_direction (b i).move)
    (st : GameState) (rng_state : Nat) :
    game_step st rng_state a = game_step st rng_state b := by
  simp only [game_step, game_phase_shooting_congr a b hs, game_phase_movement_congr a b hm]

/-- C33: `api_game_step` gives the same state, PRNG state and `StepInfo` on an
action vector as on the vector in which every integer outside 0..4 is replaced
by 0, for every state.  A player whose shoot integer is outside 0..4 does not
fire in the step, and one whose move integer is outside 0..4 comes out of the
apply-movements loop with the record it had before, so with no move made and
no move cooldown started. -/
theorem api_game_step_out_of_range (st : GameState) (rng_state : Nat) (actions : Int → Int) :
    api_game_step st rng_state actions
      = api_game_step st rng_state (fun k => action_or_noop (actions k)) ∧
    (∀ i : Fin 2, ¬ (0 ≤ actions (indexInt i * 2 + 1) ∧ actions (indexInt i * 2 + 1) ≤ 4) →
      fires (step_collected st).1
        (fun i => { move := actions (indexInt i * 2), shoot := actions (indexInt i * 2 + 1) })
        i = false) ∧
    (∀ i : Fin 2, ¬ (0 ≤ actions (indexInt i * 2) ∧ actions (indexInt i * 2) ≤ 4) →
      (step_applied st rng_state
        (fun i => { move := actions (indexInt i * 2), shoot := actions (indexInt i * 2 + 1) })).players
          i
        = (step_revived st rng_state
            (fun i => { move := actions (indexInt i * 2),
                        shoot := actions (indexInt i * 2 + 1) })).1.players i) := by
  refine ⟨?_, ?_, ?_⟩
  · unfold api_game_step
    apply game_step_congr
    · intro i
      exact (action_to_direction_or_noop _).symm
    · intro i
      exact (action_to_direction_or_noop _).symm
  · intro i hi
    apply fires_false_of_dir
    exact action_to_direction_out_of_range _ hi
  · intro i hi
    rw [step_applied_players]
    apply moved_player_idle
    exact action_to_direction_out_of_range _ hi

/-- Once the laser loop has left through a `break` or `return`, a larger
iteration bound gives the same result. -/
theorem laser_loop_fuel_mono (st : GameState) (s : Fin 2) (dir : Direction) (dx dy : Int)
    (r0 : LaserResult) :
    ∀ (fuel : Nat) (cur : Position) (res : LaserResult),
      laser_loop st s dir dx dy r0 fuel cur = some res →
      ∀ n : Nat, laser_loop st s dir dx dy r0 (fuel + n) cur = some res := by
  intro fuel
  induction fuel with
  | zero => intro cur res h; simp [laser_loop] at h
  | succ m ih =>
    intro cur res h n
    rw [Nat.succ_add, laser_loop]
    rw [laser_loop] at h
    cases hv : arena_is_valid_position st.arena (cur.x + dx) (cur.y + dy)
    · simpa [hv] using h
    · simp only [hv, Bool.not_true, Bool.false_eq_true, if_false] at h ⊢
      cases hw : arena_is_wall st.arena (cur.x + dx) (cur.y + dy)
      · simp only [hw, Bool.false_eq_true, if_false] at h ⊢
        cases ho : other_player_at st s (cur.x + dx) (cur.y + dy)
        · simp only [ho] at h ⊢
          exact ih _ _ h n
        · simpa [ho] using h
      · simpa [hw] using h

theorem laser_hit_kind_cases (st : GameState) (c : Position) :
    laser_hit_kind st c = LaserHitType.LASER_HIT_PLAYER ∨
    laser_hit_kind st c = LaserHitType.LASER_HIT_WALL ∨
    laser_hit_kind st c = LaserHitType.LASER_HIT_EDGE := by
  unfold laser_hit_kind
  split_ifs
  · exact Or.inr (Or.inr rfl)
  · exact Or.inr (Or.inl rfl)
  · exact Or.inl rfl

/-- C40: for every state whose arena has `0 <= width, height <= 32`, every
shooter (wherever it stands) and every direction other than None, the loop of
`combat_fire_laser` stops: there is a `k` with `1 <= k <= 66` such that the
loop leaves at the `k`-th cell of the ray, every iteration bound from
`laser_fuel` on gives the result of `combat_fire_laser`, and the hit type of
that result is Player, Wall or Edge, never None. -/
theorem combat_fire_laser_terminates (st : GameState) (shooter : Fin 2) (dir : Direction)
    (hdir : dir ≠ Direction.DIR_NONE)
    (hw : 0 ≤ st.arena.width ∧ st.arena.width ≤ MAX_ARENA_WIDTH)
    (hh : 0 ≤ st.arena.height ∧ st.arena.height ≤ MAX_ARENA_HEIGHT) :
    (∃ k : Nat, 1 ≤ k ∧ k ≤ 66 ∧
      (combat_fire_laser st shooter dir).hit_position
        = ray_cell (st.players shooter).pos dir k) ∧
    (∀ fuel : Nat, laser_fuel st ≤ fuel →
      combat_fire_laser_fuel fuel st shooter dir = some (combat_fire_laser st shooter dir)) ∧
    ((combat_fire_laser st shooter dir).hit_type = LaserHitType.LASER_HIT_PLAYER ∨
      (combat_fire_laser st shooter dir).hit_type = LaserHitType.LASER_HIT_WALL ∨
      (combat_fire_laser st shooter dir).hit_type = LaserHitType.LASER_HIT_EDGE) ∧
    (combat_fire_laser st shooter dir).hit_type ≠ LaserHitType.LASER_HIT_NONE := by
  have heq := combat_fire_laser_eq st shooter dir
  have heq2 := heq
  simp only [combat_fire_laser_fuel, hdir, if_false] at heq2
  obtain ⟨k, hk1, hk2, _, _, hpos, htype, _⟩ := laser_loop_spec st shooter dir _ _ _ _ _ heq2
  have hcases := laser_hit_kind_cases st
    (step_cell (st.players shooter).pos (get_direction_delta dir).1 (get_direction_delta dir).2 k)
  rw [← htype] at hcases
  refine ⟨⟨k, hk1, ?_, hpos⟩, ?_, hcases, ?_⟩
  · simp only [laser_fuel, MAX_ARENA_WIDTH, MAX_ARENA_HEIGHT] at hk2 hw hh
    omega
  · intro fuel hf
    obtain ⟨n, rfl⟩ := Nat.exists_eq_add_of_le hf
    simp only [combat_fire_laser_fuel, hdir, if_false]
    exact laser_loop_fuel_mono st shooter dir _ _ _ _ _ _ heq2 n
  · rcases hcases with h | h | h <;> rw [h] <;> decide

set_option maxRecDepth 100000 in
/-- C40, at a concrete input: on the map `1 # 2` the laser of player 0 to the
Right stops at the Wall, and its laser Up stops at the edge. -/
theorem combat_fire_laser_terminates_witness :
    ((combat_fire_laser wallState 0 Direction.DIR_RIGHT).hit_type = LaserHitType.LASER_HIT_WALL ∧
      combat_fire_laser_fuel 100 wallState 0 Direction.DIR_RIGHT
        = some (combat_fire_laser wallState 0 Direction.DIR_RIGHT)) ∧
    ((combat_fire_laser wallState 0 Direction.DIR_UP).hit_type = LaserHitType.LASER_HIT_EDGE ∧
      (combat_fire_laser wallState 0 Direction.DIR_UP).hit_type ≠ LaserHitType.LASER_HIT_NONE) :=
  ⟨⟨by decide,
     (combat_fire_laser_terminates wallState 0 Direction.DIR_RIGHT (by decide) (by decide)
        (by decide)).2.1 100 (by decide)⟩,
    ⟨by decide,
     (combat_fire_laser_terminates wallState 0 Direction.DIR_UP (by decide) (by decide)
        (by decide)).2.2.2⟩⟩

/-- The loop of `combat_has_line_of_sight` from a cell `n` unit steps before
`dst`: it returns within `n + 1` iterations, with `true` exactly when none of
the `n - 1` cells in between is a Wall. -/
theorem line_of_sight_loop_spec (arena : Arena) (dst : Position) (dx dy : Int)
    (hx : dx = 1 ∨ dx = -1 ∨ dx = 0) (hy : dy = 1 ∨ dy = -1 ∨ dy = 0)
    (hd : dx ≠ 0 ∨ dy ≠ 0) :
    ∀ (n : Nat) (cur : Position) (fuel : Nat), dst = step_cell cur dx dy n → n + 1 ≤ fuel →
      ∃ b, line_of_sight_loop arena dst dx dy fuel cur = some b ∧
        (b = true ↔ ∀ j : Nat, 1 ≤ j → j < n →
          arena_is_wall arena (step_cell cur dx dy j).x (step_cell cur dx dy j).y = false) := by
  intro n
  induction n with
  | zero =>
    intro cur fuel hdst hf
    obtain ⟨m, rfl⟩ : ∃ m, fuel = m + 1 := ⟨fuel - 1, by omega⟩
    refine ⟨true, ?_, ?_⟩
    · rw [line_of_sight_loop]
      have : cur = dst := by rw [hdst]; simp [step_cell]
      subst this
      simp
    · simp only [true_iff]
      intro j h1 h2
      omega
  | succ n ih =>
    intro cur fuel hdst hf
    obtain ⟨m, rfl⟩ : ∃ m, fuel = m + 1 := ⟨fuel - 1, by omega⟩
    have hne : cur.x ≠ dst.x ∨ cur.y ≠ dst.y := by
      rw [hdst]
      simp only [step_cell]
      push_cast
      rcases hx with rfl | rfl | rfl <;> rcases hy with rfl | rfl | rfl <;>
        first
        | (left; omega)
        | (right; omega)
    have hnext : dst = step_cell ({ x := cur.x + dx, y := cur.y + dy } : Position) dx dy n := by
      rw [step_cell_succ]
      exact hdst
    rw [line_of_sight_loop]
    simp only [hne, if_true]
    by_cases hz : n = 0
    · subst hz
      have hreach : ({ x := cur.x + dx, y := cur.y + dy } : Position) = dst := by
        rw [hnext]; simp [step_cell]
      refine ⟨true, ?_, ?_⟩
      · rw [← hreach]
        simp
      · simp only [true_iff]
        intro j h1 h2
        omega
    · have hnot : ¬ (cur.x + dx = dst.x ∧ cur.y + dy = dst.y) := by
        rw [hnext]
        simp only [step_cell]
        rcases hx with rfl | rfl | rfl <;> rcases hy with rfl | rfl | rfl <;>
          (intro h; omega)
      simp only [hnot, if_false]
      cases hw : arena_is_wall arena (cur.x + dx) (cur.y + dy)
      · simp only [Bool.false_eq_true, if_false]
        obtain ⟨b, hb1, hb2⟩ := ih { x := cur.x + dx, y := cur.y + dy } m hnext (by omega)
        refine ⟨b, hb1, ?_⟩
        rw [hb2]
        constructor
        · intro h j h1 h2
          by_cases hj : j = 1
          · subst hj
            rw [step_cell_one]
            exact hw
          · obtain ⟨i, rfl⟩ : ∃ i, j = i + 1 := ⟨j - 1, by omega⟩
            rw [← step_cell_succ]
            exact h i (by omega) (by omega)
        · intro h j h1 h2
          rw [step_cell_succ]
          exact h (j + 1) (by omega) (by omega)
      · refine ⟨false, by simp, ?_⟩
        simp only [Bool.false_eq_true, false_iff, not_forall]
        refine ⟨1, le_refl _, by omega, ?_⟩
        rw [step_cell_one, hw]
        decide

/-- The loop of `combat_has_line_of_sight` started at `a`, when `b` is `n`
unit steps away and the cells strictly between are the cells `1..n-1` of the
walk. -/
theorem line_of_sight_walk (arena : Arena) (a b : Position) (dx dy : Int) (n : Nat)
    (hx : dx = 1 ∨ dx = -1 ∨ dx = 0) (hy : dy = 1 ∨ dy = -1 ∨ dy = 0) (hd : dx ≠ 0 ∨ dy ≠ 0)
    (hdst : b = step_cell a dx dy n)
    (hbetween : ∀ c, strictly_between a b c ↔
      ∃ j : Nat, 1 ≤ j ∧ j < n ∧ c = step_cell a dx dy j)
    (fuel : Nat) (hf : n + 1 ≤ fuel) :
    ∃ r, line_of_sight_loop arena b dx dy fuel a = some r ∧
      (r = true ↔ ∀ c, strictly_between a b c → arena_is_wall arena c.x c.y = false) := by
  obtain ⟨r, h1, h2⟩ := line_of_sight_loop_spec arena b dx dy hx hy hd n a fuel hdst hf
  refine ⟨r, h1, ?_⟩
  rw [h2]
  constructor
  · intro h c hc
    obtain ⟨j, j1, j2, rfl⟩ := (hbetween c).1 hc
    exact h j j1 j2
  · intro h j j1 j2
    exact h _ ((hbetween _).2 ⟨j, j1, j2, rfl⟩)

theorem manhattan_distance_eq (a b : Position) :
    manhattan_distance a b = |a.x - b.x| + |a.y - b.y| := by
  simp only [manhattan_distance]
  split_ifs with h1 h2 h2
  · rw [abs_of_neg h1, abs_of_neg h2]
  · rw [abs_of_neg h1, abs_of_nonneg (by omega)]
  · rw [abs_of_nonneg (by omega), abs_of_neg h2]
  · rw [abs_of_nonneg (by omega), abs_of_nonneg (by omega)]

/-- The function `combat_has_line_of_sight` on two cells that share a row or a
column: the loop returns within the distance plus one iterations, with `true`
exactly when no cell strictly between is a Wall. -/
theorem line_of_sight_fuel_spec (arena : Arena) (a b : Position) (h : a.x = b.x ∨ a.y = b.y)
    (fuel : Nat) (hf : (manhattan_distance a b).toNat + 1 ≤ fuel) :
    ∃ r, combat_has_line_of_sight_fuel fuel arena a b = some r ∧
      (r = true ↔ ∀ c, strictly_between a b c → arena_is_wall arena c.x c.y = false) := by
  have hnot : ¬ (a.x ≠ b.x ∧ a.y ≠ b.y) := by
    intro hc
    rcases h with h | h
    · exact hc.1 h
    · exact hc.2 h
  unfold combat_has_line_of_sight_fuel
  simp only [hnot, if_false]
  rw [manhattan_distance_eq] at hf
  cases a with
  | mk ax ay =>
  cases b with
  | mk bx b_y =>
  simp only at h hf ⊢
  by_cases hxe : ax = bx
  · by_cases hye : ay = b_y
    · -- the two cells are equal
      subst hxe hye
      obtain ⟨m, rfl⟩ : ∃ m, fuel = m + 1 := ⟨fuel - 1, by omega⟩
      refine ⟨true, ?_, ?_⟩
      · simp [line_of_sight_loop]
      · simp only [true_iff]
        intro c hc
        exfalso
        simp only [strictly_between, min_self, max_self] at hc
        omega
    · -- same column
      subst hxe
      by_cases hgt : b_y > ay
      · simp only [gt_iff_lt, lt_self_iff_false, if_false, hgt, if_true]
        obtain ⟨n, hn⟩ : ∃ n : Nat, (n : Int) = b_y - ay :=
          ⟨(b_y - ay).toNat, Int.toNat_of_nonneg (by omega)⟩
        apply line_of_sight_walk arena _ _ 0 1 n (by omega) (by omega) (by omega)
        · simp only [step_cell, Position.mk.injEq]
          constructor <;> omega
        · intro c
          cases c with
          | mk cx cy =>
          simp only [strictly_between, step_cell, Position.mk.injEq, min_def, max_def]
          constructor
          · intro hc
            obtain ⟨j, hj⟩ : ∃ j : Nat, (j : Int) = cy - ay :=
              ⟨(cy - ay).toNat, Int.toNat_of_nonneg (by split_ifs at hc <;> omega)⟩
            refine ⟨j, ?_⟩
            split_ifs at hc <;> omega
          · rintro ⟨j, j1, j2, j3, j4⟩
            right
            refine ⟨trivial, ?_⟩
            split_ifs <;> omega
        · rw [abs_of_neg (by omega : ay - b_y < 0)] at hf
          simp only [sub_self, abs_zero, zero_add] at hf
          omega
      · have hlt : b_y < ay := by omega
        simp only [gt_iff_lt, lt_self_iff_false, if_false, hgt, hlt, if_true]
        obtain ⟨n, hn⟩ : ∃ n : Nat, (n : Int) = ay - b_y :=
          ⟨(ay - b_y).toNat, Int.toNat_of_nonneg (by omega)⟩
        apply line_of_sight_walk arena _ _ 0 (-1) n (by omega) (by omega) (by omega)
        · simp only [step_cell, Position.mk.injEq]
          constructor <;> omega
        · intro c
          cases c with
          | mk cx cy =>
          simp only [strictly_between, step_cell, Position.mk.injEq, min_def, max_def]
          constructor
          · intro hc
            obtain ⟨j, hj⟩ : ∃ j : Nat, (j : Int) = ay - cy :=
              ⟨(ay - cy).toNat, Int.toNat_of_nonneg (by split_ifs at hc <;> omega)⟩
            refine ⟨j, ?_⟩
            split_ifs at hc <;> omega
          · rintro ⟨j, j1, j2, j3, j4⟩
            right
            refine ⟨trivial, ?_⟩
            split_ifs <;> omega
        · rw [abs_of_pos (by omega : 0 < ay - b_y)] at hf
          simp only [sub_self, abs_zero, zero_add] at hf
          omega
  · have hye : ay = b_y := by
      rcases h with h | h
      · exact absurd h hxe
      · exact h
    subst hye
    by_cases hgt : bx > ax
    · simp only [gt_iff_lt, lt_self_iff_false, if_false, hgt, if_true]
      obtain ⟨n, hn⟩ : ∃ n : Nat, (n : Int) = bx - ax :=
        ⟨(bx - ax).toNat, Int.toNat_of_nonneg (by omega)⟩
      apply line_of_sight_walk arena _ _ 1 0 n (by omega) (by omega) (by omega)
      · simp only [step_cell, Position.mk.injEq]
        constructor <;> omega
      · intro c
        cases c with
        | mk cx cy =>
        simp only [strictly_between, step_cell, Position.mk.injEq, min_def, max_def]
        constructor
        · intro hc
          obtain ⟨j, hj⟩ : ∃ j : Nat, (j : Int) = cx - ax :=
            ⟨(cx - ax).toNat, Int.toNat_of_nonneg (by split_ifs at hc <;> omega)⟩
          refine ⟨j, ?_⟩
          split_ifs at hc <;> omega
        · rintro ⟨j, j1, j2, j3, j4⟩
          left
          refine ⟨trivial, ?_⟩
          split_ifs <;> omega
      · rw [abs_of_neg (by omega : ax - bx < 0)] at hf
        simp only [sub_self, abs_zero, add_zero] at hf
        omega
    · have hlt : bx < ax := by omega
      simp only [gt_iff_lt, lt_self_iff_false, if_false, hgt, hlt, if_true]
      obtain ⟨n, hn⟩ : ∃ n : Nat, (n : Int) = ax - bx :=
        ⟨(ax - bx).toNat, Int.toNat_of_nonneg (by omega)⟩
      apply line_of_sight_walk arena _ _ (-1) 0 n (by omega) (by omega) (by omega)
      · simp only [step_cell, Position.mk.injEq]
        constructor <;> omega
      · intro c
        cases c with
        | mk cx cy =>
        simp only [strictly_between, step_cell, Position.mk.injEq, min_def, max_def]
        constructor
        · intro hc
          obtain ⟨j, hj⟩ : ∃ j : Nat, (j : Int) = ax - cx :=
            ⟨(ax - cx).toNat, Int.toNat_of_nonneg (by split_ifs at hc <;> omega)⟩
          refine ⟨j, ?_⟩
          split_ifs at hc <;> omega
        · rintro ⟨j, j1, j2, j3, j4⟩
          left
          refine ⟨trivial, ?_⟩
          split_ifs <;> omega
      · rw [abs_of_pos (by omega : 0 < ax - bx)] at hf
        simp only [sub_self, abs_zero, add_zero] at hf
        omega

theorem line_of_sight_far (arena : Arena) (a b : Position) (h : a.x ≠ b.x ∧ a.y ≠ b.y)
    (fuel : Nat) : combat_has_line_of_sight_fuel fuel arena a b = some false := by
  unfold combat_has_line_of_sight_fuel
  rw [if_pos h]

theorem bool_eq_of_iff {r s : Bool} {p : Prop} (hr : r = true ↔ p) (hs : s = true ↔ p) :
    r = s := by
  cases r <;> cases s <;> simp_all

/-- The iteration bound of `combat_has_line_of_sight` is never reached: every
bound above the distance gives the same result. -/
theorem line_of_sight_fuel_eq (arena : Arena) (a b : Position) (fuel : Nat)
    (hf : (manhattan_distance a b).toNat + 1 ≤ fuel) :
    combat_has_line_of_sight_fuel fuel arena a b
      = some (combat_has_line_of_sight arena a b) := by
  unfold combat_has_line_of_sight
  by_cases h : a.x ≠ b.x ∧ a.y ≠ b.y
  · rw [line_of_sight_far arena a b h, line_of_sight_far arena a b h]
    rfl
  · have hs : a.x = b.x ∨ a.y = b.y := by
      by_cases hx : a.x = b.x
      · exact Or.inl hx
      · right
        by_contra hy
        exact h ⟨hx, hy⟩
    obtain ⟨r, h1, h2⟩ := line_of_sight_fuel_spec arena a b hs fuel hf
    obtain ⟨s, g1, g2⟩ := line_of_sight_fuel_spec arena a b hs _ (le_refl _)
    rw [h1, g1, bool_eq_of_iff h2 g2]
    rfl

theorem strictly_between_comm (a b c : Position) :
    strictly_between a b c ↔ strictly_between b a c := by
  simp only [strictly_between, min_def, max_def]
  constructor <;> intro h <;> split_ifs at h ⊢ <;> omega

/-- What `combat_has_line_of_sight` returns on two cells that share a row or a
column. -/
theorem line_of_sight_iff (arena : Arena) (a b : Position) (h : a.x = b.x ∨ a.y = b.y) :
    combat_has_line_of_sight arena a b = true ↔
      ∀ c, strictly_between a b c → arena_is_wall arena c.x c.y = false := by
  obtain ⟨r, h1, h2⟩ := line_of_sight_fuel_spec arena a b h _ (le_refl _)
  unfold combat_has_line_of_sight
  rw [h1]
  exact h2

theorem line_of_sight_false (arena : Arena) (a b : Position) (h : a.x ≠ b.x ∧ a.y ≠ b.y) :
    combat_has_line_of_sight arena a b = false := by
  unfold combat_has_line_of_sight
  rw [line_of_sight_far arena a b h]
  rfl

/-- C37: `combat_has_line_of_sight` returns within the distance plus one loop
iterations.  It is false when the two cells share neither a row nor a column;
otherwise it is true exactly when no cell strictly between them is a Wall, so
the endpoints play no part; it is true on equal cells; and it is symmetric in
its two cells. -/
theorem combat_has_line_of_sight_spec (arena : Arena) (a b : Position) :
    (∀ fuel : Nat, (manhattan_distance a b).toNat + 1 ≤ fuel →
      combat_has_line_of_sight_fuel fuel arena a b
        = some (combat_has_line_of_sight arena a b)) ∧
    (a.x ≠ b.x ∧ a.y ≠ b.y → combat_has_line_of_sight arena a b = false) ∧
    (a.x = b.x ∨ a.y = b.y →
      (combat_has_line_of_sight arena a b = true ↔
        ∀ c, strictly_between a b c → arena_is_wall arena c.x c.y = false)) ∧
    combat_has_line_of_sight arena a a = true ∧
    combat_has_line_of_sight arena a b = combat_has_line_of_sight arena b a := by
  refine ⟨fun fuel hf => line_of_sight_fuel_eq arena a b fuel hf, line_of_sight_false arena a b,
    line_of_sight_iff arena a b, ?_, ?_⟩
  · rw [line_of_sight_iff arena a a (Or.inl rfl)]
    intro c hc
    exfalso
    simp only [strictly_between, min_self, max_self] at hc
    omega
  · by_cases h : a.x ≠ b.x ∧ a.y ≠ b.y
    · rw [line_of_sight_false arena a b h,
        line_of_sight_false arena b a ⟨fun e => h.1 e.symm, fun e => h.2 e.symm⟩]
    · have hs : a.x = b.x ∨ a.y = b.y := by
        by_cases hx : a.x = b.x
        · exact Or.inl hx
        · right
          by_contra hy
          exact h ⟨hx, hy⟩
      have hs2 : b.x = a.x ∨ b.y = a.y := by
        rcases hs with e | e
        · exact Or.inl e.symm
        · exact Or.inr e.symm
      apply bool_eq_of_iff (line_of_sight_iff arena a b hs)
      rw [line_of_sight_iff arena b a hs2]
      constructor
      · intro hall c hc
        exact hall c ((strictly_between_comm a b c).1 hc)
      · intro hall c hc
        exact hall c ((strictly_between_comm a b c).2 hc)

/-- The arena after one iteration of the second pass: unchanged, or changed
by one of the three arena writes at the cell `(x, y)` of the locals. -/
theorem parse_byte_arena_cases (w h : Int) (c c2 c3 : Nat) (s : ParseState) :
    (parse_byte w h c c2 c3 s).2.arena = s.arena ∨
    (∃ t, (parse_byte w h c c2 c3 s).2.arena = set_tile s.arena s.x s.y t) ∨
    (parse_byte w h c c2 c3 s).2.arena = add_crystal s.arena s.x s.y ∨
    (parse_byte w h c c2 c3 s).2.arena = add_spawn_point s.arena s.x s.y := by
  unfold parse_byte
  by_cases h0 : c = 10
  · rw [if_pos h0]
    exact Or.inl rfl
  rw [if_neg h0]
  by_cases h1 : c = 32
  · rw [if_pos h1]
    exact Or.inl rfl
  rw [if_neg h1]
  by_cases h2 : s.x ≥ w ∨ s.y ≥ h
  · rw [if_pos h2]
    exact Or.inl rfl
  rw [if_neg h2]
  by_cases h3 : c = 120 ∨ c = 88
  · rw [if_pos h3]
    exact Or.inr (Or.inl ⟨_, rfl⟩)
  rw [if_neg h3]
  by_cases h4 : c = 35
  · rw [if_pos h4]
    exact Or.inr (Or.inl ⟨_, rfl⟩)
  rw [if_neg h4]
  by_cases h5 : c = 46 ∨ c = 95
  · rw [if_pos h5]
    exact Or.inr (Or.inl ⟨_, rfl⟩)
  rw [if_neg h5]
  by_cases h6 : c = 42 ∨ c = 67 ∨ c = 99
  · rw [if_pos h6]
    exact Or.inr (Or.inr (Or.inl rfl))
  rw [if_neg h6]
  by_cases h7 : c = 49 ∨ c = 50 ∨ c = 83 ∨ c = 115
  · rw [if_pos h7]
    exact Or.inr (Or.inr (Or.inr rfl))
  rw [if_neg h7]
  by_cases h8 : c ≥ 0xC0
  · rw [if_pos h8]
    by_cases g0 : c = 0xC3 ∧ c2 = 0x97
    · rw [if_pos g0]
      exact Or.inr (Or.inl ⟨_, rfl⟩)
    rw [if_neg g0]
    by_cases g1 : c = 0xE2
    · rw [if_pos g1]
      by_cases k0 : c2 = 0x96 ∧ c3 = 0xA0
      · rw [if_pos k0]
        exact Or.inr (Or.inl ⟨_, rfl⟩)
      rw [if_neg k0]
      by_cases k1 : c2 = 0x96 ∧ c3 = 0xA1
      · rw [if_pos k1]
        exact Or.inr (Or.inl ⟨_, rfl⟩)
      rw [if_neg k1]
      by_cases k2 : c2 = 0x97 ∧ c3 = 0x86
      · rw [if_pos k2]
        exact Or.inr (Or.inr (Or.inl rfl))
      rw [if_neg k2]
      by_cases k3 : (c2 = 0x96 ∧ c3 = 0xB7) ∨ (c2 = 0x97 ∧ c3 = 0x81) ∨
          (c2 = 0x96 ∧ c3 = 0xB3) ∨ (c2 = 0x96 ∧ c3 = 0xBD)
      · rw [if_pos k3]
        exact Or.inr (Or.inr (Or.inr rfl))
      rw [if_neg k3]
      exact Or.inr (Or.inl ⟨_, rfl⟩)
    rw [if_neg g1]
    exact Or.inl rfl
  rw [if_neg h8]
  exact Or.inr (Or.inl ⟨_, rfl⟩)

/-- A property of the arena that the three arena writes of the second pass
keep holds after the second pass. -/
theorem parse_tiles_induct (P : Arena → Prop)
    (hset : ∀ a x y t, P a → P (set_tile a x y t))
    (hcr : ∀ a x y, P a → P (add_crystal a x y))
    (hsp : ∀ a x y, P a → P (add_spawn_point a x y)) (w h : Int) :
    ∀ (l : List Nat) (skip : Nat) (s : ParseState), P s.arena →
      P (parse_tiles w h l skip s).arena := by
  have hb : ∀ (c c2 c3 : Nat) (s : ParseState), P s.arena →
      P (parse_byte w h c c2 c3 s).2.arena := by
    intro c c2 c3 s hs
    rcases parse_byte_arena_cases w h c c2 c3 s with e | ⟨t, e⟩ | e | e <;> rw [e]
    · exact hs
    · exact hset _ _ _ _ hs
    · exact hcr _ _ _ hs
    · exact hsp _ _ _ hs
  intro l
  induction l with
  | nil => intro skip s hs; simpa [parse_tiles] using hs
  | cons c rest ih =>
    intro skip s hs
    cases skip with
    | zero =>
      rw [parse_tiles]
      exact ih _ _ (hb _ _ _ _ hs)
    | succ k =>
      rw [parse_tiles]
      exact ih _ _ hs

theorem crystalsFresh_set_tile (a : Arena) (x y : Int) (t : TileType) (h : CrystalsFresh a) :
    CrystalsFresh (set_tile a x y t) := h

theorem crystalsFresh_add_crystal (a : Arena) (x y : Int) (h : CrystalsFresh a) :
    CrystalsFresh (add_crystal a x y) := by
  obtain ⟨⟨h1, h2⟩, h3⟩ := h
  unfold add_crystal
  simp only [set_tile]
  split_ifs with hc
  · refine ⟨⟨by simp only; omega, by simp only; omega⟩, ?_⟩
    intro i i1 i2
    simp only [setAt]
    split_ifs
    · rfl
    · exact h3 i i1 i2
  · exact ⟨⟨h1, h2⟩, h3⟩

theorem crystalsFresh_add_spawn_point (a : Arena) (x y : Int) (h : CrystalsFresh a) :
    CrystalsFresh (add_spawn_point a x y) := by
  unfold add_spawn_point
  simp only [set_tile]
  split_ifs
  · exact h
  · exact h

/-- After a successful load the crystal table is fresh. -/
theorem arena_load_crystalsFresh (arena : Arena) (map_str : List Nat)
    (hok : (arena_load_from_string arena map_str).2 = true) :
    CrystalsFresh (arena_load_from_string arena map_str).1 := by
  unfold arena_load_from_string at hok ⊢
  simp only [] at hok ⊢
  split_ifs at hok ⊢ with hd
  simp only []
  apply parse_tiles_induct CrystalsFresh crystalsFresh_set_tile crystalsFresh_add_crystal
      crystalsFresh_add_spawn_point
  refine ⟨⟨le_refl _, ?_⟩, ?_⟩
  · simp only [arena_init, MAX_CRYSTALS]
    decide
  · intro i i1 i2
    simp only [arena_init, i1, i2, and_self, if_true]

theorem collect_fold_arena_induct (P : Arena → Prop)
    (hc : ∀ a j, P a → P (arena_collect_crystal a j)) (s : GameState) (info : StepInfo)
    (h : P s.arena) : P (playerIndices.foldl collect_crystal_step (s, info)).1.arena := by
  have hstep : ∀ (acc : GameState × StepInfo) (i : Fin 2), P acc.1.arena →
      P (collect_crystal_step acc i).1.arena := by
    intro acc i ha
    rcases (collect_crystal_step_arena acc i).2 with e | ⟨j, e⟩
    · rw [e]; exact ha
    · rw [e]; exact hc _ _ ha
  rw [foldl_playerIndices]
  exact hstep _ 1 (hstep (s, info) 0 h)

/-- A property of the arena that `arena_collect_crystal` and
`arena_tick_crystals` keep is kept by `game_step`. -/
theorem game_step_arena_induct (P : Arena → Prop)
    (hc : ∀ a j, P a → P (arena_collect_crystal a j))
    (ht : ∀ a, P a → P (arena_tick_crystals a))
    (st : GameState) (rng_state : Nat) (actions : Fin 2 → PlayerAction) (h : P st.arena) :
    P (game_step st rng_state actions).1.arena := by
  cases hgo : st.game_over
  · rw [game_step_arena st rng_state actions hgo]
    apply ht
    rw [step_moved_eq]
    apply collect_fold_arena_induct P hc
    rw [step_applied_arena]
    exact collect_fold_arena_induct P hc st StepInfo.zero h
  · unfold game_step
    simp only [hgo, if_true]
    exact h

theorem sameGrid_refl (a : Arena) : SameGrid a a :=
  ⟨rfl, rfl, rfl, rfl, fun _ => rfl, rfl, rfl, fun _ _ => rfl⟩

/-- A step keeps the grid: the arena stays the loaded arena up to the
cooldowns of the crystals of the table. -/
theorem game_step_sameGrid (a0 : Arena) (st : GameState) (rng_state : Nat)
    (actions : Fin 2 → PlayerAction) (h : SameGrid a0 st.arena) :
    SameGrid a0 (game_step st rng_state actions).1.arena := by
  obtain ⟨h1, h2, h3, h4, h5, h6, h7, h8⟩ := h
  obtain ⟨g1, g2, g3, g4, g5, g6, g7⟩ := game_step_frameEq st rng_state actions
  refine ⟨g1.trans h1, g2.trans h2, g3.trans h3, g4.trans h4, fun i => (g5 i).trans (h5 i),
    g6.trans h6, g7.trans h7, ?_⟩
  have hP := game_step_arena_induct
    (fun a => a.num_crystals = a0.num_crystals ∧ ∀ i, ¬ (0 ≤ i ∧ i < a0.num_crystals) →
      (a.crystals i).cooldown_ticks = (a0.crystals i).cooldown_ticks)
    ?_ ?_ st rng_state actions ⟨h4, h8⟩
  · exact hP.2
  · intro a j ⟨hn, hcd⟩
    unfold arena_collect_crystal
    split_ifs with hj
    · refine ⟨hn, ?_⟩
      intro i hi
      simp only [setAt]
      rw [if_neg (by intro e; subst e; rw [hn] at hj; exact hi ⟨by omega, by omega⟩)]
      exact hcd i hi
    · exact ⟨hn, hcd⟩
  · intro a ⟨hn, hcd⟩
    refine ⟨hn, ?_⟩
    intro i hi
    rw [arena_tick_crystals_cooldown, if_neg (by rw [hn]; intro hc; exact hi hc.1)]
    exact hcd i hi

theorem reachable_sameGrid (mem : GameState) (map_str : List Nat) (st : GameState)
    (rng_state : Nat) (hr : Reachable mem map_str st rng_state) :
    SameGrid (arena_load_from_string mem.arena map_str).1 st.arena := by
  induction hr with
  | init seed => exact sameGrid_refl _
  | step actions _ ih => exact game_step_sameGrid _ _ _ actions ih
  | reseed seed _ ih => exact ih

theorem foldl_reset_crystal (l : List Int) (hnd : l.Nodup) :
    ∀ (cs : Int → Crystal) (i : Int),
      (l.foldl (fun cs i => setAt cs i { cs i with cooldown_ticks := 0 }) cs) i
        = if i ∈ l then { cs i with cooldown_ticks := 0 } else cs i := by
  induction l with
  | nil => intro cs i; simp
  | cons k l ih =>
    intro cs i
    rw [List.nodup_cons] at hnd
    rw [List.foldl_cons, ih hnd.2]
    by_cases hk : i = k
    · subst hk
      simp only [hnd.1, if_false, List.mem_cons, true_or, if_true, setAt_same]
    · simp only [hk, List.mem_cons, false_or, setAt_ne _ _ hk]

/-- The player loop of `game_init` and `game_reset` in closed form. -/
theorem foldl_init_player_step (s : GameState) :
    playerIndices.foldl init_player_step s
      = { s with players := fun i =>
            player_init (if indexInt i < s.arena.num_spawn_points
              then (s.arena.spawn_points (indexInt i)).pos else { x := 0, y := 0 }) } := by
  rw [foldl_playerIndices]
  simp only [init_player_step]
  congr 1
  funext i
  rcases fin2_cases i with rfl | rfl
  · simp [setAt]
  · simp [setAt]

/-- On a state whose arena is a freshly loaded arena up to the cooldowns of
its crystals, `game_reset` gives the state `game_init` builds on that arena. -/
theorem game_reset_of_sameGrid (a0 : Arena) (hfresh : CrystalsFresh a0) (st : GameState)
    (h : SameGrid a0 st.arena) :
    game_reset st =
      { arena := a0
        players := fun i =>
          player_init (if indexInt i < a0.num_spawn_points
            then (a0.spawn_points (indexInt i)).pos else { x := 0, y := 0 })
        current_tick := 0
        winner := -1
        game_over := false } := by
  obtain ⟨h1, h2, h3, h4, h5, h6, h7, h8⟩ := h
  obtain ⟨⟨f1, f2⟩, f3⟩ := hfresh
  unfold game_reset
  simp only [foldl_init_player_step]
  have harena : ({ st.arena with
      crystals := (intRange st.arena.num_crystals).foldl
        (fun cs i => setAt cs i { cs i with cooldown_ticks := 0 }) st.arena.crystals } : Arena)
      = a0 := by
    cases a0 with
    | mk w hh t nc cs ns sp =>
      simp only at h1 h2 h3 h4 h5 h6 h7 h8 f1 f2 f3
      simp only [Arena.mk.injEq]
      refine ⟨h1, h2, h3, h4, ?_, h6, h7⟩
      funext i
      rw [foldl_reset_crystal _ (intRange_nodup _), h4]
      simp only [mem_intRange]
      split_ifs with hi
      · cases hc : st.arena.crystals i with
        | mk p c =>
          cases hc0 : cs i with
          | mk p0 c0 =>
            have e1 := h5 i
            have e2 := f3 i hi.1 (by omega)
            rw [hc, hc0] at e1
            rw [hc0] at e2
            simp only at e1 e2
            simp only [Crystal.mk.injEq]
            exact ⟨e1, e2.symm⟩
      · cases hc : st.arena.crystals i with
        | mk p c =>
          cases hc0 : cs i with
          | mk p0 c0 =>
            have e1 := h5 i
            have e2 := h8 i hi
            rw [hc, hc0] at e1 e2
            simp only at e1 e2
            simp only [Crystal.mk.injEq]
            exact ⟨e1, e2⟩
  simp only [GameState.mk.injEq, and_self, and_true]
  exact ⟨harena, by simp only [h6, h7]⟩

theorem game_init_eq (mem : GameState) (map_str : List Nat) :
    game_init mem map_str =
      { arena := (arena_load_from_string mem.arena map_str).1
        players := fun i =>
          player_init (if indexInt i < (arena_load_from_string mem.arena map_str).1.num_spawn_points
            then ((arena_load_from_string mem.arena map_str).1.spawn_points (indexInt i)).pos
            else { x := 0, y := 0 })
        current_tick := 0
        winner := -1
        game_over := false } := by
  unfold game_init
  simp only [foldl_init_player_step]

/-- C31: for a map that `arena_load_from_string` accepts and every state
reachable from `game_init` on it by `game_step` calls (with any seeds and
actions), `game_reset` gives exactly the state `game_init` gives; so with the
same seed set afterwards, every action sequence gives the same trajectory of
states, PRNG states and `StepInfo`s from both. -/
theorem game_reset_eq_init (mem : GameState) (map_str : List Nat)
    (hok : (arena_load_from_string mem.arena map_str).2 = true)
    (st : GameState) (rng_state : Nat) (hr : Reachable mem map_str st rng_state) :
    game_reset st = game_init mem map_str ∧
    ∀ (seed : Nat) (actions : List (Fin 2 → PlayerAction)),
      game_run (game_reset st) (game_set_seed seed) actions
        = game_run (game_init mem map_str) (game_set_seed seed) actions := by
  have h : game_reset st = game_init mem map_str := by
    rw [game_init_eq]
    exact game_reset_of_sameGrid _ (arena_load_crystalsFresh mem.arena map_str hok) st
      (reachable_sameGrid mem map_str st rng_state hr)
  refine ⟨h, ?_⟩
  intro seed actions
  rw [h]

theorem countersOk_restore (p : Player) (h : CountersOk p) :
    CountersOk (player_restore_energy p MAX_ENERGY) := by
  simp only [CountersOk, player_restore_energy, MOVEMENT_COOLDOWN_TICKS, LASER_COOLDOWN_TICKS,
    ENERGY_REGEN_TICKS] at h ⊢
  split_ifs <;> (simp only []; omega)

theorem countersOk_fired (p : Player) (h : CountersOk p) : CountersOk (fired_player p) := by
  simp only [CountersOk, fired_player, player_start_laser_cooldown, player_use_energy,
    MOVEMENT_COOLDOWN_TICKS, LASER_COOLDOWN_TICKS, ENERGY_REGEN_TICKS] at h ⊢
  split_ifs <;> (simp only []; omega)

theorem countersOk_take_damage (p : Player) (h : CountersOk p) :
    CountersOk (player_take_damage p LASER_DAMAGE) := by
  unfold player_take_damage
  simp only []
  split_ifs <;> exact h

theorem countersOk_pushed (r : LaserResult) (p : Player) (h : CountersOk p) :
    CountersOk (pushed_player r p) := by
  unfold pushed_player
  split_ifs <;> exact h

theorem countersOk_credited (p : Player) (b : Bool) (h : CountersOk p) :
    CountersOk (credited p b) := h

theorem countersOk_respawn (p : Player) (c : Position) : CountersOk (player_respawn p c) := by
  simp only [CountersOk, player_respawn, MOVEMENT_COOLDOWN_TICKS, LASER_COOLDOWN_TICKS,
    ENERGY_REGEN_TICKS]
  omega

theorem countersOk_init (c : Position) : CountersOk (player_init c) := by
  simp only [CountersOk, player_init, MOVEMENT_COOLDOWN_TICKS, LASER_COOLDOWN_TICKS,
    ENERGY_REGEN_TICKS]
  omega

theorem countersOk_moved (s : GameState) (actions : Fin 2 → PlayerAction) (k : Fin 2)
    (h : CountersOk (s.players k)) : CountersOk (moved_player s actions k) := by
  simp only [CountersOk, moved_player, player_start_move_cooldown, MOVEMENT_COOLDOWN_TICKS,
    LASER_COOLDOWN_TICKS, ENERGY_REGEN_TICKS] at h ⊢
  split_ifs <;> first | exact h | (simp only []; omega)

theorem countersOk_tick (p : Player) (h : CountersOk p) :
    CountersOk (player_tick_cooldowns p) := by
  obtain ⟨h1, h2, h3⟩ := h
  obtain ⟨_, _, _, _, t5, t6, _⟩ := tick_cooldowns_fields p
  unfold CountersOk
  rw [t5, t6, tick_cooldowns_regen]
  simp only [MOVEMENT_COOLDOWN_TICKS, LASER_COOLDOWN_TICKS, ENERGY_REGEN_TICKS] at h1 h2 h3 ⊢
  refine ⟨?_, ?_, ?_⟩ <;> split_ifs <;> omega

theorem countersOk_shooting_outcome (s : GameState) (actions : Fin 2 → PlayerAction) (k : Fin 2)
    (h : CountersOk (s.players k)) : CountersOk (shooting_outcome s actions k) := by
  unfold shooting_outcome
  simp only []
  split_ifs <;>
    first
    | exact h
    | exact countersOk_fired _ h
    | exact countersOk_pushed _ _ (countersOk_take_damage _ h)
    | exact countersOk_pushed _ _ (countersOk_take_damage _ (countersOk_fired _ h))

theorem countersOk_collect_fold (s : GameState) (info : StepInfo) (k : Fin 2)
    (h : CountersOk (s.players k)) :
    CountersOk ((playerIndices.foldl collect_crystal_step (s, info)).1.players k) := by
  rcases (collect_fold_player s info k).1 with ⟨e, _⟩ | ⟨_, e, _⟩
  · rw [e]; exact h
  · rw [e]; exact countersOk_restore _ h

/-- A step keeps the counters of a player record in range. -/
theorem game_step_countersOk (st : GameState) (rng_state : Nat) (actions : Fin 2 → PlayerAction)
    (k : Fin 2) (h : CountersOk (st.players k)) :
    CountersOk ((game_step st rng_state actions).1.players k) := by
  cases hgo : st.game_over
  · rw [game_step_players st rng_state actions hgo]
    apply countersOk_tick
    have hA : CountersOk ((step_collected st).1.players k) :=
      countersOk_collect_fold st StepInfo.zero k h
    have hB : CountersOk ((step_shot st actions).1.players k) := by
      rw [step_shot_players]
      exact countersOk_shooting_outcome _ _ _ hA
    have hC : CountersOk ((step_revived st rng_state actions).1.players k) := by
      obtain ⟨_, _, _, h4, h5⟩ := respawn_shooting_fold_player
        ((step_shot st actions).1, rng_state, (step_shot st actions).2) k
      unfold step_revived
      cases ha : ((step_shot st actions).1.players k).alive
      · obtain ⟨c, hc⟩ := (h5 ha).1
        rw [hc]
        exact countersOk_respawn _ _
      · rw [(h4 ha).1]
        exact hB
    have hD : CountersOk ((step_moved st rng_state actions).1.players k) := by
      rw [step_moved_eq]
      apply countersOk_collect_fold
      rw [step_applied_players]
      exact countersOk_moved _ _ _ hC
    obtain ⟨_, _, _, h4, h5⟩ := respawn_movement_fold_player
      ((step_moved st rng_state actions).1, (step_revived st rng_state actions).2.1,
        (step_moved st rng_state actions).2) k
    rw [step_respawned_eq]
    cases hn : needs_respawn ((step_moved st rng_state actions).1,
      (step_revived st rng_state actions).2.1, (step_moved st rng_state actions).2) k
    · rw [(h4 hn).1]
      exact hD
    · obtain ⟨c, hc⟩ := (h5 hn).1
      rw [hc]
      exact countersOk_respawn _ _
  · unfold game_step
    simp only [hgo, if_true]
    exact h

/-- A state that `game_check_win_conditions` leaves running is below the
episode length and below the winning score. -/
theorem game_check_win_conditions_running (s : GameState)
    (h : (game_check_win_conditions s).game_over = false) :
    s.current_tick < EPISODE_LENGTH_TICKS ∧ ∀ i, (s.players i).score < WIN_SCORE := by
  unfold game_check_win_conditions at h
  rw [find_playerIndices] at h
  by_cases h0 : (s.players 0).score ≥ WIN_SCORE
  · simp [h0] at h
  · by_cases h1 : (s.players 1).score ≥ WIN_SCORE
    · simp [h0, h1] at h
    · simp only [h0, h1, decide_False, Bool.false_eq_true, if_false] at h
      by_cases ht : s.current_tick ≥ EPISODE_LENGTH_TICKS
      · exfalso
        simp only [ht, if_true] at h
        split_ifs at h
      · refine ⟨by omega, ?_⟩
        intro i
        rcases fin2_cases i with rfl | rfl <;> omega

theorem game_step_current_tick (st : GameState) (rng_state : Nat)
    (actions : Fin 2 → PlayerAction) (hgo : st.game_over = false) :
    (game_step st rng_state actions).1.current_tick = st.current_tick + 1 := by
  rw [game_step_running st rng_state actions hgo, game_check_win_conditions_current_tick]
  simp only
  rw [(step_before_tick_frame st rng_state actions).1]

/-- A step keeps the counters of a state within their bounds. -/
theorem game_step_countersBounded (st : GameState) (rng_state : Nat)
    (actions : Fin 2 → PlayerAction) (h : CountersBounded st) :
    CountersBounded (game_step st rng_state actions).1 := by
  obtain ⟨⟨t1, t2⟩, hs, hrun, hn, hcd, hco⟩ := h
  cases hgo : st.game_over
  · obtain ⟨r1, r2⟩ := hrun hgo
    have htick := game_step_current_tick st rng_state actions hgo
    have hscore : ∀ i, 0 ≤ ((game_step st rng_state actions).1.players i).score ∧
        ((game_step st rng_state actions).1.players i).score ≤ WIN_SCORE := by
      intro i
      have hc := game_step_score_credit st rng_state actions hgo (opponentOf i)
      rw [opponentOf_opponentOf] at hc
      rw [hc]
      have := r2 i
      have := (hs i).1
      split_ifs <;> omega
    refine ⟨?_, hscore, ?_, ?_, ?_, fun i => game_step_countersOk st rng_state actions i (hco i)⟩
    · rw [htick]
      constructor <;> omega
    · intro hgo2
      rw [game_step_running st rng_state actions hgo] at hgo2 ⊢
      obtain ⟨a1, a2⟩ := game_check_win_conditions_running _ hgo2
      rw [game_check_win_conditions_current_tick, game_check_win_conditions_players]
      exact ⟨a1, a2⟩
    · rw [(game_step_frameEq st rng_state actions).2.2.2.1]
      exact hn
    · have hP := game_step_arena_induct
        (fun a => ∀ i, 0 ≤ i → i < MAX_CRYSTALS →
          0 ≤ (a.crystals i).cooldown_ticks ∧ (a.crystals i).cooldown_ticks ≤ CRYSTAL_RESPAWN_TICKS)
        ?_ ?_ st rng_state actions hcd
      · exact hP
      · intro a j ha i i1 i2
        unfold arena_collect_crystal
        split_ifs
        · simp only [setAt]
          split_ifs
          · simp only [CRYSTAL_RESPAWN_TICKS]
            omega
          · exact ha i i1 i2
        · exact ha i i1 i2
      · intro a ha i i1 i2
        rw [arena_tick_crystals_cooldown]
        have := ha i i1 i2
        split_ifs <;> omega
  · unfold game_step
    simp only [hgo, if_true]
    exact ⟨⟨t1, t2⟩, hs, hrun, hn, hcd, hco⟩

theorem game_init_countersBounded (mem : GameState) (map_str : List Nat)
    (hok : (arena_load_from_string mem.arena map_str).2 = true) :
    CountersBounded (game_init mem map_str) := by
  obtain ⟨⟨f1, f2⟩, f3⟩ := arena_load_crystalsFresh mem.arena map_str hok
  rw [game_init_eq]
  refine ⟨?_, ?_, ?_, f2, ?_, ?_⟩
  · simp only [EPISODE_LENGTH_TICKS]
    omega
  · intro i
    simp only [player_init, WIN_SCORE]
    omega
  · intro _
    simp only [player_init, WIN_SCORE, EPISODE_LENGTH_TICKS]
    exact ⟨by omega, fun i => by omega⟩
  · intro i i1 i2
    simp only [CRYSTAL_RESPAWN_TICKS]
    rw [f3 i i1 i2]
    omega
  · intro i
    exact countersOk_init _

theorem reachable_countersBounded (mem : GameState) (map_str : List Nat)
    (hok : (arena_load_from_string mem.arena map_str).2 = true)
    (st : GameState) (rng_state : Nat) (hr : Reachable mem map_str st rng_state) :
    CountersBounded st := by
  induction hr with
  | init seed => exact game_init_countersBounded mem map_str hok
  | step actions _ ih => exact game_step_countersBounded _ _ actions ih
  | reseed seed _ ih => exact ih

/-- C34: in every state reachable from `game_init` on a map that
`arena_load_from_string` accepts, `current_tick` is in 0..7200, both scores
are in 0..8, every cooldown of the crystal table is in 0..480, and for both
players the move and laser cooldowns are in 0..12 and `energy_regen_ticks` is
in 1..120. -/
theorem reachable_counters_bounded (mem : GameState) (map_str : List Nat)
    (hok : (arena_load_from_string mem.arena map_str).2 = true)
    (st : GameState) (rng_state : Nat) (hr : Reachable mem map_str st rng_state) :
    (0 ≤ st.current_tick ∧ st.current_tick ≤ 7200) ∧
    (∀ i, 0 ≤ (st.players i).score ∧ (st.players i).score ≤ 8) ∧
    (∀ i, 0 ≤ i → i < MAX_CRYSTALS →
      0 ≤ (st.arena.crystals i).cooldown_ticks ∧ (st.arena.crystals i).cooldown_ticks ≤ 480) ∧
    st.arena.num_crystals ≤ MAX_CRYSTALS ∧
    (∀ i, (0 ≤ (st.players i).move_cooldown_ticks ∧ (st.players i).move_cooldown_ticks ≤ 12) ∧
      (0 ≤ (st.players i).laser_cooldown_ticks ∧ (st.players i).laser_cooldown_ticks ≤ 12) ∧
      (1 ≤ (st.players i).energy_regen_ticks ∧ (st.players i).energy_regen_ticks ≤ 120)) := by
  obtain ⟨h1, h2, _, h4, h5, h6⟩ := reachable_countersBounded mem map_str hok st rng_state hr
  exact ⟨h1, h2, h5, h4, h6⟩

set_option maxRecDepth 100000 in
/-- C31, at a concrete input: on the map `1 * 2` player 0 steps Right onto the
crystal and collects it; `game_reset` on the state after that step gives the
state of a fresh `game_init`, with the crystal cooldown back from 479 to 0. -/
theorem game_reset_eq_init_witness :
    game_reset (game_step crystalAheadState (game_set_seed 42) firstRight).1
      = game_init zeroState (asciiBytes "1 * 2") ∧
    ((game_step crystalAheadState (game_set_seed 42) firstRight).1.arena.crystals
      0).cooldown_ticks = 479 ∧
    ((game_reset (game_step crystalAheadState (game_set_seed 42)
      firstRight).1).arena.crystals 0).cooldown_ticks = 0 :=
  ⟨(game_reset_eq_init zeroState (asciiBytes "1 * 2") (by decide) _ _
      (Reachable.step firstRight (Reachable.init 42))).1,
    by decide, by decide⟩

/-- C34, at a concrete input: the state after the step of player 0 onto the
crystal of the map `1 * 2` has its tick counter, the cooldown of the crystal
and the move cooldown of player 0 within the bounds. -/
theorem reachable_counters_bounded_witness :
    (game_step crystalAheadState (game_set_seed 42) firstRight).1.current_tick ≤ 7200 ∧
    ((game_step crystalAheadState (game_set_seed 42) firstRight).1.arena.crystals
      0).cooldown_ticks ≤ 480 ∧
    ((game_step crystalAheadState (game_set_seed 42) firstRight).1.players
      0).move_cooldown_ticks ≤ 12 :=
  have h := reachable_counters_bounded zeroState (asciiBytes "1 * 2") (by decide) _ _
    (Reachable.step firstRight (Reachable.init 42))
  ⟨h.1.2, (h.2.2.1 0 (by decide) (by decide)).2, (h.2.2.2.2 0).1.2⟩

theorem other_player_at_exchange (st : GameState) (i : Fin 2) (x y : Int) :
    (other_player_at (exchange_players st) i x y).isSome
      = (other_player_at st (opponentOf i) x y).isSome := by
  rw [other_player_at_eq, other_player_at_eq]
  simp only [exchange_players]
  split_ifs <;> rfl

theorem other_player_at_some (st : GameState) (i j : Fin 2) (x y : Int)
    (h : other_player_at st i x y = some j) : j = opponentOf i := by
  rw [other_player_at_eq] at h
  split_ifs at h
  simp only [Option.some.injEq] at h
  exact h.symm

theorem pushback_loop_exchange (st : GameState) (j : Fin 2) (dx dy : Int) :
    ∀ (n : Nat) (c : Position),
      pushback_loop (exchange_players st) j dx dy n c
        = pushback_loop st (opponentOf j) dx dy n c := by
  intro n
  induction n with
  | zero => intro c; rfl
  | succ n ih =>
    intro c
    have ho := other_player_at_exchange st j (c.x + dx) (c.y + dy)
    simp only [pushback_loop]
    have ha : (exchange_players st).arena = st.arena := rfl
    rw [ha]
    cases h1 : other_player_at (exchange_players st) j (c.x + dx) (c.y + dy) <;>
      cases h2 : other_player_at st (opponentOf j) (c.x + dx) (c.y + dy) <;>
      rw [h1, h2] at ho <;> simp at ho
    simp only [ih]

theorem combat_apply_pushback_exchange (st : GameState) (j : Fin 2) (dir : Direction)
    (n : Int) :
    combat_apply_pushback (exchange_players st) j dir n
      = combat_apply_pushback st (opponentOf j) dir n := by
  unfold combat_apply_pushback
  simp only [pushback_loop_exchange]
  rfl

theorem laser_loop_exchange (st : GameState) (i : Fin 2) (dir : Direction) (dx dy : Int)
    (r0 : LaserResult) :
    ∀ (fuel : Nat) (cur : Position),
      (laser_loop (exchange_players st) i dir dx dy r0 fuel cur).map laser_view
        = (laser_loop st (opponentOf i) dir dx dy r0 fuel cur).map laser_view := by
  intro fuel
  induction fuel with
  | zero => intro cur; rfl
  | succ n ih =>
    intro cur
    have ho := other_player_at_exchange st i (cur.x + dx) (cur.y + dy)
    simp only [laser_loop]
    have ha : (exchange_players st).arena = st.arena := rfl
    rw [ha]
    split_ifs
    · rfl
    · rfl
    · cases h1 : other_player_at (exchange_players st) i (cur.x + dx) (cur.y + dy) <;>
        cases h2 : other_player_at st (opponentOf i) (cur.x + dx) (cur.y + dy) <;>
        rw [h1, h2] at ho <;> simp at ho
      · simp only [ih]
      · rename_i j1 j2
        have e1 := other_player_at_some _ _ _ _ _ h1
        have e2 := other_player_at_some _ _ _ _ _ h2
        subst e1 e2
        simp only [Option.map_some', laser_view, combat_apply_pushback_exchange]

/-- The laser of player `i` in the exchanged state is the laser of the other
player in the original state, apart from the index of the target. -/
theorem combat_fire_laser_exchange (st : GameState) (i : Fin 2) (dir : Direction) :
    laser_view (combat_fire_laser (exchange_players st) i dir)
      = laser_view (combat_fire_laser st (opponentOf i) dir) := by
  have h1 := combat_fire_laser_eq (exchange_players st) i dir
  have h2 := combat_fire_laser_eq st (opponentOf i) dir
  have hf : laser_fuel (exchange_players st) = laser_fuel st := rfl
  rw [hf] at h1
  by_cases hdir : dir = Direction.DIR_NONE
  · simp only [combat_fire_laser_fuel, hdir, if_true, Option.some.injEq] at h1 h2
    rw [hdir, ← h1, ← h2]
    rfl
  · simp only [combat_fire_laser_fuel, hdir, if_false] at h1 h2
    have h3 := laser_loop_exchange st i dir (get_direction_delta dir).1
      (get_direction_delta dir).2 (laser_result_init st (opponentOf i)) (laser_fuel st)
      (st.players (opponentOf i)).pos
    have hinit : laser_result_init (exchange_players st) i
        = laser_result_init st (opponentOf i) := rfl
    have hpos : ((exchange_players st).players i).pos = (st.players (opponentOf i)).pos := rfl
    rw [hinit, hpos] at h1
    rw [h1, h2] at h3
    simpa using h3

theorem fires_exchange (st : GameState) (actions : Fin 2 → PlayerAction) (i : Fin 2) :
    fires (exchange_players st) (exchange_actions actions) i
      = fires st actions (opponentOf i) := rfl

theorem shot_result_exchange (st : GameState) (actions : Fin 2 → PlayerAction) (i : Fin 2) :
    laser_view (shot_result (exchange_players st) (exchange_actions actions) i)
      = laser_view (shot_result st actions (opponentOf i)) :=
  combat_fire_laser_exchange st i _

theorem lands_exchange (st : GameState) (actions : Fin 2 → PlayerAction) (i : Fin 2) :
    lands (exchange_players st) (exchange_actions actions) i
      = lands st actions (opponentOf i) := by
  have h := shot_result_exchange st actions i
  simp only [laser_view, Prod.mk.injEq] at h
  simp only [lands, fires_exchange, h.1]

theorem pushed_player_view (r r2 : LaserResult) (p : Player) (h : laser_view r = laser_view r2) :
    pushed_player r p = pushed_player r2 p := by
  simp only [laser_view, Prod.mk.injEq] at h
  simp only [pushed_player, h.2.2.1, h.2.2.2]

theorem shooting_outcome_exchange (st : GameState) (actions : Fin 2 → PlayerAction)
    (t : Fin 2) :
    shooting_outcome (exchange_players st) (exchange_actions actions) t
      = shooting_outcome st actions (opponentOf t) := by
  unfold shooting_outcome
  simp only [fires_exchange, lands_exchange]
  rw [pushed_player_view _ _ _ (shot_result_exchange st actions (opponentOf t))]
  rfl

theorem gameState_ext (a b : GameState) (h1 : a.arena = b.arena) (h2 : a.players = b.players)
    (h3 : a.current_tick = b.current_tick) (h4 : a.winner = b.winner)
    (h5 : a.game_over = b.game_over) : a = b := by
  cases a
  cases b
  simp only at h1 h2 h3 h4 h5
  simp only [GameState.mk.injEq]
  exact ⟨h1, h2, h3, h4, h5⟩

theorem stepInfo_ext (a b : StepInfo) (h1 : a.player_hit = b.player_hit)
    (h2 : a.player_fragged = b.player_fragged) (h3 : a.crystal_collected = b.crystal_collected)
    (h4 : a.damage_dealt = b.damage_dealt) (h5 : a.damage_taken = b.damage_taken) : a = b := by
  cases a
  cases b
  simp only at h1 h2 h3 h4 h5
  simp only [StepInfo.mk.injEq]
  exact ⟨h1, h2, h3, h4, h5⟩

/-- C38: `game_phase_shooting` on the state, the actions and the `StepInfo`
with players 0 and 1 exchanged gives the exchange of the state and of the
`StepInfo` that it gives on the originals, for every state, pair of actions
and `StepInfo`: the loop order over the players decides nothing. -/
theorem game_phase_shooting_symmetric (st : GameState) (actions : Fin 2 → PlayerAction)
    (info : StepInfo) :
    game_phase_shooting (exchange_players st) (exchange_actions actions) (exchange_info info)
      = (exchange_players (game_phase_shooting st actions info).1,
         exchange_info (game_phase_shooting st actions info).2) := by
  obtain ⟨a1, a2, a3, a4, a5, a6, a7⟩ := game_phase_shooting_spec (exchange_players st)
    (exchange_actions actions) (exchange_info info)
  obtain ⟨b1, b2, b3, b4, b5, b6, b7⟩ := game_phase_shooting_spec st actions info
  obtain ⟨f1, f2, f3, _⟩ := game_phase_shooting_frame (exchange_players st)
    (exchange_actions actions) (exchange_info info)
  obtain ⟨g1, g2, g3, _⟩ := game_phase_shooting_frame st actions info
  apply Prod.ext
  · apply gameState_ext
    · rw [a2]
      exact b2.symm
    · funext t
      rw [a1, shooting_outcome_exchange]
      exact (b1 _).symm
    · rw [f1]
      exact g1.symm
    · rw [f2]
      exact g2.symm
    · rw [f3]
      exact g3.symm
  · apply stepInfo_ext
    · funext t
      rw [a3, lands_exchange]
      exact (b3 _).symm
    · rw [a4]
      simp only [exchange_info, b4]
    · rw [a5]
      simp only [exchange_info, b5]
    · funext t
      rw [a6, lands_exchange]
      exact (b6 _).symm
    · funext t
      rw [a7, lands_exchange]
      exact (b7 _).symm

/-- The loop body of the second pass on a byte below `0xC0`. -/
theorem parse_byte_ascii (w h : Int) (c c2 c3 : Nat) (s : ParseState) (hc : c < 0xC0) :
    parse_byte w h c c2 c3 s =
      (0, if c = 10 then { s with x := 0, y := if s.y < h - 1 then s.y + 1 else s.y }
          else if c = 32 then s
          else if s.x ≥ w ∨ s.y ≥ h then s
          else { s with arena := place_cell s.arena ({ x := s.x, y := s.y }, c), x := s.x + 1 }) := by
  unfold parse_byte
  by_cases h0 : c = 10
  · rw [if_pos h0, if_pos h0]
  rw [if_neg h0, if_neg h0]
  by_cases h1 : c = 32
  · rw [if_pos h1, if_pos h1]
  rw [if_neg h1, if_neg h1]
  by_cases h2 : s.x ≥ w ∨ s.y ≥ h
  · rw [if_pos h2, if_pos h2]
  rw [if_neg h2, if_neg h2]
  by_cases h3 : c = 120 ∨ c = 88
  · rw [if_pos h3]
    have e1 : is_crystal_char c = false := by
      simp only [is_crystal_char, decide_eq_false_iff_not]; omega
    have e2 : is_spawn_char c = false := by
      simp only [is_spawn_char, decide_eq_false_iff_not]; omega
    simp only [place_cell, e1, e2, tile_of_char, h3, Bool.false_eq_true, if_false, if_true]
  rw [if_neg h3]
  by_cases h4 : c = 35
  · rw [if_pos h4]
    subst h4
    rfl
  rw [if_neg h4]
  by_cases h5 : c = 46 ∨ c = 95
  · rw [if_pos h5]
    have e1 : is_crystal_char c = false := by
      simp only [is_crystal_char, decide_eq_false_iff_not]; omega
    have e2 : is_spawn_char c = false := by
      simp only [is_spawn_char, decide_eq_false_iff_not]; omega
    simp only [place_cell, e1, e2, tile_of_char, h3, h4, Bool.false_eq_true, if_false]
  rw [if_neg h5]
  by_cases h6 : c = 42 ∨ c = 67 ∨ c = 99
  · rw [if_pos h6]
    have e1 : is_crystal_char c = true := by
      simp only [is_crystal_char, decide_eq_true_eq]; exact h6
    simp only [place_cell, e1, if_true]
  rw [if_neg h6]
  have e1 : is_crystal_char c = false := by
    simp only [is_crystal_char, decide_eq_false_iff_not]; exact h6
  by_cases h7 : c = 49 ∨ c = 50 ∨ c = 83 ∨ c = 115
  · rw [if_pos h7]
    have e2 : is_spawn_char c = true := by
      simp only [is_spawn_char, decide_eq_true_eq]; exact h7
    simp only [place_cell, e1, e2, Bool.false_eq_true, if_false, if_true]
  rw [if_neg h7]
  have e2 : is_spawn_char c = false := by
    simp only [is_spawn_char, decide_eq_false_iff_not]; exact h7
  rw [if_neg (by omega : ¬ c ≥ 0xC0)]
  simp only [place_cell, e1, e2, tile_of_char, h3, h4, Bool.false_eq_true, if_false]

theorem scan_cells_y_ge (s : List Nat) :
    ∀ (x y : Int) (pc : Position × Nat), pc ∈ scan_cells x y s → y ≤ pc.1.y := by
  induction s with
  | nil => intro x y pc h; simp [scan_cells] at h
  | cons c rest ih =>
    intro x y pc h
    rw [scan_cells] at h
    split_ifs at h
    · have := ih _ _ _ h
      omega
    · exact ih _ _ _ h
    · rw [List.mem_cons] at h
      rcases h with rfl | h
      · exact le_refl _
      · exact ih _ _ _ h

theorem scan_cells_eq_nil (s : List Nat) :
    ∀ (x y : Int), scan_cells x y s = [] → ∀ c ∈ s, c = 10 ∨ c = 32 := by
  induction s with
  | nil => intro x y _ c hc; simp at hc
  | cons c rest ih =>
    intro x y h d hd
    rw [scan_cells] at h
    rw [List.mem_cons] at hd
    split_ifs at h with h0 h1
    · rcases hd with rfl | hd
      · exact Or.inl h0
      · exact ih _ _ h d hd
    · rcases hd with rfl | hd
      · exact Or.inr h1
      · exact ih _ _ h d hd

/-- Newlines and spaces leave the arena as it is. -/
theorem parse_tiles_blank (w h : Int) (s : List Nat) :
    ∀ (st : ParseState), (∀ c ∈ s, c = 10 ∨ c = 32) →
      (parse_tiles w h s 0 st).arena = st.arena := by
  induction s with
  | nil => intro st _; rfl
  | cons c rest ih =>
    intro st hs
    have hc := hs c (List.mem_cons_self _ _)
    rw [parse_tiles, parse_byte_ascii w h c _ _ st (by omega)]
    simp only []
    rw [ih _ (fun d hd => hs d (List.mem_cons_of_mem _ hd))]
    rcases hc with rfl | rfl
    · simp
    · simp

/-- The second pass of the loader on an ASCII string whose cells all fall
inside the grid: the arena is the fold of `place_cell` over the cells. -/
theorem parse_tiles_cells (w h : Int) (s : List Nat) :
    ∀ (x y : Int) (a : Arena), (∀ c ∈ s, c < 0xC0) →
      (∀ pc ∈ scan_cells x y s, pc.1.x < w ∧ pc.1.y < h) →
      (parse_tiles w h s 0 { arena := a, x := x, y := y }).arena
        = (scan_cells x y s).foldl place_cell a := by
  induction s with
  | nil => intro x y a _ _; rfl
  | cons c rest ih =>
    intro x y a hs hin
    have hc := hs c (List.mem_cons_self _ _)
    have hrest : ∀ d ∈ rest, d < 0xC0 := fun d hd => hs d (List.mem_cons_of_mem _ hd)
    rw [parse_tiles, parse_byte_ascii w h c _ _ _ hc]
    simp only []
    rw [scan_cells] at hin ⊢
    by_cases h0 : c = 10
    · simp only [h0, if_true] at hin ⊢
      by_cases hy : y < h - 1
      · simp only [hy, if_true]
        exact ih _ _ _ hrest hin
      · simp only [hy, if_false]
        have hnil : scan_cells 0 (y + 1) rest = [] := by
          cases hl : scan_cells 0 (y + 1) rest with
          | nil => rfl
          | cons pc l =>
            exfalso
            have hm : pc ∈ scan_cells 0 (y + 1) rest := by rw [hl]; exact List.mem_cons_self _ _
            have h1 := scan_cells_y_ge rest _ _ _ hm
            have h2 := (hin pc hm).2
            omega
        rw [hnil, parse_tiles_blank w h rest _ (scan_cells_eq_nil rest _ _ hnil)]
        rfl
    · simp only [h0, if_false] at hin ⊢
      by_cases h1 : c = 32
      · simp only [h1, if_true] at hin ⊢
        exact ih _ _ _ hrest hin
      · simp only [h1, if_false] at hin ⊢
        have hcell := hin _ (List.mem_cons_self _ _)
        simp only at hcell
        rw [if_neg (by omega), List.foldl_cons]
        exact ih _ _ _ hrest (fun pc hpc => hin pc (List.mem_cons_of_mem _ hpc))

theorem map_rows_nil : map_rows [] = [] := rfl

theorem map_rows_newline (rest : List Nat) : map_rows (10 :: rest) = [] :: map_rows rest := by
  simp [map_rows, map_lines]

theorem map_rows_cons (c : Nat) (rest : List Nat) (hc : c ≠ 10) :
    map_rows (c :: rest) =
      (if c = 32 then (map_rows rest).headD [] else c :: (map_rows rest).headD [])
        :: (map_rows rest).tail := by
  simp only [map_rows, map_lines, hc, if_false]
  cases hl : map_lines rest with
  | nil =>
    by_cases h : c = 32
    · simp [h]
    · simp [h]
  | cons l ls =>
    by_cases h : c = 32
    · simp [h]
    · simp [h]

theorem rows_cells_from_head (y : Int) (rows : List (List Nat)) :
    rows_cells_from y rows
      = row_cells_from 0 y (rows.headD []) ++ rows_cells_from (y + 1) rows.tail := by
  cases rows with
  | nil => rfl
  | cons r rs => rfl

theorem map_width_head (rows : List (List Nat)) :
    map_width rows = max (rows.headD []).length (map_width rows.tail) := by
  cases rows with
  | nil => rfl
  | cons r rs => rfl

theorem nonblank_rows_head (rows : List (List Nat)) :
    nonblank_rows rows
      = (if 0 < (rows.headD []).length then 1 else 0) + nonblank_rows rows.tail := by
  cases rows with
  | nil => rfl
  | cons r rs =>
    cases r with
    | nil => simp [nonblank_rows]
    | cons c cs => simp [nonblank_rows, List.filter_cons]; omega

theorem nonblank_rows_all (rows : List (List Nat)) (h : ∀ r ∈ rows, r ≠ []) :
    nonblank_rows rows = rows.length := by
  unfold nonblank_rows
  rw [List.filter_eq_self.2]
  intro r hr
  have := h r hr
  cases r with
  | nil => exact absurd rfl this
  | cons c cs => rfl

/-- The cells the second pass visits are the cells of the rows in reading
order. -/
theorem scan_cells_rows (s : List Nat) :
    ∀ (x y : Int), scan_cells x y s
      = row_cells_from x y ((map_rows s).headD []) ++ rows_cells_from (y + 1) (map_rows s).tail := by
  induction s with
  | nil => intro x y; rfl
  | cons c rest ih =>
    intro x y
    rw [scan_cells]
    by_cases h0 : c = 10
    · subst h0
      simp only [if_true, map_rows_newline, List.headD_cons, List.tail_cons, row_cells_from,
        List.nil_append]
      rw [ih, ← rows_cells_from_head]
    · rw [if_neg h0, map_rows_cons c rest h0]
      by_cases h1 : c = 32
      · simp only [h1, if_true, List.headD_cons, List.tail_cons]
        exact ih x y
      · simp only [h1, if_false, List.headD_cons, List.tail_cons, row_cells_from,
          List.cons_append]
        rw [ih]

theorem scan_cells_map_cells (s : List Nat) : scan_cells 0 0 s = map_cells (map_rows s) := by
  rw [scan_cells_rows, map_cells, ← rows_cells_from_head]

/-- The first pass of the loader: the width is the largest row length and the
height the number of non-blank rows, counting what the locals already hold. -/
theorem scan_dims_rows (s : List Nat) :
    ∀ (d : MapDims), 0 ≤ d.current_width → 0 ≤ d.width →
      (if (s.foldl scan_dims_step d).current_width > 0 then
          ((if (s.foldl scan_dims_step d).current_width > (s.foldl scan_dims_step d).width
              then (s.foldl scan_dims_step d).current_width
              else (s.foldl scan_dims_step d).width),
            (s.foldl scan_dims_step d).height + 1)
        else ((s.foldl scan_dims_step d).width, (s.foldl scan_dims_step d).height))
      = (max d.width (max (d.current_width + ((map_rows s).headD []).length)
            (map_width (map_rows s).tail)),
          d.height + (if d.current_width + ((map_rows s).headD []).length > 0 then 1 else 0)
            + nonblank_rows (map_rows s).tail) := by
  induction s with
  | nil =>
    intro d h1 h2
    simp only [List.foldl_nil, map_rows_nil, List.headD_nil, List.length_nil, List.tail_nil,
      map_width, nonblank_rows, List.map_nil, List.foldr_nil, List.filter_nil, Nat.cast_zero,
      add_zero]
    split_ifs <;> simp only [Prod.mk.injEq] <;> refine ⟨?_, ?_⟩ <;> first | trivial | omega
  | cons c rest ih =>
    intro d h1 h2
    rw [List.foldl_cons]
    by_cases h0 : c = 10
    · subst h0
      have hstep : scan_dims_step d 10 =
          { width := if d.current_width > d.width then d.current_width else d.width
            height := if d.current_width > 0 then d.height + 1 else d.height
            current_width := 0 } := by
        simp only [scan_dims_step, if_true]
        split_ifs <;> rfl
      rw [hstep, ih _ (le_refl _) (by simp only; split_ifs <;> omega)]
      simp only [map_rows_newline, List.headD_cons, List.tail_cons, List.length_nil,
        Nat.cast_zero, add_zero, zero_add, Prod.mk.injEq]
      rw [map_width_head (map_rows rest), nonblank_rows_head (map_rows rest)]
      push_cast
      constructor
      · split_ifs <;> omega
      · split_ifs <;> omega
    · have hstep : scan_dims_step d c =
          { d with current_width := d.current_width + if c = 32 then 0 else 1 } := by
        simp only [scan_dims_step, h0, if_false]
        by_cases h32 : c = 32
        · simp only [h32, ne_eq, not_true_eq_false, if_false, if_true, add_zero]
        · simp only [h32, ne_eq, not_false_eq_true, if_true, if_false]
      have hih := ih { d with current_width := d.current_width + if c = 32 then 0 else 1 }
        (by simp only; split_ifs <;> omega) h2
      rw [hstep, hih, map_rows_cons c rest h0]
      simp only [List.headD_cons, List.tail_cons, Prod.mk.injEq]
      by_cases h1c : c = 32
      · simp only [h1c, if_true, add_zero, and_self]
      · simp only [h1c, if_false, List.length_cons]
        push_cast
        constructor
        · omega
        · split_ifs <;> omega

/-- The dimensions the first pass of the loader finds. -/
theorem map_dimensions_rows (s : List Nat) :
    map_dimensions s
      = (((map_width (map_rows s) : Nat) : Int), ((nonblank_rows (map_rows s) : Nat) : Int)) := by
  unfold map_dimensions
  simp only []
  rw [scan_dims_rows s _ (le_refl _) (le_refl _)]
  simp only [zero_add, Prod.mk.injEq]
  rw [map_width_head (map_rows s), nonblank_rows_head (map_rows s)]
  push_cast
  constructor
  · omega
  · split_ifs <;> omega

theorem tile_of_char_special (c : Nat) (h : is_crystal_char c = true ∨ is_spawn_char c = true) :
    tile_of_char c = TileType.TILE_FLOOR := by
  simp only [is_crystal_char, is_spawn_char, decide_eq_true_eq] at h
  unfold tile_of_char
  rw [if_neg (by omega), if_neg (by omega)]

theorem set_tile_tiles (a : Arena) (x y : Int) (t : TileType) (x2 y2 : Int) :
    (set_tile a x y t).tiles y2 x2 = if y2 = y ∧ x2 = x then t else a.tiles y2 x2 := by
  simp only [set_tile]
  by_cases hy : y2 = y
  · subst hy
    by_cases hx : x2 = x
    · simp [setAt, hx]
    · simp [setAt, hx]
  · simp [setAt, hy]

theorem add_crystal_tiles (a : Arena) (x y : Int) :
    (add_crystal a x y).tiles = (set_tile a x y TileType.TILE_FLOOR).tiles := by
  unfold add_crystal
  simp only []
  split_ifs <;> rfl

theorem add_spawn_point_tiles (a : Arena) (x y : Int) :
    (add_spawn_point a x y).tiles = (set_tile a x y TileType.TILE_FLOOR).tiles := by
  unfold add_spawn_point
  simp only []
  split_ifs <;> rfl

/-- The tiles after `place_cell`: the cell gets the tile of its character, and
every other tile stays. -/
theorem place_cell_tiles (a : Arena) (pc : Position × Nat) (x y : Int) :
    (place_cell a pc).tiles y x
      = if y = pc.1.y ∧ x = pc.1.x then tile_of_char pc.2 else a.tiles y x := by
  unfold place_cell
  by_cases h1 : is_crystal_char pc.2 = true
  · rw [if_pos h1, add_crystal_tiles, set_tile_tiles, tile_of_char_special _ (Or.inl h1)]
  · rw [if_neg h1]
    by_cases h2 : is_spawn_char pc.2 = true
    · rw [if_pos h2, add_spawn_point_tiles, set_tile_tiles, tile_of_char_special _ (Or.inr h2)]
    · rw [if_neg h2, set_tile_tiles]

theorem place_cell_dims (a : Arena) (pc : Position × Nat) :
    (place_cell a pc).width = a.width ∧ (place_cell a pc).height = a.height := by
  unfold place_cell
  split_ifs
  · unfold add_crystal
    simp only []
    split_ifs <;> exact ⟨rfl, rfl⟩
  · unfold add_spawn_point
    simp only []
    split_ifs <;> exact ⟨rfl, rfl⟩
  · exact ⟨rfl, rfl⟩

theorem foldl_place_cell_dims (cs : List (Position × Nat)) :
    ∀ a : Arena, (cs.foldl place_cell a).width = a.width ∧
      (cs.foldl place_cell a).height = a.height := by
  induction cs with
  | nil => intro a; exact ⟨rfl, rfl⟩
  | cons pc rest ih =>
    intro a
    rw [List.foldl_cons]
    exact ⟨(ih _).1.trans (place_cell_dims a pc).1, (ih _).2.trans (place_cell_dims a pc).2⟩

/-- The tiles after placing a list of cells with pairwise different
positions: every cell of the list has the tile of its character, and every
other tile is as before. -/
theorem foldl_place_cell_tiles (cs : List (Position × Nat)) :
    ∀ a : Arena, (cs.map Prod.fst).Nodup →
      (∀ pc ∈ cs, (cs.foldl place_cell a).tiles pc.1.y pc.1.x = tile_of_char pc.2) ∧
      (∀ x y : Int, (∀ pc ∈ cs, pc.1 ≠ { x := x, y := y }) →
        (cs.foldl place_cell a).tiles y x = a.tiles y x) := by
  induction cs with
  | nil =>
    intro a _
    exact ⟨fun pc h => by simp at h, fun x y _ => rfl⟩
  | cons qc rest ih =>
    intro a hnd
    rw [List.map_cons, List.nodup_cons] at hnd
    obtain ⟨ih1, ih2⟩ := ih (place_cell a qc) hnd.2
    rw [List.foldl_cons]
    constructor
    · intro pc hpc
      rw [List.mem_cons] at hpc
      rcases hpc with rfl | hpc
      · rw [ih2 pc.1.x pc.1.y, place_cell_tiles, if_pos ⟨rfl, rfl⟩]
        intro rc hrc heq
        apply hnd.1
        rw [List.mem_map]
        exact ⟨rc, hrc, heq⟩
      · exact ih1 pc hpc
    · intro x y hne
      rw [ih2 x y (fun pc hpc => hne pc (List.mem_cons_of_mem _ hpc)), place_cell_tiles]
      rw [if_neg]
      intro hc
      apply hne qc (List.mem_cons_self _ _)
      cases hq : qc.1
      rw [hq] at hc
      simp only at hc
      simp only [Position.mk.injEq]
      exact ⟨hc.2.symm, hc.1.symm⟩

theorem add_spawn_point_crystals (a : Arena) (x y : Int) :
    (add_spawn_point a x y).num_crystals = a.num_crystals ∧
      (add_spawn_point a x y).crystals = a.crystals := by
  unfold add_spawn_point
  simp only []
  split_ifs <;> exact ⟨rfl, rfl⟩

theorem add_crystal_spawns (a : Arena) (x y : Int) :
    (add_crystal a x y).num_spawn_points = a.num_spawn_points ∧
      (add_crystal a x y).spawn_points = a.spawn_points := by
  unfold add_crystal
  simp only []
  split_ifs <;> exact ⟨rfl, rfl⟩

theorem place_cell_crystals (a : Arena) (pc : Position × Nat) :
    (is_crystal_char pc.2 = true → a.num_crystals < MAX_CRYSTALS →
      (place_cell a pc).num_crystals = a.num_crystals + 1 ∧
      (place_cell a pc).crystals
        = setAt a.crystals a.num_crystals { pos := pc.1, cooldown_ticks := 0 }) ∧
    ((is_crystal_char pc.2 = false ∨ ¬ a.num_crystals < MAX_CRYSTALS) →
      (place_cell a pc).num_crystals = a.num_crystals ∧
      (place_cell a pc).crystals = a.crystals) := by
  unfold place_cell
  constructor
  · intro h1 h2
    rw [if_pos h1]
    unfold add_crystal
    simp only [set_tile]
    rw [if_pos h2]
    exact ⟨rfl, rfl⟩
  · intro h
    by_cases h1 : is_crystal_char pc.2 = true
    · rw [if_pos h1]
      have h2 : ¬ a.num_crystals < MAX_CRYSTALS := by
        rcases h with h | h
        · rw [h1] at h; cases h
        · exact h
      unfold add_crystal
      simp only [set_tile]
      rw [if_neg h2]
      exact ⟨rfl, rfl⟩
    · rw [if_neg h1]
      split_ifs
      · exact add_spawn_point_crystals _ _ _
      · exact ⟨rfl, rfl⟩

theorem place_cell_spawns (a : Arena) (pc : Position × Nat) :
    (is_spawn_char pc.2 = true → a.num_spawn_points < MAX_SPAWN_POINTS →
      (place_cell a pc).num_spawn_points = a.num_spawn_points + 1 ∧
      (place_cell a pc).spawn_points
        = setAt a.spawn_points a.num_spawn_points { pos := pc.1 }) ∧
    ((is_spawn_char pc.2 = false ∨ ¬ a.num_spawn_points < MAX_SPAWN_POINTS) →
      (place_cell a pc).num_spawn_points = a.num_spawn_points ∧
      (place_cell a pc).spawn_points = a.spawn_points) := by
  have hx : is_spawn_char pc.2 = true → is_crystal_char pc.2 = false := by
    simp only [is_crystal_char, is_spawn_char, decide_eq_true_eq, decide_eq_false_iff_not]
    omega
  unfold place_cell
  constructor
  · intro h1 h2
    rw [hx h1, if_neg (by decide), if_pos h1]
    unfold add_spawn_point
    simp only [set_tile]
    rw [if_pos h2]
    exact ⟨rfl, rfl⟩
  · intro h
    by_cases h0 : is_crystal_char pc.2 = true
    · rw [if_pos h0]
      exact add_crystal_spawns _ _ _
    · rw [if_neg h0]
      by_cases h1 : is_spawn_char pc.2 = true
      · rw [if_pos h1]
        have h2 : ¬ a.num_spawn_points < MAX_SPAWN_POINTS := by
          rcases h with h | h
          · rw [h1] at h; cases h
          · exact h
        unfold add_spawn_point
        simp only [set_tile]
        rw [if_neg h2]
        exact ⟨rfl, rfl⟩
      · rw [if_neg h1]
        exact ⟨rfl, rfl⟩

/-- The crystal table after placing a list of cells: the crystal cells of the
list are appended in order while the table has room. -/
theorem foldl_place_cell_crystals (cs : List (Position × Nat)) :
    ∀ a : Arena, 0 ≤ a.num_crystals → a.num_crystals ≤ MAX_CRYSTALS →
      (cs.foldl place_cell a).num_crystals
        = min MAX_CRYSTALS
            (a.num_crystals + ((cs.filter (fun pc => is_crystal_char pc.2)).length : Nat)) ∧
      (∀ i, i < a.num_crystals → (cs.foldl place_cell a).crystals i = a.crystals i) ∧
      (∀ (k : Nat) (p : Position), a.num_crystals + k < MAX_CRYSTALS →
        ((cs.filter (fun pc => is_crystal_char pc.2)).map Prod.fst)[k]? = some p →
        (cs.foldl place_cell a).crystals (a.num_crystals + k)
          = { pos := p, cooldown_ticks := 0 }) := by
  induction cs with
  | nil =>
    intro a h0 h8
    refine ⟨?_, fun i _ => rfl, ?_⟩
    · simp only [List.foldl_nil, List.filter_nil, List.length_nil, Nat.cast_zero, add_zero]
      omega
    · intro k p _ hk
      simp at hk
  | cons qc rest ih =>
    intro a h0 h8
    rw [List.foldl_cons]
    by_cases hq : is_crystal_char qc.2 = true ∧ a.num_crystals < MAX_CRYSTALS
    · obtain ⟨e1, e2⟩ := (place_cell_crystals a qc).1 hq.1 hq.2
      obtain ⟨i1, i2, i3⟩ := ih (place_cell a qc) (by rw [e1]; omega) (by rw [e1]; omega)
      have hf : (qc :: rest).filter (fun pc => is_crystal_char pc.2)
          = qc :: rest.filter (fun pc => is_crystal_char pc.2) := by
        rw [List.filter_cons, if_pos hq.1]
      rw [hf]
      refine ⟨?_, ?_, ?_⟩
      · rw [i1, e1, List.length_cons]
        push_cast
        omega
      · intro i hi
        rw [i2 i (by rw [e1]; omega), e2, setAt_ne _ _ (by omega)]
      · intro k p hk hp
        cases k with
        | zero =>
          simp only [List.map_cons, List.getElem?_cons_zero, Option.some.injEq] at hp
          rw [Nat.cast_zero, add_zero, i2 _ (by rw [e1]; omega), e2, setAt_same, hp]
        | succ m =>
          simp only [List.map_cons, List.getElem?_cons_succ] at hp
          have := i3 m p (by rw [e1]; push_cast at hk; omega) hp
          rw [e1] at this
          have he : a.num_crystals + ((m + 1 : Nat) : Int) = a.num_crystals + 1 + (m : Int) := by
            push_cast; omega
          rw [he]
          exact this
    · have hq2 : is_crystal_char qc.2 = false ∨ ¬ a.num_crystals < MAX_CRYSTALS := by
        by_cases h1 : is_crystal_char qc.2 = true
        · right
          intro h2
          exact hq ⟨h1, h2⟩
        · left
          simpa using h1
      obtain ⟨e1, e2⟩ := (place_cell_crystals a qc).2 hq2
      obtain ⟨i1, i2, i3⟩ := ih (place_cell a qc) (by rw [e1]; exact h0) (by rw [e1]; exact h8)
      rw [e1, e2] at i2
      rw [e1] at i1 i3
      by_cases h1 : is_crystal_char qc.2 = true
      · have hfull : a.num_crystals = MAX_CRYSTALS := by
          have : ¬ a.num_crystals < MAX_CRYSTALS := fun h2 => hq ⟨h1, h2⟩
          omega
        have hf : (qc :: rest).filter (fun pc => is_crystal_char pc.2)
            = qc :: rest.filter (fun pc => is_crystal_char pc.2) := by
          rw [List.filter_cons, if_pos h1]
        rw [hf]
        refine ⟨?_, i2, ?_⟩
        · rw [i1, List.length_cons]
          push_cast
          omega
        · intro k p hk _
          omega
      · have hf : (qc :: rest).filter (fun pc => is_crystal_char pc.2)
            = rest.filter (fun pc => is_crystal_char pc.2) := by
          rw [List.filter_cons, if_neg h1]
        rw [hf]
        exact ⟨i1, i2, i3⟩

/-- The spawn-point table after placing a list of cells: the spawn cells of the
list are appended in order while the table has room. -/
theorem foldl_place_cell_spawns (cs : List (Position × Nat)) :
    ∀ a : Arena, 0 ≤ a.num_spawn_points → a.num_spawn_points ≤ MAX_SPAWN_POINTS →
      (cs.foldl place_cell a).num_spawn_points
        = min MAX_SPAWN_POINTS
            (a.num_spawn_points + ((cs.filter (fun pc => is_spawn_char pc.2)).length : Nat)) ∧
      (∀ i, i < a.num_spawn_points → (cs.foldl place_cell a).spawn_points i = a.spawn_points i) ∧
      (∀ (k : Nat) (p : Position), a.num_spawn_points + k < MAX_SPAWN_POINTS →
        ((cs.filter (fun pc => is_spawn_char pc.2)).map Prod.fst)[k]? = some p →
        (cs.foldl place_cell a).spawn_points (a.num_spawn_points + k)
          = { pos := p }) := by
  induction cs with
  | nil =>
    intro a h0 h8
    refine ⟨?_, fun i _ => rfl, ?_⟩
    · simp only [List.foldl_nil, List.filter_nil, List.length_nil, Nat.cast_zero, add_zero]
      omega
    · intro k p _ hk
      simp at hk
  | cons qc rest ih =>
    intro a h0 h8
    rw [List.foldl_cons]
    by_cases hq : is_spawn_char qc.2 = true ∧ a.num_spawn_points < MAX_SPAWN_POINTS
    · obtain ⟨e1, e2⟩ := (place_cell_spawns a qc).1 hq.1 hq.2
      obtain ⟨i1, i2, i3⟩ := ih (place_cell a qc) (by rw [e1]; omega) (by rw [e1]; omega)
      have hf : (qc :: rest).filter (fun pc => is_spawn_char pc.2)
          = qc :: rest.filter (fun pc => is_spawn_char pc.2) := by
        rw [List.filter_cons, if_pos hq.1]
      rw [hf]
      refine ⟨?_, ?_, ?_⟩
      · rw [i1, e1, List.length_cons]
        push_cast
        omega
      · intro i hi
        rw [i2 i (by rw [e1]; omega), e2, setAt_ne _ _ (by omega)]
      · intro k p hk hp
        cases k with
        | zero =>
          simp only [List.map_cons, List.getElem?_cons_zero, Option.some.injEq] at hp
          rw [Nat.cast_zero, add_zero, i2 _ (by rw [e1]; omega), e2, setAt_same, hp]
        | succ m =>
          simp only [List.map_cons, List.getElem?_cons_succ] at hp
          have := i3 m p (by rw [e1]; push_cast at hk; omega) hp
          rw [e1] at this
          have he : a.num_spawn_points + ((m + 1 : Nat) : Int) = a.num_spawn_points + 1 + (m : Int) := by
            push_cast; omega
          rw [he]
          exact this
    · have hq2 : is_spawn_char qc.2 = false ∨ ¬ a.num_spawn_points < MAX_SPAWN_POINTS := by
        by_cases h1 : is_spawn_char qc.2 = true
        · right
          intro h2
          exact hq ⟨h1, h2⟩
        · left
          simpa using h1
      obtain ⟨e1, e2⟩ := (place_cell_spawns a qc).2 hq2
      obtain ⟨i1, i2, i3⟩ := ih (place_cell a qc) (by rw [e1]; exact h0) (by rw [e1]; exact h8)
      rw [e1, e2] at i2
      rw [e1] at i1 i3
      by_cases h1 : is_spawn_char qc.2 = true
      · have hfull : a.num_spawn_points = MAX_SPAWN_POINTS := by
          have : ¬ a.num_spawn_points < MAX_SPAWN_POINTS := fun h2 => hq ⟨h1, h2⟩
          omega
        have hf : (qc :: rest).filter (fun pc => is_spawn_char pc.2)
            = qc :: rest.filter (fun pc => is_spawn_char pc.2) := by
          rw [List.filter_cons, if_pos h1]
        rw [hf]
        refine ⟨?_, i2, ?_⟩
        · rw [i1, List.length_cons]
          push_cast
          omega
        · intro k p hk _
          omega
      · have hf : (qc :: rest).filter (fun pc => is_spawn_char pc.2)
            = rest.filter (fun pc => is_spawn_char pc.2) := by
          rw [List.filter_cons, if_neg h1]
        rw [hf]
        exact ⟨i1, i2, i3⟩

theorem mem_row_cells_from (r : List Nat) :
    ∀ (x0 y : Int) (pc : Position × Nat),
      pc ∈ row_cells_from x0 y r ↔
        ∃ i : Nat, r[i]? = some pc.2 ∧ pc.1 = { x := x0 + i, y := y } := by
  induction r with
  | nil =>
    intro x0 y pc
    simp [row_cells_from]
  | cons c cs ih =>
    intro x0 y pc
    rw [row_cells_from, List.mem_cons, ih]
    constructor
    · rintro (rfl | ⟨i, h1, h2⟩)
      · exact ⟨0, by simp, by simp⟩
      · refine ⟨i + 1, by simpa using h1, ?_⟩
        rw [h2]
        simp only [Position.mk.injEq, and_true]
        push_cast
        omega
    · rintro ⟨i, h1, h2⟩
      cases i with
      | zero =>
        left
        simp only [List.getElem?_cons_zero, Option.some.injEq] at h1
        apply Prod.ext
        · rw [h2]; simp
        · exact h1.symm
      | succ j =>
        right
        refine ⟨j, by simpa using h1, ?_⟩
        rw [h2]
        simp only [Position.mk.injEq, and_true]
        push_cast
        omega

theorem mem_rows_cells_from (rows : List (List Nat)) :
    ∀ (y0 : Int) (pc : Position × Nat),
      pc ∈ rows_cells_from y0 rows ↔
        ∃ (j i : Nat) (r : List Nat), rows[j]? = some r ∧ r[i]? = some pc.2 ∧
          pc.1 = { x := i, y := y0 + j } := by
  induction rows with
  | nil =>
    intro y0 pc
    simp [rows_cells_from]
  | cons r rs ih =>
    intro y0 pc
    rw [rows_cells_from, List.mem_append, mem_row_cells_from, ih]
    constructor
    · rintro (⟨i, h1, h2⟩ | ⟨j, i, r2, h1, h2, h3⟩)
      · refine ⟨0, i, r, by simp, h1, ?_⟩
        rw [h2]
        simp
      · refine ⟨j + 1, i, r2, by simpa using h1, h2, ?_⟩
        rw [h3]
        simp only [Position.mk.injEq, true_and]
        push_cast
        omega
    · rintro ⟨j, i, r2, h1, h2, h3⟩
      cases j with
      | zero =>
        left
        simp only [List.getElem?_cons_zero, Option.some.injEq] at h1
        subst h1
        refine ⟨i, h2, ?_⟩
        rw [h3]
        simp
      | succ k =>
        right
        refine ⟨k, i, r2, by simpa using h1, h2, ?_⟩
        rw [h3]
        simp only [Position.mk.injEq, true_and]
        push_cast
        omega

theorem nodup_row_cells_from (r : List Nat) :
    ∀ (x0 y : Int), ((row_cells_from x0 y r).map Prod.fst).Nodup := by
  induction r with
  | nil => intro x0 y; simp [row_cells_from]
  | cons c cs ih =>
    intro x0 y
    rw [row_cells_from, List.map_cons, List.nodup_cons]
    refine ⟨?_, ih _ _⟩
    rw [List.mem_map]
    rintro ⟨pc, hpc, heq⟩
    obtain ⟨i, _, h2⟩ := (mem_row_cells_from cs _ _ pc).1 hpc
    rw [h2] at heq
    simp only [Position.mk.injEq, and_true] at heq
    omega

theorem nodup_rows_cells_from (rows : List (List Nat)) :
    ∀ (y0 : Int), ((rows_cells_from y0 rows).map Prod.fst).Nodup := by
  induction rows with
  | nil => intro y0; simp [rows_cells_from]
  | cons r rs ih =>
    intro y0
    rw [rows_cells_from, List.map_append, List.nodup_append]
    refine ⟨nodup_row_cells_from r 0 y0, ih _, ?_⟩
    intro p hp hq
    rw [List.mem_map] at hp hq
    obtain ⟨pc, hpc, rfl⟩ := hp
    obtain ⟨qc, hqc, heq⟩ := hq
    obtain ⟨i, _, h2⟩ := (mem_row_cells_from r _ _ pc).1 hpc
    obtain ⟨j, i2, r2, _, _, h3⟩ := (mem_rows_cells_from rs _ qc).1 hqc
    rw [h2, h3] at heq
    simp only [Position.mk.injEq] at heq
    omega

theorem length_le_map_width (rows : List (List Nat)) (r : List Nat) (h : r ∈ rows) :
    r.length ≤ map_width rows := by
  induction rows with
  | nil => simp at h
  | cons r2 rs ih =>
    rw [map_width_head]
    simp only [List.headD_cons, List.tail_cons]
    rw [List.mem_cons] at h
    rcases h with rfl | h
    · omega
    · have := ih h
      omega

theorem getElem_opt_lt_length {α : Type} (l : List α) (i : Nat) (a : α) (h : l[i]? = some a) :
    i < l.length := by
  by_contra hc
  rw [List.getElem?_eq_none (by omega)] at h
  cases h

theorem mem_of_getElem_opt {α : Type} (l : List α) (i : Nat) (a : α) (h : l[i]? = some a) :
    a ∈ l := by
  rw [List.mem_iff_getElem?]
  exact ⟨i, h⟩

/-- The cells of a map lie inside the grid of its width and its number of
rows. -/
theorem map_cells_in_grid (rows : List (List Nat)) (pc : Position × Nat)
    (h : pc ∈ map_cells rows) :
    (0 ≤ pc.1.x ∧ pc.1.x < (map_width rows : Nat)) ∧
      (0 ≤ pc.1.y ∧ pc.1.y < (rows.length : Nat)) := by
  obtain ⟨j, i, r, h1, h2, h3⟩ := (mem_rows_cells_from rows 0 pc).1 h
  have hj := getElem_opt_lt_length _ _ _ h1
  have hi := getElem_opt_lt_length _ _ _ h2
  have hw := length_le_map_width rows r (mem_of_getElem_opt _ _ _ h1)
  rw [h3]
  simp only
  omega

/-- The arena a successful load of an ASCII map without blank rows leaves:
`arena_init` followed by `place_cell` on the cells of the map in reading
order. -/
theorem arena_load_ascii_cells (arena : Arena) (map_str : List Nat)
    (hascii : ∀ c ∈ map_str, 0 < c ∧ c < 128)
    (hrows : ∀ r ∈ map_rows map_str, r ≠ [])
    (hsize : map_width (map_rows map_str) ≤ 32 ∧ (map_rows map_str).length ≤ 32) :
    arena_load_from_string arena map_str
      = ((map_cells (map_rows map_str)).foldl place_cell
          (arena_init arena (map_width (map_rows map_str) : Nat)
            ((map_rows map_str).length : Nat)), true) := by
  unfold arena_load_from_string
  simp only [map_dimensions_rows, nonblank_rows_all _ hrows]
  rw [if_neg (by simp only [MAX_ARENA_WIDTH, MAX_ARENA_HEIGHT]; omega)]
  rw [parse_tiles_cells _ _ map_str 0 0 _ (fun c hc => by have := hascii c hc; omega)]
  · rw [scan_cells_map_cells]
  · intro pc hpc
    rw [scan_cells_map_cells] at hpc
    have := map_cells_in_grid _ pc hpc
    exact ⟨this.1.2, this.2.2⟩

theorem arena_load_too_large (arena : Arena) (map_str : List Nat)
    (hrows : ∀ r ∈ map_rows map_str, r ≠ [])
    (hsize : map_width (map_rows map_str) > 32 ∨ (map_rows map_str).length > 32) :
    arena_load_from_string arena map_str = (arena, false) := by
  unfold arena_load_from_string
  simp only [map_dimensions_rows, nonblank_rows_all _ hrows]
  rw [if_pos (by simp only [MAX_ARENA_WIDTH, MAX_ARENA_HEIGHT]; omega)]

/-- C36: for an ASCII map string (every byte in 1..127) without blank rows,
with rows the non-space characters of its lines.  If there are at most 32 rows
of at most 32 characters, `arena_load_from_string` succeeds with width the
largest row length and height the number of rows; the tile at `(x, y)` is the
tile of the `x`-th character of row `y` (`x`/`X` Void, `#` Wall, everything
else Floor), and Floor where the row is shorter than the width; the crystal
table holds the first 8 crystal cells in reading order with cooldown 0, and
the spawn table the first 4 spawn cells in reading order.  If the width or the
height exceeds 32 it returns false and leaves the arena as it was. -/
theorem arena_load_ascii (arena : Arena) (map_str : List Nat)
    (hascii : ∀ c ∈ map_str, 0 < c ∧ c < 128)
    (hrows : ∀ r ∈ map_rows map_str, r ≠ []) :
    ((map_width (map_rows map_str) ≤ 32 ∧ (map_rows map_str).length ≤ 32) →
      (arena_load_from_string arena map_str).2 = true ∧
      (arena_load_from_string arena map_str).1.width = (map_width (map_rows map_str) : Nat) ∧
      (arena_load_from_string arena map_str).1.height = ((map_rows map_str).length : Nat) ∧
      (∀ (x y : Nat) (r : List Nat), (map_rows map_str)[y]? = some r →
        x < map_width (map_rows map_str) →
        (arena_load_from_string arena map_str).1.tiles y x
          = match r[x]? with
            | some c => tile_of_char c
            | none => TileType.TILE_FLOOR) ∧
      (arena_load_from_string arena map_str).1.num_crystals
        = min 8 ((crystal_cells (map_rows map_str)).length : Nat) ∧
      (∀ (k : Nat) (p : Position), k < 8 → (crystal_cells (map_rows map_str))[k]? = some p →
        (arena_load_from_string arena map_str).1.crystals k
          = { pos := p, cooldown_ticks := 0 }) ∧
      (arena_load_from_string arena map_str).1.num_spawn_points
        = min 4 ((spawn_cells (map_rows map_str)).length : Nat) ∧
      (∀ (k : Nat) (p : Position), k < 4 → (spawn_cells (map_rows map_str))[k]? = some p →
        (arena_load_from_string arena map_str).1.spawn_points k = { pos := p })) ∧
    ((map_width (map_rows map_str) > 32 ∨ (map_rows map_str).length > 32) →
      (arena_load_from_string arena map_str).2 = false ∧
      (arena_load_from_string arena map_str).1 = arena) := by
  constructor
  · intro hsize
    rw [arena_load_ascii_cells arena map_str hascii hrows hsize]
    simp only []
    obtain ⟨t1, t2⟩ := foldl_place_cell_tiles (map_cells (map_rows map_str))
      (arena_init arena (map_width (map_rows map_str) : Nat) ((map_rows map_str).length : Nat))
      (nodup_rows_cells_from _ 0)
    obtain ⟨c1, _, c3⟩ := foldl_place_cell_crystals (map_cells (map_rows map_str))
      (arena_init arena (map_width (map_rows map_str) : Nat) ((map_rows map_str).length : Nat))
      (le_refl _) (by simp only [arena_init, MAX_CRYSTALS]; omega)
    obtain ⟨s1, _, s3⟩ := foldl_place_cell_spawns (map_cells (map_rows map_str))
      (arena_init arena (map_width (map_rows map_str) : Nat) ((map_rows map_str).length : Nat))
      (le_refl _) (by simp only [arena_init, MAX_SPAWN_POINTS]; omega)
    refine ⟨trivial, (foldl_place_cell_dims _ _).1, (foldl_place_cell_dims _ _).2, ?_, ?_, ?_, ?_, ?_⟩
    · intro x y r hr hx
      have hy := getElem_opt_lt_length _ _ _ hr
      cases hc : r[x]? with
      | some c =>
        simp only []
        have hmem : (({ x := (x : Int), y := (y : Int) } : Position), c)
            ∈ map_cells (map_rows map_str) := by
          rw [map_cells, mem_rows_cells_from]
          exact ⟨y, x, r, hr, hc, by simp⟩
        exact t1 _ hmem
      | none =>
        simp only []
        rw [t2]
        · simp only [arena_init]
          rw [if_pos (by omega)]
        · intro pc hpc heq
          rw [map_cells, mem_rows_cells_from] at hpc
          obtain ⟨j, i, r2, h1, h2, h3⟩ := hpc
          rw [h3] at heq
          simp only [Position.mk.injEq] at heq
          have hj : j = y := by omega
          have hi : i = x := by omega
          subst hj hi
          rw [hr] at h1
          simp only [Option.some.injEq] at h1
          subst h1
          rw [hc] at h2
          cases h2
    · rw [c1]
      simp only [arena_init, crystal_cells, List.length_map, MAX_CRYSTALS, zero_add]
      omega
    · intro k p hk hp
      have := c3 k p (by simp only [arena_init, MAX_CRYSTALS]; omega) hp
      simpa [arena_init] using this
    · rw [s1]
      simp only [arena_init, spawn_cells, List.length_map, MAX_SPAWN_POINTS, zero_add]
      omega
    · intro k p hk hp
      have := s3 k p (by simp only [arena_init, MAX_SPAWN_POINTS]; omega) hp
      simpa [arena_init] using this
  · intro hsize
    rw [arena_load_too_large arena map_str hrows hsize]
    exact ⟨rfl, rfl⟩

theorem arena_load_ascii_witness :
    ((∀ c ∈ asciiTestMap, 0 < c ∧ c < 128) ∧ (∀ r ∈ map_rows asciiTestMap, r ≠ [])) ∧
    (map_width (map_rows asciiTestMap) ≤ 32 ∧ (map_rows asciiTestMap).length ≤ 32) ∧
    (arena_load_from_string zeroArena asciiTestMap).2 = true ∧
    (arena_load_from_string zeroArena asciiTestMap).1.width = 7 ∧
    (arena_load_from_string zeroArena asciiTestMap).1.height = 7 :=
  have h := (arena_load_ascii zeroArena asciiTestMap (by decide) (by decide)).1
    (by decide)
  ⟨⟨by decide, by decide⟩, by decide, h.1, h.2.1, h.2.2.1⟩

theorem aliveHealthy_restore (p : Player) (h : AliveHealthy p) :
    AliveHealthy (player_restore_energy p MAX_ENERGY) := by
  simp only [AliveHealthy, player_restore_energy] at h ⊢
  split_ifs <;> exact h

theorem aliveHealthy_fired (p : Player) (h : AliveHealthy p) : AliveHealthy (fired_player p) := by
  simp only [AliveHealthy, fired_player, player_start_laser_cooldown, player_use_energy] at h ⊢
  split_ifs <;> exact h

theorem aliveHealthy_take_damage (p : Player) :
    AliveHealthy (player_take_damage p LASER_DAMAGE) := by
  simp only [AliveHealthy, player_take_damage, LASER_DAMAGE]
  split_ifs with h
  · intro ha
    cases ha
  · intro _
    simp only []
    omega

theorem aliveHealthy_pushed (r : LaserResult) (p : Player) (h : AliveHealthy p) :
    AliveHealthy (pushed_player r p) := by
  unfold pushed_player
  split_ifs
  · intro ha
    cases ha
  · exact h
  · exact h

theorem aliveHealthy_credited (p : Player) (b : Bool) (h : AliveHealthy p) :
    AliveHealthy (credited p b) := h

theorem aliveHealthy_respawn (p : Player) (c : Position) : AliveHealthy (player_respawn p c) := by
  simp only [AliveHealthy, player_respawn, STARTING_HEALTH]
  intro _
  omega

theorem aliveHealthy_init (c : Position) : AliveHealthy (player_init c) := by
  simp only [AliveHealthy, player_init, STARTING_HEALTH]
  intro _
  omega

theorem aliveHealthy_moved (s : GameState) (actions : Fin 2 → PlayerAction) (k : Fin 2)
    (h : AliveHealthy (s.players k)) : AliveHealthy (moved_player s actions k) := by
  simp only [AliveHealthy, moved_player, player_start_move_cooldown] at h ⊢
  split_ifs <;> first | exact h | (intro ha; cases ha)

theorem aliveHealthy_tick (p : Player) (h : AliveHealthy p) :
    AliveHealthy (player_tick_cooldowns p) := by
  obtain ⟨_, t2, t3, _⟩ := tick_cooldowns_fields p
  unfold AliveHealthy
  rw [t2, t3]
  exact h

theorem aliveHealthy_shooting_outcome (s : GameState) (actions : Fin 2 → PlayerAction)
    (k : Fin 2) (h : AliveHealthy (s.players k)) :
    AliveHealthy (shooting_outcome s actions k) := by
  unfold shooting_outcome
  simp only []
  split_ifs <;>
    first
    | exact h
    | exact aliveHealthy_fired _ h
    | exact aliveHealthy_pushed _ _ (aliveHealthy_take_damage _)

theorem aliveHealthy_collect_fold (s : GameState) (info : StepInfo) (k : Fin 2)
    (h : AliveHealthy (s.players k)) :
    AliveHealthy ((playerIndices.foldl collect_crystal_step (s, info)).1.players k) := by
  rcases (collect_fold_player s info k).1 with ⟨e, _⟩ | ⟨_, e, _⟩
  · rw [e]; exact h
  · rw [e]; exact aliveHealthy_restore _ h

/-- The crystal-collection phase at the start of a step keeps every alive
player at one point of health or more: the state the shooting phase starts
from. -/
theorem step_collected_aliveHealthy (st : GameState) (k : Fin 2)
    (h : AliveHealthy (st.players k)) : AliveHealthy ((step_collected st).1.players k) :=
  aliveHealthy_collect_fold st StepInfo.zero k h

/-- A step keeps every alive player at one point of health or more. -/
theorem game_step_aliveHealthy (st : GameState) (rng_state : Nat)
    (actions : Fin 2 → PlayerAction) (k : Fin 2) (h : AliveHealthy (st.players k)) :
    AliveHealthy ((game_step st rng_state actions).1.players k) := by
  cases hgo : st.game_over
  · rw [game_step_players st rng_state actions hgo]
    apply aliveHealthy_tick
    have hA : AliveHealthy ((step_collected st).1.players k) :=
      aliveHealthy_collect_fold st StepInfo.zero k h
    have hB : AliveHealthy ((step_shot st actions).1.players k) := by
      rw [step_shot_players]
      exact aliveHealthy_shooting_outcome _ _ _ hA
    have hC : AliveHealthy ((step_revived st rng_state actions).1.players k) := by
      obtain ⟨_, _, _, h4, h5⟩ := respawn_shooting_fold_player
        ((step_shot st actions).1, rng_state, (step_shot st actions).2) k
      unfold step_revived
      cases ha : ((step_shot st actions).1.players k).alive
      · obtain ⟨c, hc⟩ := (h5 ha).1
        rw [hc]
        exact aliveHealthy_respawn _ _
      · rw [(h4 ha).1]
        exact hB
    have hD : AliveHealthy ((step_moved st rng_state actions).1.players k) := by
      rw [step_moved_eq]
      apply aliveHealthy_collect_fold
      rw [step_applied_players]
      exact aliveHealthy_moved _ _ _ hC
    obtain ⟨_, _, _, h4, h5⟩ := respawn_movement_fold_player
      ((step_moved st rng_state actions).1, (step_revived st rng_state actions).2.1,
        (step_moved st rng_state actions).2) k
    rw [step_respawned_eq]
    cases hn : needs_respawn ((step_moved st rng_state actions).1,
      (step_revived st rng_state actions).2.1, (step_moved st rng_state actions).2) k
    · rw [(h4 hn).1]
      exact hD
    · obtain ⟨c, hc⟩ := (h5 hn).1
      rw [hc]
      exact aliveHealthy_respawn _ _
  · unfold game_step
    simp only [hgo, if_true]
    exact h

/-- In every state a caller can reach from `game_init`, whatever the map, an
alive player has at least one point of health. -/
theorem reachable_aliveHealthy (mem : GameState) (map_str : List Nat)
    (st : GameState) (rng_state : Nat) (hr : Reachable mem map_str st rng_state) (k : Fin 2) :
    AliveHealthy (st.players k) := by
  induction hr with
  | init seed =>
    rw [game_init_eq]
    exact aliveHealthy_init _
  | step actions _ ih => exact game_step_aliveHealthy _ _ actions k ih
  | reseed seed _ ih => exact ih

theorem game_step_allStats (st : GameState) (rng_state : Nat)
    (actions : Fin 2 → PlayerAction) (hs : AllStatsInRange st) :
    AllStatsInRange (game_step st rng_state actions).1 := by
  cases h : st.game_over
  · rw [game_step_running st rng_state actions h]
    apply allStats_of_quiet (game_check_win_conditions_quiet _)
    have h1 : AllStatsInRange (step_before_tick st rng_state actions) :=
      allStats_of_quiet (game_tick_timers_quiet _) (step_respawned_stats st rng_state actions hs)
    exact h1
  · unfold game_step
    simp [h, hs]

/-- In every state a caller can reach from `game_init`, whatever the map, the
health of both players is in 0..4 and their energy in 0..8. -/
theorem reachable_allStats (mem : GameState) (map_str : List Nat)
    (st : GameState) (rng_state : Nat) (hr : Reachable mem map_str st rng_state) :
    AllStatsInRange st := by
  induction hr with
  | init seed =>
    rw [game_init_eq]
    intro i
    simp only [StatsInRange, player_init, STARTING_HEALTH, STARTING_ENERGY]
    omega
  | step actions _ ih => exact game_step_allStats _ _ actions ih
  | reseed seed _ ih => exact ih

end CArena
